import Mathlib

/-!
# VR shadow cascade preloader: the patch engine

A shallow embedding of `VRShadowCascadePreloader/src/cascade_patch.cpp`.

Process memory is a total map from addresses to bytes together with the page
protections that decide which accesses raise an access violation.  Every
function of the source that runs inside `__try` / `__except` returns the
memory it reached: a fault ends the function with the writes made so far.
Logging has no effect on the patched image and is left out.
-/

namespace CascadePatch

/-! ## Machine words -/

/-- Value of an integer expression computed in `uintptr_t` arithmetic. -/
def wrap64 (x : Int) : Nat := (x % 18446744073709551616).toNat

/-- The four bytes `memcpy` stores for a 32-bit value, least significant first. -/
def le32 (v : Nat) : List Nat :=
  [v % 256, v / 256 % 256, v / 65536 % 256, v / 16777216 % 256]

/-- The 32-bit little-endian value held by the first four bytes of a list. -/
def readLE32 (bs : List Nat) : Nat :=
  bs.getD 0 0 + 256 * bs.getD 1 0 + 65536 * bs.getD 2 0 + 16777216 * bs.getD 3 0

/-- Sign extension of a 32-bit value, as the processor applies it to a
displacement. -/
def sext32 (v : Nat) : Int :=
  if v < 2147483648 then (v : Int) else (v : Int) - 4294967296

/-- The value `static_cast<int32_t>((intptr_t)dst - (intptr_t)src)` leaves in
its four bytes: the difference reduced modulo two to the 32. -/
def rel32 (dst src : Nat) : Nat :=
  (((dst : Int) - (src : Int)) % 4294967296).toNat

/-! ## Process memory and the OS calls the engine makes -/

/-- The constant `PAGE_EXECUTE_READWRITE`. -/
def PAGE_EXECUTE_READWRITE : Nat := 0x40

/-- Protections under which a load does not fault (READONLY, READWRITE,
WRITECOPY and their EXECUTE variants). -/
def canRead (p : Nat) : Bool :=
  p == 0x02 || p == 0x04 || p == 0x08 || p == 0x20 || p == 0x40 || p == 0x80

/-- Protections under which a store does not fault. -/
def canWrite (p : Nat) : Bool :=
  p == 0x04 || p == 0x08 || p == 0x40 || p == 0x80

/-- The address space of the host process as the engine sees it. -/
structure Mem where
  /-- the byte stored at each address -/
  byte : Nat → Nat
  /-- protection of each page; 0 for a page that is not committed -/
  prot : Nat → Nat
  /-- pages whose protection the OS lets the engine change; the grant depends
  on the page alone, so a restore succeeds wherever the change before it did -/
  protectOk : Nat → Bool
  /-- granule starts at which `VirtualAlloc` can still place a block -/
  free : Nat → Bool
  /-- `dwAllocationGranularity` as reported by `GetSystemInfo` -/
  granularity : Nat
  /-- number of `VirtualAlloc` calls made so far -/
  allocCalls : Nat

namespace Mem

/-- A load from `a` does not fault. -/
def readable (m : Mem) (a : Nat) : Bool :=
  canRead (m.prot (a / 4096)) && decide (a < 18446744073709551616)

/-- A store to `a` does not fault. -/
def writable (m : Mem) (a : Nat) : Bool :=
  canWrite (m.prot (a / 4096)) && decide (a < 18446744073709551616)

/-- Load of one byte; `none` is an access violation. -/
def read8 (m : Mem) (a : Nat) : Option Nat :=
  if m.readable a then some (m.byte a % 256) else none

/-- Load of `n` consecutive bytes. -/
def readBytes (m : Mem) (a : Nat) : Nat → Option (List Nat)
  | 0 => some []
  | n + 1 =>
    match m.read8 a with
    | none => none
    | some b =>
      match readBytes m (a + 1) n with
      | none => none
      | some bs => some (b :: bs)

/-- Load of a little-endian `uint32_t`. -/
def read32 (m : Mem) (a : Nat) : Option Nat :=
  match m.readBytes a 4 with
  | none => none
  | some bs => some (readLE32 bs)

/-- Memory with the byte at `a` replaced. -/
def setByte (m : Mem) (a v : Nat) : Mem :=
  { m with byte := fun x => if x = a then v % 256 else m.byte x }

/-- Store of one byte; `none` is an access violation. -/
def write8 (m : Mem) (a v : Nat) : Option Mem :=
  if m.writable a then some (m.setByte a v) else none

/-- Stores the bytes one after the other from `a` on.  The flag is false when a
store faulted; the stores before it stay in the memory returned. -/
def writeBytes (m : Mem) (a : Nat) : List Nat → Bool × Mem
  | [] => (true, m)
  | b :: bs =>
    match m.write8 a b with
    | none => (false, m)
    | some m1 => writeBytes m1 (a + 1) bs

end Mem

/-- Pages `p0 .. p0 + n - 1` are committed and open to a protection change. -/
def pagesOk (m : Mem) (p0 : Nat) : Nat → Bool
  | 0 => true
  | n + 1 => m.protectOk (p0 + n) && m.prot (p0 + n) != 0 && pagesOk m p0 n

/-- Model of `VirtualProtect(addr, size, newProt, &old)`: on success the old protection
of the first page and the memory with every page of the range set to
`newProt`; `none` when the OS denies the change. -/
def VirtualProtect (m : Mem) (addr size newProt : Nat) : Option (Nat × Mem) :=
  let p0 := addr / 4096
  let p1 := (addr + size - 1) / 4096
  if pagesOk m p0 (p1 - p0 + 1) then
    some (m.prot p0,
      { m with prot := fun p => if p0 ≤ p ∧ p ≤ p1 then newProt else m.prot p })
  else none

/-- A `VirtualProtect` call whose result the source does not test. -/
def restoreProtect (m : Mem) (addr size oldProtect : Nat) : Mem :=
  match VirtualProtect m addr size oldProtect with
  | some (_, m1) => m1
  | none => m

/-- Model of `VirtualAlloc(addr, size, MEM_COMMIT | MEM_RESERVE, PAGE_EXECUTE_READWRITE)`
for a non-null `addr`: the OS rounds the address down to the allocation
granularity and, when that granule is free, returns it as a zeroed block that
can be read, written and executed; otherwise it returns null (0). -/
def VirtualAlloc (m : Mem) (addr size : Nat) : Nat × Mem :=
  let a := addr / m.granularity * m.granularity
  let m0 := { m with allocCalls := m.allocCalls + 1 }
  if a ≠ 0 ∧ a + size ≤ 18446744073709551616 ∧ m.free a = true then
    (a, { m0 with
            free := fun x => if x = a then false else m.free x
            prot := fun p =>
              if a / 4096 ≤ p ∧ p ≤ (a + size - 1) / 4096 then 0x40 else m.prot p
            byte := fun x => if a ≤ x ∧ x < a + size then 0 else m.byte x })
  else (0, m0)

/-- Model of `VirtualFree(block, 0, MEM_RELEASE)` of a block of `size` bytes. -/
def VirtualFree (m : Mem) (block size : Nat) : Mem :=
  { m with
      free := fun x => if x = block then true else m.free x
      prot := fun p =>
        if block / 4096 ≤ p ∧ p ≤ (block + size - 1) / 4096 then 0 else m.prot p }

/-! ## Code patching utility -/

/-- Function `PatchByte(addr, expectedVal, newVal, desc)`: the result and the memory
left behind. -/
def PatchByte (m : Mem) (addr expectedVal newVal : Nat) : Bool × Mem :=
  match m.read8 addr with
  | none => (false, m)
  | some b =>
    if b ≠ expectedVal % 256 then (false, m)
    else
      match VirtualProtect m addr 1 PAGE_EXECUTE_READWRITE with
      | none => (false, m)
      | some (oldProtect, m1) =>
        match m1.write8 addr newVal with
        | none => (false, m1)
        | some m2 => (true, restoreProtect m2 addr 1 oldProtect)

/-- The replacement `MOV reg, imm32` that `PatchMovRipToImm` builds in
`newInstr`, padded with NOPs to `instrLen` bytes. -/
def buildMovImm (extReg : Bool) (reg newValue instrLen : Nat) : List Nat :=
  let newInstr :=
    if extReg then [0x41, (0xB8 + reg) % 256] ++ le32 (newValue % 4294967296)
    else [(0xB8 + reg) % 256] ++ le32 (newValue % 4294967296)
  newInstr ++ List.replicate (instrLen - newInstr.length) 0x90

/-- The test `(ip[0] & 0xF0) == 0x40` for a REX prefix. -/
def isRex (b : Nat) : Bool := (b &&& 0xF0) == 0x40

/-- Function `PatchMovRipToImm(instrRVA, globalRVA, newValue, desc)` in a process whose
module base is `base`. -/
def PatchMovRipToImm (base : Nat) (m : Mem) (instrRVA globalRVA newValue : Nat) :
    Bool × Mem :=
  let ip := wrap64 ((base : Int) + instrRVA)
  match m.read8 ip with
  | none => (false, m)
  | some b0 =>
    let hasRex : Bool := isRex b0
    let rexByte : Nat := if hasRex then b0 else 0
    let opcodeIdx : Nat := if hasRex then 1 else 0
    match m.read8 (ip + opcodeIdx) with
    | none => (false, m)
    | some opcode =>
      if opcode ≠ 0x8B then (false, m)
      else
        match m.read8 (ip + opcodeIdx + 1) with
        | none => (false, m)
        | some modrm =>
          if (modrm &&& 0xC7) ≠ 0x05 then (false, m)
          else
            let instrLen : Nat := opcodeIdx + 2 + 4
            let expectedDisp : Nat :=
              wrap64 ((globalRVA : Int) - wrap64 ((instrRVA : Int) + instrLen)) % 4294967296
            match m.read32 (ip + opcodeIdx + 2) with
            | none => (false, m)
            | some actualDisp =>
              if actualDisp ≠ expectedDisp then (false, m)
              else
                let reg : Nat := (modrm >>> 3) &&& 7
                let extReg : Bool := hasRex && ((rexByte &&& 0x04) != 0)
                let newInstr := buildMovImm extReg reg newValue instrLen
                match VirtualProtect m ip instrLen PAGE_EXECUTE_READWRITE with
                | none => (false, m)
                | some (oldProtect, m1) =>
                  match m1.writeBytes ip newInstr with
                  | (false, m2) => (false, m2)
                  | (true, m2) => (true, restoreProtect m2 ip instrLen oldProtect)

/-! ## Game offsets (`cascade_patch.h`) -/

namespace NullSafetyPatch
/-- RVA of `mov rbp, [r10+0x180]`. -/
def CrashInstrRVA : Nat := 0x281377F
/-- Length of that instruction. -/
def InstrSize : Nat := 7
end NullSafetyPatch

namespace NodeAllocPatch
/-- RVA of the node allocator. -/
def FuncRVA : Nat := 0x278e610
end NodeAllocPatch

namespace CascadeEntryZeroInit
/-- RVA of the tag write `mov [rax+r10+0x90], rdx`. -/
def TagWriteRVA : Nat := 0x27A52A0
/-- Length of the tag write. -/
def InstrSize : Nat := 8
/-- RVA of the instruction after the tag write. -/
def ReturnRVA : Nat := 0x27A52A8
end CascadeEntryZeroInit

namespace CascadePtrValidation
/-- RVA of `test r14, r14`. -/
def TestInstrRVA : Nat := 0x27A49DA
/-- Length of `test` plus the near `jz`. -/
def PatchSize : Nat := 9
/-- RVA the original `jz` branches to. -/
def SkipTargetRVA : Nat := 0x27A4A6D
/-- RVA of `mov edi, [r14+0x48]`. -/
def ContinueRVA : Nat := 0x27A49E3
end CascadePtrValidation

/-! ## Engine state -/

/-- The globals of `cascade_patch.cpp` together with the process memory. -/
structure State where
  /-- memory of the host process -/
  mem : Mem
  /-- value returned by `GetModuleBase` -/
  base : Nat
  g_textDecrypted : Bool
  g_countReadsPatched : Bool
  g_shaderPatched : Bool
  g_maskSafe : Bool
  g_vrExpanded : Bool
  g_maskRestored : Bool
  g_timerStarted : Bool
  g_countForced : Bool
  g_stereoFixPatched : Bool
  g_shadowDistPatched : Bool
  g_vrEntriesRefreshed : Bool
  g_nullSafePatched : Bool
  g_codeCave : Nat
  g_nodeAllocPatched : Bool
  g_nodeAllocCave : Nat
  g_entryZeroInitPatched : Bool
  g_entryZeroInitCave : Nat
  g_ptrValidationPatched : Bool
  g_ptrValidationCave : Nat
  g_setupNodeFixed : Bool
  g_shaderFieldsForced : Bool
  g_cascadeGroupsForced : Bool
  g_logInitialized : Bool
  /-- the timer-queue timer exists (`g_timerHandle` is not null) -/
  g_timerHandle : Bool
  /-- static `s_dumpOnce` of `TryExpandVRArray` -/
  s_dumpOnce : Bool
  /-- static `g_flatDiagLogged` of `TryRestoreMaskRotation` -/
  g_flatDiagLogged : Bool
  g_extDiagLogged : Bool
  /-- static `s_tickCount` of `ExpansionTimerCallback`, a signed 32-bit counter -/
  s_tickCount : Int

/-! ## Trampolines -/

/-- The loop of `AllocateNearby`: `fuel` bounds the number of iterations,
`offset` is the loop variable, `g` the granularity read before the loop. -/
def allocScan (target size g : Nat) : Nat → Nat → Mem → Nat × Mem
  | 0, _, m => (0, m)
  | fuel + 1, offset, m =>
    if offset < 0x7F000000 then
      match VirtualAlloc m (wrap64 ((target : Int) + offset)) size with
      | (0, m1) =>
        if target > offset then
          match VirtualAlloc m1 (wrap64 ((target : Int) - offset)) size with
          | (0, m2) => allocScan target size g fuel (wrap64 ((offset : Int) + g)) m2
          | (p + 1, m2) => (p + 1, m2)
        else allocScan target size g fuel (wrap64 ((offset : Int) + g)) m1
      | (p + 1, m1) => (p + 1, m1)
    else (0, m)

/-- Function `AllocateNearby(target, size)`: the block (0 for `nullptr`) and the memory
afterwards.  The loop adds the granularity to `offset` until it reaches
0x7F000000, so 0x7F000000 iterations are enough for every granularity above
zero. -/
def AllocateNearby (m : Mem) (target size : Nat) : Nat × Mem :=
  allocScan target size m.granularity 0x7F000000 m.granularity m

/-- The bytes written over a patch site of `n` bytes: `jmp cave` and NOPs. -/
def jmpPatch (cave site n : Nat) : List Nat :=
  [0xE9] ++ le32 (rel32 cave (site + 5)) ++ List.replicate (n - 5) 0x90

/-- Array `expectedBytes` of `PatchNullSafetyCheck`: `mov rbp, [r10+0x180]`. -/
def nullSafetyExpected : List Nat := [0x49, 0x8B, 0xAA, 0x80, 0x01, 0x00, 0x00]

/-- The code cave `PatchNullSafetyCheck` emits at `cave`. -/
def nullSafetyCave (cave returnAddr : Nat) : List Nat :=
  [0x4D, 0x85, 0xD2,
   0x74, 0x13]
  ++ nullSafetyExpected
  ++ [0x48, 0x85, 0xED,
      0x74, 0x02,
      0x78, 0x05,
      0xE9] ++ le32 (rel32 returnAddr (cave + 20 + 4))
  ++ [0x31, 0xED,
      0xE9] ++ le32 (rel32 returnAddr (cave + 27 + 4))

/-- Function `PatchNullSafetyCheck()`. -/
def PatchNullSafetyCheck (s : State) : State :=
  if s.g_nullSafePatched then s
  else if !s.g_textDecrypted then s
  else
    let crashAddr := wrap64 ((s.base : Int) + NullSafetyPatch.CrashInstrRVA)
    let returnAddr := wrap64 ((crashAddr : Int) + NullSafetyPatch.InstrSize)
    match s.mem.readBytes crashAddr NullSafetyPatch.InstrSize with
    | none => s
    | some found =>
      if found ≠ nullSafetyExpected then s
      else
        match AllocateNearby s.mem crashAddr 64 with
        | (0, m1) => { s with mem := m1, g_codeCave := 0 }
        | (c + 1, m1) =>
          let cave := c + 1
          match m1.writeBytes cave (nullSafetyCave cave returnAddr) with
          | (false, m2) => { s with mem := m2, g_codeCave := cave }
          | (true, m2) =>
            match VirtualProtect m2 crashAddr NullSafetyPatch.InstrSize
                PAGE_EXECUTE_READWRITE with
            | none => { s with mem := VirtualFree m2 cave 64, g_codeCave := 0 }
            | some (oldProtect, m3) =>
              match m3.writeBytes crashAddr
                  (jmpPatch cave crashAddr NullSafetyPatch.InstrSize) with
              | (false, m4) => { s with mem := m4, g_codeCave := cave }
              | (true, m4) =>
                { s with
                    mem := restoreProtect m4 crashAddr NullSafetyPatch.InstrSize oldProtect
                    g_codeCave := cave
                    g_nullSafePatched := true }

/-- Array `expectedPrologue` of `PatchNodeAllocator`: `sub rsp, 0x68; mov r10, r9`. -/
def expectedPrologue : List Nat := [0x48, 0x83, 0xEC, 0x68, 0x4D, 0x8B, 0xD1]

/-- Constant `prologueSize` of `PatchNodeAllocator`. -/
def prologueSize : Nat := 7

/-- The code cave `PatchNodeAllocator` emits at `cave`. -/
def nodeAllocCave (cave returnAddr : Nat) : List Nat :=
  [0x48, 0x85, 0xD2,
   0x74, 0x08,
   0x48, 0xC7, 0x42, 0x40, 0x00, 0x00, 0x00, 0x00,
   0x48, 0x83, 0xEC, 0x68,
   0x4D, 0x8B, 0xD1,
   0xE9] ++ le32 (rel32 returnAddr (cave + 21 + 4))

/-- Function `PatchNodeAllocator()`.  The diagnostic line reads sixteen bytes of the
function before anything else, so a fault on any of them ends the stage. -/
def PatchNodeAllocator (s : State) : State :=
  if s.g_nodeAllocPatched then s
  else if !s.g_textDecrypted then s
  else
    let funcAddr := wrap64 ((s.base : Int) + NodeAllocPatch.FuncRVA)
    match s.mem.readBytes funcAddr 16 with
    | none => s
    | some logged =>
      if logged.take prologueSize ≠ expectedPrologue then s
      else
        let returnAddr := funcAddr + prologueSize
        match AllocateNearby s.mem funcAddr 64 with
        | (0, m1) => { s with mem := m1, g_nodeAllocCave := 0 }
        | (c + 1, m1) =>
          let cave := c + 1
          match m1.writeBytes cave (nodeAllocCave cave returnAddr) with
          | (false, m2) => { s with mem := m2, g_nodeAllocCave := cave }
          | (true, m2) =>
            match VirtualProtect m2 funcAddr prologueSize PAGE_EXECUTE_READWRITE with
            | none => { s with mem := VirtualFree m2 cave 64, g_nodeAllocCave := 0 }
            | some (oldProtect, m3) =>
              match m3.writeBytes funcAddr (jmpPatch cave funcAddr prologueSize) with
              | (false, m4) => { s with mem := m4, g_nodeAllocCave := cave }
              | (true, m4) =>
                { s with
                    mem := restoreProtect m4 funcAddr prologueSize oldProtect
                    g_nodeAllocCave := cave
                    g_nodeAllocPatched := true }

/-- Array `expectedBytes` of `PatchCascadeEntryZeroInit`: `mov [rax+r10+0x90], rdx`. -/
def zeroInitExpected : List Nat := [0x4A, 0x89, 0x94, 0x10, 0x90, 0x00, 0x00, 0x00]

/-- The code cave `PatchCascadeEntryZeroInit` emits at `cave`. -/
def zeroInitCave (cave returnAddr : Nat) : List Nat :=
  [0x51,
   0x4A, 0x8D, 0x8C, 0x10, 0x90, 0x00, 0x00, 0x00,
   0x48, 0xC7, 0x41, 0x08, 0x00, 0x00, 0x00, 0x00,
   0x48, 0xC7, 0x41, 0x10, 0x00, 0x00, 0x00, 0x00,
   0x48, 0xC7, 0x41, 0x18, 0x00, 0x00, 0x00, 0x00,
   0x4A, 0x8D, 0x8C, 0x10, 0x30, 0x01, 0x00, 0x00,
   0x48, 0xC7, 0x01, 0x00, 0x00, 0x00, 0x00,
   0x48, 0xC7, 0x41, 0x08, 0x00, 0x00, 0x00, 0x00,
   0x48, 0xC7, 0x41, 0x10, 0x00, 0x00, 0x00, 0x00,
   0x48, 0xC7, 0x41, 0x18, 0x00, 0x00, 0x00, 0x00,
   0x59]
  ++ zeroInitExpected
  ++ [0xE9] ++ le32 (rel32 returnAddr (cave + 82 + 4))

/-- Function `PatchCascadeEntryZeroInit()`. -/
def PatchCascadeEntryZeroInit (s : State) : State :=
  if s.g_entryZeroInitPatched then s
  else if !s.g_textDecrypted then s
  else
    let patchAddr := wrap64 ((s.base : Int) + CascadeEntryZeroInit.TagWriteRVA)
    let returnAddr := wrap64 ((s.base : Int) + CascadeEntryZeroInit.ReturnRVA)
    match s.mem.readBytes patchAddr CascadeEntryZeroInit.InstrSize with
    | none => s
    | some found =>
      if found ≠ zeroInitExpected then s
      else
        match AllocateNearby s.mem patchAddr 128 with
        | (0, m1) => { s with mem := m1, g_entryZeroInitCave := 0 }
        | (c + 1, m1) =>
          let cave := c + 1
          match m1.writeBytes cave (zeroInitCave cave returnAddr) with
          | (false, m2) => { s with mem := m2, g_entryZeroInitCave := cave }
          | (true, m2) =>
            match VirtualProtect m2 patchAddr CascadeEntryZeroInit.InstrSize
                PAGE_EXECUTE_READWRITE with
            | none => { s with mem := VirtualFree m2 cave 128, g_entryZeroInitCave := 0 }
            | some (oldProtect, m3) =>
              match m3.writeBytes patchAddr
                  (jmpPatch cave patchAddr CascadeEntryZeroInit.InstrSize) with
              | (false, m4) => { s with mem := m4, g_entryZeroInitCave := cave }
              | (true, m4) =>
                { s with
                    mem := restoreProtect m4 patchAddr CascadeEntryZeroInit.InstrSize
                      oldProtect
                    g_entryZeroInitCave := cave
                    g_entryZeroInitPatched := true }

/-- Array `expectedBytes` of `PatchCascadePtrValidation`: `test r14, r14` and the
near `jz`. -/
def ptrValidationExpected : List Nat :=
  [0x4D, 0x85, 0xF6, 0x0F, 0x84, 0x8A, 0x00, 0x00, 0x00]

/-- The code cave `PatchCascadePtrValidation` emits at `cave`. -/
def ptrValidationCave (cave continueAddr skipTarget : Nat) : List Nat :=
  [0x4D, 0x85, 0xF6,
   0x74, 0x25,
   0x50,
   0x4C, 0x89, 0xF0,
   0x48, 0xC1, 0xE8, 0x2F,
   0x85, 0xC0,
   0x75, 0x0D,
   0x44, 0x89, 0xF0,
   0x85, 0xC0,
   0x74, 0x06,
   0x58,
   0xE9] ++ le32 (rel32 continueAddr (cave + 26 + 4))
  ++ [0x58,
      0x49, 0xC7, 0x04, 0x24, 0x00, 0x00, 0x00, 0x00,
      0x45, 0x31, 0xF6,
      0xE9] ++ le32 (rel32 skipTarget (cave + 43 + 4))

/-- Function `PatchCascadePtrValidation()`. -/
def PatchCascadePtrValidation (s : State) : State :=
  if s.g_ptrValidationPatched then s
  else if !s.g_textDecrypted then s
  else
    let patchAddr := wrap64 ((s.base : Int) + CascadePtrValidation.TestInstrRVA)
    let skipTarget := wrap64 ((s.base : Int) + CascadePtrValidation.SkipTargetRVA)
    let continueAddr := wrap64 ((s.base : Int) + CascadePtrValidation.ContinueRVA)
    match s.mem.readBytes patchAddr CascadePtrValidation.PatchSize with
    | none => s
    | some found =>
      if found ≠ ptrValidationExpected then s
      else
        match AllocateNearby s.mem patchAddr 128 with
        | (0, m1) => { s with mem := m1, g_ptrValidationCave := 0 }
        | (c + 1, m1) =>
          let cave := c + 1
          match m1.writeBytes cave (ptrValidationCave cave continueAddr skipTarget) with
          | (false, m2) => { s with mem := m2, g_ptrValidationCave := cave }
          | (true, m2) =>
            match VirtualProtect m2 patchAddr CascadePtrValidation.PatchSize
                PAGE_EXECUTE_READWRITE with
            | none => { s with mem := VirtualFree m2 cave 128, g_ptrValidationCave := 0 }
            | some (oldProtect, m3) =>
              match m3.writeBytes patchAddr
                  (jmpPatch cave patchAddr CascadePtrValidation.PatchSize) with
              | (false, m4) => { s with mem := m4, g_ptrValidationCave := cave }
              | (true, m4) =>
                { s with
                    mem := restoreProtect m4 patchAddr CascadePtrValidation.PatchSize
                      oldProtect
                    g_ptrValidationCave := cave
                    g_ptrValidationPatched := true }

/-! ## Reading an instruction at a rewrite site -/

/-- Local `opcodeIdx` of `PatchMovRipToImm` for the first byte `b0` of the site. -/
def opcodeIdxOf (b0 : Nat) : Nat := if isRex b0 then 1 else 0

/-- Local `instrLen` of `PatchMovRipToImm`: optional REX, opcode, ModRM, disp32. -/
def instrLenOf (b0 : Nat) : Nat := opcodeIdxOf b0 + 2 + 4

/-- Local `extReg` of `PatchMovRipToImm`: a REX prefix with the R bit set. -/
def extRegOf (b0 : Nat) : Bool := isRex b0 && ((b0 &&& 0x04) != 0)

/-- Local `reg` of `PatchMovRipToImm`: the reg field of the ModRM byte. -/
def regOf (modrm : Nat) : Nat := (modrm >>> 3) &&& 7

/-- The `n` bytes held at `a`, `a + 1`, ... -/
def Mem.bytesAt (m : Mem) (a n : Nat) : List Nat :=
  (List.range n).map (fun k => m.byte (a + k))

/-- Decoding of `MOV r32, imm32` (opcode B8+r, with an optional REX prefix
whose B bit extends the register): the destination register number and the
constant loaded. -/
def decodeMovImm : List Nat → Option (Nat × Nat)
  | b0 :: b1 :: rest =>
    if isRex b0 then
      if 0xB8 ≤ b1 ∧ b1 ≤ 0xBF then
        some ((b1 - 0xB8) + (if b0 &&& 0x01 ≠ 0 then 8 else 0), readLE32 rest)
      else none
    else if 0xB8 ≤ b0 ∧ b0 ≤ 0xBF then some (b0 - 0xB8, readLE32 (b1 :: rest))
    else none
  | _ => none

/-- Destination register number of `MOV r32, [RIP+disp32]` with first byte `b0`
and ModRM byte `modrm`: the reg field, plus 8 when REX.R is set. -/
def origDestReg (b0 modrm : Nat) : Nat :=
  regOf modrm + (if extRegOf b0 then 8 else 0)

/-! ## Concrete memories used to evaluate the engine -/

/-- A memory whose bytes are given by `f`, with every page mapped
`PAGE_EXECUTE_READ`, every protection change granted when `ok` is set, every
granule free and the Windows allocation granularity of 64 KiB. -/
def imageMem (f : Nat → Nat) (ok : Bool) : Mem :=
  { byte := f
    prot := fun _ => 0x20
    protectOk := fun _ => ok
    free := fun _ => true
    granularity := 0x10000
    allocCalls := 0 }

/-- An image whose bytes from `site` on are `code` and are zero elsewhere;
protection changes are granted when `ok` is set. -/
def codeMem (site : Nat) (code : List Nat) (ok : Bool) : Mem :=
  imageMem (fun x => if site ≤ x then code.getD (x - site) 0 else 0) ok

/-- The load base of the game image the offsets are relative to. -/
def gameBase : Nat := 0x140000000

/-- Offset `CountReadPatch::CtorRead`. -/
def CtorRead : Nat := 0x27e929a

/-- Offset `CascadeCountPatch::CountGlobal`. -/
def CountGlobal : Nat := 0x3924818

/-- Instruction `mov eax, [rip+0x113B578]` at `CtorRead`: the count global seen from the
end of a six-byte instruction. -/
def movEaxRip : List Nat := [0x8B, 0x05, 0x78, 0xB5, 0x13, 0x01]

/-- Instruction `mov r8d, [rip+0x113B577]` at `CtorRead`: the same load with a REX.R prefix. -/
def movR8dRip : List Nat := [0x44, 0x8B, 0x05, 0x77, 0xB5, 0x13, 0x01]

/-- The signed 32-bit displacement stored at offset `k` of emitted code. -/
def rel32At (code : List Nat) (k : Nat) : Int := sext32 (readLE32 (code.drop k))

/-- The displacement at offset `k` of `code` is the true distance from `src`
(the address after the displacement) to `dst`, and that distance fits the
signed 32-bit range. -/
def emitsExact (code : List Nat) (k dst src : Nat) : Prop :=
  rel32At code k = (dst : Int) - src ∧
    -2147483648 ≤ (dst : Int) - src ∧ (dst : Int) - src < 2147483648

/-- An engine state over memory `m` and module base `base` in which only the
decryption flag is set. -/
def decryptedState (m : Mem) (base : Nat) : State :=
  { mem := m
    base := base
    g_textDecrypted := true
    g_countReadsPatched := false
    g_shaderPatched := false
    g_maskSafe := false
    g_vrExpanded := false
    g_maskRestored := false
    g_timerStarted := false
    g_countForced := false
    g_stereoFixPatched := false
    g_shadowDistPatched := false
    g_vrEntriesRefreshed := false
    g_nullSafePatched := false
    g_codeCave := 0
    g_nodeAllocPatched := false
    g_nodeAllocCave := 0
    g_entryZeroInitPatched := false
    g_entryZeroInitCave := 0
    g_ptrValidationPatched := false
    g_ptrValidationCave := 0
    g_setupNodeFixed := false
    g_shaderFieldsForced := false
    g_cascadeGroupsForced := false
    g_logInitialized := false
    g_timerHandle := false
    s_dumpOnce := false
    g_flatDiagLogged := false
    g_extDiagLogged := false
    s_tickCount := 0 }

/-- A process whose allocation granularity is 0x7EFF0000 and whose only free
granule is the one at 0xFDFE0000. -/
def farMem : Mem :=
  { byte := fun _ => 0
    prot := fun _ => 0x20
    protectOk := fun _ => true
    free := fun a => a == 0xFDFE0000
    granularity := 0x7EFF0000
    allocCalls := 0 }

/-! ## Multi-byte loads and stores -/

/-- Value of a little-endian byte string. -/
def leValue : List Nat → Nat
  | [] => 0
  | b :: bs => b + 256 * leValue bs

/-- The `n` little-endian bytes of `v`. -/
def leBytes : Nat → Nat → List Nat
  | 0, _ => []
  | n + 1, v => v % 256 :: leBytes n (v / 256)

namespace Mem

/-- Load of an `n`-byte little-endian integer; `none` is an access violation. -/
def load (m : Mem) (a n : Nat) : Option Nat :=
  match m.readBytes a n with
  | none => none
  | some bs => some (leValue bs)

/-- Load of a `uint16_t`. -/
def read16 (m : Mem) (a : Nat) : Option Nat := m.load a 2

/-- Load of a `uintptr_t`. -/
def read64 (m : Mem) (a : Nat) : Option Nat := m.load a 8

/-- The `n` bytes at `a` can be loaded without a fault. -/
def canLoad (m : Mem) (a n : Nat) : Bool := (m.readBytes a n).isSome

/-- Store of an `n`-byte little-endian integer by one instruction: a fault on
any of its bytes leaves the memory as it was. -/
def store (m : Mem) (a n v : Nat) : Option Mem :=
  match m.writeBytes a (leBytes n v) with
  | (true, m1) => some m1
  | (false, _) => none

/-- Store of a `uint32_t`. -/
def write32 (m : Mem) (a v : Nat) : Option Mem := m.store a 4 v

/-- Store of a `uintptr_t`. -/
def write64 (m : Mem) (a v : Nat) : Option Mem := m.store a 8 v

/-- Store of a `uint16_t`. -/
def write16 (m : Mem) (a v : Nat) : Option Mem := m.store a 2 v

/-- Byte-wise `memcpy(dst, src, n)` in ascending order.  The flag is false when
an access faulted; the bytes copied before it stay in the memory returned. -/
def memcpy (m : Mem) (dst src : Nat) : Nat → Bool × Mem
  | 0 => (true, m)
  | n + 1 =>
    match m.read8 src with
    | none => (false, m)
    | some b =>
      match m.write8 dst b with
      | none => (false, m)
      | some m1 => memcpy m1 (dst + 1) (src + 1) n

end Mem

/-! ## More game offsets (`cascade_patch.h`) -/

/-- Offset `CascadeMaskGlobal`. -/
def CascadeMaskGlobal : Nat := 0x6885cc4
/-- Offset `TextSentinel`. -/
def TextSentinel : Nat := 0x27c33d0
/-- Constant `TextSentinelExpected`. -/
def TextSentinelExpected : Nat := 0x48

namespace CascadeCountPatch
/-- Constant `DesiredValue`. -/
def DesiredValue : Nat := 4
end CascadeCountPatch

namespace CountReadPatch
/-- Offset `SetupRead`. -/
def SetupRead : Nat := 0x290dc03
/-- Offset `RenderRead1`. -/
def RenderRead1 : Nat := 0x28a57a0
/-- Offset `RenderRead2`. -/
def RenderRead2 : Nat := 0x28a5c3c
/-- Array `AllSites`. -/
def AllSites : List Nat := [CtorRead, SetupRead, RenderRead1, RenderRead2]
/-- Offset `SetupCmpImm`. -/
def SetupCmpImm : Nat := 0x290dc09
/-- Constant `SetupCmpOld`. -/
def SetupCmpOld : Nat := 0x02
/-- Constant `SetupCmpNew`. -/
def SetupCmpNew : Nat := 0x04
end CountReadPatch

namespace ShaderCtorPatch
/-- Offset `ArrayCap_Byte`. -/
def ArrayCap_Byte : Nat := 0x27c340c
/-- Constant `ArrayCap_Old`. -/
def ArrayCap_Old : Nat := 0x02
/-- Constant `ArrayCap_New`. -/
def ArrayCap_New : Nat := 0x04
/-- Offset `StoredCount_Byte`. -/
def StoredCount_Byte : Nat := 0x27c34d8
/-- Constant `StoredCount_Old`. -/
def StoredCount_Old : Nat := 0x02
/-- Constant `StoredCount_New`. -/
def StoredCount_New : Nat := 0x04
end ShaderCtorPatch

namespace MaskWriterPatch
/-- Offset `InitMask_Byte`. -/
def InitMask_Byte : Nat := 0x284e9fb
/-- Constant `InitMask_Old`. -/
def InitMask_Old : Nat := 0x0F
/-- Constant `InitMask_New`. -/
def InitMask_New : Nat := 0x03
/-- Offset `FallbackMask_Byte`. -/
def FallbackMask_Byte : Nat := 0x284ea38
/-- Constant `FallbackMask_Old`. -/
def FallbackMask_Old : Nat := 0x0F
/-- Constant `FallbackMask_New`. -/
def FallbackMask_New : Nat := 0x03
/-- Offset `ArrayEntry1_Byte`. -/
def ArrayEntry1_Byte : Nat := 0x284ea4c
/-- Constant `ArrayEntry1_Old`. -/
def ArrayEntry1_Old : Nat := 0x05
/-- Constant `ArrayEntry1_New`. -/
def ArrayEntry1_New : Nat := 0x03
/-- Offset `ArrayEntry3_Byte`. -/
def ArrayEntry3_Byte : Nat := 0x284ea5f
/-- Constant `ArrayEntry3_Old`. -/
def ArrayEntry3_Old : Nat := 0x09
/-- Constant `ArrayEntry3_New`. -/
def ArrayEntry3_New : Nat := 0x03
end MaskWriterPatch

namespace StereoDispatchFix
/-- Offset `JzInstrRVA`. -/
def JzInstrRVA : Nat := 0x281be1c
/-- Constant `JzOpcode`. -/
def JzOpcode : Nat := 0x74
/-- Constant `JmpOpcode`. -/
def JmpOpcode : Nat := 0xEB
end StereoDispatchFix

/-- Offset `ShadowDist4Cascade`. -/
def ShadowDist4Cascade : Nat := 0x2c7f648
/-- Offset `ShadowDist2Cascade`. -/
def ShadowDist2Cascade : Nat := 0x3924808
/-- Offset `ShadowSceneNodePtr`. -/
def ShadowSceneNodePtr : Nat := 0x6879520
/-- Offset `ShadowSceneNodePtr2`. -/
def ShadowSceneNodePtr2 : Nat := 0x6885d40
/-- Offset `CascadeGroupOffset`. -/
def CascadeGroupOffset : Nat := 0x248
/-- Offset `FlatBufferOffset`. -/
def FlatBufferOffset : Nat := 0x198
/-- Offset `FlatCountOffset`. -/
def FlatCountOffset : Nat := 0x190
/-- Constant `FlatEntrySize`. -/
def FlatEntrySize : Nat := 0x110
/-- Offset `FlatShadowMapOff`. -/
def FlatShadowMapOff : Nat := 0x50
/-- Offset `FlatShadowMapRightOff`. -/
def FlatShadowMapRightOff : Nat := 0x58
/-- Offset `CascadeGroupVRFlag`. -/
def CascadeGroupVRFlag : Nat := 0x173
/-- Offset `ShaderObjectOffset`. -/
def ShaderObjectOffset : Nat := 0x2B8

namespace VRArrayExpansion
/-- Offset `ArrayPtr`. -/
def ArrayPtr : Nat := 0x6878b18
/-- Offset `ArrayCount`. -/
def ArrayCount : Nat := 0x6878b28
/-- Constant `EntrySize`. -/
def EntrySize : Nat := 0x180
/-- Constant `TargetCount`. -/
def TargetCount : Nat := 4
/-- Array `PoolOffsets`. -/
def PoolOffsets : List Nat := [0x70, 0xA8, 0xE8, 0x128]
end VRArrayExpansion

/-! ## Stages of the activation state machine -/

/-- Address arithmetic in `uintptr_t`: used for `base + offset` and for
offsets from pointers read out of host memory. -/
def addr64 (p off : Nat) : Nat := wrap64 ((p : Int) + off)

/-- Function `CheckTextDecrypted()`: its result and the state afterwards. -/
def CheckTextDecrypted (s : State) : Bool × State :=
  if s.g_textDecrypted then (true, s)
  else
    match s.mem.read8 (addr64 s.base TextSentinel) with
    | none => (false, s)
    | some sentinel =>
      if sentinel ≠ TextSentinelExpected then (false, s)
      else (true, { s with g_textDecrypted := true })

/-- Function `ForceCascadeCount4()`. -/
def ForceCascadeCount4 (s : State) : State :=
  if s.g_countForced then s
  else
    match s.mem.read32 (addr64 s.base CountGlobal) with
    | none => s
    | some v =>
      if v ≠ CascadeCountPatch.DesiredValue then
        match s.mem.write32 (addr64 s.base CountGlobal) CascadeCountPatch.DesiredValue with
        | none => s
        | some m1 => { s with mem := m1, g_countForced := true }
      else { s with g_countForced := true }

/-- The loop of `PatchCountReadSites` over `AllSites`: the number `n` of
rewrites that reported success and the memory afterwards. -/
def patchCountReads (base : Nat) : List Nat → Mem → Nat × Mem
  | [], m => (0, m)
  | site :: rest, m =>
    match PatchMovRipToImm base m site CountGlobal CascadeCountPatch.DesiredValue with
    | (ok, m1) =>
      match patchCountReads base rest m1 with
      | (n, m2) => ((if ok then 1 else 0) + n, m2)

/-- Function `PatchCountReadSites()`. -/
def PatchCountReadSites (s : State) : State :=
  if s.g_countReadsPatched then s
  else if !s.g_textDecrypted then s
  else
    match patchCountReads s.base CountReadPatch.AllSites s.mem with
    | (_, m1) =>
      match PatchByte m1 (addr64 s.base CountReadPatch.SetupCmpImm)
          CountReadPatch.SetupCmpOld CountReadPatch.SetupCmpNew with
      | (_, m2) => { s with mem := m2, g_countReadsPatched := true }

/-- A run of `PatchByte` calls `(offset, old, new)` in order: the number that
reported success and the memory afterwards. -/
def patchBytes (base : Nat) : List (Nat × Nat × Nat) → Mem → Nat × Mem
  | [], m => (0, m)
  | (off, old, new) :: rest, m =>
    match PatchByte m (addr64 base off) old new with
    | (ok, m1) =>
      match patchBytes base rest m1 with
      | (n, m2) => ((if ok then 1 else 0) + n, m2)

/-- The four byte patches of `ApplyMaskSafeMode`. -/
def maskSafePatches : List (Nat × Nat × Nat) :=
  [(MaskWriterPatch.InitMask_Byte, MaskWriterPatch.InitMask_Old, MaskWriterPatch.InitMask_New),
   (MaskWriterPatch.FallbackMask_Byte, MaskWriterPatch.FallbackMask_Old,
     MaskWriterPatch.FallbackMask_New),
   (MaskWriterPatch.ArrayEntry1_Byte, MaskWriterPatch.ArrayEntry1_Old,
     MaskWriterPatch.ArrayEntry1_New),
   (MaskWriterPatch.ArrayEntry3_Byte, MaskWriterPatch.ArrayEntry3_Old,
     MaskWriterPatch.ArrayEntry3_New)]

/-- Function `ApplyMaskSafeMode()`. -/
def ApplyMaskSafeMode (s : State) : State :=
  if s.g_maskSafe then s
  else if !s.g_textDecrypted then s
  else
    match patchBytes s.base maskSafePatches s.mem with
    | (_, m1) => { s with mem := m1, g_maskSafe := true }

/-- The two byte patches of `PatchShaderCtor`. -/
def shaderCtorPatches : List (Nat × Nat × Nat) :=
  [(ShaderCtorPatch.ArrayCap_Byte, ShaderCtorPatch.ArrayCap_Old, ShaderCtorPatch.ArrayCap_New),
   (ShaderCtorPatch.StoredCount_Byte, ShaderCtorPatch.StoredCount_Old,
     ShaderCtorPatch.StoredCount_New)]

/-- Function `PatchShaderCtor()`. -/
def PatchShaderCtor (s : State) : State :=
  if s.g_shaderPatched then s
  else if !s.g_textDecrypted then s
  else
    match patchBytes s.base shaderCtorPatches s.mem with
    | (_, m1) => { s with mem := m1, g_shaderPatched := true }

/-- Function `PatchStereoDispatch()`. -/
def PatchStereoDispatch (s : State) : State :=
  if s.g_stereoFixPatched then s
  else if !s.g_textDecrypted then s
  else
    match PatchByte s.mem (addr64 s.base StereoDispatchFix.JzInstrRVA)
        StereoDispatchFix.JzOpcode StereoDispatchFix.JmpOpcode with
    | (true, m1) => { s with mem := m1, g_stereoFixPatched := true }
    | (false, m1) => { s with mem := m1 }

/-- The shadow-distance block written inline in `EnsureInitialized`.  The
distance is a `float`; on its bit pattern `origDist2 > 0.0f && origDist2 <
1e10f` is `0 < bits < 0x501502F9`.  The product `origDist2 * 5.0f` is computed
by the FPU and enters as `scaled`, the bit pattern of the result. -/
def writeShadowDistance (scaled : Nat) (s : State) : State :=
  if !s.g_shadowDistPatched && s.g_textDecrypted then
    match s.mem.read32 (addr64 s.base ShadowDist2Cascade) with
    | none => s
    | some origDist2 =>
      if 0 < origDist2 ∧ origDist2 < 0x501502F9 then
        match s.mem.write32 (addr64 s.base ShadowDist2Cascade) scaled with
        | none => s
        | some m1 => { s with mem := m1, g_shadowDistPatched := true }
      else s
  else s

/-- Function `ClampMask()`. -/
def ClampMask (s : State) : State :=
  if s.g_maskSafe then s
  else
    match s.mem.read32 (addr64 s.base CascadeMaskGlobal) with
    | none => s
    | some mask =>
      if mask > 0x3 then
        match s.mem.write32 (addr64 s.base CascadeMaskGlobal) (mask &&& 0x3) with
        | none => s
        | some m1 => { s with mem := m1 }
      else s

/-- Model of `VirtualAlloc(nullptr, size, MEM_COMMIT | MEM_RESERVE,
PAGE_READWRITE)`: the OS chooses the address; `pick` is its choice (0 when the
allocation fails).  The block returned is zeroed and readable and writable. -/
def VirtualAllocAny (m : Mem) (pick size : Nat) : Nat × Mem :=
  let m0 := { m with allocCalls := m.allocCalls + 1 }
  if pick ≠ 0 ∧ pick + size ≤ 18446744073709551616 ∧ m.free pick = true then
    (pick, { m0 with
               free := fun x => if x = pick then false else m.free x
               prot := fun p =>
                 if pick / 4096 ≤ p ∧ p ≤ (pick + size - 1) / 4096 then 0x04 else m.prot p
               byte := fun x => if pick ≤ x ∧ x < pick + size then 0 else m.byte x })
  else (0, m0)

/-- The inner loop over `PoolOffsets` that empties the pools of the entry at
`dst`: head cleared, tail pointing at the head. -/
def resetPools (dst : Nat) : List Nat → Mem → Bool × Mem
  | [], m => (true, m)
  | poolOff :: rest, m =>
    match m.write64 (addr64 dst poolOff) 0 with
    | none => (false, m)
    | some m1 =>
      match m1.write64 (addr64 dst (poolOff + 8)) (addr64 dst poolOff) with
      | none => (false, m1)
      | some m2 => resetPools dst rest m2

/-- Body of the template-copy loops of `TryExpandVRArray`: copy the entry at
`src` to `dst`, empty its pools and clear its spinlock. -/
def templateCopy (m : Mem) (dst src : Nat) : Bool × Mem :=
  match m.memcpy dst src VRArrayExpansion.EntrySize with
  | (false, m1) => (false, m1)
  | (true, m1) =>
    match resetPools dst VRArrayExpansion.PoolOffsets m1 with
    | (false, m2) => (false, m2)
    | (true, m2) =>
      match m2.write32 dst 0 with
      | none => (false, m2)
      | some m3 =>
        match m3.write32 (addr64 dst 0x04) 0 with
        | none => (false, m3)
        | some m4 => (true, m4)

/-- The template-copy loop over the entry indices `is` of the buffer `buf`,
with the entry at `src` as template. -/
def templateLoop (buf src : Nat) : List Nat → Mem → Bool × Mem
  | [], m => (true, m)
  | i :: rest, m =>
    match templateCopy m (addr64 buf (i * VRArrayExpansion.EntrySize)) src with
    | (false, m1) => (false, m1)
    | (true, m1) => templateLoop buf src rest m1

/-- The inner loop that gives a tail pointer to every pool of the entry at
`entryBase` whose tail is null. -/
def fixTails (entryBase : Nat) : List Nat → Mem → Bool × Mem
  | [], m => (true, m)
  | poolOff :: rest, m =>
    match m.read64 (addr64 entryBase (poolOff + 8)) with
    | none => (false, m)
    | some tail =>
      if tail = 0 then
        match m.write64 (addr64 entryBase (poolOff + 8)) (addr64 entryBase poolOff) with
        | none => (false, m)
        | some m1 => fixTails entryBase rest m1
      else fixTails entryBase rest m

/-- The loop of `TryExpandVRArray` over entries 0 and 1 that calls `fixTails`. -/
def fixTailsLoop (buf : Nat) : List Nat → Mem → Bool × Mem
  | [], m => (true, m)
  | i :: rest, m =>
    match fixTails (addr64 buf (i * VRArrayExpansion.EntrySize))
        VRArrayExpansion.PoolOffsets m with
    | (false, m1) => (false, m1)
    | (true, m1) => fixTailsLoop buf rest m1

/-- Function `TryExpandVRArray()`; `pick` is the address the OS would choose
for the new buffer. -/
def TryExpandVRArray (pick : Nat) (s : State) : State :=
  if s.g_vrExpanded then s
  else
    let pArrayPtr := addr64 s.base VRArrayExpansion.ArrayPtr
    let pCapacity := addr64 s.base (VRArrayExpansion.ArrayPtr + 8)
    let pCount := addr64 s.base VRArrayExpansion.ArrayCount
    match s.mem.read64 pArrayPtr with
    | none => s
    | some buf =>
      match s.mem.read32 pCapacity with
      | none => s
      | some capacity =>
        match s.mem.read32 pCount with
        | none => s
        | some count =>
          if buf = 0 then s
          else if capacity ≥ VRArrayExpansion.TargetCount then
            match templateLoop buf (addr64 buf (0 * VRArrayExpansion.EntrySize)) [2, 3]
                s.mem with
            | (false, m1) => { s with mem := m1, s_dumpOnce := true }
            | (true, m1) =>
              match fixTailsLoop buf [0, 1] m1 with
              | (false, m2) => { s with mem := m2, s_dumpOnce := true }
              | (true, m2) =>
                if count < VRArrayExpansion.TargetCount then
                  match m2.write32 pCount VRArrayExpansion.TargetCount with
                  | none => { s with mem := m2, s_dumpOnce := true }
                  | some m3 => { s with mem := m3, s_dumpOnce := true, g_vrExpanded := true }
                else { s with mem := m2, s_dumpOnce := true, g_vrExpanded := true }
          else
            match VirtualAllocAny s.mem pick
                (VRArrayExpansion.TargetCount * VRArrayExpansion.EntrySize) with
            | (0, m1) => { s with mem := m1, s_dumpOnce := true }
            | (nb + 1, m1) =>
              let newBuf := nb + 1
              match m1.memcpy newBuf buf (capacity * VRArrayExpansion.EntrySize) with
              | (false, m2) => { s with mem := m2, s_dumpOnce := true }
              | (true, m2) =>
                match templateLoop newBuf newBuf
                    (List.range' capacity (VRArrayExpansion.TargetCount - capacity)) m2 with
                | (false, m3) => { s with mem := m3, s_dumpOnce := true }
                | (true, m3) =>
                  match m3.write64 pArrayPtr newBuf with
                  | none => { s with mem := m3, s_dumpOnce := true }
                  | some m4 =>
                    match m4.write32 pCount VRArrayExpansion.TargetCount with
                    | none => { s with mem := m4, s_dumpOnce := true }
                    | some m5 =>
                      { s with mem := m5, s_dumpOnce := true, g_vrExpanded := true }

/-- The loads of the once-only diagnostic loop of `TryRestoreMaskRotation`
over the flat entries `is`: fields +0x50, +0x58 and +0xF8 of each. -/
def flatDiagOk (m : Mem) (flatBuf : Nat) : List Nat → Bool
  | [] => true
  | i :: rest =>
    m.canLoad (addr64 (addr64 flatBuf (i * FlatEntrySize)) 0x50) 8 &&
    m.canLoad (addr64 (addr64 flatBuf (i * FlatEntrySize)) 0x58) 8 &&
    m.canLoad (addr64 (addr64 flatBuf (i * FlatEntrySize)) 0xF8) 8 &&
    flatDiagOk m flatBuf rest

/-- The `allValid` loop of `TryRestoreMaskRotation` over the flat entries `is`:
`none` is a fault, `some false` a null shadow-map pointer at +0x50. -/
def allShadowMaps (m : Mem) (flatBuf : Nat) : List Nat → Option Bool
  | [] => some true
  | i :: rest =>
    match m.read64 (addr64 (addr64 flatBuf (i * FlatEntrySize)) FlatShadowMapOff) with
    | none => none
    | some shadowMap => if shadowMap = 0 then some false else allShadowMaps m flatBuf rest

/-- The loads of the log loop that follows "All 4 flat entries valid!". -/
def flatFieldsOk (m : Mem) (flatBuf : Nat) : List Nat → Bool
  | [] => true
  | i :: rest =>
    m.canLoad (addr64 (addr64 flatBuf (i * FlatEntrySize)) 0x40) 8 &&
    m.canLoad (addr64 (addr64 flatBuf (i * FlatEntrySize)) 0x48) 8 &&
    m.canLoad (addr64 (addr64 flatBuf (i * FlatEntrySize)) 0x102) 1 &&
    flatFieldsOk m flatBuf rest

/-- The loads made through one shadow-map pointer in the validation loop: none
for a null pointer, else the fields +0xf6dc, +0xf688 and +0xf680. -/
def shadowMapOk (m : Mem) (map : Nat) : Bool :=
  map == 0 ||
    (m.canLoad (addr64 map 0xf6dc) 1 && m.canLoad (addr64 map 0xf688) 4 &&
      m.canLoad (addr64 map 0xf680) 8)

/-- The loads of the shadow-map validation loop of `TryRestoreMaskRotation`. -/
def shadowMapDiagOk (m : Mem) (flatBuf : Nat) : List Nat → Bool
  | [] => true
  | i :: rest =>
    match m.read64 (addr64 (addr64 flatBuf (i * FlatEntrySize)) FlatShadowMapOff),
        m.read64 (addr64 (addr64 flatBuf (i * FlatEntrySize)) FlatShadowMapRightOff) with
    | some leftMap, some rightMap =>
      shadowMapOk m leftMap && shadowMapOk m rightMap && shadowMapDiagOk m flatBuf rest
    | _, _ => false

/-- The `__try` block of `TryRestoreMaskRotation`.  The flag is true when the
block ran to its end, false when it returned or faulted; the state is the one
reached either way. -/
def restoreProbe (s : State) : Bool × State :=
  match s.mem.read64 (addr64 s.base ShadowSceneNodePtr) with
  | none => (false, s)
  | some sceneNode =>
    if sceneNode = 0 then (false, s)
    else
      match s.mem.read64 (addr64 sceneNode CascadeGroupOffset) with
      | none => (false, s)
      | some cascadeGroup =>
        if cascadeGroup = 0 then (false, s)
        else
          match s.mem.read32 (addr64 cascadeGroup FlatCountOffset) with
          | none => (false, s)
          | some flatCount =>
            match s.mem.read64 (addr64 cascadeGroup FlatBufferOffset) with
            | none => (false, s)
            | some flatBuf =>
              if !s.g_flatDiagLogged &&
                  !(s.mem.canLoad (addr64 s.base CountGlobal) 4 &&
                    s.mem.canLoad cascadeGroup 8 &&
                    s.mem.canLoad (addr64 cascadeGroup 0x1A0) 4 &&
                    (flatBuf == 0 ||
                      flatDiagOk s.mem flatBuf (List.range (min flatCount 8)))) then
                (false, { s with g_flatDiagLogged := true })
              else if flatBuf = 0 ∨ flatCount < 4 then
                (false, { s with g_flatDiagLogged := true })
              else
                match allShadowMaps s.mem flatBuf [0, 1, 2, 3] with
                | none => (false, { s with g_flatDiagLogged := true })
                | some false => (false, { s with g_flatDiagLogged := true })
                | some true =>
                  if !(flatFieldsOk s.mem flatBuf [0, 1, 2, 3] &&
                      s.mem.canLoad (addr64 s.base ShadowDist4Cascade) 4 &&
                      s.mem.canLoad (addr64 s.base ShadowDist2Cascade) 4 &&
                      s.mem.canLoad (addr64 s.base CountGlobal) 4 &&
                      s.mem.canLoad (addr64 s.base CountReadPatch.SetupCmpImm) 1) then
                    (false, { s with g_flatDiagLogged := true })
                  else
                    match s.mem.read8 (addr64 cascadeGroup CascadeGroupVRFlag) with
                    | none => (false, { s with g_flatDiagLogged := true })
                    | some vrFlag =>
                      match s.mem.read64 (addr64 cascadeGroup ShaderObjectOffset) with
                      | none => (false, { s with g_flatDiagLogged := true })
                      | some shaderObj =>
                        if shaderObj ≠ 0 ∧
                            !(s.mem.canLoad (addr64 shaderObj 0x158) 4 &&
                              s.mem.canLoad (addr64 shaderObj (0x158 + 0x10)) 2 &&
                              s.mem.canLoad (addr64 shaderObj (0x158 + 0x12)) 2 &&
                              s.mem.canLoad (addr64 shaderObj 0x11C) 1 &&
                              s.mem.canLoad (addr64 shaderObj 0x1D8) 4) then
                          (false, { s with g_flatDiagLogged := true })
                        else
                          match (if vrFlag = 0 then
                              s.mem.write8 (addr64 cascadeGroup CascadeGroupVRFlag) 1
                            else some s.mem) with
                          | none => (false, { s with g_flatDiagLogged := true })
                          | some m1 =>
                            if !(shadowMapDiagOk m1 flatBuf [0, 1, 2, 3]) then
                              (false, { s with mem := m1, g_flatDiagLogged := true })
                            else
                              match m1.read8 (addr64 flatBuf (3 * FlatEntrySize + 0x102)) with
                              | none => (false, { s with mem := m1, g_flatDiagLogged := true })
                              | some oldVal =>
                                if oldVal ≠ 0 then
                                  match m1.write8 (addr64 flatBuf (3 * FlatEntrySize + 0x102))
                                      0 with
                                  | none =>
                                    (false, { s with mem := m1, g_flatDiagLogged := true })
                                  | some m2 =>
                                    (true, { s with mem := m2, g_flatDiagLogged := true })
                                else (true, { s with mem := m1, g_flatDiagLogged := true })

/-- The four byte patches that end `TryRestoreMaskRotation`: every mask
literal from 0x03 to 0x0F. -/
def maskRestorePatches : List (Nat × Nat × Nat) :=
  [(MaskWriterPatch.InitMask_Byte, 0x03, 0x0F),
   (MaskWriterPatch.FallbackMask_Byte, 0x03, 0x0F),
   (MaskWriterPatch.ArrayEntry1_Byte, 0x03, 0x0F),
   (MaskWriterPatch.ArrayEntry3_Byte, 0x03, 0x0F)]

/-- The four safety patches in the order `TryRestoreMaskRotation` calls them. -/
def applySafetyPatches (s : State) : State :=
  PatchCascadePtrValidation (PatchNullSafetyCheck (PatchNodeAllocator
    (PatchCascadeEntryZeroInit s)))

/-- Function `TryRestoreMaskRotation()`. -/
def TryRestoreMaskRotation (s : State) : State :=
  if s.g_maskRestored then s
  else if !s.g_vrExpanded then s
  else if !s.g_maskSafe then s
  else
    match restoreProbe s with
    | (false, s1) => s1
    | (true, s1) =>
      if !(applySafetyPatches s1).g_entryZeroInitPatched
          || !(applySafetyPatches s1).g_nodeAllocPatched
          || !(applySafetyPatches s1).g_nullSafePatched
          || !(applySafetyPatches s1).g_ptrValidationPatched then
        applySafetyPatches s1
      else
        match patchBytes s.base maskRestorePatches (applySafetyPatches s1).mem with
        | (_, m1) => { applySafetyPatches s1 with mem := m1, g_maskRestored := true }

/-- Function `FixSetupSceneNode()`. -/
def FixSetupSceneNode (s : State) : State :=
  if s.g_setupNodeFixed then s
  else
    match s.mem.read64 (addr64 s.base ShadowSceneNodePtr) with
    | none => s
    | some renderNode =>
      if renderNode = 0 then s
      else
        match s.mem.read64 (addr64 s.base ShadowSceneNodePtr2) with
        | none => s
        | some setupNode =>
          if setupNode ≠ 0 then { s with g_setupNodeFixed := true }
          else
            match s.mem.write64 (addr64 s.base ShadowSceneNodePtr2) renderNode with
            | none => s
            | some m1 =>
              if m1.canLoad (addr64 renderNode CascadeGroupOffset) 8 then
                { s with mem := m1, g_setupNodeFixed := true }
              else { s with mem := m1 }

/-- One field of the shader object raised to 4 when it is below 4: the memory
afterwards and whether a store was made; `none` is a fault. -/
def forceField (m : Mem) (a n : Nat) : Option (Bool × Mem) :=
  match m.load a n with
  | none => none
  | some v =>
    if v < 4 then
      match m.store a n 4 with
      | none => none
      | some m1 => some (true, m1)
    else some (false, m)

/-- The loop of `ForceShaderFields` over the scene-node globals `nodes`.  A
fault ends the loop (the flag is false) with the stores made so far. -/
def forceShaderLoop : List Nat → State → Bool × State
  | [], s => (true, s)
  | node :: rest, s =>
    match s.mem.read64 (addr64 s.base node) with
    | none => (false, s)
    | some sceneNode =>
      if sceneNode = 0 then forceShaderLoop rest s
      else
        match s.mem.read64 (addr64 sceneNode CascadeGroupOffset) with
        | none => (false, s)
        | some cg =>
          if cg = 0 then forceShaderLoop rest s
          else
            match s.mem.read64 (addr64 cg ShaderObjectOffset) with
            | none => (false, s)
            | some shader =>
              if shader = 0 then forceShaderLoop rest s
              else
                match forceField s.mem (addr64 shader 0x1D8) 4 with
                | none => (false, s)
                | some (stored, m1) =>
                  match forceField m1 (addr64 shader 0x168) 2 with
                  | none =>
                    (false, { s with mem := m1
                                     g_shaderFieldsForced := s.g_shaderFieldsForced || stored })
                  | some (_, m2) =>
                    match forceField m2 (addr64 shader 0x16A) 2 with
                    | none =>
                      (false, { s with mem := m2
                                       g_shaderFieldsForced :=
                                         s.g_shaderFieldsForced || stored })
                    | some (_, m3) =>
                      forceShaderLoop rest
                        { s with mem := m3
                                 g_shaderFieldsForced := s.g_shaderFieldsForced || stored }

/-- Function `ForceShaderFields()`. -/
def ForceShaderFields (s : State) : State :=
  if s.g_shaderFieldsForced then s
  else (forceShaderLoop [ShadowSceneNodePtr, ShadowSceneNodePtr2] s).2

/-- The byte at `a` set to 1 when it is 0; `none` is a fault. -/
def forceFlagByte (m : Mem) (a : Nat) : Option Mem :=
  match m.read8 a with
  | none => none
  | some v => if v = 0 then m.write8 a 1 else some m

/-- Function `ForceBothCascadeGroups()`. -/
def ForceBothCascadeGroups (s : State) : State :=
  if s.g_cascadeGroupsForced then s
  else
    match s.mem.read64 (addr64 s.base ShadowSceneNodePtr) with
    | none => s
    | some sceneNode1 =>
      if sceneNode1 = 0 then s
      else
        match s.mem.read64 (addr64 sceneNode1 CascadeGroupOffset) with
        | none => s
        | some cg1 =>
          if cg1 = 0 then s
          else
            match forceFlagByte s.mem (addr64 cg1 CascadeGroupVRFlag) with
            | none => s
            | some m1 =>
              match m1.read64 (addr64 s.base ShadowSceneNodePtr2) with
              | none => { s with mem := m1 }
              | some sceneNode2 =>
                if sceneNode2 ≠ 0 then
                  match m1.read64 (addr64 sceneNode2 CascadeGroupOffset) with
                  | none => { s with mem := m1 }
                  | some cg2 =>
                    if cg2 ≠ 0 then
                      match forceFlagByte m1 (addr64 cg2 CascadeGroupVRFlag) with
                      | none => { s with mem := m1 }
                      | some m2 => { s with mem := m2, g_cascadeGroupsForced := true }
                    else { s with mem := m1, g_cascadeGroupsForced := true }
                else { s with mem := m1, g_cascadeGroupsForced := true }

/-- Function `LogExtendedDiagnostics()`: it only loads and logs, so all it
leaves behind is its once-only flag. -/
def LogExtendedDiagnostics (s : State) : State :=
  { s with g_extDiagLogged := true }

/-- What the environment answers during one call into the engine: the address
`VirtualAlloc(nullptr, ...)` would return, whether `CreateTimerQueueTimer`
would succeed, and the bit pattern the FPU gives for `origDist2 * 5.0f`. -/
structure Oracle where
  pick : Nat
  timerOk : Bool
  scaled : Nat

/-- The wrapping increment `InterlockedIncrement` applies to a `long`. -/
def incLong (c : Int) : Int := sext32 ((c + 1) % 4294967296).toNat

/-- Function `ExpansionTimerCallback`. -/
def ExpansionTimerCallback (o : Oracle) (s : State) : State :=
  let tick := incLong s.s_tickCount
  let s1 := ForceShaderFields (FixSetupSceneNode (ForceBothCascadeGroups
    (ForceCascadeCount4 { s with s_tickCount := tick })))
  if !s1.g_maskRestored then
    TryRestoreMaskRotation (TryExpandVRArray o.pick s1)
  else if tick > 30 then
    if (LogExtendedDiagnostics s1).g_extDiagLogged && (LogExtendedDiagnostics s1).g_timerHandle
    then { LogExtendedDiagnostics s1 with g_timerHandle := false }
    else LogExtendedDiagnostics s1
  else s1

/-- Function `StartExpansionTimer()`. -/
def StartExpansionTimer (timerOk : Bool) (s : State) : State :=
  if s.g_timerStarted then s
  else if !s.g_maskSafe then s
  else if s.g_maskRestored then s
  else if timerOk then { s with g_timerStarted := true, g_timerHandle := true }
  else { s with g_timerStarted := false, g_timerHandle := false }

/-- Function `EnsureInitialized()`. -/
def EnsureInitialized (o : Oracle) (s : State) : State :=
  if s.g_timerStarted then s
  else
    StartExpansionTimer o.timerOk (ClampMask (TryRestoreMaskRotation (TryExpandVRArray o.pick
      (writeShadowDistance o.scaled (PatchStereoDispatch (PatchShaderCtor (ApplyMaskSafeMode
        (PatchCountReadSites (CheckTextDecrypted
          (ForceCascadeCount4 { s with g_logInitialized := true })).2))))))))

/-- What can happen to the process: a call of `EnsureInitialized` from the
proxy, a tick of the timer, or the host rewriting its own memory. -/
inductive Event where
  | ensure (o : Oracle)
  | tick (o : Oracle)
  | host (m : Mem)

/-- The state after one event. -/
def step (s : State) : Event → State
  | .ensure o => EnsureInitialized o s
  | .tick o => ExpansionTimerCallback o s
  | .host m => { s with mem := m }

/-- The state after a sequence of events. -/
def run (s : State) : List Event → State
  | [] => s
  | e :: es => run (step s e) es

/-- The state of the engine when the process starts with memory `m` and the
image loaded at `base`: no flag set, no cave, no timer. -/
def initState (m : Mem) (base : Nat) : State :=
  { decryptedState m base with g_textDecrypted := false }

/-- An engine state over memory `m` in which every stage flag is set. -/
def completedState (m : Mem) (base : Nat) : State :=
  { decryptedState m base with
      g_countReadsPatched := true
      g_shaderPatched := true
      g_maskSafe := true
      g_vrExpanded := true
      g_maskRestored := true
      g_nullSafePatched := true
      g_nodeAllocPatched := true
      g_entryZeroInitPatched := true
      g_ptrValidationPatched := true }

/-! ## Invariants of the state machine -/

/-- Every stage completion flag that is set in `s` is set in `t`. -/
def FlagsGrow (s t : State) : Prop :=
  (s.g_textDecrypted = true → t.g_textDecrypted = true) ∧
  (s.g_countReadsPatched = true → t.g_countReadsPatched = true) ∧
  (s.g_maskSafe = true → t.g_maskSafe = true) ∧
  (s.g_shaderPatched = true → t.g_shaderPatched = true) ∧
  (s.g_vrExpanded = true → t.g_vrExpanded = true) ∧
  (s.g_entryZeroInitPatched = true → t.g_entryZeroInitPatched = true) ∧
  (s.g_nodeAllocPatched = true → t.g_nodeAllocPatched = true) ∧
  (s.g_nullSafePatched = true → t.g_nullSafePatched = true) ∧
  (s.g_ptrValidationPatched = true → t.g_ptrValidationPatched = true) ∧
  (s.g_maskRestored = true → t.g_maskRestored = true)

/-- The gates between the stages: every stage that patches code has run with
TextDecrypted set, and MaskRestored has run with SafeModePatched, ArrayExpanded
and the four trampoline flags set. -/
def Gated (s : State) : Prop :=
  (s.g_countReadsPatched = true → s.g_textDecrypted = true) ∧
  (s.g_maskSafe = true → s.g_textDecrypted = true) ∧
  (s.g_shaderPatched = true → s.g_textDecrypted = true) ∧
  (s.g_entryZeroInitPatched = true → s.g_textDecrypted = true) ∧
  (s.g_nodeAllocPatched = true → s.g_textDecrypted = true) ∧
  (s.g_nullSafePatched = true → s.g_textDecrypted = true) ∧
  (s.g_ptrValidationPatched = true → s.g_textDecrypted = true) ∧
  (s.g_maskRestored = true →
    s.g_textDecrypted = true ∧ s.g_maskSafe = true ∧ s.g_vrExpanded = true ∧
    s.g_entryZeroInitPatched = true ∧ s.g_nodeAllocPatched = true ∧
    s.g_nullSafePatched = true ∧ s.g_ptrValidationPatched = true)

/-- What one piece of the engine may do to the flags: set more of them, and
keep the gates. -/
def Advance (s t : State) : Prop := FlagsGrow s t ∧ (Gated s → Gated t)


/-! ## The steps shared by the four trampoline stages -/

/-- The steps the four trampoline stages run once the site bytes are accepted:
allocate a block near the site, emit `code` into it, open the site, overwrite
it with the jump, restore the protection.  Returns the value the stage stores
in its cave pointer, the memory left behind and whether the site was
overwritten. -/
def installTrampoline (m : Mem) (site n size : Nat) (code : Nat → List Nat) :
    Nat × Mem × Bool :=
  match AllocateNearby m site size with
  | (0, m1) => (0, m1, false)
  | (c + 1, m1) =>
    match m1.writeBytes (c + 1) (code (c + 1)) with
    | (false, m2) => (c + 1, m2, false)
    | (true, m2) =>
      match VirtualProtect m2 site n PAGE_EXECUTE_READWRITE with
      | none => (0, VirtualFree m2 (c + 1) size, false)
      | some (oldProtect, m3) =>
        match m3.writeBytes site (jmpPatch (c + 1) site n) with
        | (false, m4) => (c + 1, m4, false)
        | (true, m4) => (c + 1, restoreProtect m4 site n oldProtect, true)

/-- The ten stage completion flags of `t` are those of `s`. -/
def SameStage (s t : State) : Prop :=
  t.g_textDecrypted = s.g_textDecrypted ∧
  t.g_countReadsPatched = s.g_countReadsPatched ∧
  t.g_maskSafe = s.g_maskSafe ∧
  t.g_shaderPatched = s.g_shaderPatched ∧
  t.g_vrExpanded = s.g_vrExpanded ∧
  t.g_entryZeroInitPatched = s.g_entryZeroInitPatched ∧
  t.g_nodeAllocPatched = s.g_nodeAllocPatched ∧
  t.g_nullSafePatched = s.g_nullSafePatched ∧
  t.g_ptrValidationPatched = s.g_ptrValidationPatched ∧
  t.g_maskRestored = s.g_maskRestored

/-! ## The plugin `ShadowBoostF4VR` (`ShadowBoost.cpp`, `ShadowBoost.h`, `Config.h`) -/

namespace SharedShadowFix

/-- Offset of the disp8 byte of `MOV RCX,[R15+0x58]`. -/
def RightActivate_Offset : Nat := 0x290d9d0
/-- Offset of the disp8 byte of `MOV RDX,[R15+0x58]`. -/
def RightDispatch_Offset : Nat := 0x290d9d9
/-- Constant `OldDisp`. -/
def OldDisp : Nat := 0x58
/-- Constant `NewDisp`. -/
def NewDisp : Nat := 0x50

/-- The lambda `patchByte` of `SharedShadowFix::Apply`: its result, the counter
`applied` and the memory afterwards.  The lambda has no exception handler, so
an access violation ends the process: `none`. -/
def patchByte (base : Nat) (m : Mem) (applied : Int) (offset oldVal newVal : Nat) :
    Option (Bool × Int × Mem) :=
  match m.read8 (addr64 base offset) with
  | none => none
  | some b =>
    if b = newVal % 256 then some (true, applied + 1, m)
    else if b ≠ oldVal % 256 then some (false, applied, m)
    else
      match VirtualProtect m (addr64 base offset) 1 PAGE_EXECUTE_READWRITE with
      | none => some (false, applied, m)
      | some (oldProtect, m1) =>
        match m1.write8 (addr64 base offset) newVal with
        | none => none
        | some m2 =>
          some (true, applied + 1, restoreProtect m2 (addr64 base offset) 1 oldProtect)

/-- Function `SharedShadowFix::Apply()` for the module loaded at `base`. -/
def Apply (base : Nat) (m : Mem) : Option (Bool × Mem) :=
  match patchByte base m 0 RightActivate_Offset OldDisp NewDisp with
  | none => none
  | some (_, applied1, m1) =>
    match patchByte base m1 applied1 RightDispatch_Offset OldDisp NewDisp with
    | none => none
    | some (_, applied2, m2) => some (decide (applied2 = 2), m2)

end SharedShadowFix

namespace ShadowBoost

/-- Constant `MaxBlockLevels` of `Config.h`. -/
def MaxBlockLevels : Int := 4

/-- Function `std::clamp(v, lo, hi)` on `int`. -/
def clamp (v lo hi : Int) : Int := if v < lo then lo else if hi < v then hi else v

/-- The result of an `int` addition as the machine keeps it. -/
def int32 (v : Int) : Int := sext32 (v % 4294967296).toNat

/-- The members of `ShadowBoost` that decide whether `update` runs and which
block level it selects. -/
structure Controller where
  /-- `_config != nullptr` -/
  configSet : Bool
  _initialized : Bool
  _blockIndex : Int

/-- What one call of `update` finds: the outcome of the throttle test
`_frameCount < fFpsDelay`, the switches of the configuration, whether the three
block-level settings were found, and the outcomes of the four comparisons on
`float` values that guard the two changes of `_blockIndex`. -/
structure Frame where
  throttled : Bool
  bAutoAdjust : Bool
  bBlockEnable : Bool
  blockSettingsFound : Bool
  /-- `shadowDist <= _config->fShadowMin` -/
  atMin : Bool
  /-- `dyn > 0.0f` -/
  dynPositive : Bool
  /-- `shadowDist >= _config->fShadowMax` -/
  atMax : Bool
  /-- `dyn <= 0.0f` -/
  dynNotPositive : Bool

/-- Function `ShadowBoost::init(config)`: `settingsOk` is the result of
`cacheGameSettings`. -/
def init (c : Controller) (settingsOk : Bool) : Controller :=
  if !settingsOk then { c with configSet := true }
  else { configSet := true, _initialized := true, _blockIndex := 0 }

/-- Function `ShadowBoost::update(deltaTime)`, as far as `_blockIndex` goes. -/
def update (c : Controller) (f : Frame) : Controller :=
  if !c.configSet || !c._initialized then c
  else if f.throttled then c
  else if f.bAutoAdjust && f.bBlockEnable && f.blockSettingsFound then
    let i1 :=
      if f.atMin && f.dynPositive then
        clamp (int32 (c._blockIndex + 1)) 0 (MaxBlockLevels - 1)
      else c._blockIndex
    let i2 :=
      if f.atMax && f.dynNotPositive then clamp (int32 (i1 - 1)) 0 (MaxBlockLevels - 1)
      else i1
    { c with _blockIndex := i2 }
  else c

/-- The controller after a sequence of `update` calls. -/
def updates (c : Controller) : List Frame → Controller
  | [] => c
  | f :: fs => updates (update c f) fs

end ShadowBoost

/-- A memory whose bytes are given by `f`, with every page mapped
`PAGE_READWRITE`, every protection change granted, every granule free and the
allocation granularity of 64 KiB. -/
def dataMem (f : Nat → Nat) : Mem :=
  { byte := f
    prot := fun _ => 0x04
    protectOk := fun _ => true
    free := fun _ => true
    granularity := 0x10000
    allocCalls := 0 }

/-! ## The instructions of the trampolines -/

namespace X86

/-- The byte at offset `k` of `bs`, 0 past its end. -/
def byteAt : List Nat → Nat → Nat
  | [], _ => 0
  | b :: _, 0 => b
  | _ :: bs, k + 1 => byteAt bs k

/-- Sign extension of an 8-bit displacement. -/
def sext8 (v : Nat) : Int := if v < 128 then (v : Int) else (v : Int) - 256

/-- Length of a ModRM byte together with the SIB byte and the displacement it
announces; `sib` is the byte that follows it. -/
def modrmLength (modrm sib : Nat) : Nat :=
  if modrm / 64 = 3 then 1
  else
    1 + (if modrm % 8 = 4 then 1 else 0) +
      (if modrm / 64 = 1 then 1
       else if modrm / 64 = 2 then 4
       else if modrm % 8 = 5 then 4
       else if modrm % 8 = 4 ∧ sib % 8 = 5 then 4
       else 0)

/-- Length of the instruction that starts with the opcode byte at the head of
`bs` (any REX prefix already removed), for the opcodes the trampolines use:
Jcc rel8, JMP rel8, JMP rel32, PUSH/POP r64, TEST/MOV/LEA/XOR with a ModRM
operand, MOV r/m, imm32 and the group-1 and shift forms with an imm8. -/
def opLength : List Nat → Option Nat
  | [] => none
  | op :: rest =>
    if (0x70 ≤ op ∧ op ≤ 0x7F) ∨ op = 0xEB then some 2
    else if op = 0xE9 then some 5
    else if 0x50 ≤ op ∧ op ≤ 0x5F then some 1
    else if op = 0x85 ∨ op = 0x89 ∨ op = 0x8B ∨ op = 0x8D ∨ op = 0x31 then
      some (1 + modrmLength (byteAt rest 0) (byteAt rest 1))
    else if op = 0xC7 then some (1 + modrmLength (byteAt rest 0) (byteAt rest 1) + 4)
    else if op = 0x83 ∨ op = 0xC1 then
      some (1 + modrmLength (byteAt rest 0) (byteAt rest 1) + 1)
    else none

/-- Length of the instruction at the head of `bs`, with its REX prefix if it
has one. -/
def instrLength : List Nat → Option Nat
  | [] => none
  | b :: rest =>
    if 0x40 ≤ b ∧ b ≤ 0x4F then
      match opLength rest with
      | none => none
      | some n => some (n + 1)
    else opLength (b :: rest)

/-- The offsets at which the instructions start when `bs`, the bytes from
offset `k` of a block on, are decoded one instruction after the other; `none`
when a byte sequence is not an instruction of the subset or the last
instruction runs past the end. -/
def scan : Nat → Nat → List Nat → Option (List Nat)
  | 0, _, _ => none
  | _ + 1, _, [] => some []
  | fuel + 1, k, b :: bs =>
    match instrLength (b :: bs) with
    | none => none
    | some n =>
      if (b :: bs).length < n then none
      else
        match scan fuel (k + n) ((b :: bs).drop n) with
        | none => none
        | some ks => some (k :: ks)

/-- The offsets at which the instructions of the block `code` start. -/
def starts (code : List Nat) : Option (List Nat) := scan (code.length + 1) 0 code

/-- Whether the instruction at offset `k` of `code` is a short branch. -/
def isShortBranch (code : List Nat) (k : Nat) : Bool :=
  (0x70 ≤ byteAt code k && byteAt code k ≤ 0x7F) || byteAt code k == 0xEB

/-- The offset a short branch at offset `k` of `code` goes to when taken. -/
def shortTarget (code : List Nat) (k : Nat) : Int :=
  (k : Int) + 2 + sext8 (byteAt code (k + 1))

end X86

/-- The offsets the short branches among the instructions starting at `ks` go
to, in the order of the branches. -/
def X86.shortBranchTargets (code : List Nat) (ks : List Nat) : List Int :=
  (ks.filter (fun k => X86.isShortBranch code k)).map (X86.shortTarget code)

/-- A process in which every page is `PAGE_READWRITE` and whose memory holds the
host array header of `VRArrayExpansion` for the image at `gameBase`: the
buffer pointer `buf`, `capacity` and `count`; the byte at offset `k` of the
buffer is `fill k`, and every other byte is zero. -/
def arrayMem (buf capacity count : Nat) (fill : Nat → Nat) : Mem :=
  dataMem (fun x =>
    if gameBase + VRArrayExpansion.ArrayPtr ≤ x ∧ x < gameBase + VRArrayExpansion.ArrayPtr + 8
    then (leBytes 8 buf).getD (x - (gameBase + VRArrayExpansion.ArrayPtr)) 0
    else if x = gameBase + VRArrayExpansion.ArrayPtr + 8 then capacity
    else if x = gameBase + VRArrayExpansion.ArrayCount then count
    else if buf ≤ x ∧ x < buf + 4 * VRArrayExpansion.EntrySize then fill (x - buf)
    else 0)

/-- An entry image for `arrayMem`: non-zero bytes up to the first pool of entry
0 and zero bytes from there on, so that every pool of the buffer is empty with
a null tail. -/
def sampleFill (k : Nat) : Nat := if k < 0x70 then k % 7 + 1 else 0

/-- The memory `m1` differs from `m` at most inside `[lo, hi)`: the bytes
outside the range and the protection of every page that lies wholly outside
it are those of `m`, and so are the free granules, the pages open to a
protection change and the allocation granularity. -/
def Mem.SameOutside (lo hi : Nat) (m m1 : Mem) : Prop :=
  m1.free = m.free ∧ m1.protectOk = m.protectOk ∧ m1.granularity = m.granularity ∧
  (∀ x, x < lo ∨ hi ≤ x → m1.byte x = m.byte x) ∧
  (∀ p, 4096 * p + 4096 ≤ lo ∨ hi ≤ 4096 * p → m1.prot p = m.prot p)

/-- A host process for the first pass of the engine: the memory of `arrayMem`
with a two-entry buffer at 0x20000000, and the sentinel byte 0x48 in the image
at `gameBase`.  The scene-node pointer and the code at the patch sites are
zero. -/
def firstPassMem : Mem :=
  dataMem (fun x =>
    if x = gameBase + TextSentinel then 0x48
    else (arrayMem 0x20000000 2 2 sampleFill).byte x)

/-- The byte at `x` of an image made of little-endian fields `(address, size,
value)`; every byte outside the fields is zero. -/
def fieldsByte : List (Nat × Nat × Nat) → Nat → Nat
  | [], _ => 0
  | (a, n, v) :: rest, x =>
    if a ≤ x ∧ x < a + n then (leBytes n v).getD (x - a) 0 else fieldsByte rest x

/-- A host process whose scene-node global points to a scene node at
0x40000000 with a cascade group at 0x40001000; the flat array of the group
reports count 4 (at +0x190), buffer 0x40002000 (at +0x198) and capacity 2 (at
+0x1A0), and each of its entries 0..3 holds a non-null shadow-map pointer. -/
def flatMem : Mem :=
  dataMem (fieldsByte
    [(gameBase + ShadowSceneNodePtr, 8, 0x40000000),
     (0x40000000 + CascadeGroupOffset, 8, 0x40001000),
     (0x40001000 + FlatCountOffset, 4, 4),
     (0x40001000 + FlatBufferOffset, 8, 0x40002000),
     (0x40001000 + 0x1A0, 4, 2),
     (0x40002000 + 0 * FlatEntrySize + FlatShadowMapOff, 8, 1),
     (0x40002000 + 1 * FlatEntrySize + FlatShadowMapOff, 8, 1),
     (0x40002000 + 2 * FlatEntrySize + FlatShadowMapOff, 8, 1),
     (0x40002000 + 3 * FlatEntrySize + FlatShadowMapOff, 8, 1)])

/-- The memories `m` and `m1` hold the same bytes, protections and free
granules: they differ at most in the count of allocation calls. -/
def Mem.SameData (m m1 : Mem) : Prop :=
  m1.byte = m.byte ∧ m1.prot = m.prot ∧ m1.free = m.free ∧ m1.protectOk = m.protectOk ∧
  m1.granularity = m.granularity

/-- The memory `m1` is `m` after the OS has handed out the free granule `c` as
a zeroed block of `size` bytes that can be read, written and executed. -/
def Mem.Allocated (c size : Nat) (m m1 : Mem) : Prop :=
  m.free c = true ∧ c ≠ 0 ∧ c + size ≤ 18446744073709551616 ∧
  (∀ x, m1.byte x = if c ≤ x ∧ x < c + size then 0 else m.byte x) ∧
  (∀ p, m1.prot p = if c / 4096 ≤ p ∧ p ≤ (c + size - 1) / 4096 then 0x40 else m.prot p) ∧
  (∀ a, m1.free a = if a = c then false else m.free a) ∧
  m1.protectOk = m.protectOk ∧ m1.granularity = m.granularity

/-- The block at `cave` after a trampoline patch, as the specification words
it: `m1` holds the emitted `code` at `cave`; the `n` bytes that `m` held at
`site` stand verbatim at offset `off` of the code; and at each offset of
`jumps` stands the displacement of an E9 jump that decodes to `site + n`. -/
def Relocated (m m1 : Mem) (site n cave : Nat) (code : List Nat) (off : Nat)
    (jumps : List Nat) : Prop :=
  (∀ k, k < code.length → m1.byte (cave + k) = code.getD k 0 % 256) ∧
  (∀ k, k < n → m.byte (site + k) % 256 = code.getD (off + k) 0) ∧
  (∀ j, j ∈ jumps → code.getD (j - 1) 0 = 0xE9 ∧ emitsExact code j (site + n) (cave + j + 4))

/-- A host process for the trampoline stages: the image at `gameBase` holds
`code` from `site` on and takes up 0x7000000 bytes, protection changes are
granted, and the free granules are the ones above the image. -/
def hostedMem (site : Nat) (code : List Nat) : Mem :=
  { codeMem site code true with free := fun a => decide (gameBase + 0x7000000 ≤ a) }

/-- The process of `flatMem` with the image pages at `gameBase` mapped
`PAGE_EXECUTE_READ`, every other page readable and writable, and the free
granules above the image. -/
def flatHostMem : Mem :=
  { flatMem with
      prot := fun p =>
        if gameBase / 4096 ≤ p ∧ p < (gameBase + 0x7000000) / 4096 then 0x20 else 0x04
      free := fun a => decide (gameBase + 0x7000000 ≤ a) }

/-! ## Executing an emitted block -/

namespace X86

/-- The registers the validation block uses, the zero flag and the memory, a
byte for every address, with the addresses of the quadwords loaded and stored
so far, the latest first. -/
structure Cpu where
  rax : Nat
  r12 : Nat
  r14 : Nat
  rsp : Nat
  zf : Bool
  mem : Nat → Nat
  loads : List Nat
  stores : List Nat

/-- Where execution goes after an instruction: to an offset of the block, or out
of it to an address. -/
inductive Next where
  | inside (pc : Nat)
  | leave (target : Nat)

/-- The quadword at address `a`, least significant byte first. -/
def load64 (mem : Nat → Nat) (a : Nat) : Nat :=
  leValue ((List.range 8).map (fun k => mem (a + k) % 256))

/-- The memory after the quadword `v` is stored at address `a`. -/
def store64 (mem : Nat → Nat) (a v : Nat) : Nat → Nat :=
  fun x => if a ≤ x ∧ x < a + 8 then v / 256 ^ (x - a) % 256 else mem x

/-- The `n` bytes of `code` from offset `pc` on. -/
def bytesAt (code : List Nat) (pc n : Nat) : List Nat := (code.drop pc).take n

/-- Where a Jcc rel8 at offset `pc` with displacement byte `d` goes. -/
def branch (pc d : Nat) (taken : Bool) : Option Next :=
  if taken then
    if (pc : Int) + 2 + sext8 d < 0 then none
    else some (Next.inside ((pc : Int) + 2 + sext8 d).toNat)
  else some (Next.inside (pc + 2))

/-- One instruction of the block `code`, which lies at address `cave`, executed
at offset `pc`: `test r14, r14`, `test eax, eax`, `mov rax, r14`,
`mov eax, r14d`, `shr rax, imm8`, `xor r14d, r14d`, `push rax`, `pop rax`,
`mov qword [r12], imm32`, `jz rel8`, `jnz rel8` and `jmp rel32`. A quadword
access that would run past the end of the address space, and any other byte
sequence, gives `none`. -/
def exec (code : List Nat) (cave pc : Nat) (c : Cpu) : Option (Cpu × Next) :=
  if bytesAt code pc 3 = [0x4D, 0x85, 0xF6] then
    some ({ c with zf := decide (c.r14 = 0) }, Next.inside (pc + 3))
  else if bytesAt code pc 2 = [0x85, 0xC0] then
    some ({ c with zf := decide (c.rax % 4294967296 = 0) }, Next.inside (pc + 2))
  else if bytesAt code pc 3 = [0x4C, 0x89, 0xF0] then
    some ({ c with rax := c.r14 }, Next.inside (pc + 3))
  else if bytesAt code pc 3 = [0x44, 0x89, 0xF0] then
    some ({ c with rax := c.r14 % 4294967296 }, Next.inside (pc + 3))
  else if bytesAt code pc 3 = [0x48, 0xC1, 0xE8] then
    if byteAt code (pc + 3) % 64 = 0 then some (c, Next.inside (pc + 4))
    else
      some ({ c with
              rax := c.rax / 2 ^ (byteAt code (pc + 3) % 64)
              zf := decide (c.rax / 2 ^ (byteAt code (pc + 3) % 64) = 0) },
            Next.inside (pc + 4))
  else if bytesAt code pc 3 = [0x45, 0x31, 0xF6] then
    some ({ c with r14 := 0, zf := true }, Next.inside (pc + 3))
  else if bytesAt code pc 1 = [0x50] then
    if 18446744073709551616 < wrap64 ((c.rsp : Int) - 8) + 8 then none
    else
      some ({ c with
              rsp := wrap64 ((c.rsp : Int) - 8)
              mem := store64 c.mem (wrap64 ((c.rsp : Int) - 8)) c.rax
              stores := wrap64 ((c.rsp : Int) - 8) :: c.stores },
            Next.inside (pc + 1))
  else if bytesAt code pc 1 = [0x58] then
    if 18446744073709551616 < c.rsp + 8 then none
    else
      some ({ c with
              rax := load64 c.mem c.rsp
              rsp := wrap64 ((c.rsp : Int) + 8)
              loads := c.rsp :: c.loads },
            Next.inside (pc + 1))
  else if bytesAt code pc 4 = [0x49, 0xC7, 0x04, 0x24] then
    if 18446744073709551616 < c.r12 + 8 then none
    else
      some ({ c with
              mem := store64 c.mem c.r12 (wrap64 (rel32At code (pc + 4)))
              stores := c.r12 :: c.stores },
            Next.inside (pc + 8))
  else if bytesAt code pc 1 = [0x74] then
    (branch pc (byteAt code (pc + 1)) c.zf).map (fun n => (c, n))
  else if bytesAt code pc 1 = [0x75] then
    (branch pc (byteAt code (pc + 1)) (!c.zf)).map (fun n => (c, n))
  else if bytesAt code pc 1 = [0xE9] then
    some (c, Next.leave (wrap64 ((cave : Int) + pc + 5 + rel32At code (pc + 1))))
  else none

/-- The block `code` at address `cave` executed from offset `pc` for at most
`fuel` instructions: the state and the address at which it leaves the block. -/
def run (code : List Nat) (cave : Nat) : Nat → Nat → Cpu → Option (Cpu × Nat)
  | 0, _, _ => none
  | fuel + 1, pc, c =>
    match exec code cave pc c with
    | none => none
    | some (c1, Next.inside pc1) => run code cave fuel pc1 c1
    | some (c1, Next.leave t) => some (c1, t)

end X86

/-- A processor state with the candidate pointer `p` in R14, the slot address
0x1000 in R12, the stack pointer at 0x8000, 0x1122334455667788 in RAX and a
memory in which the quadword of the slot is `slot` and every other byte is
zero. -/
def sampleCpu (p slot : Nat) : X86.Cpu :=
  { rax := 0x1122334455667788
    r12 := 0x1000
    r14 := p
    rsp := 0x8000
    zf := false
    mem := fun x => if 0x1000 ≤ x ∧ x < 0x1008 then slot / 256 ^ (x - 0x1000) % 256 else 0
    loads := []
    stores := [] }

/-- An entry image for `arrayMem` like `sampleFill`, except that the second
pool of entry 0 has the tail 0x5A: the byte at offset 0xB0 of the buffer. -/
def tailFill (k : Nat) : Nat := if k < 0x70 then k % 7 + 1 else if k = 0xB0 then 0x5A else 0

theorem read8_lt {m : Mem} {a b : Nat} (h : m.read8 a = some b) : b < 256 := by
  unfold Mem.read8 at h
  split at h
  · simp only [Option.some.injEq] at h
    omega
  · simp at h

theorem read8_readable {m : Mem} {a b : Nat} (h : m.read8 a = some b) :
    m.readable a = true := by
  unfold Mem.read8 at h
  split at h
  · assumption
  · simp at h

theorem PatchByte_mismatch (m : Mem) (a e n b : Nat) (hread : m.read8 a = some b)
    (hne : b ≠ e % 256) : PatchByte m a e n = (false, m) := by
  unfold PatchByte
  rw [hread]
  simp [hne]

theorem VirtualProtect_one (m : Mem) (a np : Nat) :
    VirtualProtect m a 1 np =
      if m.protectOk (a / 4096) = true ∧ m.prot (a / 4096) ≠ 0 then
        some (m.prot (a / 4096),
          { m with prot := fun p => if p = a / 4096 then np else m.prot p })
      else none := by
  unfold VirtualProtect
  simp only [Nat.add_sub_cancel, Nat.sub_self, Nat.zero_add, pagesOk, Nat.add_zero,
    Bool.and_true, Bool.and_eq_true, bne_iff_ne, ne_eq]
  have h : ∀ p : Nat, (a / 4096 ≤ p ∧ p ≤ a / 4096) ↔ p = a / 4096 := by
    intro p; omega
  simp only [h]

theorem PatchByte_success (m : Mem) (a e n : Nat) (hread : m.read8 a = some (e % 256))
    (hok : m.protectOk (a / 4096) = true) :
    PatchByte m a e n = (true, m.setByte a n) := by
  have hr := read8_readable hread
  unfold Mem.readable at hr
  simp only [Bool.and_eq_true, decide_eq_true_eq] at hr
  obtain ⟨hcr, hlt⟩ := hr
  have hp0 : m.prot (a / 4096) ≠ 0 := by
    intro h0
    rw [h0] at hcr
    simp [canRead] at hcr
  unfold PatchByte
  rw [hread]
  simp only [ne_eq, not_true_eq_false, if_false, VirtualProtect_one, hok, hp0,
    not_false_eq_true, and_self, if_true]
  simp only [Mem.write8, Mem.writable, hlt, decide_True, Bool.true_and, if_true,
    PAGE_EXECUTE_READWRITE, canWrite, restoreProtect, VirtualProtect_one, Mem.setByte]
  simp
  rw [if_pos hok]
  show Mem.mk _ _ _ _ _ _ = Mem.mk _ _ _ _ _ _
  congr 1
  funext p
  by_cases hp : p = a / 4096
  · simp [hp]
  · simp [hp]

/-- C1 (as the source behaves): when the byte at `a` already holds `newVal` and
`newVal` differs from `expectedVal`, `PatchByte` reports failure and leaves the
memory as it found it. -/
theorem PatchByte_already_new_value (m : Mem) (a expectedVal newVal : Nat)
    (he : expectedVal < 256) (hread : m.read8 a = some newVal)
    (hne : newVal ≠ expectedVal) :
    PatchByte m a expectedVal newVal = (false, m) := by
  apply PatchByte_mismatch m a expectedVal newVal newVal hread
  rw [Nat.mod_eq_of_lt he]
  exact hne

/-- C1, witness: the restored mask literal 0x0F met by `PatchByte(…, 0x03, 0x0F)`. -/
theorem PatchByte_already_new_value_witness :
    PatchByte (imageMem (fun _ => 0x0F) true) 0x14284e9fb 0x03 0x0F
      = (false, imageMem (fun _ => 0x0F) true) :=
  PatchByte_already_new_value (imageMem (fun _ => 0x0F) true) 0x14284e9fb 0x03 0x0F
    (by decide) (by decide) (by decide)

/-- C1, counterexample: the byte at the site already equals `newVal` (0x0F, not
the expected 0x03), every protection change would be granted, and `PatchByte`
still returns false. -/
theorem PatchByte_already_applied_reports_failure :
    (imageMem (fun _ => 0x0F) true).read8 0x14284e9fb = some 0x0F ∧
      (PatchByte (imageMem (fun _ => 0x0F) true) 0x14284e9fb 0x03 0x0F).1 = false := by
  decide

/-- C2: when the byte at `a` equals neither `expectedVal` nor `newVal`,
`PatchByte` returns false and the memory is unmodified. -/
theorem PatchByte_unexpected_byte (m : Mem) (a expectedVal newVal b : Nat)
    (he : expectedVal < 256) (hread : m.read8 a = some b)
    (h1 : b ≠ expectedVal) (_h2 : b ≠ newVal) :
    PatchByte m a expectedVal newVal = (false, m) := by
  apply PatchByte_mismatch m a expectedVal newVal b hread
  rw [Nat.mod_eq_of_lt he]
  exact h1

/-- C2, witness: a foreign byte 0xCC at a mask literal. -/
theorem PatchByte_unexpected_byte_witness :
    PatchByte (imageMem (fun _ => 0xCC) true) 0x14284e9fb 0x0F 0x03
      = (false, imageMem (fun _ => 0xCC) true) :=
  PatchByte_unexpected_byte (imageMem (fun _ => 0xCC) true) 0x14284e9fb 0x0F 0x03 0xCC
    (by decide) (by decide) (by decide) (by decide)

/-- C3: when the byte at `a` equals `expectedVal`, a granted protection change
makes `PatchByte` return true with `newVal` at `a`, every other byte and the
page protections as before; a denied protection change makes it return false
with the memory unchanged. -/
theorem PatchByte_expected_byte (m : Mem) (a expectedVal newVal : Nat)
    (he : expectedVal < 256) (hn : newVal < 256)
    (hread : m.read8 a = some expectedVal) :
    ((VirtualProtect m a 1 PAGE_EXECUTE_READWRITE).isSome = true →
        (PatchByte m a expectedVal newVal).1 = true ∧
        (PatchByte m a expectedVal newVal).2.byte a = newVal ∧
        (∀ x, x ≠ a → (PatchByte m a expectedVal newVal).2.byte x = m.byte x) ∧
        (PatchByte m a expectedVal newVal).2.prot = m.prot) ∧
    ((VirtualProtect m a 1 PAGE_EXECUTE_READWRITE).isSome = false →
        PatchByte m a expectedVal newVal = (false, m)) := by
  have hread2 : m.read8 a = some (expectedVal % 256) := by
    rw [Nat.mod_eq_of_lt he]; exact hread
  constructor
  · intro hvp
    have hok : m.protectOk (a / 4096) = true := by
      rw [VirtualProtect_one] at hvp
      by_contra hc
      simp [hc] at hvp
    rw [PatchByte_success m a expectedVal newVal hread2 hok]
    refine ⟨rfl, ?_, ?_, rfl⟩
    · simp [Mem.setByte, Nat.mod_eq_of_lt hn]
    · intro x hx
      simp [Mem.setByte, hx]
  · intro hvp
    have hnone : VirtualProtect m a 1 PAGE_EXECUTE_READWRITE = none := by
      cases h : VirtualProtect m a 1 PAGE_EXECUTE_READWRITE with
      | none => rfl
      | some r => rw [h] at hvp; simp at hvp
    unfold PatchByte
    rw [hread2]
    simp [hnone]

/-- C3, witness: the safe-mode patch 0x0F to 0x03 of the initial mask literal. -/
theorem PatchByte_expected_byte_witness :
    (PatchByte (imageMem (fun _ => 0x0F) true) 0x14284e9fb 0x0F 0x03).1 = true ∧
    (PatchByte (imageMem (fun _ => 0x0F) true) 0x14284e9fb 0x0F 0x03).2.byte 0x14284e9fb
      = 0x03 ∧
    PatchByte (imageMem (fun _ => 0x0F) false) 0x14284e9fb 0x0F 0x03
      = (false, imageMem (fun _ => 0x0F) false) :=
  ⟨((PatchByte_expected_byte (imageMem (fun _ => 0x0F) true) 0x14284e9fb 0x0F 0x03
      (by decide) (by decide) (by decide)).1 (by decide)).1,
   ((PatchByte_expected_byte (imageMem (fun _ => 0x0F) true) 0x14284e9fb 0x0F 0x03
      (by decide) (by decide) (by decide)).1 (by decide)).2.1,
   (PatchByte_expected_byte (imageMem (fun _ => 0x0F) false) 0x14284e9fb 0x0F 0x03
      (by decide) (by decide) (by decide)).2 (by decide)⟩

/-! ### Stores, protection changes and what they leave alone -/

theorem writeBytes_outside (bs : List Nat) (m : Mem) (a x : Nat)
    (hx : x < a ∨ a + bs.length ≤ x) : (m.writeBytes a bs).2.byte x = m.byte x := by
  induction bs generalizing m a with
  | nil => rfl
  | cons b bs ih =>
    unfold Mem.writeBytes
    cases hw : m.write8 a b with
    | none => rfl
    | some m1 =>
      simp only
      have hm1 : m1 = m.setByte a b := by
        unfold Mem.write8 at hw
        split at hw
        · simp only [Option.some.injEq] at hw; exact hw.symm
        · simp at hw
      rw [ih m1 (a + 1) (by simp only [List.length_cons] at hx; omega), hm1]
      have hne : x ≠ a := by simp only [List.length_cons] at hx; omega
      simp [Mem.setByte, hne]

theorem writeBytes_inside (bs : List Nat) (m : Mem) (a k : Nat)
    (hok : (m.writeBytes a bs).1 = true) (hk : k < bs.length) :
    (m.writeBytes a bs).2.byte (a + k) = bs.getD k 0 % 256 := by
  induction bs generalizing m a k with
  | nil => simp at hk
  | cons b bs ih =>
    unfold Mem.writeBytes at hok ⊢
    cases hw : m.write8 a b with
    | none => rw [hw] at hok; simp at hok
    | some m1 =>
      rw [hw] at hok
      simp only at hok ⊢
      have hm1 : m1 = m.setByte a b := by
        unfold Mem.write8 at hw
        split at hw
        · simp only [Option.some.injEq] at hw; exact hw.symm
        · simp at hw
      cases k with
      | zero =>
        have h0 := writeBytes_outside bs m1 (a + 1) a (Or.inl (by omega))
        simp only [Nat.add_zero]
        rw [h0, hm1]
        simp [Mem.setByte]
      | succ k =>
        have h := ih m1 (a + 1) k hok (by simp only [List.length_cons] at hk; omega)
        have e : a + (k + 1) = a + 1 + k := by omega
        rw [e, h]
        simp

theorem writeBytes_frame (bs : List Nat) (m : Mem) (a : Nat) :
    (m.writeBytes a bs).2.prot = m.prot ∧ (m.writeBytes a bs).2.protectOk = m.protectOk ∧
    (m.writeBytes a bs).2.free = m.free ∧
    (m.writeBytes a bs).2.granularity = m.granularity ∧
    (m.writeBytes a bs).2.allocCalls = m.allocCalls := by
  induction bs generalizing m a with
  | nil => exact ⟨rfl, rfl, rfl, rfl, rfl⟩
  | cons b bs ih =>
    unfold Mem.writeBytes
    cases hw : m.write8 a b with
    | none => exact ⟨rfl, rfl, rfl, rfl, rfl⟩
    | some m1 =>
      simp only
      have hm1 : m1 = m.setByte a b := by
        unfold Mem.write8 at hw
        split at hw
        · simp only [Option.some.injEq] at hw; exact hw.symm
        · simp at hw
      have h := ih m1 (a + 1)
      rw [hm1] at h ⊢
      exact h

theorem VirtualProtect_byte {m m1 : Mem} {a n np old : Nat}
    (h : VirtualProtect m a n np = some (old, m1)) : m1.byte = m.byte := by
  unfold VirtualProtect at h
  simp only at h
  split at h
  · simp only [Option.some.injEq, Prod.mk.injEq] at h
    rw [← h.2]
  · simp at h

theorem restoreProtect_byte (m : Mem) (a n old : Nat) :
    (restoreProtect m a n old).byte = m.byte := by
  unfold restoreProtect
  cases h : VirtualProtect m a n old with
  | none => rfl
  | some r =>
    obtain ⟨o, m1⟩ := r
    exact VirtualProtect_byte h

/-! ### What an accepted rewrite went through -/

theorem PatchMovRipToImm_accepted {base : Nat} {m : Mem} {i g v : Nat}
    (h : (PatchMovRipToImm base m i g v).1 = true) :
    ∃ b0 modrm oldProtect m1 m2,
      m.read8 (wrap64 ((base : Int) + i)) = some b0 ∧
      m.read8 (wrap64 ((base : Int) + i) + opcodeIdxOf b0) = some 0x8B ∧
      m.read8 (wrap64 ((base : Int) + i) + opcodeIdxOf b0 + 1) = some modrm ∧
      modrm &&& 0xC7 = 0x05 ∧
      m.read32 (wrap64 ((base : Int) + i) + opcodeIdxOf b0 + 2)
        = some (wrap64 ((g : Int) - wrap64 ((i : Int) + (instrLenOf b0 : Nat))) % 4294967296) ∧
      VirtualProtect m (wrap64 ((base : Int) + i)) (instrLenOf b0) PAGE_EXECUTE_READWRITE
        = some (oldProtect, m1) ∧
      m1.writeBytes (wrap64 ((base : Int) + i))
        (buildMovImm (extRegOf b0) (regOf modrm) v (instrLenOf b0)) = (true, m2) ∧
      PatchMovRipToImm base m i g v
        = (true, restoreProtect m2 (wrap64 ((base : Int) + i)) (instrLenOf b0) oldProtect) := by
  have h' := h
  unfold PatchMovRipToImm at h'
  simp only at h'
  cases h0 : m.read8 (wrap64 ((base : Int) + i)) with
  | none => simp [h0] at h'
  | some b0 =>
    simp only [h0] at h'
    have hidx : (if isRex b0 = true then 1 else 0) = opcodeIdxOf b0 := rfl
    have hext : (isRex b0 && ((if isRex b0 = true then b0 else 0) &&& 4 != 0))
        = extRegOf b0 := by
      unfold extRegOf
      cases hr : isRex b0 <;> simp
    have hreg : ∀ x : Nat, x >>> 3 &&& 7 = regOf x := fun _ => rfl
    rw [hidx, hext] at h'
    have hlen : opcodeIdxOf b0 + 2 + 4 = instrLenOf b0 := rfl
    rw [hlen] at h'
    cases h1 : m.read8 (wrap64 ((base : Int) + i) + opcodeIdxOf b0) with
    | none => simp [h1] at h'
    | some opc =>
      simp only [h1] at h'
      by_cases hopc : opc = 0x8B
      swap
      · simp [hopc] at h'
      subst hopc
      simp only [ne_eq, not_true_eq_false, if_false] at h'
      cases h2 : m.read8 (wrap64 ((base : Int) + i) + opcodeIdxOf b0 + 1) with
      | none => simp [h2] at h'
      | some modrm =>
        simp only [h2] at h'
        by_cases hmod : modrm &&& 0xC7 = 0x05
        swap
        · simp [hmod] at h'
        simp only [hmod, not_true_eq_false, if_false] at h'
        cases h3 : m.read32 (wrap64 ((base : Int) + i) + opcodeIdxOf b0 + 2) with
        | none => simp [h3] at h'
        | some disp =>
          simp only [h3] at h'
          by_cases hd : disp = wrap64 ((g : Int) - wrap64 ((i : Int) + (instrLenOf b0 : Nat)))
              % 4294967296
          swap
          · simp [hd] at h'
          simp only [← hd, not_true_eq_false, if_false] at h'
          cases h4 : VirtualProtect m (wrap64 ((base : Int) + i))
              (instrLenOf b0) PAGE_EXECUTE_READWRITE with
          | none => simp [h4] at h'
          | some r =>
            obtain ⟨oldProtect, m1⟩ := r
            simp only [h4] at h'
            cases h5 : m1.writeBytes (wrap64 ((base : Int) + i))
                (buildMovImm (extRegOf b0) (regOf modrm) v (instrLenOf b0)) with
            | mk ok m2 =>
              cases ok with
              | false => simp [hreg, h5] at h'
              | true =>
                refine ⟨b0, modrm, oldProtect, m1, m2, rfl, h1, h2, hmod, ?_, h4, h5, ?_⟩
                · rw [← hd]; exact h3
                · unfold PatchMovRipToImm
                  simp only [h0, hidx, hext, hlen, hreg, h1, h2, h3, hmod, ← hd, h4, h5, ne_eq,
                    not_true_eq_false, if_false]

theorem read8_eq {m : Mem} {a b : Nat} (h : m.read8 a = some b) : b = m.byte a % 256 := by
  unfold Mem.read8 at h
  split at h
  · simp only [Option.some.injEq] at h; exact h.symm
  · simp at h

theorem wrap64_disp (g i len : Nat) :
    wrap64 ((g : Int) - wrap64 ((i : Int) + (len : Nat))) % 4294967296 = rel32 g (i + len) := by
  unfold wrap64 rel32
  omega

theorem sext32_rel32 (d s : Nat) (hlo : -2147483648 ≤ (d : Int) - s)
    (hhi : (d : Int) - s < 2147483648) : sext32 (rel32 d s) = (d : Int) - s := by
  unfold sext32 rel32
  split <;> omega

theorem sext32_rel32_mod (d s : Nat) :
    (sext32 (rel32 d s) - ((d : Int) - s)) % 4294967296 = 0 := by
  unfold sext32 rel32
  split <;> omega

theorem regOf_lt (x : Nat) : regOf x < 8 := by
  unfold regOf
  exact Nat.lt_of_le_of_lt Nat.and_le_right (by decide)

theorem PatchMovRipToImm_reject_shape (base : Nat) (m : Mem) (i g v : Nat)
    (hshape :
      m.byte (wrap64 ((base : Int) + i)
          + opcodeIdxOf (m.byte (wrap64 ((base : Int) + i)) % 256)) % 256 ≠ 0x8B ∨
      (m.byte (wrap64 ((base : Int) + i)
          + opcodeIdxOf (m.byte (wrap64 ((base : Int) + i)) % 256) + 1) % 256) &&& 0xC7
        ≠ 0x05) :
    PatchMovRipToImm base m i g v = (false, m) := by
  unfold PatchMovRipToImm
  simp only
  cases h0 : m.read8 (wrap64 ((base : Int) + i)) with
  | none => rfl
  | some b0 =>
    have e0 := read8_eq h0
    rw [← e0] at hshape
    have hidx : (if isRex b0 = true then 1 else 0) = opcodeIdxOf b0 := rfl
    simp only [hidx]
    cases h1 : m.read8 (wrap64 ((base : Int) + i) + opcodeIdxOf b0) with
    | none => rfl
    | some opc =>
      have e1 := read8_eq h1
      rw [← e1] at hshape
      simp only
      by_cases hopc : opc = 0x8B
      swap
      · simp [hopc]
      simp only [hopc, ne_eq, not_true_eq_false, if_false]
      cases h2 : m.read8 (wrap64 ((base : Int) + i) + opcodeIdxOf b0 + 1) with
      | none => rfl
      | some modrm =>
        have e2 := read8_eq h2
        rw [← e2] at hshape
        simp only
        rcases hshape with hs | hs
        · exact absurd hopc hs
        · simp [hs]

theorem PatchMovRipToImm_reject_disp (base : Nat) (m : Mem) (i g v d : Nat)
    (hread : m.read32 (wrap64 ((base : Int) + i)
        + opcodeIdxOf (m.byte (wrap64 ((base : Int) + i)) % 256) + 2) = some d)
    (hne : d ≠ rel32 g (i + instrLenOf (m.byte (wrap64 ((base : Int) + i)) % 256))) :
    PatchMovRipToImm base m i g v = (false, m) := by
  unfold PatchMovRipToImm
  simp only
  cases h0 : m.read8 (wrap64 ((base : Int) + i)) with
  | none => rfl
  | some b0 =>
    have e0 := read8_eq h0
    rw [← e0] at hread hne
    have hidx : (if isRex b0 = true then 1 else 0) = opcodeIdxOf b0 := rfl
    have hlen : opcodeIdxOf b0 + 2 + 4 = instrLenOf b0 := rfl
    simp only [hidx, hlen]
    cases h1 : m.read8 (wrap64 ((base : Int) + i) + opcodeIdxOf b0) with
    | none => rfl
    | some opc =>
      simp only
      by_cases hopc : opc = 0x8B
      swap
      · simp [hopc]
      simp only [hopc, ne_eq, not_true_eq_false, if_false]
      cases h2 : m.read8 (wrap64 ((base : Int) + i) + opcodeIdxOf b0 + 1) with
      | none => rfl
      | some modrm =>
        simp only
        by_cases hmod : modrm &&& 0xC7 = 0x05
        swap
        · simp [hmod]
        simp only [hmod, not_true_eq_false, if_false, hread, wrap64_disp]
        rw [if_pos hne]

theorem bytesAt_writeBytes (bs : List Nat) (m : Mem) (a : Nat)
    (hok : (m.writeBytes a bs).1 = true) (hall : ∀ x ∈ bs, x < 256) :
    (m.writeBytes a bs).2.bytesAt a bs.length = bs := by
  apply List.ext_getElem
  · simp [Mem.bytesAt]
  · intro k h1 h2
    simp only [Mem.bytesAt, List.getElem_map, List.getElem_range]
    rw [writeBytes_inside bs m a k hok h2, List.getD_eq_getElem bs 0 h2]
    exact Nat.mod_eq_of_lt (hall _ (List.getElem_mem h2))

theorem bytesAt_congr (m m1 : Mem) (a n : Nat) (h : m1.byte = m.byte) :
    m1.bytesAt a n = m.bytesAt a n := by
  unfold Mem.bytesAt
  rw [h]

theorem le32_lt (v : Nat) : ∀ x ∈ le32 v, x < 256 := by
  intro x hx
  simp only [le32, List.mem_cons, List.mem_singleton, List.not_mem_nil, or_false] at hx
  rcases hx with h | h | h | h <;> omega

theorem readLE32_le32 (v : Nat) (hv : v < 4294967296) (rest : List Nat) :
    readLE32 (le32 v ++ rest) = v := by
  simp only [readLE32, le32, List.cons_append, List.nil_append, List.getD_cons_zero,
    List.getD_cons_succ]
  omega

theorem buildMovImm_lt (e : Bool) (r v len : Nat) : ∀ x ∈ buildMovImm e r v len, x < 256 := by
  intro x hx
  unfold buildMovImm at hx
  simp only [List.mem_append, List.mem_replicate] at hx
  rcases hx with hx | hx
  · cases e
    · simp only [Bool.false_eq_true, if_false, List.mem_append, List.mem_singleton] at hx
      rcases hx with hx | hx
      · omega
      · exact le32_lt _ x hx
    · simp only [if_true, List.mem_append, List.mem_cons, List.mem_singleton,
        List.not_mem_nil, or_false] at hx
      rcases hx with (hx | hx) | hx
      · omega
      · omega
      · exact le32_lt _ x hx
  · omega

theorem isRex_of_extRegOf {b0 : Nat} (h : extRegOf b0 = true) : isRex b0 = true := by
  unfold extRegOf at h
  simp only [Bool.and_eq_true] at h
  exact h.1

theorem buildMovImm_length (b0 r v : Nat) :
    (buildMovImm (extRegOf b0) r v (instrLenOf b0)).length = instrLenOf b0 := by
  cases he : extRegOf b0
  · cases hr : isRex b0 <;> simp [buildMovImm, instrLenOf, opcodeIdxOf, hr, le32]
  · have hr := isRex_of_extRegOf he
    simp [buildMovImm, instrLenOf, opcodeIdxOf, hr, le32]

theorem PatchMovRipToImm_result {base : Nat} {m : Mem} {i g v : Nat}
    (h : (PatchMovRipToImm base m i g v).1 = true)
    (ip b0 modrm : Nat) (hip : ip = wrap64 ((base : Int) + i))
    (hb0 : b0 = m.byte ip % 256) (hmodrm : modrm = m.byte (ip + opcodeIdxOf b0 + 1) % 256) :
    m.read8 ip = some b0 ∧
    m.read8 (ip + opcodeIdxOf b0) = some 0x8B ∧
    modrm &&& 0xC7 = 0x05 ∧
    m.read32 (ip + opcodeIdxOf b0 + 2) = some (rel32 g (i + instrLenOf b0)) ∧
    (PatchMovRipToImm base m i g v).2.bytesAt ip (instrLenOf b0)
      = buildMovImm (extRegOf b0) (regOf modrm) v (instrLenOf b0) ∧
    (∀ x, x < ip ∨ ip + instrLenOf b0 ≤ x →
      (PatchMovRipToImm base m i g v).2.byte x = m.byte x) := by
  obtain ⟨c0, cm, old, m1, m2, h0, h1, h2, hmod, h3, h4, h5, hres⟩ :=
    PatchMovRipToImm_accepted h
  rw [← hip] at h0 h1 h2 h3 h4 h5 hres
  have e0 : c0 = b0 := by rw [hb0]; exact read8_eq h0
  subst e0
  have e2 : cm = modrm := by rw [hmodrm]; exact read8_eq h2
  subst e2
  rw [wrap64_disp] at h3
  have hlen := buildMovImm_length c0 (regOf cm) v
  have hok : (m1.writeBytes ip (buildMovImm (extRegOf c0) (regOf cm) v (instrLenOf c0))).1
      = true := by rw [h5]
  have hm2 : m2 = (m1.writeBytes ip (buildMovImm (extRegOf c0) (regOf cm) v
      (instrLenOf c0))).2 := by rw [h5]
  refine ⟨h0, h1, hmod, h3, ?_, ?_⟩
  · rw [hres]
    simp only
    rw [bytesAt_congr m2 _ ip _ (restoreProtect_byte m2 ip _ old), hm2]
    have hb := bytesAt_writeBytes _ m1 ip hok (buildMovImm_lt _ _ _ _)
    rw [hlen] at hb
    exact hb
  · intro x hx
    rw [hres]
    simp only
    rw [restoreProtect_byte, hm2, writeBytes_outside _ m1 ip x (by rw [hlen]; exact hx),
      VirtualProtect_byte h4]

/-- C4: an accepted rewrite stores exactly as many bytes as the original
instruction has (6 without a REX prefix, 7 with one), MOV-immediate and NOP
padding together, and changes no byte outside `[site, site + length)`. -/
theorem PatchMovRipToImm_length_invariant (base : Nat) (m : Mem) (i g v : Nat)
    (ip b0 modrm : Nat) (hip : ip = wrap64 ((base : Int) + i))
    (hb0 : b0 = m.byte ip % 256) (hmodrm : modrm = m.byte (ip + opcodeIdxOf b0 + 1) % 256)
    (h : (PatchMovRipToImm base m i g v).1 = true) :
    instrLenOf b0 = (if isRex b0 then 7 else 6) ∧
    (buildMovImm (extRegOf b0) (regOf modrm) v (instrLenOf b0)).length = instrLenOf b0 ∧
    (PatchMovRipToImm base m i g v).2.bytesAt ip (instrLenOf b0)
      = buildMovImm (extRegOf b0) (regOf modrm) v (instrLenOf b0) ∧
    (∀ x, x < ip ∨ ip + instrLenOf b0 ≤ x →
      (PatchMovRipToImm base m i g v).2.byte x = m.byte x) := by
  obtain ⟨_, _, _, _, hbytes, hout⟩ := PatchMovRipToImm_result h ip b0 modrm hip hb0 hmodrm
  refine ⟨?_, buildMovImm_length b0 (regOf modrm) v, hbytes, hout⟩
  unfold instrLenOf opcodeIdxOf
  cases isRex b0 <;> rfl

/-- C4, witness: the six-byte `mov eax, [rip+disp]` at `CtorRead`. -/
theorem PatchMovRipToImm_length_invariant_witness :
    instrLenOf 0x8B = (if isRex 0x8B then 7 else 6) ∧
    (buildMovImm (extRegOf 0x8B) (regOf 0x05) 4 (instrLenOf 0x8B)).length = instrLenOf 0x8B ∧
    (PatchMovRipToImm gameBase (codeMem 0x1427e929a movEaxRip true) CtorRead CountGlobal
        4).2.bytesAt 0x1427e929a (instrLenOf 0x8B)
      = buildMovImm (extRegOf 0x8B) (regOf 0x05) 4 (instrLenOf 0x8B) ∧
    (∀ x, x < 0x1427e929a ∨ 0x1427e929a + instrLenOf 0x8B ≤ x →
      (PatchMovRipToImm gameBase (codeMem 0x1427e929a movEaxRip true) CtorRead CountGlobal
        4).2.byte x = (codeMem 0x1427e929a movEaxRip true).byte x) :=
  PatchMovRipToImm_length_invariant gameBase (codeMem 0x1427e929a movEaxRip true) CtorRead
    CountGlobal 4 0x1427e929a 0x8B 0x05 (by decide) (by decide) (by decide) (by decide)

/-- C5: when the byte after the optional 0x40-0x4F prefix is not opcode 0x8B,
or the ModRM byte after it fails `(modrm & 0xC7) == 0x05`, `PatchMovRipToImm`
returns false and the memory is left as it was. -/
theorem PatchMovRipToImm_wrong_shape (base : Nat) (m : Mem) (i g v : Nat)
    (ip b0 : Nat) (hip : ip = wrap64 ((base : Int) + i)) (hb0 : b0 = m.byte ip % 256)
    (hshape : m.byte (ip + opcodeIdxOf b0) % 256 ≠ 0x8B ∨
      (m.byte (ip + opcodeIdxOf b0 + 1) % 256) &&& 0xC7 ≠ 0x05) :
    PatchMovRipToImm base m i g v = (false, m) := by
  subst hip
  subst hb0
  exact PatchMovRipToImm_reject_shape base m i g v hshape

/-- C5, witness: `mov eax, [rax+disp32]` (ModRM 0x80) is not RIP-relative. -/
theorem PatchMovRipToImm_wrong_shape_witness :
    PatchMovRipToImm gameBase
        (codeMem 0x1427e929a [0x8B, 0x80, 0x78, 0xB5, 0x13, 0x01] true) CtorRead CountGlobal 4
      = (false, codeMem 0x1427e929a [0x8B, 0x80, 0x78, 0xB5, 0x13, 0x01] true) :=
  PatchMovRipToImm_wrong_shape gameBase
    (codeMem 0x1427e929a [0x8B, 0x80, 0x78, 0xB5, 0x13, 0x01] true) CtorRead CountGlobal 4
    0x1427e929a 0x8B (by decide) (by decide) (by decide)

/-- C6 (as the source behaves): an accepted instruction stores the displacement
`(globalRVA - (instrRVA + instrLen)) mod 2^32`, prefix included in `instrLen`;
its RIP-relative target `instrRVA + instrLen + sext(disp)` then agrees with
`globalRVA` modulo 2^32, and is exactly `globalRVA` when the distance
`globalRVA - (instrRVA + instrLen)` fits the signed 32-bit range.  A stored
displacement with any other value makes the function return false with the
memory untouched. -/
theorem PatchMovRipToImm_displacement (base : Nat) (m : Mem) (i g v : Nat)
    (ip b0 : Nat) (hip : ip = wrap64 ((base : Int) + i)) (hb0 : b0 = m.byte ip % 256) :
    ((PatchMovRipToImm base m i g v).1 = true →
      m.read32 (ip + opcodeIdxOf b0 + 2) = some (rel32 g (i + instrLenOf b0)) ∧
      (((i : Int) + instrLenOf b0 + sext32 (rel32 g (i + instrLenOf b0))) - g) % 4294967296 = 0 ∧
      (-2147483648 ≤ (g : Int) - (i + instrLenOf b0) →
        (g : Int) - (i + instrLenOf b0) < 2147483648 →
        (i : Int) + instrLenOf b0 + sext32 (rel32 g (i + instrLenOf b0)) = g)) ∧
    (∀ d, m.read32 (ip + opcodeIdxOf b0 + 2) = some d → d ≠ rel32 g (i + instrLenOf b0) →
      PatchMovRipToImm base m i g v = (false, m)) := by
  constructor
  · intro h
    obtain ⟨_, _, _, hdisp, _, _⟩ := PatchMovRipToImm_result h ip b0 _ hip hb0 rfl
    refine ⟨hdisp, ?_, ?_⟩
    · have hm := sext32_rel32_mod g (i + instrLenOf b0)
      push_cast at hm
      omega
    · intro hlo hhi
      have hs := sext32_rel32 g (i + instrLenOf b0) (by push_cast; omega) (by push_cast; omega)
      rw [hs]
      push_cast
      omega
  · intro d hd hne
    subst hip
    subst hb0
    exact PatchMovRipToImm_reject_disp base m i g v d hd hne

/-- C6, witness: the load at `CtorRead` is accepted with displacement
0x113B578 to the count global, and rejected when asked about another global. -/
theorem PatchMovRipToImm_displacement_witness :
    (codeMem 0x1427e929a movEaxRip true).read32 (0x1427e929a + opcodeIdxOf 0x8B + 2)
      = some (rel32 CountGlobal (CtorRead + instrLenOf 0x8B)) ∧
    (CtorRead : Int) + instrLenOf 0x8B + sext32 (rel32 CountGlobal (CtorRead + instrLenOf 0x8B))
      = CountGlobal ∧
    PatchMovRipToImm gameBase (codeMem 0x1427e929a movEaxRip true) CtorRead 0x3924808 4
      = (false, codeMem 0x1427e929a movEaxRip true) :=
  ⟨((PatchMovRipToImm_displacement gameBase (codeMem 0x1427e929a movEaxRip true) CtorRead
      CountGlobal 4 0x1427e929a 0x8B (by decide) (by decide)).1 (by decide)).1,
   ((PatchMovRipToImm_displacement gameBase (codeMem 0x1427e929a movEaxRip true) CtorRead
      CountGlobal 4 0x1427e929a 0x8B (by decide) (by decide)).1 (by decide)).2.2
      (by decide) (by decide),
   (PatchMovRipToImm_displacement gameBase (codeMem 0x1427e929a movEaxRip true) CtorRead
      0x3924808 4 0x1427e929a 0x8B (by decide) (by decide)).2 0x113B578 (by decide)
      (by decide)⟩

/-- C6, counterexample: with `instrRVA = 0x1000` and `globalRVA = 0x80001006`
the instruction `8B 05 00 00 00 80` is accepted, yet its RIP-relative target
`0x1000 + 6 + sext(0x80000000)` lies 2^32 below `globalRVA`. -/
theorem PatchMovRipToImm_target_not_global :
    (PatchMovRipToImm gameBase
        (codeMem 0x140001000 [0x8B, 0x05, 0x00, 0x00, 0x00, 0x80] true) 0x1000 0x80001006 4).1
      = true ∧
    (codeMem 0x140001000 [0x8B, 0x05, 0x00, 0x00, 0x00, 0x80] true).read32 0x140001002
      = some 0x80000000 ∧
    (0x1000 : Int) + 6 + sext32 0x80000000 ≠ 0x80001006 := by
  decide

theorem isRex_movOpcode (r : Nat) (hr : r < 8) : isRex (0xB8 + r) = false := by
  interval_cases r <;> decide

theorem buildMovImm_plain (r v len : Nat) :
    buildMovImm false r v len
      = (0xB8 + r) % 256 :: (le32 (v % 4294967296) ++ List.replicate (len - 5) 0x90) := rfl

theorem buildMovImm_ext (r v len : Nat) :
    buildMovImm true r v len
      = 0x41 :: (0xB8 + r) % 256 :: (le32 (v % 4294967296) ++ List.replicate (len - 6) 0x90) :=
  rfl

theorem le32_cons (v : Nat) (rest : List Nat) :
    le32 v ++ rest = v % 256 :: v / 256 % 256 :: v / 65536 % 256 :: v / 16777216 % 256 :: rest :=
  rfl

theorem decodeMovImm_build (b0 r v len : Nat) (hr : r < 8) (hv : v < 4294967296) :
    decodeMovImm (buildMovImm (extRegOf b0) r v len)
      = some (r + (if extRegOf b0 then 8 else 0), v) := by
  have hmod : (0xB8 + r) % 256 = 0xB8 + r := by omega
  have hvm : v % 4294967296 = v := Nat.mod_eq_of_lt hv
  have hrange : 0xB8 ≤ 0xB8 + r ∧ 0xB8 + r ≤ 0xBF := by omega
  cases he : extRegOf b0
  · have hle := readLE32_le32 v hv (List.replicate (len - 5) 0x90)
    rw [le32_cons] at hle
    rw [buildMovImm_plain, hmod, hvm, le32_cons]
    simp only [decodeMovImm, isRex_movOpcode r hr, Bool.false_eq_true, if_false, hrange,
      and_self, if_true, hle, Nat.add_sub_cancel_left, Nat.add_zero]
  · have hle := readLE32_le32 v hv (List.replicate (len - 6) 0x90)
    rw [le32_cons] at hle
    have hrex : isRex 0x41 = true := by decide
    have hbit : (0x41 : Nat) &&& 0x01 ≠ 0 := by decide
    rw [buildMovImm_ext, hmod, hvm, le32_cons]
    simp only [decodeMovImm, hrex, if_true, hrange, and_self, hbit, ne_eq,
      not_false_eq_true, hle, Nat.add_sub_cancel_left]

/-- C7: after an accepted rewrite with value `v` of an instruction whose ModRM
reg field is `r`, the site holds `B8+r` and `v` little-endian when REX.R was
clear, `41`, `B8+r` and `v` little-endian when it was set, and 0x90 in every
remaining byte of the original instruction; decoded as `MOV r32, imm32` it
names the destination register of the original and loads `v`. -/
theorem PatchMovRipToImm_rewritten_bytes (base : Nat) (m : Mem) (i g v : Nat)
    (ip b0 modrm r : Nat) (hip : ip = wrap64 ((base : Int) + i))
    (hb0 : b0 = m.byte ip % 256) (hmodrm : modrm = m.byte (ip + opcodeIdxOf b0 + 1) % 256)
    (hr : r = (modrm >>> 3) &&& 7) (hv : v < 4294967296)
    (h : (PatchMovRipToImm base m i g v).1 = true) :
    (PatchMovRipToImm base m i g v).2.bytesAt ip (instrLenOf b0)
      = (if extRegOf b0 then [0x41, 0xB8 + r] ++ le32 v else [0xB8 + r] ++ le32 v)
          ++ List.replicate (instrLenOf b0 - (if extRegOf b0 then 6 else 5)) 0x90 ∧
    decodeMovImm ((PatchMovRipToImm base m i g v).2.bytesAt ip (instrLenOf b0))
      = some (origDestReg b0 modrm, v) := by
  obtain ⟨_, _, _, _, hbytes, _⟩ := PatchMovRipToImm_result h ip b0 modrm hip hb0 hmodrm
  have hreg : regOf modrm = r := by rw [hr]; rfl
  have hlt : r < 8 := by rw [← hreg]; exact regOf_lt modrm
  rw [hbytes, hreg]
  constructor
  · have hmod : (0xB8 + r) % 256 = 0xB8 + r := by omega
    unfold buildMovImm
    cases he : extRegOf b0 <;> simp [hmod, Nat.mod_eq_of_lt hv, le32]
  · rw [decodeMovImm_build b0 r v _ hlt hv, origDestReg, hreg]

/-- C7, witness: `mov r8d, [rip+disp]` (REX.R set, reg field 0) becomes
`41 B8 04 00 00 00 90`, which is `mov r8d, 4`. -/
theorem PatchMovRipToImm_rewritten_bytes_witness :
    (PatchMovRipToImm gameBase (codeMem 0x1427e929a movR8dRip true) CtorRead CountGlobal
        4).2.bytesAt 0x1427e929a (instrLenOf 0x44)
      = (if extRegOf 0x44 then [0x41, 0xB8 + 0] ++ le32 4 else [0xB8 + 0] ++ le32 4)
          ++ List.replicate (instrLenOf 0x44 - (if extRegOf 0x44 then 6 else 5)) 0x90 ∧
    decodeMovImm ((PatchMovRipToImm gameBase (codeMem 0x1427e929a movR8dRip true) CtorRead
        CountGlobal 4).2.bytesAt 0x1427e929a (instrLenOf 0x44))
      = some (origDestReg 0x44 0x05, 4) :=
  PatchMovRipToImm_rewritten_bytes gameBase (codeMem 0x1427e929a movR8dRip true) CtorRead
    CountGlobal 4 0x1427e929a 0x44 0x05 0 (by decide) (by decide) (by decide) (by decide)
    (by decide) (by decide)

/-- C8 (as the source behaves): after an accepted rewrite, a second call with
the same arguments meets the MOV-immediate bytes, fails the opcode test,
returns false and leaves the bytes of the first call in place. -/
theorem PatchMovRipToImm_second_call (base : Nat) (m : Mem) (i g v : Nat)
    (h : (PatchMovRipToImm base m i g v).1 = true) :
    PatchMovRipToImm base (PatchMovRipToImm base m i g v).2 i g v
      = (false, (PatchMovRipToImm base m i g v).2) := by
  obtain ⟨_, _, _, _, hbytes, _⟩ := PatchMovRipToImm_result h _ _ _ rfl rfl rfl
  generalize hb0 : m.byte (wrap64 ((base : Int) + i)) % 256 = b0 at hbytes
  generalize hmodrm : m.byte (wrap64 ((base : Int) + i) + opcodeIdxOf b0 + 1) % 256 = modrm
    at hbytes
  generalize hm' : (PatchMovRipToImm base m i g v).2 = m' at hbytes ⊢
  have hlt : regOf modrm < 8 := regOf_lt modrm
  have hmod : (0xB8 + regOf modrm) % 256 = 0xB8 + regOf modrm := by omega
  have hlen7 : 6 ≤ instrLenOf b0 := by unfold instrLenOf; omega
  have hget : ∀ k, k < instrLenOf b0 →
      m'.byte (wrap64 ((base : Int) + i) + k)
        = (buildMovImm (extRegOf b0) (regOf modrm) v (instrLenOf b0)).getD k 0 := by
    intro k hk
    rw [← hbytes]
    simp [Mem.bytesAt, List.getD_eq_getElem?_getD, List.getElem?_map, List.getElem?_range hk]
  have h0 := hget 0 (by omega)
  have h1 := hget 1 (by omega)
  rw [Nat.add_zero] at h0
  apply PatchMovRipToImm_reject_shape
  left
  cases he : extRegOf b0
  · rw [he] at h0
    simp only [buildMovImm, Bool.false_eq_true, if_false, hmod, List.singleton_append,
      List.cons_append, List.getD_cons_zero] at h0
    rw [h0, hmod]
    have hrex : opcodeIdxOf (0xB8 + regOf modrm) = 0 := by
      unfold opcodeIdxOf
      rw [isRex_movOpcode _ hlt]
      rfl
    rw [hrex, Nat.add_zero, h0, hmod]
    omega
  · rw [he] at h0 h1
    simp only [buildMovImm, if_true, hmod, List.cons_append, List.getD_cons_zero,
      List.getD_cons_succ] at h0 h1
    rw [h0]
    have hrex : opcodeIdxOf (0x41 % 256) = 1 := by decide
    rw [hrex, h1, hmod]
    omega

/-- C8, witness: the rewritten load at `CtorRead` is refused on the second call. -/
theorem PatchMovRipToImm_second_call_witness :
    PatchMovRipToImm gameBase
        (PatchMovRipToImm gameBase (codeMem 0x1427e929a movEaxRip true) CtorRead CountGlobal
          4).2 CtorRead CountGlobal 4
      = (false, (PatchMovRipToImm gameBase (codeMem 0x1427e929a movEaxRip true) CtorRead
          CountGlobal 4).2) :=
  PatchMovRipToImm_second_call gameBase (codeMem 0x1427e929a movEaxRip true) CtorRead
    CountGlobal 4 (by decide)

/-- C8, counterexample: the first call on `mov eax, [rip+disp]` at `CtorRead`
succeeds and the second call with the same arguments reports failure. -/
theorem PatchMovRipToImm_twice_not_success :
    (PatchMovRipToImm gameBase (codeMem 0x1427e929a movEaxRip true) CtorRead CountGlobal
        4).1 = true ∧
    (PatchMovRipToImm gameBase
        (PatchMovRipToImm gameBase (codeMem 0x1427e929a movEaxRip true) CtorRead CountGlobal
          4).2 CtorRead CountGlobal 4).1 = false := by
  decide

/-! ### Trampoline allocation -/

theorem wrap64_of_lt (x : Nat) (h : x < 18446744073709551616) : wrap64 (x : Int) = x := by
  unfold wrap64
  omega

theorem wrap64_add (a b : Nat) (h : a + b < 18446744073709551616) :
    wrap64 ((a : Int) + b) = a + b := by
  unfold wrap64
  omega

theorem wrap64_sub (a b : Nat) (h : b ≤ a) (ha : a < 18446744073709551616) :
    wrap64 ((a : Int) - b) = a - b := by
  unfold wrap64
  omega

theorem VirtualAlloc_granularity (m : Mem) (addr size : Nat) :
    (VirtualAlloc m addr size).2.granularity = m.granularity := by
  unfold VirtualAlloc
  simp only
  split <;> rfl

theorem VirtualAlloc_block (m : Mem) (addr size : Nat) (h : (VirtualAlloc m addr size).1 ≠ 0) :
    (VirtualAlloc m addr size).1 = addr / m.granularity * m.granularity := by
  unfold VirtualAlloc at h ⊢
  simp only at h ⊢
  split
  · rfl
  · rename_i hc
    rw [if_neg hc] at h
    exact absurd rfl h

theorem round_down_bounds (x g : Nat) (hg : 0 < g) : x / g * g ≤ x ∧ x < x / g * g + g := by
  have h1 := Nat.div_add_mod x g
  have h2 := Nat.mod_lt x hg
  rw [Nat.mul_comm] at h1
  omega

theorem allocScan_near (target size g : Nat) (hg : 0 < g) (hdvd : g ∣ 0x7F000000)
    (hno : target + 0x7F000000 ≤ 18446744073709551616) :
    ∀ (fuel offset : Nat) (m : Mem), m.granularity = g → g ∣ offset → 0 < offset →
      (allocScan target size g fuel offset m).1 ≠ 0 →
      (target < (allocScan target size g fuel offset m).1 ∧
          (allocScan target size g fuel offset m).1 - target < 0x7F000000) ∨
      ((allocScan target size g fuel offset m).1 < target ∧
          target - (allocScan target size g fuel offset m).1 < 0x7F000000) := by
  intro fuel
  induction fuel with
  | zero =>
    intro offset m _ _ _ h
    simp [allocScan] at h
  | succ fuel ih =>
    intro offset m hm hoff hpos h
    have hgle : g ≤ offset := Nat.le_of_dvd hpos hoff
    unfold allocScan at h ⊢
    by_cases hlim : offset < 0x7F000000
    swap
    · rw [if_neg hlim] at h
      exact absurd rfl h
    rw [if_pos hlim] at h ⊢
    have hstep : offset + g ≤ 0x7F000000 := by
      obtain ⟨a, ha⟩ := hoff
      obtain ⟨b, hb⟩ := hdvd
      rw [ha, hb] at hlim ⊢
      have hab : a < b := Nat.lt_of_mul_lt_mul_left hlim
      calc g * a + g = g * (a + 1) := by ring
        _ ≤ g * b := Nat.mul_le_mul_left g hab
    have hup : wrap64 ((target : Int) + offset) = target + offset := wrap64_add _ _ (by omega)
    have hnext : wrap64 ((offset : Int) + g) = offset + g := wrap64_add _ _ (by omega)
    rw [hup, hnext] at h ⊢
    cases ha : VirtualAlloc m (target + offset) size with
    | mk p m1 =>
      have hg1 : m1.granularity = g := by
        have := VirtualAlloc_granularity m (target + offset) size
        rw [ha] at this
        rw [this, hm]
      rw [ha] at h
      cases p with
      | succ p =>
        simp only
        have hb := VirtualAlloc_block m (target + offset) size (by rw [ha]; simp)
        rw [ha, hm] at hb
        simp only at hb
        have hr := round_down_bounds (target + offset) g hg
        left
        omega
      | zero =>
        simp only at h ⊢
        by_cases hgt : target > offset
        · rw [if_pos hgt] at h ⊢
          have hdown : wrap64 ((target : Int) - offset) = target - offset :=
            wrap64_sub _ _ (by omega) (by omega)
          rw [hdown] at h ⊢
          cases hb : VirtualAlloc m1 (target - offset) size with
          | mk q m2 =>
            have hg2 : m2.granularity = g := by
              have := VirtualAlloc_granularity m1 (target - offset) size
              rw [hb] at this
              rw [this, hg1]
            rw [hb] at h
            cases q with
            | succ q =>
              simp only
              have hq := VirtualAlloc_block m1 (target - offset) size (by rw [hb]; simp)
              rw [hb, hg1] at hq
              simp only at hq
              have hr := round_down_bounds (target - offset) g hg
              right
              omega
            | zero =>
              simp only at h ⊢
              exact ih (offset + g) m2 hg2 (Dvd.dvd.add hoff (dvd_refl g)) (by omega) h
        · rw [if_neg hgt] at h ⊢
          exact ih (offset + g) m1 hg1 (Dvd.dvd.add hoff (dvd_refl g)) (by omega) h

theorem AllocateNearby_near (m : Mem) (target size : Nat) (hg : 0 < m.granularity)
    (hdvd : m.granularity ∣ 0x7F000000)
    (hno : target + 0x7F000000 ≤ 18446744073709551616)
    (h : (AllocateNearby m target size).1 ≠ 0) :
    (target < (AllocateNearby m target size).1 ∧
        (AllocateNearby m target size).1 - target < 0x7F000000) ∨
    ((AllocateNearby m target size).1 < target ∧
        target - (AllocateNearby m target size).1 < 0x7F000000) :=
  allocScan_near target size m.granularity hg hdvd hno 0x7F000000 m.granularity m rfl
    (dvd_refl _) hg h

theorem allocScan_succ (target size g fuel offset : Nat) (m : Mem) :
    allocScan target size g (fuel + 1) offset m =
      if offset < 0x7F000000 then
        match VirtualAlloc m (wrap64 ((target : Int) + offset)) size with
        | (0, m1) =>
          if target > offset then
            match VirtualAlloc m1 (wrap64 ((target : Int) - offset)) size with
            | (0, m2) => allocScan target size g fuel (wrap64 ((offset : Int) + g)) m2
            | (p + 1, m2) => (p + 1, m2)
          else allocScan target size g fuel (wrap64 ((offset : Int) + g)) m1
        | (p + 1, m1) => (p + 1, m1)
      else (0, m) := rfl

/-- The fuel of `AllocateNearby` is never the reason the scan stops: with a
granularity above zero one more unit of fuel changes nothing as soon as
`fuel + offset` reaches the ceiling of the loop. -/
theorem allocScan_fuel (target size g : Nat) (hg : 0 < g) (hg2 : g < 4294967296) :
    ∀ (fuel offset : Nat) (m : Mem), 0x7F000000 ≤ fuel + offset →
      allocScan target size g (fuel + 1) offset m = allocScan target size g fuel offset m := by
  intro fuel
  induction fuel with
  | zero =>
    intro offset m h
    rw [allocScan_succ]
    have : ¬ offset < 0x7F000000 := by omega
    rw [if_neg this]
    rfl
  | succ fuel ih =>
    intro offset m h
    rw [allocScan_succ target size g (fuel + 1), allocScan_succ target size g fuel]
    by_cases hlim : offset < 0x7F000000
    swap
    · rw [if_neg hlim, if_neg hlim]
    rw [if_pos hlim, if_pos hlim]
    have hnext : wrap64 ((offset : Int) + g) = offset + g := wrap64_add _ _ (by omega)
    rw [hnext]
    have hih : ∀ m', allocScan target size g (fuel + 1) (offset + g) m'
        = allocScan target size g fuel (offset + g) m' :=
      fun m' => ih (offset + g) m' (by omega)
    simp only [hih]

theorem AllocateNearby_fuel (m : Mem) (target size extra : Nat) (hg : 0 < m.granularity)
    (hg2 : m.granularity < 4294967296) :
    allocScan target size m.granularity (0x7F000000 + extra) m.granularity m
      = AllocateNearby m target size := by
  induction extra with
  | zero => rfl
  | succ k ih =>
    rw [← ih]
    exact allocScan_fuel target size m.granularity hg hg2 (0x7F000000 + k) m.granularity m
      (by omega)

theorem rel32_lt (d s : Nat) : rel32 d s < 4294967296 := by
  unfold rel32
  omega

theorem rel32At_le32 (pre : List Nat) (k d s : Nat) (rest : List Nat) (hk : pre.length = k)
    (hlo : -2147483648 ≤ (d : Int) - s) (hhi : (d : Int) - s < 2147483648) :
    emitsExact (pre ++ le32 (rel32 d s) ++ rest) k d s := by
  refine ⟨?_, hlo, hhi⟩
  unfold rel32At
  rw [List.append_assoc, ← hk, List.drop_left, readLE32_le32 _ (rel32_lt d s),
    sext32_rel32 d s hlo hhi]

/-! ### The four trampoline patches on a site that does not hold the expected bytes -/

theorem readBytes_take (m : Mem) : ∀ (n k a : Nat) (l : List Nat),
    m.readBytes a (n + k) = some l → m.readBytes a n = some (l.take n) := by
  intro n
  induction n with
  | zero => intro k a l _; rfl
  | succ n ih =>
    intro k a l h
    have e : n + 1 + k = (n + k) + 1 := by omega
    rw [e] at h
    unfold Mem.readBytes at h ⊢
    cases h0 : m.read8 a with
    | none => rw [h0] at h; simp at h
    | some b =>
      rw [h0] at h
      simp only at h ⊢
      cases h1 : m.readBytes (a + 1) (n + k) with
      | none => rw [h1] at h; simp at h
      | some bs =>
        rw [h1] at h
        simp only [Option.some.injEq] at h
        rw [ih k (a + 1) bs h1, ← h]
        rfl

theorem PatchNullSafetyCheck_mismatch (s : State)
    (h : s.mem.readBytes (wrap64 ((s.base : Int) + NullSafetyPatch.CrashInstrRVA))
        NullSafetyPatch.InstrSize ≠ some nullSafetyExpected) :
    PatchNullSafetyCheck s = s := by
  unfold PatchNullSafetyCheck
  split
  · rfl
  split
  · rfl
  simp only
  cases hr : s.mem.readBytes (wrap64 ((s.base : Int) + NullSafetyPatch.CrashInstrRVA))
      NullSafetyPatch.InstrSize with
  | none => rfl
  | some found =>
    have hne : found ≠ nullSafetyExpected := by
      intro e
      rw [hr, e] at h
      exact h rfl
    simp only [hne, ne_eq, not_false_eq_true, if_true]

theorem PatchNodeAllocator_mismatch (s : State)
    (h : s.mem.readBytes (wrap64 ((s.base : Int) + NodeAllocPatch.FuncRVA)) prologueSize
        ≠ some expectedPrologue) :
    PatchNodeAllocator s = s := by
  unfold PatchNodeAllocator
  split
  · rfl
  split
  · rfl
  simp only
  cases hr : s.mem.readBytes (wrap64 ((s.base : Int) + NodeAllocPatch.FuncRVA)) 16 with
  | none => rfl
  | some logged =>
    have ht := readBytes_take s.mem prologueSize 9 _ logged hr
    have hne : logged.take prologueSize ≠ expectedPrologue := by
      intro e
      rw [ht, e] at h
      exact h rfl
    simp only [hne, ne_eq, not_false_eq_true, if_true]

theorem PatchCascadeEntryZeroInit_mismatch (s : State)
    (h : s.mem.readBytes (wrap64 ((s.base : Int) + CascadeEntryZeroInit.TagWriteRVA))
        CascadeEntryZeroInit.InstrSize ≠ some zeroInitExpected) :
    PatchCascadeEntryZeroInit s = s := by
  unfold PatchCascadeEntryZeroInit
  split
  · rfl
  split
  · rfl
  simp only
  cases hr : s.mem.readBytes (wrap64 ((s.base : Int) + CascadeEntryZeroInit.TagWriteRVA))
      CascadeEntryZeroInit.InstrSize with
  | none => rfl
  | some found =>
    have hne : found ≠ zeroInitExpected := by
      intro e
      rw [hr, e] at h
      exact h rfl
    simp only [hne, ne_eq, not_false_eq_true, if_true]

theorem PatchCascadePtrValidation_mismatch (s : State)
    (h : s.mem.readBytes (wrap64 ((s.base : Int) + CascadePtrValidation.TestInstrRVA))
        CascadePtrValidation.PatchSize ≠ some ptrValidationExpected) :
    PatchCascadePtrValidation s = s := by
  unfold PatchCascadePtrValidation
  split
  · rfl
  split
  · rfl
  simp only
  cases hr : s.mem.readBytes (wrap64 ((s.base : Int) + CascadePtrValidation.TestInstrRVA))
      CascadePtrValidation.PatchSize with
  | none => rfl
  | some found =>
    have hne : found ≠ ptrValidationExpected := by
      intro e
      rw [hr, e] at h
      exact h rfl
    simp only [hne, ne_eq, not_false_eq_true, if_true]

/-- C9: each of the four trampoline patches, run on a memory whose bytes at the
site are not the expected sequence, returns the state it was given: no byte of
the image is modified, `VirtualAlloc` is not called (the call counter is
unchanged) and the completion flag keeps its value, so an unset flag stays
unset. -/
theorem trampoline_patch_site_mismatch (s : State) :
    (s.mem.readBytes (wrap64 ((s.base : Int) + NullSafetyPatch.CrashInstrRVA))
        NullSafetyPatch.InstrSize ≠ some nullSafetyExpected →
      PatchNullSafetyCheck s = s) ∧
    (s.mem.readBytes (wrap64 ((s.base : Int) + NodeAllocPatch.FuncRVA)) prologueSize
        ≠ some expectedPrologue →
      PatchNodeAllocator s = s) ∧
    (s.mem.readBytes (wrap64 ((s.base : Int) + CascadeEntryZeroInit.TagWriteRVA))
        CascadeEntryZeroInit.InstrSize ≠ some zeroInitExpected →
      PatchCascadeEntryZeroInit s = s) ∧
    (s.mem.readBytes (wrap64 ((s.base : Int) + CascadePtrValidation.TestInstrRVA))
        CascadePtrValidation.PatchSize ≠ some ptrValidationExpected →
      PatchCascadePtrValidation s = s) :=
  ⟨PatchNullSafetyCheck_mismatch s, PatchNodeAllocator_mismatch s,
    PatchCascadeEntryZeroInit_mismatch s, PatchCascadePtrValidation_mismatch s⟩

/-- C9, witness: a decrypted image filled with 0xCC at every site. -/
theorem trampoline_patch_site_mismatch_witness :
    PatchNullSafetyCheck (decryptedState (imageMem (fun _ => 0xCC) true) gameBase)
      = decryptedState (imageMem (fun _ => 0xCC) true) gameBase ∧
    PatchNodeAllocator (decryptedState (imageMem (fun _ => 0xCC) true) gameBase)
      = decryptedState (imageMem (fun _ => 0xCC) true) gameBase ∧
    PatchCascadeEntryZeroInit (decryptedState (imageMem (fun _ => 0xCC) true) gameBase)
      = decryptedState (imageMem (fun _ => 0xCC) true) gameBase ∧
    PatchCascadePtrValidation (decryptedState (imageMem (fun _ => 0xCC) true) gameBase)
      = decryptedState (imageMem (fun _ => 0xCC) true) gameBase :=
  ⟨(trampoline_patch_site_mismatch _).1 (by decide),
   (trampoline_patch_site_mismatch _).2.1 (by decide),
   (trampoline_patch_site_mismatch _).2.2.1 (by decide),
   (trampoline_patch_site_mismatch _).2.2.2 (by decide)⟩

/-! ### Displacements emitted by the four builders -/

theorem jmpPatch_exact (cave site n : Nat)
    (hlo : -2147483648 ≤ (cave : Int) - ((site + 5 : Nat) : Int))
    (hhi : (cave : Int) - ((site + 5 : Nat) : Int) < 2147483648) :
    emitsExact (jmpPatch cave site n) 1 cave (site + 5) :=
  rel32At_le32 [0xE9] 1 cave (site + 5) (List.replicate (n - 5) 0x90) rfl hlo hhi

theorem nullSafetyCave_exact (cave ret : Nat)
    (hlo : -2147483648 + 64 ≤ (ret : Int) - cave) (hhi : (ret : Int) - cave < 2147483648) :
    emitsExact (nullSafetyCave cave ret) 20 ret (cave + 20 + 4) ∧
    emitsExact (nullSafetyCave cave ret) 27 ret (cave + 27 + 4) := by
  constructor
  · have e : nullSafetyCave cave ret
        = ([0x4D, 0x85, 0xD2, 0x74, 0x13] ++ nullSafetyExpected
            ++ [0x48, 0x85, 0xED, 0x74, 0x02, 0x78, 0x05, 0xE9])
          ++ le32 (rel32 ret (cave + 20 + 4))
          ++ ([0x31, 0xED, 0xE9] ++ le32 (rel32 ret (cave + 27 + 4))) := by
      simp [nullSafetyCave]
    rw [e]
    exact rel32At_le32 _ 20 ret _ _ rfl (by push_cast; omega) (by push_cast; omega)
  · have e : nullSafetyCave cave ret
        = ([0x4D, 0x85, 0xD2, 0x74, 0x13] ++ nullSafetyExpected
            ++ [0x48, 0x85, 0xED, 0x74, 0x02, 0x78, 0x05, 0xE9]
            ++ le32 (rel32 ret (cave + 20 + 4)) ++ [0x31, 0xED, 0xE9])
          ++ le32 (rel32 ret (cave + 27 + 4)) ++ [] := by
      simp [nullSafetyCave]
    rw [e]
    exact rel32At_le32 _ 27 ret _ _ rfl (by push_cast; omega) (by push_cast; omega)

theorem nodeAllocCave_exact (cave ret : Nat)
    (hlo : -2147483648 + 64 ≤ (ret : Int) - cave) (hhi : (ret : Int) - cave < 2147483648) :
    emitsExact (nodeAllocCave cave ret) 21 ret (cave + 21 + 4) := by
  have e : nodeAllocCave cave ret
      = [0x48, 0x85, 0xD2, 0x74, 0x08, 0x48, 0xC7, 0x42, 0x40, 0x00, 0x00, 0x00, 0x00,
          0x48, 0x83, 0xEC, 0x68, 0x4D, 0x8B, 0xD1, 0xE9]
        ++ le32 (rel32 ret (cave + 21 + 4)) ++ [] := by
    simp [nodeAllocCave]
  rw [e]
  exact rel32At_le32 _ 21 ret _ _ rfl (by push_cast; omega) (by push_cast; omega)

theorem zeroInitCave_exact (cave ret : Nat)
    (hlo : -2147483648 + 128 ≤ (ret : Int) - cave) (hhi : (ret : Int) - cave < 2147483648) :
    emitsExact (zeroInitCave cave ret) 82 ret (cave + 82 + 4) := by
  have e : zeroInitCave cave ret
      = ((zeroInitCave cave ret).take 82) ++ le32 (rel32 ret (cave + 82 + 4)) ++ [] := by
    simp [zeroInitCave, zeroInitExpected]
  rw [e]
  exact rel32At_le32 _ 82 ret _ _ (by simp [zeroInitCave, zeroInitExpected, le32])
    (by push_cast; omega) (by push_cast; omega)

theorem ptrValidationCave_exact (cave cont skip : Nat)
    (hlo1 : -2147483648 + 128 ≤ (cont : Int) - cave) (hhi1 : (cont : Int) - cave < 2147483648)
    (hlo2 : -2147483648 + 128 ≤ (skip : Int) - cave) (hhi2 : (skip : Int) - cave < 2147483648) :
    emitsExact (ptrValidationCave cave cont skip) 26 cont (cave + 26 + 4) ∧
    emitsExact (ptrValidationCave cave cont skip) 43 skip (cave + 43 + 4) := by
  constructor
  · have e : ptrValidationCave cave cont skip
        = ((ptrValidationCave cave cont skip).take 26) ++ le32 (rel32 cont (cave + 26 + 4))
          ++ ([0x58, 0x49, 0xC7, 0x04, 0x24, 0x00, 0x00, 0x00, 0x00, 0x45, 0x31, 0xF6, 0xE9]
            ++ le32 (rel32 skip (cave + 43 + 4))) := by
      simp [ptrValidationCave]
    rw [e]
    exact rel32At_le32 _ 26 cont _ _ (by simp [ptrValidationCave, le32])
      (by push_cast; omega) (by push_cast; omega)
  · have e : ptrValidationCave cave cont skip
        = ((ptrValidationCave cave cont skip).take 43) ++ le32 (rel32 skip (cave + 43 + 4))
          ++ [] := by
      simp [ptrValidationCave, le32]
    rw [e]
    exact rel32At_le32 _ 43 skip _ _ (by simp [ptrValidationCave, le32])
      (by push_cast; omega) (by push_cast; omega)

/-- C10 (as the source behaves): when the allocation granularity is above zero
and divides 0x7F000000 (every power of two up to 2^24, so the 64 KiB of
Windows), the module base leaves 2^32 bytes of address space above it, and the
allocator returns the granularity-rounded address it was asked for, every block
`AllocateNearby` returns lies less than 0x7F000000 bytes from its target, and
every displacement the four builders emit (site to trampoline, trampoline to
return, continue and skip target) is the true address difference and fits the
signed 32-bit range. -/
theorem trampoline_within_reach (m : Mem) (base : Nat) (hg : 0 < m.granularity)
    (hdvd : m.granularity ∣ 0x7F000000)
    (hbase : base + 0x100000000 ≤ 18446744073709551616) :
    (∀ target size, target + 0x7F000000 ≤ 18446744073709551616 →
      (AllocateNearby m target size).1 ≠ 0 →
      -0x7F000000 < ((AllocateNearby m target size).1 : Int) - target ∧
        ((AllocateNearby m target size).1 : Int) - target < 0x7F000000) ∧
    (∀ cave site ret, site = wrap64 ((base : Int) + NullSafetyPatch.CrashInstrRVA) →
      ret = wrap64 ((site : Int) + NullSafetyPatch.InstrSize) →
      cave = (AllocateNearby m site 64).1 → cave ≠ 0 →
      emitsExact (jmpPatch cave site NullSafetyPatch.InstrSize) 1 cave (site + 5) ∧
      emitsExact (nullSafetyCave cave ret) 20 ret (cave + 20 + 4) ∧
      emitsExact (nullSafetyCave cave ret) 27 ret (cave + 27 + 4)) ∧
    (∀ cave site ret, site = wrap64 ((base : Int) + NodeAllocPatch.FuncRVA) →
      ret = site + prologueSize →
      cave = (AllocateNearby m site 64).1 → cave ≠ 0 →
      emitsExact (jmpPatch cave site prologueSize) 1 cave (site + 5) ∧
      emitsExact (nodeAllocCave cave ret) 21 ret (cave + 21 + 4)) ∧
    (∀ cave site ret, site = wrap64 ((base : Int) + CascadeEntryZeroInit.TagWriteRVA) →
      ret = wrap64 ((base : Int) + CascadeEntryZeroInit.ReturnRVA) →
      cave = (AllocateNearby m site 128).1 → cave ≠ 0 →
      emitsExact (jmpPatch cave site CascadeEntryZeroInit.InstrSize) 1 cave (site + 5) ∧
      emitsExact (zeroInitCave cave ret) 82 ret (cave + 82 + 4)) ∧
    (∀ cave site cont skip, site = wrap64 ((base : Int) + CascadePtrValidation.TestInstrRVA) →
      cont = wrap64 ((base : Int) + CascadePtrValidation.ContinueRVA) →
      skip = wrap64 ((base : Int) + CascadePtrValidation.SkipTargetRVA) →
      cave = (AllocateNearby m site 128).1 → cave ≠ 0 →
      emitsExact (jmpPatch cave site CascadePtrValidation.PatchSize) 1 cave (site + 5) ∧
      emitsExact (ptrValidationCave cave cont skip) 26 cont (cave + 26 + 4) ∧
      emitsExact (ptrValidationCave cave cont skip) 43 skip (cave + 43 + 4)) := by
  have near : ∀ target size, target + 0x7F000000 ≤ 18446744073709551616 →
      (AllocateNearby m target size).1 ≠ 0 →
      -0x7F000000 < ((AllocateNearby m target size).1 : Int) - target ∧
        ((AllocateNearby m target size).1 : Int) - target < 0x7F000000 := by
    intro target size hno hne
    rcases AllocateNearby_near m target size hg hdvd hno hne with ⟨h1, h2⟩ | ⟨h1, h2⟩ <;> omega
  refine ⟨near, ?_, ?_, ?_, ?_⟩
  · intro cave site ret hsite hret hcave hne
    have hs : site = base + NullSafetyPatch.CrashInstrRVA := by
      rw [hsite]
      exact wrap64_add _ _ (by unfold NullSafetyPatch.CrashInstrRVA; omega)
    have hr : ret = site + NullSafetyPatch.InstrSize := by
      rw [hret]
      exact wrap64_add _ _ (by
        rw [hs]; unfold NullSafetyPatch.CrashInstrRVA NullSafetyPatch.InstrSize; omega)
    unfold NullSafetyPatch.CrashInstrRVA at hs
    unfold NullSafetyPatch.InstrSize at hr
    rw [hcave] at hne
    have hn := near site 64 (by omega) hne
    rw [← hcave] at hn
    have hc := nullSafetyCave_exact cave ret (by omega) (by omega)
    exact ⟨jmpPatch_exact cave site _ (by push_cast; omega) (by push_cast; omega), hc.1, hc.2⟩
  · intro cave site ret hsite hret hcave hne
    have hs : site = base + NodeAllocPatch.FuncRVA := by
      rw [hsite]
      exact wrap64_add _ _ (by unfold NodeAllocPatch.FuncRVA; omega)
    unfold NodeAllocPatch.FuncRVA at hs
    unfold prologueSize at hret
    rw [hcave] at hne
    have hn := near site 64 (by omega) hne
    rw [← hcave] at hn
    exact ⟨jmpPatch_exact cave site _ (by push_cast; omega) (by push_cast; omega),
      nodeAllocCave_exact cave ret (by omega) (by omega)⟩
  · intro cave site ret hsite hret hcave hne
    have hs : site = base + CascadeEntryZeroInit.TagWriteRVA := by
      rw [hsite]
      exact wrap64_add _ _ (by unfold CascadeEntryZeroInit.TagWriteRVA; omega)
    have hr : ret = base + CascadeEntryZeroInit.ReturnRVA := by
      rw [hret]
      exact wrap64_add _ _ (by unfold CascadeEntryZeroInit.ReturnRVA; omega)
    unfold CascadeEntryZeroInit.TagWriteRVA at hs
    unfold CascadeEntryZeroInit.ReturnRVA at hr
    rw [hcave] at hne
    have hn := near site 128 (by omega) hne
    rw [← hcave] at hn
    exact ⟨jmpPatch_exact cave site _ (by push_cast; omega) (by push_cast; omega),
      zeroInitCave_exact cave ret (by omega) (by omega)⟩
  · intro cave site cont skip hsite hcont hskip hcave hne
    have hs : site = base + CascadePtrValidation.TestInstrRVA := by
      rw [hsite]
      exact wrap64_add _ _ (by unfold CascadePtrValidation.TestInstrRVA; omega)
    have hc : cont = base + CascadePtrValidation.ContinueRVA := by
      rw [hcont]
      exact wrap64_add _ _ (by unfold CascadePtrValidation.ContinueRVA; omega)
    have hk : skip = base + CascadePtrValidation.SkipTargetRVA := by
      rw [hskip]
      exact wrap64_add _ _ (by unfold CascadePtrValidation.SkipTargetRVA; omega)
    unfold CascadePtrValidation.TestInstrRVA at hs
    unfold CascadePtrValidation.ContinueRVA at hc
    unfold CascadePtrValidation.SkipTargetRVA at hk
    rw [hcave] at hne
    have hn := near site 128 (by omega) hne
    rw [← hcave] at hn
    have he := ptrValidationCave_exact cave cont skip (by omega) (by omega) (by omega)
      (by omega)
    exact ⟨jmpPatch_exact cave site _ (by push_cast; omega) (by push_cast; omega), he.1, he.2⟩

/-- C10, witness: with the 64 KiB granularity and the game loaded at
0x140000000 the null-guard trampoline is placed at 0x142820000, one granule
above its site 0x14281377F. -/
theorem trampoline_within_reach_witness :
    emitsExact (jmpPatch 0x142820000 0x14281377F NullSafetyPatch.InstrSize) 1 0x142820000
      (0x14281377F + 5) ∧
    emitsExact (nullSafetyCave 0x142820000 0x142813786) 20 0x142813786 (0x142820000 + 20 + 4) ∧
    emitsExact (nullSafetyCave 0x142820000 0x142813786) 27 0x142813786 (0x142820000 + 27 + 4) :=
  (trampoline_within_reach (imageMem (fun _ => 0) true) gameBase (by decide) (by decide)
    (by decide)).2.1 0x142820000 0x14281377F 0x142813786 (by decide) (by decide) (by decide)
    (by decide)

/-- C10, counterexample: with granularity 0x7EFF0000 and the image based at
0x17EFD0000 the only block `AllocateNearby` finds for the null-guard site
0x1817E377F is 0xFDFE0000, which lies 0x8380377F bytes below the site, and the
displacement written into `jmp cave` is not the distance from the site to the
block. -/
theorem AllocateNearby_out_of_reach :
    wrap64 ((0x17EFD0000 : Int) + NullSafetyPatch.CrashInstrRVA) = 0x1817E377F ∧
    (AllocateNearby farMem 0x1817E377F 64).1 = 0xFDFE0000 ∧
    ¬ (0x1817E377F - 0xFDFE0000 < 0x7F000000) ∧
    rel32At (jmpPatch 0xFDFE0000 0x1817E377F NullSafetyPatch.InstrSize) 1
      ≠ (0xFDFE0000 : Int) - (0x1817E377F + 5) := by
  decide

/-! ### Stages of the state machine: re-entry and the flags they set -/

/-- C15: a stage function called in a state where its own completion flag is
already set returns that state: no byte of memory and no flag changes. -/
theorem completed_stage_is_noop (pick : Nat) (s : State) :
    (s.g_textDecrypted = true → CheckTextDecrypted s = (true, s)) ∧
    (s.g_countReadsPatched = true → PatchCountReadSites s = s) ∧
    (s.g_maskSafe = true → ApplyMaskSafeMode s = s) ∧
    (s.g_shaderPatched = true → PatchShaderCtor s = s) ∧
    (s.g_vrExpanded = true → TryExpandVRArray pick s = s) ∧
    (s.g_entryZeroInitPatched = true → PatchCascadeEntryZeroInit s = s) ∧
    (s.g_nodeAllocPatched = true → PatchNodeAllocator s = s) ∧
    (s.g_nullSafePatched = true → PatchNullSafetyCheck s = s) ∧
    (s.g_ptrValidationPatched = true → PatchCascadePtrValidation s = s) ∧
    (s.g_maskRestored = true → TryRestoreMaskRotation s = s) := by
  refine ⟨?_, ?_, ?_, ?_, ?_, ?_, ?_, ?_, ?_, ?_⟩
  · intro h; unfold CheckTextDecrypted; rw [if_pos h]
  · intro h; unfold PatchCountReadSites; rw [if_pos h]
  · intro h; unfold ApplyMaskSafeMode; rw [if_pos h]
  · intro h; unfold PatchShaderCtor; rw [if_pos h]
  · intro h; unfold TryExpandVRArray; rw [if_pos h]
  · intro h; unfold PatchCascadeEntryZeroInit; rw [if_pos h]
  · intro h; unfold PatchNodeAllocator; rw [if_pos h]
  · intro h; unfold PatchNullSafetyCheck; rw [if_pos h]
  · intro h; unfold PatchCascadePtrValidation; rw [if_pos h]
  · intro h; unfold TryRestoreMaskRotation; rw [if_pos h]

/-- C15, witness: every stage run again on a patchable image whose flags are
all set. -/
theorem completed_stage_is_noop_witness :
    CheckTextDecrypted (completedState (imageMem (fun _ => 0x48) true) gameBase)
      = (true, completedState (imageMem (fun _ => 0x48) true) gameBase) ∧
    PatchCountReadSites (completedState (imageMem (fun _ => 0x48) true) gameBase)
      = completedState (imageMem (fun _ => 0x48) true) gameBase ∧
    ApplyMaskSafeMode (completedState (imageMem (fun _ => 0x48) true) gameBase)
      = completedState (imageMem (fun _ => 0x48) true) gameBase ∧
    TryExpandVRArray 0x10000 (completedState (imageMem (fun _ => 0x48) true) gameBase)
      = completedState (imageMem (fun _ => 0x48) true) gameBase ∧
    TryRestoreMaskRotation (completedState (imageMem (fun _ => 0x48) true) gameBase)
      = completedState (imageMem (fun _ => 0x48) true) gameBase :=
  ⟨(completed_stage_is_noop 0x10000 _).1 (by decide),
   (completed_stage_is_noop 0x10000 _).2.1 (by decide),
   (completed_stage_is_noop 0x10000 _).2.2.1 (by decide),
   (completed_stage_is_noop 0x10000 _).2.2.2.2.1 (by decide),
   (completed_stage_is_noop 0x10000 _).2.2.2.2.2.2.2.2.2 (by decide)⟩

/-- C17 (as the source behaves): with TextDecrypted set and CountPatched unset,
`PatchCountReadSites` attempts the four rewrites and the change of the
comparison immediate and then sets `g_countReadsPatched`, whatever the five
attempts reported; without TextDecrypted it sets nothing. -/
theorem PatchCountReadSites_sets_flag (s : State) :
    (s.g_textDecrypted = true → (PatchCountReadSites s).g_countReadsPatched = true) ∧
    (s.g_textDecrypted = true → s.g_countReadsPatched = false →
      (PatchCountReadSites s).mem
        = (PatchByte (patchCountReads s.base CountReadPatch.AllSites s.mem).2
            (addr64 s.base CountReadPatch.SetupCmpImm) CountReadPatch.SetupCmpOld
            CountReadPatch.SetupCmpNew).2) ∧
    (s.g_textDecrypted = false → PatchCountReadSites s = s) := by
  obtain ⟨A, hA⟩ : ∃ f : Nat → Nat → Nat, f = addr64 := ⟨_, rfl⟩
  obtain ⟨P, hP⟩ : ∃ f : Nat → List Nat → Mem → Nat × Mem, f = patchCountReads := ⟨_, rfl⟩
  obtain ⟨B, hB⟩ : ∃ f : Mem → Nat → Nat → Nat → Bool × Mem, f = PatchByte := ⟨_, rfl⟩
  unfold PatchCountReadSites
  rw [← hA, ← hP, ← hB]
  refine ⟨?_, ?_, ?_⟩
  · intro h
    by_cases hf : s.g_countReadsPatched = true
    · rw [if_pos hf]; exact hf
    · rw [if_neg hf, h]; rfl
  · intro h hf
    rw [hf, h]; rfl
  · intro h
    by_cases hf : s.g_countReadsPatched = true
    · rw [if_pos hf]
    · rw [if_neg hf, h]; rfl

/-- C17, witness: a decrypted image that holds 0xCC at every site. -/
theorem PatchCountReadSites_sets_flag_witness :
    (PatchCountReadSites (decryptedState (imageMem (fun _ => 0xCC) true) gameBase)).g_countReadsPatched
      = true :=
  (PatchCountReadSites_sets_flag _).1 (by decide)

/-- C17, counterexample: on a decrypted image that holds 0xCC at every site none
of the four rewrites succeeds and the comparison immediate is not changed, yet
`g_countReadsPatched` is set. -/
theorem PatchCountReadSites_flag_without_success :
    (patchCountReads gameBase CountReadPatch.AllSites (imageMem (fun _ => 0xCC) true)).1 = 0 ∧
    (PatchByte (patchCountReads gameBase CountReadPatch.AllSites
        (imageMem (fun _ => 0xCC) true)).2
      (addr64 gameBase CountReadPatch.SetupCmpImm) CountReadPatch.SetupCmpOld
      CountReadPatch.SetupCmpNew).1 = false ∧
    (PatchCountReadSites
      (decryptedState (imageMem (fun _ => 0xCC) true) gameBase)).g_countReadsPatched = true := by
  decide

/-- C18 (as the source behaves): with TextDecrypted set and SafeModePatched
unset, `ApplyMaskSafeMode` attempts its four byte patches once and then sets
`g_maskSafe`, whatever they reported, so the stage is not retried; without
TextDecrypted it sets nothing. -/
theorem ApplyMaskSafeMode_sets_flag (s : State) :
    (s.g_textDecrypted = true → (ApplyMaskSafeMode s).g_maskSafe = true) ∧
    (s.g_textDecrypted = true → s.g_maskSafe = false →
      (ApplyMaskSafeMode s).mem = (patchBytes s.base maskSafePatches s.mem).2) ∧
    (s.g_textDecrypted = true → ApplyMaskSafeMode (ApplyMaskSafeMode s) = ApplyMaskSafeMode s) ∧
    (s.g_textDecrypted = false → ApplyMaskSafeMode s = s) := by
  obtain ⟨P, hP⟩ : ∃ f : Nat → List (Nat × Nat × Nat) → Mem → Nat × Mem, f = patchBytes :=
    ⟨_, rfl⟩
  have hflag : s.g_textDecrypted = true → (ApplyMaskSafeMode s).g_maskSafe = true := by
    intro h
    unfold ApplyMaskSafeMode
    rw [← hP]
    by_cases hf : s.g_maskSafe = true
    · rw [if_pos hf]; exact hf
    · rw [if_neg hf, h]; rfl
  refine ⟨hflag, ?_, ?_, ?_⟩
  · intro h hf
    unfold ApplyMaskSafeMode
    rw [← hP, hf, h]; rfl
  · intro h
    have := hflag h
    generalize ApplyMaskSafeMode s = t at this ⊢
    unfold ApplyMaskSafeMode
    rw [if_pos this]
  · intro h
    unfold ApplyMaskSafeMode
    rw [← hP]
    by_cases hf : s.g_maskSafe = true
    · rw [if_pos hf]
    · rw [if_neg hf, h]; rfl

/-- C18, witness: a decrypted image that holds 0xCC at every mask literal. -/
theorem ApplyMaskSafeMode_sets_flag_witness :
    (ApplyMaskSafeMode (decryptedState (imageMem (fun _ => 0xCC) true) gameBase)).g_maskSafe
      = true :=
  (ApplyMaskSafeMode_sets_flag _).1 (by decide)

/-- C18, counterexample: on a decrypted image that holds 0xCC at the four mask
literals every byte patch fails and no literal holds 0x03, yet `g_maskSafe` is
set. -/
theorem ApplyMaskSafeMode_flag_after_failure :
    (patchBytes gameBase maskSafePatches (imageMem (fun _ => 0xCC) true)).1 = 0 ∧
    (ApplyMaskSafeMode (decryptedState (imageMem (fun _ => 0xCC) true) gameBase)).mem.byte
      (addr64 gameBase MaskWriterPatch.InitMask_Byte) = 0xCC ∧
    (ApplyMaskSafeMode
      (decryptedState (imageMem (fun _ => 0xCC) true) gameBase)).g_maskSafe = true := by
  decide

/-! ### The flags along a run of the engine -/

theorem Advance.refl (s : State) : Advance s s :=
  ⟨⟨id, id, id, id, id, id, id, id, id, id⟩, id⟩

theorem Advance.trans {s t u : State} (h1 : Advance s t) (h2 : Advance t u) : Advance s u := by
  obtain ⟨⟨a1, a2, a3, a4, a5, a6, a7, a8, a9, a10⟩, ga⟩ := h1
  obtain ⟨⟨b1, b2, b3, b4, b5, b6, b7, b8, b9, b10⟩, gb⟩ := h2
  exact ⟨⟨b1 ∘ a1, b2 ∘ a2, b3 ∘ a3, b4 ∘ a4, b5 ∘ a5, b6 ∘ a6, b7 ∘ a7, b8 ∘ a8, b9 ∘ a9,
    b10 ∘ a10⟩, gb ∘ ga⟩
/-- The two ways `PatchNullSafetyCheck` can end: it leaves the state as it was, or the site
bytes were accepted and the state is the one `installTrampoline` describes. -/
theorem PatchNullSafetyCheck_cases (s : State) :
    PatchNullSafetyCheck s = s ∨
    (s.g_nullSafePatched = false ∧ s.g_textDecrypted = true ∧
      s.mem.readBytes (wrap64 ((s.base : Int) + NullSafetyPatch.CrashInstrRVA))
        NullSafetyPatch.InstrSize = some nullSafetyExpected ∧
      PatchNullSafetyCheck s =
        { s with
            mem := (installTrampoline s.mem
              (wrap64 ((s.base : Int) + NullSafetyPatch.CrashInstrRVA))
              NullSafetyPatch.InstrSize 64
              (fun c => nullSafetyCave c (wrap64
                (((wrap64 ((s.base : Int) + NullSafetyPatch.CrashInstrRVA)) : Nat) +
                  NullSafetyPatch.InstrSize)))).2.1
            g_codeCave := (installTrampoline s.mem
              (wrap64 ((s.base : Int) + NullSafetyPatch.CrashInstrRVA))
              NullSafetyPatch.InstrSize 64
              (fun c => nullSafetyCave c (wrap64
                (((wrap64 ((s.base : Int) + NullSafetyPatch.CrashInstrRVA)) : Nat) +
                  NullSafetyPatch.InstrSize)))).1
            g_nullSafePatched := (installTrampoline s.mem
              (wrap64 ((s.base : Int) + NullSafetyPatch.CrashInstrRVA))
              NullSafetyPatch.InstrSize 64
              (fun c => nullSafetyCave c (wrap64
                (((wrap64 ((s.base : Int) + NullSafetyPatch.CrashInstrRVA)) : Nat) +
                  NullSafetyPatch.InstrSize)))).2.2 }) := by
  unfold PatchNullSafetyCheck installTrampoline
  obtain ⟨site, hsite⟩ : ∃ x, x = wrap64 ((s.base : Int) + NullSafetyPatch.CrashInstrRVA) := ⟨_, rfl⟩
  rw [← hsite]
  by_cases hf : s.g_nullSafePatched = true
  · rw [if_pos hf]; exact Or.inl rfl
  rw [if_neg hf]
  by_cases htd : s.g_textDecrypted = true
  swap
  · have : (!s.g_textDecrypted) = true := by simpa using htd
    rw [if_pos this]; exact Or.inl rfl
  have : ¬ (!s.g_textDecrypted) = true := by simp [htd]
  rw [if_neg this]
  have hf0 : s.g_nullSafePatched = false := by simpa using hf
  simp only
  cases hr : s.mem.readBytes site NullSafetyPatch.InstrSize with
  | none => exact Or.inl rfl
  | some found =>
    simp only
    by_cases hne : found ≠ nullSafetyExpected
    · rw [if_pos hne]; exact Or.inl rfl
    rw [if_neg hne]
    have hfe : found = nullSafetyExpected := by simpa using hne
    refine Or.inr ⟨hf0, htd, by rw [hfe], ?_⟩
    cases ha : AllocateNearby s.mem site 64 with
    | mk c m1 =>
      cases c with
      | zero => simp only [hf0]
      | succ c =>
        simp only
        cases hw : m1.writeBytes (c + 1) (nullSafetyCave (c + 1)
            (wrap64 ((site : Int) + NullSafetyPatch.InstrSize))) with
        | mk ok m2 =>
        cases ok
        · simp only [hf0]
        simp only
        cases hv : VirtualProtect m2 site NullSafetyPatch.InstrSize PAGE_EXECUTE_READWRITE with
        | none => simp only [hf0]
        | some r =>
          obtain ⟨old, m3⟩ := r
          simp only
          cases hw2 : m3.writeBytes site (jmpPatch (c + 1) site NullSafetyPatch.InstrSize) with
          | mk ok m4 =>
            cases ok
            · simp only [hf0]
            · simp only

/-- The two ways `PatchNodeAllocator` can end: it leaves the state as it was, or the site
bytes were accepted and the state is the one `installTrampoline` describes. -/
theorem PatchNodeAllocator_cases (s : State) :
    PatchNodeAllocator s = s ∨
    (s.g_nodeAllocPatched = false ∧ s.g_textDecrypted = true ∧
      (∃ logged, s.mem.readBytes (wrap64 ((s.base : Int) + NodeAllocPatch.FuncRVA)) 16 = some logged ∧
        logged.take prologueSize = expectedPrologue) ∧
      PatchNodeAllocator s =
        { s with
            mem := (installTrampoline s.mem
              (wrap64 ((s.base : Int) + NodeAllocPatch.FuncRVA))
              prologueSize 64
              (fun c => nodeAllocCave c ((wrap64 ((s.base : Int) + NodeAllocPatch.FuncRVA)) + prologueSize))).2.1
            g_nodeAllocCave := (installTrampoline s.mem
              (wrap64 ((s.base : Int) + NodeAllocPatch.FuncRVA))
              prologueSize 64
              (fun c => nodeAllocCave c ((wrap64 ((s.base : Int) + NodeAllocPatch.FuncRVA)) + prologueSize))).1
            g_nodeAllocPatched := (installTrampoline s.mem
              (wrap64 ((s.base : Int) + NodeAllocPatch.FuncRVA))
              prologueSize 64
              (fun c => nodeAllocCave c ((wrap64 ((s.base : Int) + NodeAllocPatch.FuncRVA)) + prologueSize))).2.2 }) := by
  unfold PatchNodeAllocator installTrampoline
  obtain ⟨site, hsite⟩ : ∃ x, x = wrap64 ((s.base : Int) + NodeAllocPatch.FuncRVA) := ⟨_, rfl⟩
  rw [← hsite]
  by_cases hf : s.g_nodeAllocPatched = true
  · rw [if_pos hf]; exact Or.inl rfl
  rw [if_neg hf]
  by_cases htd : s.g_textDecrypted = true
  swap
  · have : (!s.g_textDecrypted) = true := by simpa using htd
    rw [if_pos this]; exact Or.inl rfl
  have : ¬ (!s.g_textDecrypted) = true := by simp [htd]
  rw [if_neg this]
  have hf0 : s.g_nodeAllocPatched = false := by simpa using hf
  simp only
  cases hr : s.mem.readBytes site 16 with
  | none => exact Or.inl rfl
  | some found =>
    simp only
    by_cases hne : found.take prologueSize ≠ expectedPrologue
    · rw [if_pos hne]; exact Or.inl rfl
    rw [if_neg hne]
    have hfe : found.take prologueSize = expectedPrologue := by simpa using hne
    refine Or.inr ⟨hf0, htd, ⟨found, rfl, hfe⟩, ?_⟩
    cases ha : AllocateNearby s.mem site 64 with
    | mk c m1 =>
      cases c with
      | zero => simp only [hf0]
      | succ c =>
        simp only
        cases hw : m1.writeBytes (c + 1) (nodeAllocCave (c + 1) (site + prologueSize)) with
        | mk ok m2 =>
        cases ok
        · simp only [hf0]
        simp only
        cases hv : VirtualProtect m2 site prologueSize PAGE_EXECUTE_READWRITE with
        | none => simp only [hf0]
        | some r =>
          obtain ⟨old, m3⟩ := r
          simp only
          cases hw2 : m3.writeBytes site (jmpPatch (c + 1) site prologueSize) with
          | mk ok m4 =>
            cases ok
            · simp only [hf0]
            · simp only

/-- The two ways `PatchCascadeEntryZeroInit` can end: it leaves the state as it was, or the site
bytes were accepted and the state is the one `installTrampoline` describes. -/
theorem PatchCascadeEntryZeroInit_cases (s : State) :
    PatchCascadeEntryZeroInit s = s ∨
    (s.g_entryZeroInitPatched = false ∧ s.g_textDecrypted = true ∧
      s.mem.readBytes (wrap64 ((s.base : Int) + CascadeEntryZeroInit.TagWriteRVA))
        CascadeEntryZeroInit.InstrSize = some zeroInitExpected ∧
      PatchCascadeEntryZeroInit s =
        { s with
            mem := (installTrampoline s.mem
              (wrap64 ((s.base : Int) + CascadeEntryZeroInit.TagWriteRVA))
              CascadeEntryZeroInit.InstrSize 128
              (fun c => zeroInitCave c (wrap64 ((s.base : Int) + CascadeEntryZeroInit.ReturnRVA)))).2.1
            g_entryZeroInitCave := (installTrampoline s.mem
              (wrap64 ((s.base : Int) + CascadeEntryZeroInit.TagWriteRVA))
              CascadeEntryZeroInit.InstrSize 128
              (fun c => zeroInitCave c (wrap64 ((s.base : Int) + CascadeEntryZeroInit.ReturnRVA)))).1
            g_entryZeroInitPatched := (installTrampoline s.mem
              (wrap64 ((s.base : Int) + CascadeEntryZeroInit.TagWriteRVA))
              CascadeEntryZeroInit.InstrSize 128
              (fun c => zeroInitCave c (wrap64 ((s.base : Int) + CascadeEntryZeroInit.ReturnRVA)))).2.2 }) := by
  unfold PatchCascadeEntryZeroInit installTrampoline
  obtain ⟨site, hsite⟩ : ∃ x, x = wrap64 ((s.base : Int) + CascadeEntryZeroInit.TagWriteRVA) := ⟨_, rfl⟩
  rw [← hsite]
  obtain ⟨ret, hret⟩ : ∃ x, x = wrap64 ((s.base : Int) + CascadeEntryZeroInit.ReturnRVA) := ⟨_, rfl⟩
  rw [← hret]
  by_cases hf : s.g_entryZeroInitPatched = true
  · rw [if_pos hf]; exact Or.inl rfl
  rw [if_neg hf]
  by_cases htd : s.g_textDecrypted = true
  swap
  · have : (!s.g_textDecrypted) = true := by simpa using htd
    rw [if_pos this]; exact Or.inl rfl
  have : ¬ (!s.g_textDecrypted) = true := by simp [htd]
  rw [if_neg this]
  have hf0 : s.g_entryZeroInitPatched = false := by simpa using hf
  simp only
  cases hr : s.mem.readBytes site CascadeEntryZeroInit.InstrSize with
  | none => exact Or.inl rfl
  | some found =>
    simp only
    by_cases hne : found ≠ zeroInitExpected
    · rw [if_pos hne]; exact Or.inl rfl
    rw [if_neg hne]
    have hfe : found = zeroInitExpected := by simpa using hne
    refine Or.inr ⟨hf0, htd, by rw [hfe], ?_⟩
    cases ha : AllocateNearby s.mem site 128 with
    | mk c m1 =>
      cases c with
      | zero => simp only [hf0]
      | succ c =>
        simp only
        cases hw : m1.writeBytes (c + 1) (zeroInitCave (c + 1) ret) with
        | mk ok m2 =>
        cases ok
        · simp only [hf0]
        simp only
        cases hv : VirtualProtect m2 site CascadeEntryZeroInit.InstrSize PAGE_EXECUTE_READWRITE with
        | none => simp only [hf0]
        | some r =>
          obtain ⟨old, m3⟩ := r
          simp only
          cases hw2 : m3.writeBytes site (jmpPatch (c + 1) site CascadeEntryZeroInit.InstrSize) with
          | mk ok m4 =>
            cases ok
            · simp only [hf0]
            · simp only

/-- The two ways `PatchCascadePtrValidation` can end: it leaves the state as it was, or the site
bytes were accepted and the state is the one `installTrampoline` describes. -/
theorem PatchCascadePtrValidation_cases (s : State) :
    PatchCascadePtrValidation s = s ∨
    (s.g_ptrValidationPatched = false ∧ s.g_textDecrypted = true ∧
      s.mem.readBytes (wrap64 ((s.base : Int) + CascadePtrValidation.TestInstrRVA))
        CascadePtrValidation.PatchSize = some ptrValidationExpected ∧
      PatchCascadePtrValidation s =
        { s with
            mem := (installTrampoline s.mem
              (wrap64 ((s.base : Int) + CascadePtrValidation.TestInstrRVA))
              CascadePtrValidation.PatchSize 128
              (fun c => ptrValidationCave c (wrap64 ((s.base : Int) + CascadePtrValidation.ContinueRVA))
                (wrap64 ((s.base : Int) + CascadePtrValidation.SkipTargetRVA)))).2.1
            g_ptrValidationCave := (installTrampoline s.mem
              (wrap64 ((s.base : Int) + CascadePtrValidation.TestInstrRVA))
              CascadePtrValidation.PatchSize 128
              (fun c => ptrValidationCave c (wrap64 ((s.base : Int) + CascadePtrValidation.ContinueRVA))
                (wrap64 ((s.base : Int) + CascadePtrValidation.SkipTargetRVA)))).1
            g_ptrValidationPatched := (installTrampoline s.mem
              (wrap64 ((s.base : Int) + CascadePtrValidation.TestInstrRVA))
              CascadePtrValidation.PatchSize 128
              (fun c => ptrValidationCave c (wrap64 ((s.base : Int) + CascadePtrValidation.ContinueRVA))
                (wrap64 ((s.base : Int) + CascadePtrValidation.SkipTargetRVA)))).2.2 }) := by
  unfold PatchCascadePtrValidation installTrampoline
  obtain ⟨site, hsite⟩ : ∃ x, x = wrap64 ((s.base : Int) + CascadePtrValidation.TestInstrRVA) := ⟨_, rfl⟩
  rw [← hsite]
  obtain ⟨skip, hskip⟩ : ∃ x, x = wrap64 ((s.base : Int) + CascadePtrValidation.SkipTargetRVA) := ⟨_, rfl⟩
  rw [← hskip]
  obtain ⟨cont, hcont⟩ : ∃ x, x = wrap64 ((s.base : Int) + CascadePtrValidation.ContinueRVA) := ⟨_, rfl⟩
  rw [← hcont]
  by_cases hf : s.g_ptrValidationPatched = true
  · rw [if_pos hf]; exact Or.inl rfl
  rw [if_neg hf]
  by_cases htd : s.g_textDecrypted = true
  swap
  · have : (!s.g_textDecrypted) = true := by simpa using htd
    rw [if_pos this]; exact Or.inl rfl
  have : ¬ (!s.g_textDecrypted) = true := by simp [htd]
  rw [if_neg this]
  have hf0 : s.g_ptrValidationPatched = false := by simpa using hf
  simp only
  cases hr : s.mem.readBytes site CascadePtrValidation.PatchSize with
  | none => exact Or.inl rfl
  | some found =>
    simp only
    by_cases hne : found ≠ ptrValidationExpected
    · rw [if_pos hne]; exact Or.inl rfl
    rw [if_neg hne]
    have hfe : found = ptrValidationExpected := by simpa using hne
    refine Or.inr ⟨hf0, htd, by rw [hfe], ?_⟩
    cases ha : AllocateNearby s.mem site 128 with
    | mk c m1 =>
      cases c with
      | zero => simp only [hf0]
      | succ c =>
        simp only
        cases hw : m1.writeBytes (c + 1) (ptrValidationCave (c + 1) cont skip) with
        | mk ok m2 =>
        cases ok
        · simp only [hf0]
        simp only
        cases hv : VirtualProtect m2 site CascadePtrValidation.PatchSize PAGE_EXECUTE_READWRITE with
        | none => simp only [hf0]
        | some r =>
          obtain ⟨old, m3⟩ := r
          simp only
          cases hw2 : m3.writeBytes site (jmpPatch (c + 1) site CascadePtrValidation.PatchSize) with
          | mk ok m4 =>
            cases ok
            · simp only [hf0]
            · simp only
theorem SameStage.same (s : State) : SameStage s s :=
  ⟨rfl, rfl, rfl, rfl, rfl, rfl, rfl, rfl, rfl, rfl⟩

theorem SameStage.chain {s t u : State} (h1 : SameStage s t) (h2 : SameStage t u) :
    SameStage s u := by
  obtain ⟨a1, a2, a3, a4, a5, a6, a7, a8, a9, a10⟩ := h1
  obtain ⟨b1, b2, b3, b4, b5, b6, b7, b8, b9, b10⟩ := h2
  exact ⟨b1.trans a1, b2.trans a2, b3.trans a3, b4.trans a4, b5.trans a5, b6.trans a6,
    b7.trans a7, b8.trans a8, b9.trans a9, b10.trans a10⟩

theorem SameStage.advance {s t : State} (h : SameStage s t) : Advance s t := by
  obtain ⟨a1, a2, a3, a4, a5, a6, a7, a8, a9, a10⟩ := h
  unfold Advance FlagsGrow Gated
  rw [a1, a2, a3, a4, a5, a6, a7, a8, a9, a10]
  exact ⟨⟨id, id, id, id, id, id, id, id, id, id⟩, id⟩

theorem ForceCascadeCount4_stage (s : State) : SameStage s (ForceCascadeCount4 s) := by
  obtain ⟨A, hA⟩ : ∃ f : Nat → Nat → Nat, f = addr64 := ⟨_, rfl⟩
  unfold ForceCascadeCount4
  rw [← hA]
  repeat' split
  all_goals exact ⟨rfl, rfl, rfl, rfl, rfl, rfl, rfl, rfl, rfl, rfl⟩
/-- A way to establish `Advance`: each flag of `t` is the one of `s`, or it is
set and the flags its stage waits for are set in `t`. -/
theorem Advance.of_flags {s t : State}
    (h1 : t.g_textDecrypted = s.g_textDecrypted ∨ t.g_textDecrypted = true)
    (h2 : t.g_countReadsPatched = s.g_countReadsPatched ∨
      (t.g_countReadsPatched = true ∧ t.g_textDecrypted = true))
    (h3 : t.g_maskSafe = s.g_maskSafe ∨ (t.g_maskSafe = true ∧ t.g_textDecrypted = true))
    (h4 : t.g_shaderPatched = s.g_shaderPatched ∨
      (t.g_shaderPatched = true ∧ t.g_textDecrypted = true))
    (h5 : t.g_vrExpanded = s.g_vrExpanded ∨ t.g_vrExpanded = true)
    (h6 : t.g_entryZeroInitPatched = s.g_entryZeroInitPatched ∨
      (t.g_entryZeroInitPatched = true ∧ t.g_textDecrypted = true))
    (h7 : t.g_nodeAllocPatched = s.g_nodeAllocPatched ∨
      (t.g_nodeAllocPatched = true ∧ t.g_textDecrypted = true))
    (h8 : t.g_nullSafePatched = s.g_nullSafePatched ∨
      (t.g_nullSafePatched = true ∧ t.g_textDecrypted = true))
    (h9 : t.g_ptrValidationPatched = s.g_ptrValidationPatched ∨
      (t.g_ptrValidationPatched = true ∧ t.g_textDecrypted = true))
    (h10 : t.g_maskRestored = s.g_maskRestored ∨
      (t.g_maskRestored = true ∧ t.g_textDecrypted = true ∧ t.g_maskSafe = true ∧
        t.g_vrExpanded = true ∧ t.g_entryZeroInitPatched = true ∧
        t.g_nodeAllocPatched = true ∧ t.g_nullSafePatched = true ∧
        t.g_ptrValidationPatched = true)) : Advance s t := by
  have g1 : s.g_textDecrypted = true → t.g_textDecrypted = true := by
    intro h; rcases h1 with e | e
    · rw [e]; exact h
    · exact e
  have g2 : s.g_countReadsPatched = true → t.g_countReadsPatched = true := by
    intro h; rcases h2 with e | e
    · rw [e]; exact h
    · exact e.1
  have g3 : s.g_maskSafe = true → t.g_maskSafe = true := by
    intro h; rcases h3 with e | e
    · rw [e]; exact h
    · exact e.1
  have g4 : s.g_shaderPatched = true → t.g_shaderPatched = true := by
    intro h; rcases h4 with e | e
    · rw [e]; exact h
    · exact e.1
  have g5 : s.g_vrExpanded = true → t.g_vrExpanded = true := by
    intro h; rcases h5 with e | e
    · rw [e]; exact h
    · exact e
  have g6 : s.g_entryZeroInitPatched = true → t.g_entryZeroInitPatched = true := by
    intro h; rcases h6 with e | e
    · rw [e]; exact h
    · exact e.1
  have g7 : s.g_nodeAllocPatched = true → t.g_nodeAllocPatched = true := by
    intro h; rcases h7 with e | e
    · rw [e]; exact h
    · exact e.1
  have g8 : s.g_nullSafePatched = true → t.g_nullSafePatched = true := by
    intro h; rcases h8 with e | e
    · rw [e]; exact h
    · exact e.1
  have g9 : s.g_ptrValidationPatched = true → t.g_ptrValidationPatched = true := by
    intro h; rcases h9 with e | e
    · rw [e]; exact h
    · exact e.1
  have g10 : s.g_maskRestored = true → t.g_maskRestored = true := by
    intro h; rcases h10 with e | e
    · rw [e]; exact h
    · exact e.1
  refine ⟨⟨g1, g2, g3, g4, g5, g6, g7, g8, g9, g10⟩, ?_⟩
  rintro ⟨k2, k3, k4, k6, k7, k8, k9, k10⟩
  refine ⟨?_, ?_, ?_, ?_, ?_, ?_, ?_, ?_⟩
  · intro h; rcases h2 with e | e
    · exact g1 (k2 (e ▸ h))
    · exact e.2
  · intro h; rcases h3 with e | e
    · exact g1 (k3 (e ▸ h))
    · exact e.2
  · intro h; rcases h4 with e | e
    · exact g1 (k4 (e ▸ h))
    · exact e.2
  · intro h; rcases h6 with e | e
    · exact g1 (k6 (e ▸ h))
    · exact e.2
  · intro h; rcases h7 with e | e
    · exact g1 (k7 (e ▸ h))
    · exact e.2
  · intro h; rcases h8 with e | e
    · exact g1 (k8 (e ▸ h))
    · exact e.2
  · intro h; rcases h9 with e | e
    · exact g1 (k9 (e ▸ h))
    · exact e.2
  · intro h; rcases h10 with e | e
    · obtain ⟨a1, a2, a3, a4, a5, a6, a7⟩ := k10 (e ▸ h)
      exact ⟨g1 a1, g3 a2, g5 a3, g6 a4, g7 a5, g8 a6, g9 a7⟩
    · exact e.2

theorem TryExpandVRArray_advance (pick : Nat) (s : State) :
    Advance s (TryExpandVRArray pick s) := by
  obtain ⟨A, hA⟩ : ∃ f : Nat → Nat → Nat, f = addr64 := ⟨_, rfl⟩
  unfold TryExpandVRArray
  rw [← hA]
  repeat' first | split | simp only
  all_goals
    refine Advance.of_flags ?_ ?_ ?_ ?_ ?_ ?_ ?_ ?_ ?_ ?_ <;>
      first
        | exact Or.inl rfl
        | exact Or.inr rfl

theorem ClampMask_stage (s : State) : SameStage s (ClampMask s) := by
  obtain ⟨A, hA⟩ : ∃ f : Nat → Nat → Nat, f = addr64 := ⟨_, rfl⟩
  unfold ClampMask
  rw [← hA]
  repeat' first | split | simp only
  all_goals exact ⟨rfl, rfl, rfl, rfl, rfl, rfl, rfl, rfl, rfl, rfl⟩

theorem PatchStereoDispatch_stage (s : State) : SameStage s (PatchStereoDispatch s) := by
  obtain ⟨A, hA⟩ : ∃ f : Nat → Nat → Nat, f = addr64 := ⟨_, rfl⟩
  unfold PatchStereoDispatch
  rw [← hA]
  repeat' first | split | simp only
  all_goals exact ⟨rfl, rfl, rfl, rfl, rfl, rfl, rfl, rfl, rfl, rfl⟩

theorem writeShadowDistance_stage (scaled : Nat) (s : State) :
    SameStage s (writeShadowDistance scaled s) := by
  obtain ⟨A, hA⟩ : ∃ f : Nat → Nat → Nat, f = addr64 := ⟨_, rfl⟩
  unfold writeShadowDistance
  rw [← hA]
  repeat' first | split | simp only
  all_goals exact ⟨rfl, rfl, rfl, rfl, rfl, rfl, rfl, rfl, rfl, rfl⟩

theorem FixSetupSceneNode_stage (s : State) : SameStage s (FixSetupSceneNode s) := by
  obtain ⟨A, hA⟩ : ∃ f : Nat → Nat → Nat, f = addr64 := ⟨_, rfl⟩
  unfold FixSetupSceneNode
  rw [← hA]
  repeat' first | split | simp only
  all_goals exact ⟨rfl, rfl, rfl, rfl, rfl, rfl, rfl, rfl, rfl, rfl⟩

theorem ForceBothCascadeGroups_stage (s : State) :
    SameStage s (ForceBothCascadeGroups s) := by
  obtain ⟨A, hA⟩ : ∃ f : Nat → Nat → Nat, f = addr64 := ⟨_, rfl⟩
  unfold ForceBothCascadeGroups
  rw [← hA]
  repeat' first | split | simp only
  all_goals exact ⟨rfl, rfl, rfl, rfl, rfl, rfl, rfl, rfl, rfl, rfl⟩

theorem LogExtendedDiagnostics_stage (s : State) :
    SameStage s (LogExtendedDiagnostics s) :=
  ⟨rfl, rfl, rfl, rfl, rfl, rfl, rfl, rfl, rfl, rfl⟩

theorem StartExpansionTimer_stage (timerOk : Bool) (s : State) :
    SameStage s (StartExpansionTimer timerOk s) := by
  unfold StartExpansionTimer
  repeat' first | split | simp only
  all_goals exact ⟨rfl, rfl, rfl, rfl, rfl, rfl, rfl, rfl, rfl, rfl⟩


/-! ### The exits of the validation trampoline -/

/-- C25: the nine expected bytes at `TestInstrRVA` are `test r14, r14` followed
by a near `jz` whose rel32 is 0x8A, so the branch the host would have taken
goes to `TestInstrRVA + 9 + 0x8A`, which is `SkipTargetRVA`; and `ContinueRVA`
is `TestInstrRVA + PatchSize`, the instruction after the replaced span. -/
theorem ptrValidation_exits_match_original :
    ptrValidationExpected.take 5 = [0x4D, 0x85, 0xF6, 0x0F, 0x84] ∧
    ptrValidationExpected.length = CascadePtrValidation.PatchSize ∧
    ((CascadePtrValidation.TestInstrRVA : Int) + 9 + rel32At ptrValidationExpected 5
      = CascadePtrValidation.SkipTargetRVA) ∧
    rel32At ptrValidationExpected 5 = 0x8A ∧
    CascadePtrValidation.SkipTargetRVA = CascadePtrValidation.TestInstrRVA + 9 + 0x8A ∧
    CascadePtrValidation.ContinueRVA
      = CascadePtrValidation.TestInstrRVA + CascadePtrValidation.PatchSize := by
  decide

/-! ### The block level of the plugin -/

theorem ShadowBoost.int32_small (v : Int) (h0 : -1 ≤ v) (h1 : v ≤ 4) :
    ShadowBoost.int32 v = v := by
  unfold ShadowBoost.int32 sext32
  split <;> omega

theorem ShadowBoost.clamp_int32 (v : Int) (h0 : -1 ≤ v) (h1 : v ≤ 4) :
    0 ≤ ShadowBoost.clamp (ShadowBoost.int32 v) 0 (ShadowBoost.MaxBlockLevels - 1) ∧
    ShadowBoost.clamp (ShadowBoost.int32 v) 0 (ShadowBoost.MaxBlockLevels - 1) ≤ 3 ∧
    ShadowBoost.clamp (ShadowBoost.int32 v) 0 (ShadowBoost.MaxBlockLevels - 1) - v ≤ 1 ∧
    v - ShadowBoost.clamp (ShadowBoost.int32 v) 0 (ShadowBoost.MaxBlockLevels - 1) ≤ 1 ∧
    (0 ≤ v → v ≤ 3 →
      ShadowBoost.clamp (ShadowBoost.int32 v) 0 (ShadowBoost.MaxBlockLevels - 1) = v) := by
  rw [ShadowBoost.int32_small v h0 h1]
  unfold ShadowBoost.clamp ShadowBoost.MaxBlockLevels
  split
  · omega
  · split <;> omega

theorem ShadowBoost.update_range (c : ShadowBoost.Controller) (f : ShadowBoost.Frame)
    (h0 : 0 ≤ c._blockIndex) (h3 : c._blockIndex ≤ 3) :
    0 ≤ (ShadowBoost.update c f)._blockIndex ∧ (ShadowBoost.update c f)._blockIndex ≤ 3 ∧
    (ShadowBoost.update c f)._blockIndex - c._blockIndex ≤ 1 ∧
    c._blockIndex - (ShadowBoost.update c f)._blockIndex ≤ 1 ∧
    (ShadowBoost.update c f).configSet = c.configSet ∧
    (ShadowBoost.update c f)._initialized = c._initialized := by
  obtain ⟨a1, a2, a3, a4, _⟩ :=
    ShadowBoost.clamp_int32 (c._blockIndex + 1) (by omega) (by omega)
  obtain ⟨b1, b2, b3, b4, _⟩ :=
    ShadowBoost.clamp_int32 (c._blockIndex - 1) (by omega) (by omega)
  obtain ⟨d1, d2, d3, d4, _⟩ :=
    ShadowBoost.clamp_int32
      (ShadowBoost.clamp (ShadowBoost.int32 (c._blockIndex + 1)) 0
        (ShadowBoost.MaxBlockLevels - 1) - 1) (by omega) (by omega)
  unfold ShadowBoost.update
  by_cases g1 : (!c.configSet || !c._initialized) = true
  · rw [if_pos g1]; exact ⟨h0, h3, by omega, by omega, rfl, rfl⟩
  rw [if_neg g1]
  by_cases g2 : f.throttled = true
  · rw [if_pos g2]; exact ⟨h0, h3, by omega, by omega, rfl, rfl⟩
  rw [if_neg g2]
  by_cases g3 : (f.bAutoAdjust && f.bBlockEnable && f.blockSettingsFound) = true
  swap
  · rw [if_neg g3]; exact ⟨h0, h3, by omega, by omega, rfl, rfl⟩
  rw [if_pos g3]
  by_cases ha : (f.atMin && f.dynPositive) = true <;>
    by_cases hb : (f.atMax && f.dynNotPositive) = true
  · simp only [if_pos ha, if_pos hb]
    exact ⟨d1, d2, by omega, by omega, by first | rfl | trivial, by first | rfl | trivial⟩
  · simp only [if_pos ha, if_neg hb]
    exact ⟨a1, a2, by omega, by omega, by first | rfl | trivial, by first | rfl | trivial⟩
  · simp only [if_neg ha, if_pos hb]
    exact ⟨b1, b2, by omega, by omega, by first | rfl | trivial, by first | rfl | trivial⟩
  · simp only [if_neg ha, if_neg hb]
    exact ⟨h0, h3, by omega, by omega, by first | rfl | trivial, by first | rfl | trivial⟩

theorem ShadowBoost.updates_range (fs : List ShadowBoost.Frame) :
    ∀ c : ShadowBoost.Controller, 0 ≤ c._blockIndex → c._blockIndex ≤ 3 →
      0 ≤ (ShadowBoost.updates c fs)._blockIndex ∧
        (ShadowBoost.updates c fs)._blockIndex ≤ 3 := by
  induction fs with
  | nil => intro c h0 h3; exact ⟨h0, h3⟩
  | cons f fs ih =>
    intro c h0 h3
    obtain ⟨a, b, _⟩ := ShadowBoost.update_range c f h0 h3
    exact ih _ a b

/-- C30: after `init` has succeeded, whatever the configuration says and
whatever the frame times are, every sequence of `update` calls leaves
`_blockIndex` in `0 .. MaxBlockLevels - 1`, and one more `update` moves it by at
most one. -/
theorem ShadowBoost_blockIndex_in_bounds (c0 : ShadowBoost.Controller)
    (fs : List ShadowBoost.Frame) (f : ShadowBoost.Frame) :
    0 ≤ (ShadowBoost.updates (ShadowBoost.init c0 true) fs)._blockIndex ∧
    (ShadowBoost.updates (ShadowBoost.init c0 true) fs)._blockIndex
      ≤ ShadowBoost.MaxBlockLevels - 1 ∧
    (ShadowBoost.update (ShadowBoost.updates (ShadowBoost.init c0 true) fs) f)._blockIndex
      - (ShadowBoost.updates (ShadowBoost.init c0 true) fs)._blockIndex ≤ 1 ∧
    (ShadowBoost.updates (ShadowBoost.init c0 true) fs)._blockIndex
      - (ShadowBoost.update (ShadowBoost.updates (ShadowBoost.init c0 true) fs) f)._blockIndex
      ≤ 1 := by
  have hi : (ShadowBoost.init c0 true)._blockIndex = 0 := rfl
  obtain ⟨a, b⟩ := ShadowBoost.updates_range fs (ShadowBoost.init c0 true) (by omega) (by omega)
  obtain ⟨_, _, c, d, _⟩ := ShadowBoost.update_range _ f a b
  exact ⟨a, by unfold ShadowBoost.MaxBlockLevels; omega, c, d⟩
/-! ### Shared shadow maps (`SharedShadowFix::Apply`) -/

theorem protect_write_restore (m : Mem) (a n : Nat) (hr : m.readable a = true)
    (hok : m.protectOk (a / 4096) = true) :
    ∃ old m1 m2, VirtualProtect m a 1 PAGE_EXECUTE_READWRITE = some (old, m1) ∧
      m1.write8 a n = some m2 ∧ restoreProtect m2 a 1 old = m.setByte a n := by
  unfold Mem.readable at hr
  simp only [Bool.and_eq_true, decide_eq_true_eq] at hr
  obtain ⟨hcr, hlt⟩ := hr
  have hp0 : m.prot (a / 4096) ≠ 0 := by
    intro h0
    rw [h0] at hcr
    simp [canRead] at hcr
  refine ⟨m.prot (a / 4096),
    { m with prot := fun p => if p = a / 4096 then PAGE_EXECUTE_READWRITE else m.prot p },
    Mem.setByte { m with prot := fun p => if p = a / 4096 then PAGE_EXECUTE_READWRITE
                                          else m.prot p } a n, ?_, ?_, ?_⟩
  · rw [VirtualProtect_one, if_pos ⟨hok, hp0⟩]
  · simp [Mem.write8, Mem.writable, hlt, PAGE_EXECUTE_READWRITE, canWrite]
  · unfold restoreProtect
    rw [VirtualProtect_one]
    simp only [Mem.setByte, PAGE_EXECUTE_READWRITE]
    simp only [if_true, hok, true_and]
    rw [if_pos (by decide)]
    show Mem.mk _ _ _ _ _ _ = Mem.mk _ _ _ _ _ _
    congr 1
    funext p
    by_cases hp : p = a / 4096
    · simp [hp]
    · simp [hp]

theorem SharedShadowFix.patchByte_spec (base : Nat) (m : Mem) (applied : Int) (off b : Nat)
    (h : m.read8 (addr64 base off) = some b)
    (hok : m.protectOk (addr64 base off / 4096) = true) :
    SharedShadowFix.patchByte base m applied off SharedShadowFix.OldDisp
        SharedShadowFix.NewDisp =
      if b = 0x50 then some (true, applied + 1, m)
      else if b = 0x58 then some (true, applied + 1, m.setByte (addr64 base off) 0x50)
      else some (false, applied, m) := by
  obtain ⟨old, m1, m2, e1, e2, e3⟩ :=
    protect_write_restore m (addr64 base off) 0x50 (read8_readable h) hok
  unfold SharedShadowFix.patchByte
  rw [h]
  simp only [SharedShadowFix.NewDisp, SharedShadowFix.OldDisp, Nat.reduceMod]
  by_cases hb : b = 0x50
  · rw [if_pos hb, if_pos hb]
  rw [if_neg hb, if_neg hb]
  by_cases hb2 : b = 0x58
  · rw [if_neg (by simpa using hb2), if_pos hb2, e1]
    simp only [e2, e3]
  · rw [if_pos hb2, if_neg hb2]

theorem SharedShadowFix.sites_differ (base : Nat) :
    addr64 base SharedShadowFix.RightActivate_Offset
      ≠ addr64 base SharedShadowFix.RightDispatch_Offset := by
  unfold addr64 wrap64 SharedShadowFix.RightActivate_Offset SharedShadowFix.RightDispatch_Offset
  omega

theorem read8_setByte (m : Mem) (a v x : Nat) :
    (m.setByte a v).read8 x =
      if x = a then (if m.readable a then some (v % 256) else none) else m.read8 x := by
  unfold Mem.read8 Mem.readable Mem.setByte
  by_cases h : x = a
  · subst h; simp
  · simp [h]


theorem SharedShadowFix.apply_two (base : Nat) (m : Mem) (off1 off2 b1 b2 : Nat)
    (hne : addr64 base off1 ≠ addr64 base off2)
    (h1 : m.read8 (addr64 base off1) = some b1)
    (h2 : m.read8 (addr64 base off2) = some b2)
    (hp1 : m.protectOk (addr64 base off1 / 4096) = true)
    (hp2 : m.protectOk (addr64 base off2 / 4096) = true) :
    (match SharedShadowFix.patchByte base m 0 off1 SharedShadowFix.OldDisp
        SharedShadowFix.NewDisp with
      | none => none
      | some (_, applied1, m1) =>
        match SharedShadowFix.patchByte base m1 applied1 off2 SharedShadowFix.OldDisp
            SharedShadowFix.NewDisp with
        | none => none
        | some (_, applied2, m2) => some (decide (applied2 = 2), m2)) =
      some (decide ((b1 = 0x50 ∨ b1 = 0x58) ∧ (b2 = 0x50 ∨ b2 = 0x58)),
        (if b2 = 0x58 then
            Mem.setByte (if b1 = 0x58 then m.setByte (addr64 base off1) 0x50 else m)
              (addr64 base off2) 0x50
          else (if b1 = 0x58 then m.setByte (addr64 base off1) 0x50 else m))) := by
  have q1 := SharedShadowFix.patchByte_spec base m 0 _ b1 h1 hp1
  have q2 := fun (m0 : Mem) (k : Int) h hp => SharedShadowFix.patchByte_spec base m0 k
      off2 b2 h hp
  rw [q1]
  have h2' : (m.setByte (addr64 base off1) 0x50).read8 (addr64 base off2) = some b2 := by
    rw [read8_setByte, if_neg (Ne.symm hne), h2]
  have hp2' : (m.setByte (addr64 base off1) 0x50).protectOk (addr64 base off2 / 4096)
      = true := hp2
  by_cases c1 : b1 = 0x50
  · rw [if_pos c1]
    simp only [q2 m (0 + 1) h2 hp2]
    by_cases c2 : b2 = 0x50
    · simp [c1, c2]
    · by_cases c3 : b2 = 0x58
      · simp [c1, c3]
      · simp [c1, c2, c3]
  · rw [if_neg c1]
    by_cases c4 : b1 = 0x58
    · rw [if_pos c4]
      simp only [q2 _ (0 + 1) h2' hp2']
      by_cases c2 : b2 = 0x50
      · simp [c4, c2]
      · by_cases c3 : b2 = 0x58
        · simp [c4, c3]
        · simp [c4, c2, c3]
    · rw [if_neg c4]
      simp only [q2 m 0 h2 hp2]
      by_cases c2 : b2 = 0x50
      · simp [c1, c4, c2]
      · by_cases c3 : b2 = 0x58
        · simp [c1, c4, c3]
        · simp [c1, c4, c2, c3]


theorem SharedShadowFix.Apply_eq (base : Nat) (m : Mem) (b1 b2 : Nat)
    (h1 : m.read8 (addr64 base SharedShadowFix.RightActivate_Offset) = some b1)
    (h2 : m.read8 (addr64 base SharedShadowFix.RightDispatch_Offset) = some b2)
    (hp1 : m.protectOk (addr64 base SharedShadowFix.RightActivate_Offset / 4096) = true)
    (hp2 : m.protectOk (addr64 base SharedShadowFix.RightDispatch_Offset / 4096) = true) :
    SharedShadowFix.Apply base m =
      some (decide ((b1 = 0x50 ∨ b1 = 0x58) ∧ (b2 = 0x50 ∨ b2 = 0x58)),
        (if b2 = 0x58 then
            Mem.setByte (if b1 = 0x58 then
                m.setByte (addr64 base SharedShadowFix.RightActivate_Offset) 0x50 else m)
              (addr64 base SharedShadowFix.RightDispatch_Offset) 0x50
          else (if b1 = 0x58 then
                m.setByte (addr64 base SharedShadowFix.RightActivate_Offset) 0x50 else m))) := by
  unfold SharedShadowFix.Apply
  exact SharedShadowFix.apply_two base m SharedShadowFix.RightActivate_Offset
    SharedShadowFix.RightDispatch_Offset b1 b2 (SharedShadowFix.sites_differ base)
    h1 h2 hp1 hp2

theorem readable_setByte (m : Mem) (a v x : Nat) :
    (m.setByte a v).readable x = m.readable x := rfl

theorem byte_setByte (m : Mem) (a v x : Nat) :
    (m.setByte a v).byte x = if x = a then v % 256 else m.byte x := rfl

theorem prot_setByte (m : Mem) (a v : Nat) : (m.setByte a v).prot = m.prot := rfl

theorem protectOk_setByte (m : Mem) (a v : Nat) :
    (m.setByte a v).protectOk = m.protectOk := rfl

/-- C24: when both displacement bytes can be read and the protection of their
pages can be changed, `SharedShadowFix::Apply` returns true exactly when each
byte holds 0x58 or 0x50; a byte that held 0x58 or 0x50 holds 0x50 afterwards, a
byte that held anything else is left as it was whatever the other site does, no
other byte of the memory changes, and after a successful call a second call
returns true and leaves the memory as it is. -/
theorem SharedShadowFix_Apply_spec (base : Nat) (m : Mem) (b1 b2 : Nat)
    (h1 : m.read8 (addr64 base SharedShadowFix.RightActivate_Offset) = some b1)
    (h2 : m.read8 (addr64 base SharedShadowFix.RightDispatch_Offset) = some b2)
    (hp1 : m.protectOk (addr64 base SharedShadowFix.RightActivate_Offset / 4096) = true)
    (hp2 : m.protectOk (addr64 base SharedShadowFix.RightDispatch_Offset / 4096) = true) :
    ∃ ok m1, SharedShadowFix.Apply base m = some (ok, m1) ∧
      (ok = true ↔ (b1 = 0x58 ∨ b1 = 0x50) ∧ (b2 = 0x58 ∨ b2 = 0x50)) ∧
      m1.read8 (addr64 base SharedShadowFix.RightActivate_Offset)
        = some (if b1 = 0x58 ∨ b1 = 0x50 then 0x50 else b1) ∧
      m1.read8 (addr64 base SharedShadowFix.RightDispatch_Offset)
        = some (if b2 = 0x58 ∨ b2 = 0x50 then 0x50 else b2) ∧
      (b1 ≠ 0x58 → m1.byte (addr64 base SharedShadowFix.RightActivate_Offset)
        = m.byte (addr64 base SharedShadowFix.RightActivate_Offset)) ∧
      (b2 ≠ 0x58 → m1.byte (addr64 base SharedShadowFix.RightDispatch_Offset)
        = m.byte (addr64 base SharedShadowFix.RightDispatch_Offset)) ∧
      (∀ x, x ≠ addr64 base SharedShadowFix.RightActivate_Offset →
        x ≠ addr64 base SharedShadowFix.RightDispatch_Offset → m1.byte x = m.byte x) ∧
      m1.prot = m.prot ∧
      (ok = true → SharedShadowFix.Apply base m1 = some (true, m1)) := by
  have hne := SharedShadowFix.sites_differ base
  have e := SharedShadowFix.Apply_eq base m b1 b2 h1 h2 hp1 hp2
  have r1 := read8_readable h1
  have r2 := read8_readable h2
  obtain ⟨A1, hA1⟩ : ∃ x, addr64 base SharedShadowFix.RightActivate_Offset = x := ⟨_, rfl⟩
  obtain ⟨A2, hA2⟩ : ∃ x, addr64 base SharedShadowFix.RightDispatch_Offset = x := ⟨_, rfl⟩
  have again := fun m0 c1 c2 d1 d2 => SharedShadowFix.Apply_eq base m0 0x50 0x50 c1 c2 d1 d2
  rw [hA1, hA2] at hne e again
  rw [hA1] at h1 hp1 r1
  rw [hA2] at h2 hp2 r2
  rw [hA1, hA2]
  have k1 : ∀ m0 : Mem, m0.protectOk = m.protectOk → m0.read8 A1 = some 0x50 →
      m0.read8 A2 = some 0x50 → SharedShadowFix.Apply base m0 = some (true, m0) := by
    intro m0 hpo q1 q2
    have := again m0 q1 q2 (by rw [hpo]; exact hp1) (by rw [hpo]; exact hp2)
    simpa using this
  have t1 : b1 = 0x58 ∨ b1 = 0x50 ∨ (b1 ≠ 0x58 ∧ b1 ≠ 0x50) := by omega
  have t2 : b2 = 0x58 ∨ b2 = 0x50 ∨ (b2 ≠ 0x58 ∧ b2 ≠ 0x50) := by omega
  have hne' := Ne.symm hne
  rcases t1 with c1 | c1 | ⟨c1, d1⟩ <;> rcases t2 with c2 | c2 | ⟨c2, d2⟩
  · subst c1; subst c2
    refine ⟨true, (m.setByte A1 0x50).setByte A2 0x50, by simpa using e, by simp, ?_, ?_, ?_,
      ?_, ?_, ?_, ?_⟩
    · simp [read8_setByte, readable_setByte, hne, r1]
    · simp [read8_setByte, readable_setByte, r2]
    · intro h; exact absurd rfl h
    · intro h; exact absurd rfl h
    · intro x hx1 hx2; simp [byte_setByte, hx1, hx2]
    · simp [prot_setByte]
    · intro _
      apply k1
      · simp [protectOk_setByte]
      · simp [read8_setByte, readable_setByte, hne, r1]
      · simp [read8_setByte, readable_setByte, r2]
  · subst c1; subst c2
    refine ⟨true, m.setByte A1 0x50, by simpa using e, by simp, ?_, ?_, ?_,
      ?_, ?_, ?_, ?_⟩
    · simp [read8_setByte, readable_setByte, r1]
    · simp [read8_setByte, readable_setByte, hne', h2]
    · intro h; exact absurd rfl h
    · intro _; simp [byte_setByte, hne']
    · intro x hx1 hx2; simp [byte_setByte, hx1]
    · simp [prot_setByte]
    · intro _
      apply k1
      · simp [protectOk_setByte]
      · simp [read8_setByte, readable_setByte, r1]
      · simp [read8_setByte, readable_setByte, hne', h2]
  · subst c1
    refine ⟨false, m.setByte A1 0x50, by simpa [c2, d2] using e, by simp [c2, d2], ?_, ?_, ?_,
      ?_, ?_, ?_, ?_⟩
    · simp [read8_setByte, readable_setByte, r1]
    · simp [read8_setByte, readable_setByte, hne', h2, c2, d2]
    · intro h; exact absurd rfl h
    · intro _; simp [byte_setByte, hne']
    · intro x hx1 hx2; simp [byte_setByte, hx1]
    · simp [prot_setByte]
    · intro h; exact absurd h (by simp)
  · subst c1; subst c2
    refine ⟨true, m.setByte A2 0x50, by simpa using e, by simp, ?_, ?_, ?_,
      ?_, ?_, ?_, ?_⟩
    · simp [read8_setByte, readable_setByte, hne, h1]
    · simp [read8_setByte, readable_setByte, r2]
    · intro _; simp [byte_setByte, hne]
    · intro h; exact absurd rfl h
    · intro x hx1 hx2; simp [byte_setByte, hx2]
    · simp [prot_setByte]
    · intro _
      apply k1
      · simp [protectOk_setByte]
      · simp [read8_setByte, readable_setByte, hne, h1]
      · simp [read8_setByte, readable_setByte, r2]
  · subst c1; subst c2
    refine ⟨true, m, by simpa using e, by simp, ?_, ?_, ?_, ?_, ?_, ?_, ?_⟩
    · simp [h1]
    · simp [h2]
    · intro _; rfl
    · intro _; rfl
    · intro x hx1 hx2; rfl
    · rfl
    · intro _
      exact k1 m rfl h1 h2
  · subst c1
    refine ⟨false, m, by simpa [c2, d2] using e, by simp [c2, d2], ?_, ?_, ?_, ?_, ?_, ?_, ?_⟩
    · simp [h1]
    · simp [h2, c2, d2]
    · intro _; rfl
    · intro _; rfl
    · intro x hx1 hx2; rfl
    · rfl
    · intro h; exact absurd h (by simp)
  · subst c2
    refine ⟨false, m.setByte A2 0x50, by simpa [c1, d1] using e, by simp [c1, d1], ?_, ?_, ?_,
      ?_, ?_, ?_, ?_⟩
    · simp [read8_setByte, readable_setByte, hne, h1, c1, d1]
    · simp [read8_setByte, readable_setByte, r2]
    · intro _; simp [byte_setByte, hne]
    · intro h; exact absurd rfl h
    · intro x hx1 hx2; simp [byte_setByte, hx2]
    · simp [prot_setByte]
    · intro h; exact absurd h (by simp)
  · subst c2
    refine ⟨false, m, by simpa [c1, d1] using e, by simp [c1, d1], ?_, ?_, ?_, ?_, ?_, ?_, ?_⟩
    · simp [h1, c1, d1]
    · simp [h2]
    · intro _; rfl
    · intro _; rfl
    · intro x hx1 hx2; rfl
    · rfl
    · intro h; exact absurd h (by simp)
  · refine ⟨false, m, by simpa [c1, d1, c2, d2] using e, by simp [c1, d1], ?_, ?_, ?_, ?_, ?_,
      ?_, ?_⟩
    · simp [h1, c1, d1]
    · simp [h2, c2, d2]
    · intro _; rfl
    · intro _; rfl
    · intro x hx1 hx2; rfl
    · rfl
    · intro h; exact absurd h (by simp)
/-- C24, witness: an image that holds 0x58 at both sites. -/
theorem SharedShadowFix_Apply_spec_witness :
    ∃ m1, SharedShadowFix.Apply gameBase (imageMem (fun _ => 0x58) true) = some (true, m1) ∧
      m1.read8 (addr64 gameBase SharedShadowFix.RightActivate_Offset) = some 0x50 ∧
      m1.read8 (addr64 gameBase SharedShadowFix.RightDispatch_Offset) = some 0x50 := by
  obtain ⟨ok, m1, h, hiff, r1, r2, _⟩ :=
    SharedShadowFix_Apply_spec gameBase (imageMem (fun _ => 0x58) true) 0x58 0x58
      (by decide) (by decide) (by decide) (by decide)
  have hok : ok = true := hiff.2 (by decide)
  subst hok
  exact ⟨m1, h, r1, r2⟩

/-! ### The cascade-count global -/

/-- Once `g_countForced` is set, `ForceCascadeCount4` returns before it looks at
the global. -/
theorem ForceCascadeCount4_only_once (s : State) (h : s.g_countForced = true) :
    ForceCascadeCount4 s = s := by
  unfold ForceCascadeCount4
  rw [if_pos h]

/-- C26, divergence: in a process whose memory is all zero the first timer tick
stores 4 in the cascade-count global and sets `g_countForced`; the host then
stores 2 there, and the next tick leaves the 2 in place. -/
theorem count_global_not_forced_again :
    (run (initState (dataMem (fun _ => 0)) gameBase)
        [Event.tick { pick := 0, timerOk := true, scaled := 0 }]).mem.read32
      (addr64 gameBase CountGlobal) = some 4 ∧
    ((run (initState (dataMem (fun _ => 0)) gameBase)
        [Event.tick { pick := 0, timerOk := true, scaled := 0 }]).mem.write32
      (addr64 gameBase CountGlobal) 2).bind
      (fun m2 =>
        (run (initState (dataMem (fun _ => 0)) gameBase)
          [Event.tick { pick := 0, timerOk := true, scaled := 0 }, Event.host m2,
            Event.tick { pick := 0, timerOk := true, scaled := 0 }]).mem.read32
          (addr64 gameBase CountGlobal)) = some 2 := by
  decide

/-- C26, witness of the once-only guard: the state after the first tick. -/
theorem ForceCascadeCount4_only_once_witness :
    ForceCascadeCount4
        (run (initState (dataMem (fun _ => 0)) gameBase)
          [Event.tick { pick := 0, timerOk := true, scaled := 0 }])
      = run (initState (dataMem (fun _ => 0)) gameBase)
          [Event.tick { pick := 0, timerOk := true, scaled := 0 }] :=
  ForceCascadeCount4_only_once _ (by decide)
/-! ### The layout of the emitted blocks -/

theorem le32_bytes (v : Nat) : ∃ a b c d, le32 v = [a, b, c, d] := ⟨_, _, _, _, rfl⟩

theorem X86.scan_cons (fuel k b : Nat) (bs : List Nat) (h : 0 < fuel) :
    X86.scan fuel k (b :: bs) =
      match X86.instrLength (b :: bs) with
      | none => none
      | some n =>
        if (b :: bs).length < n then none
        else
          match X86.scan (fuel - 1) (k + n) ((b :: bs).drop n) with
          | none => none
          | some ks => some (k :: ks) := by
  cases fuel with
  | zero => omega
  | succ f => rfl

theorem nullSafetyCave_layout (cave ret : Nat) :
    X86.starts (nullSafetyCave cave ret) = some [0, 3, 5, 12, 15, 17, 19, 24, 26] ∧
    X86.shortBranchTargets (nullSafetyCave cave ret) [0, 3, 5, 12, 15, 17, 19, 24, 26] = [24, 19, 24] ∧
    (nullSafetyCave cave ret).length = 31 := by
  unfold nullSafetyCave nullSafetyExpected
  obtain ⟨a, b, c, d, h1⟩ := le32_bytes (rel32 ret (cave + 20 + 4))
  obtain ⟨e, f, g, h, h2⟩ := le32_bytes (rel32 ret (cave + 27 + 4))
  rw [h1, h2]
  refine ⟨?_, ?_, ?_⟩
  · unfold X86.starts
    simp only [List.cons_append, List.nil_append, List.length_cons, List.length_nil]
    iterate 9
      rw [X86.scan_cons _ _ _ _ (by decide)]
      simp [X86.instrLength, X86.opLength, X86.modrmLength, X86.byteAt]
    rfl
  · simp [X86.shortBranchTargets, X86.isShortBranch, X86.shortTarget, X86.byteAt, X86.sext8]
  · rfl

theorem nodeAllocCave_layout (cave ret : Nat) :
    X86.starts (nodeAllocCave cave ret) = some [0, 3, 5, 13, 17, 20] ∧
    X86.shortBranchTargets (nodeAllocCave cave ret) [0, 3, 5, 13, 17, 20] = [13] ∧
    (nodeAllocCave cave ret).length = 25 := by
  unfold nodeAllocCave
  obtain ⟨a, b, c, d, h1⟩ := le32_bytes (rel32 ret (cave + 21 + 4))
  rw [h1]
  refine ⟨?_, ?_, ?_⟩
  · unfold X86.starts
    simp only [List.cons_append, List.nil_append, List.length_cons, List.length_nil]
    iterate 6
      rw [X86.scan_cons _ _ _ _ (by decide)]
      simp [X86.instrLength, X86.opLength, X86.modrmLength, X86.byteAt]
    rfl
  · simp [X86.shortBranchTargets, X86.isShortBranch, X86.shortTarget, X86.byteAt, X86.sext8]
  · rfl

theorem zeroInitCave_layout (cave ret : Nat) :
    X86.starts (zeroInitCave cave ret) = some [0, 1, 9, 17, 25, 33, 41, 48, 56, 64, 72, 73, 81] ∧
    X86.shortBranchTargets (zeroInitCave cave ret) [0, 1, 9, 17, 25, 33, 41, 48, 56, 64, 72, 73, 81] = [] ∧
    (zeroInitCave cave ret).length = 86 := by
  unfold zeroInitCave zeroInitExpected
  obtain ⟨a, b, c, d, h1⟩ := le32_bytes (rel32 ret (cave + 82 + 4))
  rw [h1]
  refine ⟨?_, ?_, ?_⟩
  · unfold X86.starts
    simp only [List.cons_append, List.nil_append, List.length_cons, List.length_nil]
    iterate 13
      rw [X86.scan_cons _ _ _ _ (by decide)]
      simp [X86.instrLength, X86.opLength, X86.modrmLength, X86.byteAt]
    rfl
  · simp [X86.shortBranchTargets, X86.isShortBranch, X86.shortTarget, X86.byteAt, X86.sext8]
  · rfl

theorem ptrValidationCave_layout (cave cont skip : Nat) :
    X86.starts (ptrValidationCave cave cont skip) = some [0, 3, 5, 6, 9, 13, 15, 17, 20, 22, 24, 25, 30, 31, 39, 42] ∧
    X86.shortBranchTargets (ptrValidationCave cave cont skip) [0, 3, 5, 6, 9, 13, 15, 17, 20, 22, 24, 25, 30, 31, 39, 42] = [42, 30, 30] ∧
    (ptrValidationCave cave cont skip).length = 47 := by
  unfold ptrValidationCave
  obtain ⟨a, b, c, d, h1⟩ := le32_bytes (rel32 cont (cave + 26 + 4))
  obtain ⟨e, f, g, h, h2⟩ := le32_bytes (rel32 skip (cave + 43 + 4))
  rw [h1, h2]
  refine ⟨?_, ?_, ?_⟩
  · unfold X86.starts
    simp only [List.cons_append, List.nil_append, List.length_cons, List.length_nil]
    iterate 16
      rw [X86.scan_cons _ _ _ _ (by decide)]
      simp [X86.instrLength, X86.opLength, X86.modrmLength, X86.byteAt]
    rfl
  · simp [X86.shortBranchTargets, X86.isShortBranch, X86.shortTarget, X86.byteAt, X86.sext8]
  · rfl

/-- C29: in each of the four emitted blocks, decoded from its first byte, every
instruction is one of the subset and the last one ends on the last byte; the
short branches are the ones at offsets 3, 15, 17 (null guard), 3 (pool clear)
and 3, 15, 22 (validator), they go to the offsets 24, 19, 24, then 13, then
42, 30, 30, each of which is the first byte of an instruction; and the blocks
are 31, 25, 86 and 47 bytes long, within the 64, 64, 128 and 128 bytes asked
of `AllocateNearby`. -/
theorem trampoline_layouts (cave ret cont skip : Nat) :
    (X86.starts (nullSafetyCave cave ret) = some [0, 3, 5, 12, 15, 17, 19, 24, 26] ∧
      X86.shortBranchTargets (nullSafetyCave cave ret) [0, 3, 5, 12, 15, 17, 19, 24, 26]
        = [24, 19, 24] ∧
      (nullSafetyCave cave ret).length = 31 ∧ (nullSafetyCave cave ret).length ≤ 64) ∧
    (X86.starts (nodeAllocCave cave ret) = some [0, 3, 5, 13, 17, 20] ∧
      X86.shortBranchTargets (nodeAllocCave cave ret) [0, 3, 5, 13, 17, 20] = [13] ∧
      (nodeAllocCave cave ret).length = 25 ∧ (nodeAllocCave cave ret).length ≤ 64) ∧
    (X86.starts (zeroInitCave cave ret)
        = some [0, 1, 9, 17, 25, 33, 41, 48, 56, 64, 72, 73, 81] ∧
      X86.shortBranchTargets (zeroInitCave cave ret)
        [0, 1, 9, 17, 25, 33, 41, 48, 56, 64, 72, 73, 81] = [] ∧
      (zeroInitCave cave ret).length = 86 ∧ (zeroInitCave cave ret).length ≤ 128) ∧
    (X86.starts (ptrValidationCave cave cont skip)
        = some [0, 3, 5, 6, 9, 13, 15, 17, 20, 22, 24, 25, 30, 31, 39, 42] ∧
      X86.shortBranchTargets (ptrValidationCave cave cont skip)
        [0, 3, 5, 6, 9, 13, 15, 17, 20, 22, 24, 25, 30, 31, 39, 42] = [42, 30, 30] ∧
      (ptrValidationCave cave cont skip).length = 47 ∧
      (ptrValidationCave cave cont skip).length ≤ 128) ∧
    (∀ t ∈ X86.shortBranchTargets (nullSafetyCave cave ret) [0, 3, 5, 12, 15, 17, 19, 24, 26],
      t ∈ ([0, 3, 5, 12, 15, 17, 19, 24, 26] : List Nat).map Int.ofNat) ∧
    (∀ t ∈ X86.shortBranchTargets (nodeAllocCave cave ret) [0, 3, 5, 13, 17, 20],
      t ∈ ([0, 3, 5, 13, 17, 20] : List Nat).map Int.ofNat) ∧
    (∀ t ∈ X86.shortBranchTargets (ptrValidationCave cave cont skip)
        [0, 3, 5, 6, 9, 13, 15, 17, 20, 22, 24, 25, 30, 31, 39, 42],
      t ∈ ([0, 3, 5, 6, 9, 13, 15, 17, 20, 22, 24, 25, 30, 31, 39, 42] : List Nat).map
        Int.ofNat) := by
  obtain ⟨a1, a2, a3⟩ := nullSafetyCave_layout cave ret
  obtain ⟨b1, b2, b3⟩ := nodeAllocCave_layout cave ret
  obtain ⟨c1, c2, c3⟩ := zeroInitCave_layout cave ret
  obtain ⟨d1, d2, d3⟩ := ptrValidationCave_layout cave cont skip
  refine ⟨⟨a1, a2, a3, by omega⟩, ⟨b1, b2, b3, by omega⟩, ⟨c1, c2, c3, by omega⟩,
    ⟨d1, d2, d3, by omega⟩, ?_, ?_, ?_⟩
  · rw [a2]; decide
  · rw [b2]; decide
  · rw [d2]; decide

/-! ### Loads and stores -/

theorem write8_eq {m m1 : Mem} {a v : Nat} (h : m.write8 a v = some m1) :
    m1 = m.setByte a v ∧ m.writable a = true := by
  unfold Mem.write8 at h
  split at h
  · simp only [Option.some.injEq] at h
    exact ⟨h.symm, by assumption⟩
  · simp at h

theorem writable_readable (m : Mem) (a : Nat) (h : m.writable a = true) :
    m.readable a = true := by
  unfold Mem.writable at h
  unfold Mem.readable
  simp only [Bool.and_eq_true, decide_eq_true_eq] at h ⊢
  refine ⟨?_, h.2⟩
  have := h.1
  simp only [canWrite, Bool.or_eq_true, beq_iff_eq] at this
  simp only [canRead, Bool.or_eq_true, beq_iff_eq]
  omega

theorem readable_of_prot {m m1 : Mem} (hp : m1.prot = m.prot) (a : Nat) :
    m1.readable a = m.readable a := by
  unfold Mem.readable
  rw [hp]

theorem writable_of_prot {m m1 : Mem} (hp : m1.prot = m.prot) (a : Nat) :
    m1.writable a = m.writable a := by
  unfold Mem.writable
  rw [hp]

/-- What a successful run of byte stores leaves: the bytes stored, every other
byte as it was, the protections as they were, and every address stored to was
writable. -/
theorem writeBytes_spec (bs : List Nat) : ∀ (m : Mem) (a : Nat) (m1 : Mem),
    m.writeBytes a bs = (true, m1) →
    m1.prot = m.prot ∧ m1.protectOk = m.protectOk ∧ m1.free = m.free ∧
    m1.granularity = m.granularity ∧
    (∀ x, m1.byte x =
      if a ≤ x ∧ x < a + bs.length then bs.getD (x - a) 0 % 256 else m.byte x) ∧
    (∀ k, k < bs.length → m.writable (a + k) = true) := by
  induction bs with
  | nil =>
    intro m a m1 h
    simp only [Mem.writeBytes, Prod.mk.injEq, true_and] at h
    subst h
    refine ⟨rfl, rfl, rfl, rfl, ?_, ?_⟩
    · intro x
      rw [if_neg]
      simp
    · intro k hk
      simp at hk
  | cons b bs ih =>
    intro m a m1 h
    unfold Mem.writeBytes at h
    cases hw : m.write8 a b with
    | none => rw [hw] at h; simp at h
    | some m0 =>
      rw [hw] at h
      simp only at h
      obtain ⟨e0, w0⟩ := write8_eq hw
      obtain ⟨p1, p2, p3, p4, p5, p6⟩ := ih m0 (a + 1) m1 h
      subst e0
      refine ⟨p1, p2, p3, p4, ?_, ?_⟩
      · intro x
        rw [p5 x]
        simp only [List.length_cons]
        by_cases hx : x = a
        · subst hx
          rw [if_neg (by omega), if_pos (by omega)]
          simp [Mem.setByte]
        · by_cases hin : a + 1 ≤ x ∧ x < a + 1 + bs.length
          · rw [if_pos hin, if_pos (by omega)]
            have : x - a = (x - (a + 1)) + 1 := by omega
            rw [this, List.getD_cons_succ]
          · rw [if_neg hin, if_neg (by omega)]
            simp [Mem.setByte, hx]
      · intro k hk
        cases k with
        | zero => exact w0
        | succ k =>
          have := p6 k (by simp only [List.length_cons] at hk; omega)
          have e : a + (k + 1) = a + 1 + k := by omega
          rw [e]
          rw [← @writable_of_prot m (Mem.setByte m a b) rfl]
          exact this

theorem leBytes_length (n v : Nat) : (leBytes n v).length = n := by
  induction n generalizing v with
  | zero => rfl
  | succ n ih => simp [leBytes, ih]

theorem leBytes_getD (n : Nat) : ∀ (v k : Nat), k < n →
    (leBytes n v).getD k 0 = v / 256 ^ k % 256 := by
  induction n with
  | zero => intro v k hk; omega
  | succ n ih =>
    intro v k hk
    cases k with
    | zero => simp [leBytes]
    | succ k =>
      simp only [leBytes, List.getD_cons_succ]
      rw [ih (v / 256) k (by omega), Nat.div_div_eq_div_mul, pow_succ, Nat.mul_comm]

/-- What a successful store of an `n`-byte integer leaves. -/
theorem store_spec {m m1 : Mem} {a n v : Nat} (h : m.store a n v = some m1) :
    m1.prot = m.prot ∧ m1.protectOk = m.protectOk ∧ m1.free = m.free ∧
    m1.granularity = m.granularity ∧
    (∀ x, m1.byte x = if a ≤ x ∧ x < a + n then v / 256 ^ (x - a) % 256 else m.byte x) ∧
    (∀ k, k < n → m.writable (a + k) = true) := by
  unfold Mem.store at h
  cases hw : m.writeBytes a (leBytes n v) with
  | mk ok m0 =>
    rw [hw] at h
    cases ok with
    | false => simp at h
    | true =>
      simp only [Option.some.injEq] at h
      subst h
      obtain ⟨p1, p2, p3, p4, p5, p6⟩ := writeBytes_spec _ m a m0 hw
      rw [leBytes_length] at p5 p6
      refine ⟨p1, p2, p3, p4, ?_, p6⟩
      intro x
      rw [p5 x]
      by_cases hin : a ≤ x ∧ x < a + n
      · rw [if_pos hin, if_pos hin, leBytes_getD n v (x - a) (by omega)]
        exact Nat.mod_mod _ _
      · rw [if_neg hin, if_neg hin]

theorem readBytes_of_readable (m : Mem) (n : Nat) : ∀ (a : Nat),
    (∀ k, k < n → m.readable (a + k) = true) →
    m.readBytes a n = some ((List.range n).map (fun k => m.byte (a + k) % 256)) := by
  induction n with
  | zero => intro a _; rfl
  | succ n ih =>
    intro a h
    unfold Mem.readBytes
    have h0 := h 0 (by omega)
    simp only [Nat.add_zero] at h0
    simp only [Mem.read8, h0, if_true]
    rw [ih (a + 1) (fun k hk => by
      have := h (k + 1) (by omega)
      rwa [show a + (k + 1) = a + 1 + k by omega] at this)]
    simp only [List.range_succ_eq_map, List.map_cons, List.map_map, Nat.add_zero]
    congr 2
    apply List.map_congr_left
    intro k _
    simp only [Function.comp, Nat.succ_eq_add_one]
    rw [show a + (k + 1) = a + 1 + k by omega]

theorem readBytes_readable (m : Mem) (n : Nat) : ∀ (a : Nat) (l : List Nat),
    m.readBytes a n = some l → ∀ k, k < n → m.readable (a + k) = true := by
  induction n with
  | zero => intro a l _ k hk; omega
  | succ n ih =>
    intro a l h k hk
    unfold Mem.readBytes at h
    cases h8 : m.read8 a with
    | none => rw [h8] at h; simp at h
    | some b =>
      rw [h8] at h
      cases hr : m.readBytes (a + 1) n with
      | none => rw [hr] at h; simp at h
      | some bs =>
        cases k with
        | zero => exact read8_readable h8
        | succ k =>
          have := ih (a + 1) bs hr k (by omega)
          rwa [show a + 1 + k = a + (k + 1) by omega] at this

theorem leValue_digits (n : Nat) : ∀ (v : Nat),
    leValue ((List.range n).map (fun k => v / 256 ^ k % 256)) = v % 256 ^ n := by
  induction n with
  | zero => intro v; simp [leValue, Nat.mod_one]
  | succ n ih =>
    intro v
    simp only [List.range_succ_eq_map, List.map_cons, List.map_map, leValue, pow_zero,
      Nat.div_one]
    have e : (List.range n).map ((fun k => v / 256 ^ k % 256) ∘ Nat.succ)
        = (List.range n).map (fun k => (v / 256) / 256 ^ k % 256) := by
      apply List.map_congr_left
      intro k _
      simp only [Function.comp, Nat.succ_eq_add_one]
      rw [Nat.div_div_eq_div_mul, pow_succ, Nat.mul_comm]
    rw [e, ih (v / 256), pow_succ, Nat.mul_comm (256 ^ n) 256, Nat.mod_mul]

/-- A load returns `v` when the bytes in place are the little-endian digits of `v`. -/
theorem load_of_bytes (m : Mem) (a n v : Nat)
    (hr : ∀ k, k < n → m.readable (a + k) = true)
    (hb : ∀ k, k < n → m.byte (a + k) % 256 = v / 256 ^ k % 256)
    (hv : v < 256 ^ n) : m.load a n = some v := by
  unfold Mem.load
  rw [readBytes_of_readable m n a hr]
  simp only [Option.some.injEq]
  have e : (List.range n).map (fun k => m.byte (a + k) % 256)
      = (List.range n).map (fun k => v / 256 ^ k % 256) := by
    apply List.map_congr_left
    intro k hk
    exact hb k (List.mem_range.mp hk)
  rw [e, leValue_digits, Nat.mod_eq_of_lt hv]

/-- Two memories with the same protections and the same bytes at `a ..` give
the same load. -/
theorem readBytes_congr (m m1 : Mem) (a n : Nat) (hp : m1.prot = m.prot)
    (hb : ∀ k, k < n → m1.byte (a + k) = m.byte (a + k)) :
    m1.readBytes a n = m.readBytes a n := by
  induction n generalizing a with
  | zero => rfl
  | succ n ih =>
    unfold Mem.readBytes
    have h0 := hb 0 (by omega)
    simp only [Nat.add_zero] at h0
    have e8 : m1.read8 a = m.read8 a := by
      simp only [Mem.read8, Mem.readable, hp, h0]
    rw [e8, ih (a + 1) (fun k hk => by
      have := hb (k + 1) (by omega)
      rwa [show a + (k + 1) = a + 1 + k by omega] at this)]

theorem load_congr (m m1 : Mem) (a n : Nat) (hp : m1.prot = m.prot)
    (hb : ∀ k, k < n → m1.byte (a + k) = m.byte (a + k)) :
    m1.load a n = m.load a n := by
  unfold Mem.load
  rw [readBytes_congr m m1 a n hp hb]

theorem read32_eq_load (m : Mem) (a : Nat) : m.read32 a = m.load a 4 := by
  unfold Mem.read32 Mem.load
  cases h : m.readBytes a 4 with
  | none => rfl
  | some bs =>
    simp only [Option.some.injEq]
    have hl : bs.length = 4 := by
      have := readBytes_of_readable m 4 a (readBytes_readable m 4 a bs h)
      rw [h] at this
      simp only [Option.some.injEq] at this
      rw [this]; simp
    match bs, hl with
    | [a0, a1, a2, a3], _ =>
      simp only [readLE32, leValue, List.getD_cons_zero, List.getD_cons_succ]
      omega

/-- A load right after a store at the same place returns the value stored. -/
theorem load_store {m m1 : Mem} {a n v : Nat} (h : m.store a n v = some m1)
    (hv : v < 256 ^ n) : m1.load a n = some v := by
  obtain ⟨p1, _, _, _, p5, p6⟩ := store_spec h
  apply load_of_bytes m1 a n v
  · intro k hk
    rw [readable_of_prot p1]
    exact writable_readable m _ (p6 k hk)
  · intro k hk
    rw [p5 (a + k), if_pos (by omega), Nat.add_sub_cancel_left, Nat.mod_mod]
  · exact hv

/-- What a successful byte-wise copy leaves, for two ranges that are the same
or do not overlap. -/
theorem memcpy_spec (n : Nat) : ∀ (m : Mem) (dst src : Nat) (m1 : Mem),
    m.memcpy dst src n = (true, m1) → (dst = src ∨ dst + n ≤ src ∨ src + n ≤ dst) →
    m1.prot = m.prot ∧ m1.protectOk = m.protectOk ∧ m1.free = m.free ∧
    m1.granularity = m.granularity ∧
    (∀ x, m1.byte x =
      if dst ≤ x ∧ x < dst + n then m.byte (src + (x - dst)) % 256 else m.byte x) ∧
    (∀ k, k < n → m.writable (dst + k) = true) ∧
    (∀ k, k < n → m.readable (src + k) = true) := by
  induction n with
  | zero =>
    intro m dst src m1 h _
    simp only [Mem.memcpy, Prod.mk.injEq, true_and] at h
    subst h
    refine ⟨rfl, rfl, rfl, rfl, ?_, ?_, ?_⟩
    · intro x
      rw [if_neg (by omega)]
    · intro k hk; omega
    · intro k hk; omega
  | succ n ih =>
    intro m dst src m1 h hd
    unfold Mem.memcpy at h
    cases h8 : m.read8 src with
    | none => rw [h8] at h; simp at h
    | some b =>
      rw [h8] at h
      simp only at h
      cases hw : m.write8 dst b with
      | none => rw [hw] at h; simp at h
      | some m0 =>
        rw [hw] at h
        simp only at h
        obtain ⟨e0, w0⟩ := write8_eq hw
        have hb : b = m.byte src % 256 := by
          unfold Mem.read8 at h8
          split at h8
          · simp only [Option.some.injEq] at h8
            exact h8.symm
          · simp at h8
        obtain ⟨p1, p2, p3, p4, p5, p6, p7⟩ := ih m0 (dst + 1) (src + 1) m1 h (by omega)
        subst e0
        refine ⟨p1, p2, p3, p4, ?_, ?_, ?_⟩
        · intro x
          rw [p5 x]
          by_cases hx : x = dst
          · subst hx
            rw [if_neg (by omega), if_pos (by omega)]
            simp [Mem.setByte, hb]
          · by_cases hin : dst + 1 ≤ x ∧ x < dst + 1 + n
            · rw [if_pos hin, if_pos (by omega)]
              have e : src + 1 + (x - (dst + 1)) = src + (x - dst) := by omega
              rw [e]
              simp only [Mem.setByte]
              rw [if_neg (by omega)]
            · rw [if_neg hin, if_neg (by omega)]
              simp [Mem.setByte, hx]
        · intro k hk
          cases k with
          | zero => exact w0
          | succ k =>
            have := p6 k (by omega)
            rw [show dst + (k + 1) = dst + 1 + k by omega]
            rw [← @writable_of_prot m (Mem.setByte m dst b) rfl]
            exact this
        · intro k hk
          cases k with
          | zero => exact read8_readable h8
          | succ k =>
            have := p7 k (by omega)
            rw [show src + (k + 1) = src + 1 + k by omega]
            rw [← @readable_of_prot m (Mem.setByte m dst b) rfl]
            exact this

theorem addr64_of_lt (p off : Nat) (h : p + off < 18446744073709551616) :
    addr64 p off = p + off := by
  unfold addr64
  exact wrap64_add p off h

theorem poolOffsets_mem {o : Nat} (h : o ∈ VRArrayExpansion.PoolOffsets) :
    o = 0x70 ∨ o = 0xA8 ∨ o = 0xE8 ∨ o = 0x128 := by
  simpa [VRArrayExpansion.PoolOffsets] using h

theorem poolOffsets_pairwise :
    VRArrayExpansion.PoolOffsets.Pairwise (fun a b => a + 16 ≤ b ∨ b + 16 ≤ a) := by
  decide

/-- What a successful run of the pool loop leaves in the entry at `dst`. -/
theorem resetPools_spec (dst : Nat) (os : List Nat) : ∀ (m m1 : Mem),
    resetPools dst os m = (true, m1) →
    (∀ o, o ∈ os → dst + o + 16 ≤ 18446744073709551616) →
    os.Pairwise (fun a b => a + 16 ≤ b ∨ b + 16 ≤ a) →
    m1.prot = m.prot ∧
    (∀ x, (∀ o, o ∈ os → x < dst + o ∨ dst + o + 16 ≤ x) → m1.byte x = m.byte x) ∧
    (∀ o, o ∈ os → ∀ k, k < 8 →
      m1.byte (dst + o + k) = 0 ∧ m1.byte (dst + o + 8 + k) = (dst + o) / 256 ^ k % 256) ∧
    (∀ o, o ∈ os → ∀ k, k < 16 → m.writable (dst + o + k) = true) := by
  induction os with
  | nil =>
    intro m m1 h _ _
    simp only [resetPools, Prod.mk.injEq, true_and] at h
    subst h
    refine ⟨rfl, fun _ _ => rfl, ?_, ?_⟩
    · intro o ho; simp at ho
    · intro o ho; simp at ho
  | cons o rest ih =>
    intro m m1 h hb hp
    have hbo := hb o (List.mem_cons_self _ _)
    unfold resetPools at h
    rw [addr64_of_lt dst o (by omega), addr64_of_lt dst (o + 8) (by omega)] at h
    cases ha : m.write64 (dst + o) 0 with
    | none => rw [ha] at h; simp at h
    | some ma =>
      rw [ha] at h
      simp only at h
      cases hbw : ma.write64 (dst + (o + 8)) (dst + o) with
      | none => rw [hbw] at h; simp at h
      | some mb =>
        rw [hbw] at h
        simp only at h
        obtain ⟨a1, _, _, _, a5, a6⟩ := store_spec ha
        obtain ⟨b1, _, _, _, b5, b6⟩ := store_spec hbw
        obtain ⟨c1, c2, c3, c4⟩ := ih mb m1 h
          (fun o2 h2 => hb o2 (List.mem_cons_of_mem _ h2)) (List.Pairwise.of_cons hp)
        have hdis : ∀ o2, o2 ∈ rest → o + 16 ≤ o2 ∨ o2 + 16 ≤ o :=
          fun o2 h2 => List.rel_of_pairwise_cons hp h2
        refine ⟨by rw [c1, b1, a1], ?_, ?_, ?_⟩
        · intro x hx
          have hxo := hx o (List.mem_cons_self _ _)
          rw [c2 x (fun o2 h2 => hx o2 (List.mem_cons_of_mem _ h2)), b5 x,
            if_neg (by omega), a5 x, if_neg (by omega)]
        · intro o2 ho2 k hk
          rcases List.mem_cons.mp ho2 with e | hin
          · subst e
            have f1 : ∀ y, dst + o2 ≤ y → y < dst + o2 + 16 → m1.byte y = mb.byte y := by
              intro y h1 h2
              apply c2 y
              intro o3 h3
              have := hdis o3 h3
              omega
            constructor
            · rw [f1 _ (by omega) (by omega), b5, if_neg (by omega), a5, if_pos (by omega)]
              simp
            · rw [f1 _ (by omega) (by omega), b5, if_pos (by omega)]
              rw [show dst + o2 + 8 + k - (dst + (o2 + 8)) = k by omega]
          · exact c3 o2 hin k hk
        · intro o2 ho2 k hk
          rcases List.mem_cons.mp ho2 with e | hin
          · subst e
            by_cases hk8 : k < 8
            · exact a6 k hk8
            · have := b6 (k - 8) (by omega)
              rw [writable_of_prot a1] at this
              rwa [show dst + (o2 + 8) + (k - 8) = dst + o2 + k by omega] at this
          · have := c4 o2 hin k hk
            rwa [writable_of_prot (show mb.prot = m.prot by rw [b1, a1])] at this

/-- What a successful template copy leaves in the entry at `dst`: a cleared
spinlock, empty pools whose tails point into the entry itself, and the bytes
of the template everywhere else. -/
theorem templateCopy_spec (m m1 : Mem) (dst src : Nat)
    (h : templateCopy m dst src = (true, m1))
    (hb : dst + VRArrayExpansion.EntrySize ≤ 18446744073709551616)
    (hd : dst = src ∨ dst + VRArrayExpansion.EntrySize ≤ src ∨
      src + VRArrayExpansion.EntrySize ≤ dst) :
    m1.prot = m.prot ∧
    (∀ x, x < dst ∨ dst + VRArrayExpansion.EntrySize ≤ x → m1.byte x = m.byte x) ∧
    (∀ k, k < 8 → m1.byte (dst + k) = 0) ∧
    (∀ o, o ∈ VRArrayExpansion.PoolOffsets → ∀ k, k < 8 →
      m1.byte (dst + o + k) = 0 ∧ m1.byte (dst + o + 8 + k) = (dst + o) / 256 ^ k % 256) ∧
    (∀ k, 8 ≤ k → k < VRArrayExpansion.EntrySize →
      (∀ o, o ∈ VRArrayExpansion.PoolOffsets → k < o ∨ o + 16 ≤ k) →
      m1.byte (dst + k) = m.byte (src + k) % 256) ∧
    (∀ k, k < VRArrayExpansion.EntrySize → m.writable (dst + k) = true) ∧
    (∀ k, k < VRArrayExpansion.EntrySize → m.readable (src + k) = true) := by
  unfold templateCopy at h
  simp only [VRArrayExpansion.EntrySize] at hb hd ⊢
  rw [addr64_of_lt dst 4 (by omega)] at h
  cases hc : m.memcpy dst src VRArrayExpansion.EntrySize with
  | mk ok ma =>
    rw [hc] at h
    cases ok with
    | false => simp at h
    | true =>
      simp only at h
      cases hr : resetPools dst VRArrayExpansion.PoolOffsets ma with
      | mk ok2 mb =>
        rw [hr] at h
        cases ok2 with
        | false => simp at h
        | true =>
          simp only at h
          cases hw1 : mb.write32 dst 0 with
          | none => rw [hw1] at h; simp at h
          | some mc =>
            rw [hw1] at h
            simp only at h
            cases hw2 : mc.write32 (dst + 4) 0 with
            | none => rw [hw2] at h; simp at h
            | some md =>
              rw [hw2] at h
              simp only [Prod.mk.injEq, true_and] at h
              subst h
              simp only [VRArrayExpansion.EntrySize] at hc
              obtain ⟨a1, _, _, _, a5, a6, a7⟩ := memcpy_spec _ m dst src ma hc hd
              obtain ⟨b1, b2, b3, _⟩ := resetPools_spec dst _ ma mb hr
                (fun o ho => by rcases poolOffsets_mem ho with e | e | e | e <;> omega)
                poolOffsets_pairwise
              obtain ⟨c1, _, _, _, c5, _⟩ := store_spec hw1
              obtain ⟨d1, _, _, _, d5, _⟩ := store_spec hw2
              refine ⟨by rw [d1, c1, b1, a1], ?_, ?_, ?_, ?_, a6, a7⟩
              · intro x hx
                rw [d5, if_neg (by omega), c5, if_neg (by omega), b2 x, a5, if_neg (by omega)]
                intro o ho
                rcases poolOffsets_mem ho with e | e | e | e <;> omega
              · intro k hk
                rw [d5]
                by_cases h4 : k < 4
                · rw [if_neg (by omega), c5, if_pos (by omega)]
                  simp
                · rw [if_pos (by omega)]
                  simp
              · intro o ho k hk
                have ho4 := poolOffsets_mem ho
                have := b3 o ho k hk
                constructor
                · rw [d5, if_neg (by omega), c5, if_neg (by omega)]
                  exact this.1
                · rw [d5, if_neg (by omega), c5, if_neg (by omega)]
                  exact this.2
              · intro k hk1 hk2 hnp
                rw [d5, if_neg (by omega), c5, if_neg (by omega), b2 (dst + k), a5,
                  if_pos (by omega), Nat.add_sub_cancel_left]
                intro o ho
                have := hnp o ho
                omega

/-- What a successful template-copy loop over the entries `is` of the buffer
`buf` leaves, with entry 0 as the template. -/
theorem templateLoop_spec (buf : Nat) (is : List Nat) : ∀ (m m1 : Mem),
    templateLoop buf buf is m = (true, m1) →
    (∀ i, i ∈ is → buf + (i + 1) * VRArrayExpansion.EntrySize ≤ 18446744073709551616) →
    is.Nodup →
    m1.prot = m.prot ∧
    (∀ x, (∀ i, i ∈ is → x < buf + i * VRArrayExpansion.EntrySize ∨
        buf + (i + 1) * VRArrayExpansion.EntrySize ≤ x) → m1.byte x = m.byte x) ∧
    (∀ i, i ∈ is → ∀ k, k < 8 → m1.byte (buf + i * VRArrayExpansion.EntrySize + k) = 0) ∧
    (∀ i, i ∈ is → ∀ o, o ∈ VRArrayExpansion.PoolOffsets → ∀ k, k < 8 →
      m1.byte (buf + i * VRArrayExpansion.EntrySize + o + k) = 0 ∧
      m1.byte (buf + i * VRArrayExpansion.EntrySize + o + 8 + k)
        = (buf + i * VRArrayExpansion.EntrySize + o) / 256 ^ k % 256) ∧
    ((∀ i, i ∈ is → 1 ≤ i) → ∀ i, i ∈ is → ∀ k, 8 ≤ k → k < VRArrayExpansion.EntrySize →
      (∀ o, o ∈ VRArrayExpansion.PoolOffsets → k < o ∨ o + 16 ≤ k) →
      m1.byte (buf + i * VRArrayExpansion.EntrySize + k) = m.byte (buf + k) % 256) ∧
    (∀ i, i ∈ is → ∀ k, k < VRArrayExpansion.EntrySize →
      m.writable (buf + i * VRArrayExpansion.EntrySize + k) = true) := by
  induction is with
  | nil =>
    intro m m1 h _ _
    simp only [templateLoop, Prod.mk.injEq, true_and] at h
    subst h
    refine ⟨rfl, fun _ _ => rfl, ?_, ?_, ?_, ?_⟩ <;> intros <;> simp at *
  | cons i rest ih =>
    intro m m1 h hb hn
    have hbi := hb i (List.mem_cons_self _ _)
    unfold templateLoop at h
    simp only [VRArrayExpansion.EntrySize] at hbi hb h ⊢
    rw [addr64_of_lt buf (i * 384) (by omega)] at h
    cases hc : templateCopy m (buf + i * 384) buf with
    | mk ok ma =>
      rw [hc] at h
      cases ok with
      | false => simp at h
      | true =>
        simp only at h
        obtain ⟨a1, a2, a3, a4, a5, a6, _⟩ := templateCopy_spec m ma (buf + i * 384) buf hc
          (by simp only [VRArrayExpansion.EntrySize]; omega)
          (by simp only [VRArrayExpansion.EntrySize]; omega)
        simp only [VRArrayExpansion.EntrySize] at a2 a5 a6
        have hn2 := List.nodup_cons.mp hn
        obtain ⟨c1, c2, c3, c4, c5, c6⟩ := ih ma m1 h
          (fun j hj => hb j (List.mem_cons_of_mem _ hj)) hn2.2
        simp only [VRArrayExpansion.EntrySize] at c2 c3 c4 c5 c6
        have hne : ∀ j, j ∈ rest → j ≠ i := fun j hj e => hn2.1 (e ▸ hj)
        have keep : ∀ y, buf + i * 384 ≤ y → y < buf + (i + 1) * 384 →
            m1.byte y = ma.byte y := by
          intro y h1 h2
          apply c2 y
          intro j hj
          have := hne j hj
          omega
        refine ⟨by rw [c1, a1], ?_, ?_, ?_, ?_, ?_⟩
        · intro x hx
          have hxi := hx i (List.mem_cons_self _ _)
          rw [c2 x (fun j hj => hx j (List.mem_cons_of_mem _ hj)), a2 x (by omega)]
        · intro j hj k hk
          rcases List.mem_cons.mp hj with e | hin
          · subst e
            rw [keep _ (by omega) (by omega)]
            exact a3 k hk
          · exact c3 j hin k hk
        · intro j hj o ho k hk
          rcases List.mem_cons.mp hj with e | hin
          · subst e
            have ho4 := poolOffsets_mem ho
            rw [keep _ (by omega) (by omega), keep _ (by omega) (by omega)]
            exact a4 o ho k hk
          · exact c4 j hin o ho k hk
        · intro h1 j hj k hk1 hk2 hnp
          have hi1 := h1 i (List.mem_cons_self _ _)
          rcases List.mem_cons.mp hj with e | hin
          · subst e
            rw [keep _ (by omega) (by omega)]
            exact a5 k hk1 hk2 hnp
          · rw [c5 (fun j2 hj2 => h1 j2 (List.mem_cons_of_mem _ hj2)) j hin k hk1 hk2 hnp,
              a2 (buf + k) (by omega)]
        · intro j hj k hk
          rcases List.mem_cons.mp hj with e | hin
          · subst e
            exact a6 k hk
          · have := c6 j hin k hk
            rwa [writable_of_prot a1] at this

/-- A successful run of the tail-fixing loop over the pools of one entry stores
to tail fields only. -/
theorem fixTails_spec (eb : Nat) (os : List Nat) : ∀ (m m1 : Mem),
    fixTails eb os m = (true, m1) →
    (∀ o, o ∈ os → eb + o + 16 ≤ 18446744073709551616) →
    m1.prot = m.prot ∧
    (∀ x, (∀ o, o ∈ os → x < eb + o + 8 ∨ eb + o + 16 ≤ x) → m1.byte x = m.byte x) := by
  induction os with
  | nil =>
    intro m m1 h _
    simp only [fixTails, Prod.mk.injEq, true_and] at h
    subst h
    exact ⟨rfl, fun _ _ => rfl⟩
  | cons o rest ih =>
    intro m m1 h hb
    have hbo := hb o (List.mem_cons_self _ _)
    unfold fixTails at h
    rw [addr64_of_lt eb (o + 8) (by omega), addr64_of_lt eb o (by omega)] at h
    cases hr : m.read64 (eb + (o + 8)) with
    | none => rw [hr] at h; simp at h
    | some tail =>
      rw [hr] at h
      simp only at h
      by_cases ht : tail = 0
      · rw [if_pos ht] at h
        cases hw : m.write64 (eb + (o + 8)) (eb + o) with
        | none => rw [hw] at h; simp at h
        | some ma =>
          rw [hw] at h
          simp only at h
          obtain ⟨a1, _, _, _, a5, _⟩ := store_spec hw
          obtain ⟨c1, c2⟩ := ih ma m1 h (fun o2 h2 => hb o2 (List.mem_cons_of_mem _ h2))
          refine ⟨by rw [c1, a1], ?_⟩
          intro x hx
          have hxo := hx o (List.mem_cons_self _ _)
          rw [c2 x (fun o2 h2 => hx o2 (List.mem_cons_of_mem _ h2)), a5, if_neg (by omega)]
      · rw [if_neg ht] at h
        obtain ⟨c1, c2⟩ := ih m m1 h (fun o2 h2 => hb o2 (List.mem_cons_of_mem _ h2))
        exact ⟨c1, fun x hx => c2 x (fun o2 h2 => hx o2 (List.mem_cons_of_mem _ h2))⟩

/-- A successful run of the loop over entries that fixes null tails stores to
tail fields of those entries only. -/
theorem fixTailsLoop_spec (buf : Nat) (is : List Nat) : ∀ (m m1 : Mem),
    fixTailsLoop buf is m = (true, m1) →
    (∀ i, i ∈ is → buf + (i + 1) * VRArrayExpansion.EntrySize ≤ 18446744073709551616) →
    m1.prot = m.prot ∧
    (∀ x, (∀ i, i ∈ is → ∀ o, o ∈ VRArrayExpansion.PoolOffsets →
        x < buf + i * VRArrayExpansion.EntrySize + o + 8 ∨
        buf + i * VRArrayExpansion.EntrySize + o + 16 ≤ x) → m1.byte x = m.byte x) := by
  induction is with
  | nil =>
    intro m m1 h _
    simp only [fixTailsLoop, Prod.mk.injEq, true_and] at h
    subst h
    exact ⟨rfl, fun _ _ => rfl⟩
  | cons i rest ih =>
    intro m m1 h hb
    have hbi := hb i (List.mem_cons_self _ _)
    unfold fixTailsLoop at h
    simp only [VRArrayExpansion.EntrySize] at hbi hb h ⊢
    rw [addr64_of_lt buf (i * 384) (by omega)] at h
    cases hc : fixTails (buf + i * 384) VRArrayExpansion.PoolOffsets m with
    | mk ok ma =>
      rw [hc] at h
      cases ok with
      | false => simp at h
      | true =>
        simp only at h
        obtain ⟨a1, a2⟩ := fixTails_spec (buf + i * 384) _ m ma hc
          (fun o ho => by rcases poolOffsets_mem ho with e | e | e | e <;> omega)
        obtain ⟨c1, c2⟩ := ih ma m1 h (fun j hj => hb j (List.mem_cons_of_mem _ hj))
        simp only [VRArrayExpansion.EntrySize] at c2
        refine ⟨by rw [c1, a1], ?_⟩
        intro x hx
        rw [c2 x (fun j hj => hx j (List.mem_cons_of_mem _ hj)),
          a2 x (hx i (List.mem_cons_self _ _))]

/-- The steps behind a successful `TryExpandVRArray` on a buffer that already
has room for four entries. -/
theorem TryExpandVRArray_inplace_inv (pick : Nat) (s : State) (buf capacity count : Nat)
    (h0 : s.g_vrExpanded = false)
    (hbuf : s.mem.read64 (addr64 s.base VRArrayExpansion.ArrayPtr) = some buf)
    (hcap : s.mem.read32 (addr64 s.base (VRArrayExpansion.ArrayPtr + 8)) = some capacity)
    (hcnt : s.mem.read32 (addr64 s.base VRArrayExpansion.ArrayCount) = some count)
    (h4 : 4 ≤ capacity)
    (hok : (TryExpandVRArray pick s).g_vrExpanded = true) :
    buf ≠ 0 ∧ ∃ m1 m2,
      templateLoop buf (addr64 buf (0 * VRArrayExpansion.EntrySize)) [2, 3] s.mem = (true, m1) ∧
      fixTailsLoop buf [0, 1] m1 = (true, m2) ∧
      ((count < 4 ∧
          m2.write32 (addr64 s.base VRArrayExpansion.ArrayCount) 4
            = some (TryExpandVRArray pick s).mem) ∨
        (4 ≤ count ∧ (TryExpandVRArray pick s).mem = m2)) := by
  have hcap4 : capacity ≥ VRArrayExpansion.TargetCount := h4
  unfold TryExpandVRArray at hok
  simp only [h0, hbuf, hcap, hcnt, Bool.false_eq_true, if_false] at hok
  by_cases hz : buf = 0
  · rw [if_pos hz] at hok
    rw [h0] at hok
    exact absurd hok (by simp)
  refine ⟨hz, ?_⟩
  rw [if_neg hz, if_pos hcap4] at hok
  cases hT : templateLoop buf (addr64 buf (0 * VRArrayExpansion.EntrySize)) [2, 3] s.mem with
  | mk ok m1 =>
    rw [hT] at hok
    cases ok with
    | false => simp [h0] at hok
    | true =>
      simp only at hok
      cases hF : fixTailsLoop buf [0, 1] m1 with
      | mk ok2 m2 =>
        rw [hF] at hok
        cases ok2 with
        | false => simp [h0] at hok
        | true =>
          simp only at hok
          refine ⟨m1, m2, rfl, hF, ?_⟩
          by_cases hc : count < VRArrayExpansion.TargetCount
          · rw [if_pos hc] at hok
            left
            refine ⟨hc, ?_⟩
            cases hw : m2.write32 (addr64 s.base VRArrayExpansion.ArrayCount)
                VRArrayExpansion.TargetCount with
            | none => rw [hw] at hok; simp [h0] at hok
            | some m3 =>
              have hw4 : m2.write32 (addr64 s.base VRArrayExpansion.ArrayCount) 4 = some m3 := hw
              rw [hw4]
              unfold TryExpandVRArray
              simp only [h0, hbuf, hcap, hcnt, Bool.false_eq_true, if_false, if_neg hz,
                if_pos hcap4, hT, hF, if_pos hc, hw]
          · right
            refine ⟨Nat.le_of_not_lt hc, ?_⟩
            unfold TryExpandVRArray
            simp only [h0, hbuf, hcap, hcnt, Bool.false_eq_true, if_false, if_neg hz,
              if_pos hcap4, hT, hF, if_neg hc]

theorem VirtualAllocAny_ok (m : Mem) (pick size : Nat)
    (hv : pick ≠ 0 ∧ pick + size ≤ 18446744073709551616 ∧ m.free pick = true) :
    (VirtualAllocAny m pick size).1 = pick ∧
    (VirtualAllocAny m pick size).2.prot
      = (fun p => if pick / 4096 ≤ p ∧ p ≤ (pick + size - 1) / 4096 then 0x04 else m.prot p) ∧
    (VirtualAllocAny m pick size).2.byte
      = (fun x => if pick ≤ x ∧ x < pick + size then 0 else m.byte x) := by
  unfold VirtualAllocAny
  simp only [if_pos hv, and_self]

theorem VirtualAllocAny_fail (m : Mem) (pick size : Nat)
    (hv : ¬ (pick ≠ 0 ∧ pick + size ≤ 18446744073709551616 ∧ m.free pick = true)) :
    (VirtualAllocAny m pick size).1 = 0 := by
  unfold VirtualAllocAny
  simp only [if_neg hv]

/-- The steps behind a successful `TryExpandVRArray` that moves the array to a
new buffer. -/
theorem TryExpandVRArray_realloc_inv (pick : Nat) (s : State) (buf capacity count : Nat)
    (h0 : s.g_vrExpanded = false)
    (hbuf : s.mem.read64 (addr64 s.base VRArrayExpansion.ArrayPtr) = some buf)
    (hcap : s.mem.read32 (addr64 s.base (VRArrayExpansion.ArrayPtr + 8)) = some capacity)
    (hcnt : s.mem.read32 (addr64 s.base VRArrayExpansion.ArrayCount) = some count)
    (hlt : capacity < 4)
    (hok : (TryExpandVRArray pick s).g_vrExpanded = true) :
    buf ≠ 0 ∧ pick ≠ 0 ∧
    pick + 4 * VRArrayExpansion.EntrySize ≤ 18446744073709551616 ∧
    s.mem.free pick = true ∧
    ∃ m2 m3 m4,
      (VirtualAllocAny s.mem pick (4 * VRArrayExpansion.EntrySize)).2.memcpy pick buf
          (capacity * VRArrayExpansion.EntrySize) = (true, m2) ∧
      templateLoop pick pick (List.range' capacity (4 - capacity)) m2 = (true, m3) ∧
      m3.write64 (addr64 s.base VRArrayExpansion.ArrayPtr) pick = some m4 ∧
      m4.write32 (addr64 s.base VRArrayExpansion.ArrayCount) 4
        = some (TryExpandVRArray pick s).mem := by
  have hcap4 : ¬ capacity ≥ VRArrayExpansion.TargetCount := Nat.not_le_of_lt hlt
  unfold TryExpandVRArray at hok
  simp only [h0, hbuf, hcap, hcnt, Bool.false_eq_true, if_false] at hok
  by_cases hz : buf = 0
  · rw [if_pos hz] at hok
    rw [h0] at hok
    exact absurd hok (by simp)
  refine ⟨hz, ?_⟩
  rw [if_neg hz, if_neg hcap4] at hok
  simp only [VRArrayExpansion.TargetCount] at hok
  cases hA : VirtualAllocAny s.mem pick (4 * VRArrayExpansion.EntrySize) with
  | mk blk m1 =>
    rw [hA] at hok
    by_cases hv : pick ≠ 0 ∧ pick + 4 * VRArrayExpansion.EntrySize ≤ 18446744073709551616 ∧
        s.mem.free pick = true
    · have hblk := (VirtualAllocAny_ok s.mem pick _ hv).1
      rw [hA] at hblk
      simp only at hblk
      refine ⟨hv.1, hv.2.1, hv.2.2, ?_⟩
      cases blk with
      | zero => exact absurd hblk.symm hv.1
      | succ nb =>
        simp only at hok
        rw [hblk] at hok
        cases hM : m1.memcpy pick buf (capacity * VRArrayExpansion.EntrySize) with
        | mk ok m2 =>
          rw [hM] at hok
          cases ok with
          | false => simp [h0] at hok
          | true =>
            simp only at hok
            cases hT : templateLoop pick pick
                (List.range' capacity (4 - capacity)) m2 with
            | mk ok2 m3 =>
              rw [hT] at hok
              cases ok2 with
              | false => simp [h0] at hok
              | true =>
                simp only at hok
                cases hW : m3.write64 (addr64 s.base VRArrayExpansion.ArrayPtr) pick with
                | none => rw [hW] at hok; simp [h0] at hok
                | some m4 =>
                  rw [hW] at hok
                  simp only at hok
                  cases hC : m4.write32 (addr64 s.base VRArrayExpansion.ArrayCount) 4 with
                  | none => rw [hC] at hok; simp [h0] at hok
                  | some m5 =>
                    have hmem : (TryExpandVRArray pick s).mem = m5 := by
                      unfold TryExpandVRArray
                      simp only [h0, hbuf, hcap, hcnt, Bool.false_eq_true, if_false]
                      rw [if_neg hz, if_neg hcap4]
                      simp only [VRArrayExpansion.TargetCount]
                      rw [hA]
                      simp only
                      rw [hblk, hM]
                      simp only
                      rw [hT]
                      simp only
                      rw [hW]
                      simp only
                      rw [hC]
                    rw [hmem]
                    exact ⟨m2, m3, m4, rfl, by first | rfl | exact hT,
                      by first | rfl | exact hW, by first | rfl | exact hC⟩
    · have hblk := VirtualAllocAny_fail s.mem pick _ hv
      rw [hA] at hblk
      simp only at hblk
      subst hblk
      simp [h0] at hok

theorem load_readable {m : Mem} {a n v : Nat} (h : m.load a n = some v) :
    ∀ k, k < n → m.readable (a + k) = true := by
  unfold Mem.load at h
  cases hr : m.readBytes a n with
  | none => rw [hr] at h; simp at h
  | some bs => exact readBytes_readable m n a bs hr

theorem readable_lt {m : Mem} {a : Nat} (h : m.readable a = true) :
    a < 18446744073709551616 := by
  unfold Mem.readable at h
  simp only [Bool.and_eq_true, decide_eq_true_eq] at h
  exact h.2

/-- The frame of a successful `TryExpandVRArray` on a buffer that already has
room for four entries: the protections and every byte outside entries 2 and 3,
the pool tail fields of entries 0 and 1 and (when the count was below 4) the
count field are as they were, and the count field reads 4 when it was lower. -/
theorem TryExpandVRArray_inplace_frame (pick : Nat) (s : State) (buf capacity count : Nat)
    (h0 : s.g_vrExpanded = false)
    (hbuf : s.mem.read64 (addr64 s.base VRArrayExpansion.ArrayPtr) = some buf)
    (hcap : s.mem.read32 (addr64 s.base (VRArrayExpansion.ArrayPtr + 8)) = some capacity)
    (hcnt : s.mem.read32 (addr64 s.base VRArrayExpansion.ArrayCount) = some count)
    (h4 : 4 ≤ capacity)
    (hfit : buf + 4 * VRArrayExpansion.EntrySize ≤ 18446744073709551616)
    (hok : (TryExpandVRArray pick s).g_vrExpanded = true) :
    (TryExpandVRArray pick s).mem.prot = s.mem.prot ∧
    (∀ x, (x < buf + 2 * VRArrayExpansion.EntrySize ∨
            buf + 4 * VRArrayExpansion.EntrySize ≤ x) →
        (∀ i, i < 2 → ∀ o, o ∈ VRArrayExpansion.PoolOffsets →
          x < buf + i * VRArrayExpansion.EntrySize + o + 8 ∨
          buf + i * VRArrayExpansion.EntrySize + o + 16 ≤ x) →
        (count < 4 → x < addr64 s.base VRArrayExpansion.ArrayCount ∨
          addr64 s.base VRArrayExpansion.ArrayCount + 4 ≤ x) →
        (TryExpandVRArray pick s).mem.byte x = s.mem.byte x) ∧
    (count < 4 →
      (TryExpandVRArray pick s).mem.read32 (addr64 s.base VRArrayExpansion.ArrayCount)
        = some 4) := by
  obtain ⟨_, m1, m2, hT, hF, hfin⟩ :=
    TryExpandVRArray_inplace_inv pick s buf capacity count h0 hbuf hcap hcnt h4 hok
  simp only [VRArrayExpansion.EntrySize] at hfit hT ⊢
  rw [addr64_of_lt buf (0 * 384) (by omega), Nat.zero_mul, Nat.add_zero] at hT
  obtain ⟨t1, t2, _⟩ := templateLoop_spec buf [2, 3] s.mem m1 hT
    (by
      intro i hi
      simp only [List.mem_cons, List.mem_singleton, List.not_mem_nil, or_false] at hi
      simp only [VRArrayExpansion.EntrySize]
      omega)
    (by decide)
  obtain ⟨f1, f2⟩ := fixTailsLoop_spec buf [0, 1] m1 m2 hF
    (by
      intro i hi
      simp only [List.mem_cons, List.mem_singleton, List.not_mem_nil, or_false] at hi
      simp only [VRArrayExpansion.EntrySize]
      omega)
  simp only [VRArrayExpansion.EntrySize] at t2 f2
  have frame2 : ∀ x, (x < buf + 2 * 384 ∨ buf + 4 * 384 ≤ x) →
      (∀ i, i < 2 → ∀ o, o ∈ VRArrayExpansion.PoolOffsets →
        x < buf + i * 384 + o + 8 ∨ buf + i * 384 + o + 16 ≤ x) →
      m2.byte x = s.mem.byte x := by
    intro x hx hp
    rw [f2 x, t2 x]
    · intro i hi
      simp only [List.mem_cons, List.mem_singleton, List.not_mem_nil, or_false] at hi
      omega
    · intro i hi o ho
      simp only [List.mem_cons, List.mem_singleton, List.not_mem_nil, or_false] at hi
      exact hp i (by omega) o ho
  rcases hfin with ⟨hc, hw⟩ | ⟨hc, he⟩
  · obtain ⟨w1, _, _, _, w5, _⟩ := store_spec hw
    refine ⟨by rw [w1, f1, t1], ?_, ?_⟩
    · intro x hx hp hcx
      have := hcx hc
      rw [w5, if_neg (by omega)]
      exact frame2 x hx hp
    · intro _
      rw [read32_eq_load]
      exact load_store hw (by norm_num)
  · rw [he]
    refine ⟨by rw [f1, t1], ?_, ?_⟩
    · intro x hx hp _
      exact frame2 x hx hp
    · intro h
      omega

/-- The run of `TryExpandVRArray` on a four-entry buffer that holds two entries. -/
theorem inplace_run :
    (TryExpandVRArray 0 (initState (arrayMem 0x20000000 4 2 sampleFill) gameBase)).g_vrExpanded
      = true ∧
    (TryExpandVRArray 0 (initState (arrayMem 0x20000000 4 2 sampleFill) gameBase)).mem.read8
      (0x20000000 + 0x78) = some 0x70 ∧
    (TryExpandVRArray 0 (initState (arrayMem 0x20000000 4 2 sampleFill) gameBase)).mem.read8
      (0x20000000 + 2 * 0x180 + 8) = some 2 := by
  decide!

/-- The run of `TryExpandVRArray` on a two-entry buffer, with the new buffer
placed at 0x30000000. -/
theorem realloc_run :
    (TryExpandVRArray 0x30000000
      (initState (arrayMem 0x20000000 2 2 sampleFill) gameBase)).g_vrExpanded = true ∧
    (TryExpandVRArray 0x30000000
      (initState (arrayMem 0x20000000 2 2 sampleFill) gameBase)).mem.read64
        (addr64 gameBase VRArrayExpansion.ArrayPtr) = some 0x30000000 ∧
    (TryExpandVRArray 0x30000000
      (initState (arrayMem 0x20000000 2 2 sampleFill) gameBase)).mem.read32
        (addr64 gameBase VRArrayExpansion.ArrayCount) = some 4 ∧
    (TryExpandVRArray 0x30000000
      (initState (arrayMem 0x20000000 2 2 sampleFill) gameBase)).mem.read32
        (addr64 gameBase (VRArrayExpansion.ArrayPtr + 8)) = some 2 ∧
    (TryExpandVRArray 0x30000000
      (initState (arrayMem 0x20000000 2 2 sampleFill) gameBase)).mem.read8
        0x30000000 = some 1 ∧
    (TryExpandVRArray 0x30000000
      (initState (arrayMem 0x20000000 2 2 sampleFill) gameBase)).mem.read8
        (0x30000000 + 2 * 0x180) = some 0 := by
  decide!

theorem hdr_disjoint (base : Nat)
    (hP : addr64 base VRArrayExpansion.ArrayPtr + 8 ≤ 18446744073709551616)
    (hK : addr64 base (VRArrayExpansion.ArrayPtr + 8) + 4 ≤ 18446744073709551616)
    (hC : addr64 base VRArrayExpansion.ArrayCount + 4 ≤ 18446744073709551616) :
    (addr64 base VRArrayExpansion.ArrayPtr + 8 ≤ addr64 base VRArrayExpansion.ArrayCount ∨
      addr64 base VRArrayExpansion.ArrayCount + 4 ≤ addr64 base VRArrayExpansion.ArrayPtr) ∧
    (addr64 base VRArrayExpansion.ArrayPtr + 8 ≤ addr64 base (VRArrayExpansion.ArrayPtr + 8) ∨
      addr64 base (VRArrayExpansion.ArrayPtr + 8) + 4
        ≤ addr64 base VRArrayExpansion.ArrayPtr) ∧
    (addr64 base (VRArrayExpansion.ArrayPtr + 8) + 4
        ≤ addr64 base VRArrayExpansion.ArrayCount ∨
      addr64 base VRArrayExpansion.ArrayCount + 4
        ≤ addr64 base (VRArrayExpansion.ArrayPtr + 8)) := by
  unfold addr64 wrap64 VRArrayExpansion.ArrayPtr VRArrayExpansion.ArrayCount at *
  push_cast at *
  omega

theorem hdr_bounds (s : State) (buf capacity count : Nat)
    (hbuf : s.mem.read64 (addr64 s.base VRArrayExpansion.ArrayPtr) = some buf)
    (hcap : s.mem.read32 (addr64 s.base (VRArrayExpansion.ArrayPtr + 8)) = some capacity)
    (hcnt : s.mem.read32 (addr64 s.base VRArrayExpansion.ArrayCount) = some count) :
    addr64 s.base VRArrayExpansion.ArrayPtr + 8 ≤ 18446744073709551616 ∧
    addr64 s.base (VRArrayExpansion.ArrayPtr + 8) + 4 ≤ 18446744073709551616 ∧
    addr64 s.base VRArrayExpansion.ArrayCount + 4 ≤ 18446744073709551616 := by
  rw [read32_eq_load] at hcap hcnt
  have h1 := readable_lt (load_readable hbuf 7 (by omega))
  have h2 := readable_lt (load_readable hcap 3 (by omega))
  have h3 := readable_lt (load_readable hcnt 3 (by omega))
  omega

theorem canRead_of_eq (p : Nat) (h : p = 0x04) : canRead p = true := by
  subst h
  decide

/-- What a successful `TryExpandVRArray` that moves the array leaves: the header
points to the new buffer with count 4, every byte outside the new buffer and
the two header fields is as it was, the old entries are copied, and each of
the other entries is a template copy of entry 0 with a cleared spinlock and
empty pools of its own. -/
theorem TryExpandVRArray_realloc_spec (pick : Nat) (s : State) (buf capacity count : Nat)
    (h0 : s.g_vrExpanded = false)
    (hbuf : s.mem.read64 (addr64 s.base VRArrayExpansion.ArrayPtr) = some buf)
    (hcap : s.mem.read32 (addr64 s.base (VRArrayExpansion.ArrayPtr + 8)) = some capacity)
    (hcnt : s.mem.read32 (addr64 s.base VRArrayExpansion.ArrayCount) = some count)
    (hlt : capacity < 4)
    (hok : (TryExpandVRArray pick s).g_vrExpanded = true)
    (hold : buf + capacity * VRArrayExpansion.EntrySize ≤ pick ∨
      pick + 4 * VRArrayExpansion.EntrySize ≤ buf)
    (hP : addr64 s.base VRArrayExpansion.ArrayPtr + 8 ≤ pick ∨
      pick + 4 * VRArrayExpansion.EntrySize ≤ addr64 s.base VRArrayExpansion.ArrayPtr)
    (hC : addr64 s.base VRArrayExpansion.ArrayCount + 4 ≤ pick ∨
      pick + 4 * VRArrayExpansion.EntrySize ≤ addr64 s.base VRArrayExpansion.ArrayCount) :
    (TryExpandVRArray pick s).mem.read64 (addr64 s.base VRArrayExpansion.ArrayPtr)
      = some pick ∧
    (TryExpandVRArray pick s).mem.read32 (addr64 s.base VRArrayExpansion.ArrayCount)
      = some 4 ∧
    (∀ a, s.mem.readable a = true → (TryExpandVRArray pick s).mem.readable a = true) ∧
    (∀ x, (x < pick ∨ pick + 4 * VRArrayExpansion.EntrySize ≤ x) →
      (x < addr64 s.base VRArrayExpansion.ArrayPtr ∨
        addr64 s.base VRArrayExpansion.ArrayPtr + 8 ≤ x) →
      (x < addr64 s.base VRArrayExpansion.ArrayCount ∨
        addr64 s.base VRArrayExpansion.ArrayCount + 4 ≤ x) →
      (TryExpandVRArray pick s).mem.byte x = s.mem.byte x) ∧
    (∀ k, k < 4 * VRArrayExpansion.EntrySize →
      (TryExpandVRArray pick s).mem.readable (pick + k) = true) ∧
    (∀ k, k < capacity * VRArrayExpansion.EntrySize →
      (TryExpandVRArray pick s).mem.byte (pick + k) = s.mem.byte (buf + k) % 256) ∧
    (∀ i, capacity ≤ i → i < 4 → ∀ k, k < 8 →
      (TryExpandVRArray pick s).mem.byte (pick + i * VRArrayExpansion.EntrySize + k) = 0) ∧
    (∀ i, capacity ≤ i → i < 4 → ∀ o, o ∈ VRArrayExpansion.PoolOffsets → ∀ k, k < 8 →
      (TryExpandVRArray pick s).mem.byte (pick + i * VRArrayExpansion.EntrySize + o + k) = 0 ∧
      (TryExpandVRArray pick s).mem.byte (pick + i * VRArrayExpansion.EntrySize + o + 8 + k)
        = (pick + i * VRArrayExpansion.EntrySize + o) / 256 ^ k % 256) ∧
    (1 ≤ capacity → ∀ i, capacity ≤ i → i < 4 → ∀ k, 8 ≤ k → k < VRArrayExpansion.EntrySize →
      (∀ o, o ∈ VRArrayExpansion.PoolOffsets → k < o ∨ o + 16 ≤ k) →
      (TryExpandVRArray pick s).mem.byte (pick + i * VRArrayExpansion.EntrySize + k)
        = (TryExpandVRArray pick s).mem.byte (pick + k) % 256) := by
  obtain ⟨_, hp0, hpfit, hfree, m2, m3, m4, hM, hT, hW, hC5⟩ :=
    TryExpandVRArray_realloc_inv pick s buf capacity count h0 hbuf hcap hcnt hlt hok
  obtain ⟨bP, bK, bC⟩ := hdr_bounds s buf capacity count hbuf hcap hcnt
  obtain ⟨dPC, _, _⟩ := hdr_disjoint s.base bP bK bC
  obtain ⟨_, v2, v3⟩ := VirtualAllocAny_ok s.mem pick (4 * VRArrayExpansion.EntrySize)
    ⟨hp0, hpfit, hfree⟩
  generalize (TryExpandVRArray pick s).mem = mf at hC5 ⊢
  generalize (VirtualAllocAny s.mem pick (4 * VRArrayExpansion.EntrySize)).2 = m1
    at hM v2 v3
  generalize addr64 s.base VRArrayExpansion.ArrayPtr = P at *
  generalize addr64 s.base VRArrayExpansion.ArrayCount = C at *
  simp only [VRArrayExpansion.EntrySize] at *
  obtain ⟨a1, _, _, _, a5, _, _⟩ := memcpy_spec _ m1 pick buf m2 hM (by omega)
  obtain ⟨t1, t2, t3, t4, t5, _⟩ := templateLoop_spec pick _ m2 m3 hT
    (by
      intro i hi
      rw [List.mem_range'_1] at hi
      simp only [VRArrayExpansion.EntrySize]
      omega)
    (List.nodup_range' _ _)
  simp only [VRArrayExpansion.EntrySize, List.mem_range'_1] at t2 t3 t4 t5
  obtain ⟨w1, _, _, _, w5, _⟩ := store_spec hW
  obtain ⟨c1, _, _, _, c5, _⟩ := store_spec hC5
  have hprot : mf.prot = m1.prot := by rw [c1, w1, t1, a1]
  have inblk : ∀ x, pick ≤ x → x < pick + 4 * 384 → mf.byte x = m3.byte x := by
    intro x h1 h2
    rw [c5, if_neg (by omega), w5, if_neg (by omega)]
  have low : ∀ k, k < capacity * 384 → m3.byte (pick + k) = m2.byte (pick + k) := by
    intro k hk
    apply t2
    intro i hi
    omega
  refine ⟨?_, ?_, ?_, ?_, ?_, ?_, ?_, ?_, ?_⟩
  · have hl : m4.load P 8 = some pick := load_store hW (by norm_num; omega)
    show mf.load P 8 = some pick
    rw [← hl]
    apply load_congr m4 mf P 8 c1
    intro k hk
    rw [c5, if_neg (by omega)]
  · rw [read32_eq_load]
    exact load_store hC5 (by norm_num)
  · intro a ha
    unfold Mem.readable at ha ⊢
    simp only [Bool.and_eq_true, decide_eq_true_eq] at ha ⊢
    refine ⟨?_, ha.2⟩
    rw [hprot, v2]
    simp only
    by_cases hin : pick / 4096 ≤ a / 4096 ∧ a / 4096 ≤ (pick + 4 * 384 - 1) / 4096
    · rw [if_pos hin]
      rfl
    · rw [if_neg hin]
      exact ha.1
  · intro x hx hxP hxC
    rw [c5, if_neg (by omega), w5, if_neg (by omega), t2 x (by intro i hi; omega), a5,
      if_neg (by omega), v3]
    simp only
    rw [if_neg (by omega)]
  · intro k hk
    unfold Mem.readable
    simp only [Bool.and_eq_true, decide_eq_true_eq]
    refine ⟨?_, by omega⟩
    rw [hprot, v2]
    simp only
    rw [if_pos (by omega)]
    rfl
  · intro k hk
    rw [inblk _ (by omega) (by omega), low k hk, a5, if_pos (by omega),
      Nat.add_sub_cancel_left, v3]
    simp only
    rw [if_neg (by omega)]
  · intro i hi1 hi2 k hk
    rw [inblk _ (by omega) (by omega)]
    exact t3 i (by omega) k hk
  · intro i hi1 hi2 o ho k hk
    have ho4 := poolOffsets_mem ho
    rw [inblk _ (by omega) (by omega), inblk _ (by omega) (by omega)]
    exact t4 i (by omega) o ho k hk
  · intro hc1 i hi1 hi2 k hk1 hk2 hnp
    rw [inblk _ (by omega) (by omega), inblk _ (by omega) (by omega),
      t5 (fun j hj => by omega) i (by omega) k hk1 hk2 hnp, low k (by omega)]

/-- What a successful `TryExpandVRArray` leaves in entries 2 and 3 of a buffer
that already has room for four entries. -/
theorem TryExpandVRArray_inplace_spec (pick : Nat) (s : State) (buf capacity count : Nat)
    (h0 : s.g_vrExpanded = false)
    (hbuf : s.mem.read64 (addr64 s.base VRArrayExpansion.ArrayPtr) = some buf)
    (hcap : s.mem.read32 (addr64 s.base (VRArrayExpansion.ArrayPtr + 8)) = some capacity)
    (hcnt : s.mem.read32 (addr64 s.base VRArrayExpansion.ArrayCount) = some count)
    (h4 : 4 ≤ capacity)
    (hfit : buf + 4 * VRArrayExpansion.EntrySize ≤ 18446744073709551616)
    (hok : (TryExpandVRArray pick s).g_vrExpanded = true)
    (hC : count < 4 →
      addr64 s.base VRArrayExpansion.ArrayCount + 4 ≤ buf + 2 * VRArrayExpansion.EntrySize ∨
      buf + 4 * VRArrayExpansion.EntrySize ≤ addr64 s.base VRArrayExpansion.ArrayCount) :
    (∀ i, 2 ≤ i → i < 4 → ∀ k, k < VRArrayExpansion.EntrySize →
      (TryExpandVRArray pick s).mem.readable (buf + i * VRArrayExpansion.EntrySize + k)
        = true) ∧
    (∀ i, 2 ≤ i → i < 4 → ∀ k, k < 8 →
      (TryExpandVRArray pick s).mem.byte (buf + i * VRArrayExpansion.EntrySize + k) = 0) ∧
    (∀ i, 2 ≤ i → i < 4 → ∀ o, o ∈ VRArrayExpansion.PoolOffsets → ∀ k, k < 8 →
      (TryExpandVRArray pick s).mem.byte (buf + i * VRArrayExpansion.EntrySize + o + k) = 0 ∧
      (TryExpandVRArray pick s).mem.byte (buf + i * VRArrayExpansion.EntrySize + o + 8 + k)
        = (buf + i * VRArrayExpansion.EntrySize + o) / 256 ^ k % 256) ∧
    (∀ i, 2 ≤ i → i < 4 → ∀ k, 8 ≤ k → k < VRArrayExpansion.EntrySize →
      (∀ o, o ∈ VRArrayExpansion.PoolOffsets → k < o ∨ o + 16 ≤ k) →
      (TryExpandVRArray pick s).mem.byte (buf + i * VRArrayExpansion.EntrySize + k)
        = s.mem.byte (buf + k) % 256) := by
  obtain ⟨_, m1, m2, hT, hF, hfin⟩ :=
    TryExpandVRArray_inplace_inv pick s buf capacity count h0 hbuf hcap hcnt h4 hok
  generalize (TryExpandVRArray pick s).mem = mf at hfin ⊢
  generalize addr64 s.base VRArrayExpansion.ArrayCount = C at *
  simp only [VRArrayExpansion.EntrySize] at hfit hT hC ⊢
  rw [addr64_of_lt buf (0 * 384) (by omega), Nat.zero_mul, Nat.add_zero] at hT
  obtain ⟨t1, _, t3, t4, t5, t6⟩ := templateLoop_spec buf [2, 3] s.mem m1 hT
    (by
      intro i hi
      simp only [List.mem_cons, List.mem_singleton, List.not_mem_nil, or_false] at hi
      simp only [VRArrayExpansion.EntrySize]
      omega)
    (by decide)
  obtain ⟨f1, f2⟩ := fixTailsLoop_spec buf [0, 1] m1 m2 hF
    (by
      intro i hi
      simp only [List.mem_cons, List.mem_singleton, List.not_mem_nil, or_false] at hi
      simp only [VRArrayExpansion.EntrySize]
      omega)
  simp only [VRArrayExpansion.EntrySize, List.mem_cons, List.mem_singleton,
    List.not_mem_nil, or_false] at t3 t4 t5 t6 f2
  have hmem : ∀ i, 2 ≤ i → i < 4 → i = 2 ∨ i = 3 := by
    intro i h1 h2
    omega
  have hfp : mf.prot = s.mem.prot ∧
      ∀ x, buf + 2 * 384 ≤ x → x < buf + 4 * 384 → mf.byte x = m1.byte x := by
    have f3 : ∀ x, buf + 2 * 384 ≤ x → x < buf + 4 * 384 → m2.byte x = m1.byte x := by
      intro x h1 h2
      apply f2
      intro i hi o ho
      have ho4 := poolOffsets_mem ho
      omega
    rcases hfin with ⟨hc, hw⟩ | ⟨hc, he⟩
    · obtain ⟨w1, _, _, _, w5, _⟩ := store_spec hw
      have := hC hc
      refine ⟨by rw [w1, f1, t1], ?_⟩
      intro x h1 h2
      rw [w5, if_neg (by omega)]
      exact f3 x h1 h2
    · rw [he]
      exact ⟨by rw [f1, t1], f3⟩
  obtain ⟨hp, hb⟩ := hfp
  refine ⟨?_, ?_, ?_, ?_⟩
  · intro i h1 h2 k hk
    rw [readable_of_prot hp]
    exact writable_readable _ _ (t6 i (hmem i h1 h2) k hk)
  · intro i h1 h2 k hk
    rw [hb _ (by omega) (by omega)]
    exact t3 i (hmem i h1 h2) k hk
  · intro i h1 h2 o ho k hk
    have ho4 := poolOffsets_mem ho
    rw [hb _ (by omega) (by omega), hb _ (by omega) (by omega)]
    exact t4 i (hmem i h1 h2) o ho k hk
  · intro i h1 h2 k hk1 hk2 hnp
    rw [hb _ (by omega) (by omega)]
    exact t5 (by intro j hj; omega) i (hmem i h1 h2) k hk1 hk2 hnp

/-- The pool fields of an entry read as an empty pool of its own when their
bytes are the ones the template copy stores. -/
theorem pool_fields_read (m : Mem) (e o : Nat)
    (hfit : e + o + 16 ≤ 18446744073709551616)
    (hr : ∀ k, k < 16 → m.readable (e + o + k) = true)
    (hb : ∀ k, k < 8 →
      m.byte (e + o + k) = 0 ∧ m.byte (e + o + 8 + k) = (e + o) / 256 ^ k % 256) :
    m.read64 (e + o) = some 0 ∧ m.read64 (e + o + 8) = some (e + o) := by
  constructor
  · apply load_of_bytes m (e + o) 8 0
    · intro k hk
      exact hr k (by omega)
    · intro k hk
      rw [(hb k hk).1]
      simp
    · norm_num
  · apply load_of_bytes m (e + o + 8) 8 (e + o)
    · intro k hk
      have := hr (8 + k) (by omega)
      rwa [show e + o + (8 + k) = e + o + 8 + k by omega] at this
    · intro k hk
      rw [(hb k hk).2, Nat.mod_mod]
    · norm_num
      omega

theorem load_congr_readable (m m1 : Mem) (a n : Nat)
    (hr : ∀ k, k < n → m.readable (a + k) = true)
    (hr1 : ∀ k, k < n → m1.readable (a + k) = true)
    (hb : ∀ k, k < n → m1.byte (a + k) = m.byte (a + k)) :
    m1.load a n = m.load a n := by
  unfold Mem.load
  rw [readBytes_of_readable m n a hr, readBytes_of_readable m1 n a hr1]
  have e : (List.range n).map (fun k => m1.byte (a + k) % 256)
      = (List.range n).map (fun k => m.byte (a + k) % 256) := by
    apply List.map_congr_left
    intro k hk
    rw [hb k (List.mem_range.mp hk)]
  rw [e]

/-! ### The VR array expansion -/

/-- C21, counterexample: on a four-entry buffer holding two entries whose pools
have null tails, a successful `TryExpandVRArray` changes a byte of entry 0 (the
tail at +0x78, from 0 to 0x70) and a byte of entry 2 (at +8, from 0 to 2). -/
theorem capacity4_path_rewrites_entries :
    (initState (arrayMem 0x20000000 4 2 sampleFill) gameBase).mem.read8
      (0x20000000 + 0x78) = some 0 ∧
    (initState (arrayMem 0x20000000 4 2 sampleFill) gameBase).mem.read8
      (0x20000000 + 2 * 0x180 + 8) = some 0 ∧
    (TryExpandVRArray 0 (initState (arrayMem 0x20000000 4 2 sampleFill) gameBase)).g_vrExpanded
      = true ∧
    (TryExpandVRArray 0 (initState (arrayMem 0x20000000 4 2 sampleFill) gameBase)).mem.read8
      (0x20000000 + 0x78) = some 0x70 ∧
    (TryExpandVRArray 0 (initState (arrayMem 0x20000000 4 2 sampleFill) gameBase)).mem.read8
      (0x20000000 + 2 * 0x180 + 8) = some 2 :=
  ⟨by decide, by decide, inplace_run⟩

/-- C22 (as the code has it): from a header with capacity 2 and count 2, a
successful `TryExpandVRArray` leaves the header pointing to the new buffer with
count 4; entries 0 and 1 of the new buffer hold the bytes of the old entries;
entries 2 and 3 have a zeroed spinlock (their first 8 bytes), empty pools of
their own, and at every other offset the byte of entry 0. -/
theorem TryExpandVRArray_expands_two_entries (pick : Nat) (s : State) (buf : Nat)
    (h0 : s.g_vrExpanded = false)
    (hbuf : s.mem.read64 (addr64 s.base VRArrayExpansion.ArrayPtr) = some buf)
    (hcap : s.mem.read32 (addr64 s.base (VRArrayExpansion.ArrayPtr + 8)) = some 2)
    (hcnt : s.mem.read32 (addr64 s.base VRArrayExpansion.ArrayCount) = some 2)
    (hok : (TryExpandVRArray pick s).g_vrExpanded = true)
    (hold : buf + 2 * VRArrayExpansion.EntrySize ≤ pick ∨
      pick + 4 * VRArrayExpansion.EntrySize ≤ buf)
    (hP : addr64 s.base VRArrayExpansion.ArrayPtr + 8 ≤ pick ∨
      pick + 4 * VRArrayExpansion.EntrySize ≤ addr64 s.base VRArrayExpansion.ArrayPtr)
    (hC : addr64 s.base VRArrayExpansion.ArrayCount + 4 ≤ pick ∨
      pick + 4 * VRArrayExpansion.EntrySize ≤ addr64 s.base VRArrayExpansion.ArrayCount) :
    (TryExpandVRArray pick s).mem.read64 (addr64 s.base VRArrayExpansion.ArrayPtr)
      = some pick ∧
    (TryExpandVRArray pick s).mem.read32 (addr64 s.base VRArrayExpansion.ArrayCount)
      = some 4 ∧
    (∀ k, k < 2 * VRArrayExpansion.EntrySize →
      (TryExpandVRArray pick s).mem.read8 (pick + k) = some (s.mem.byte (buf + k) % 256)) ∧
    (∀ i, 2 ≤ i → i < 4 →
      (∀ k, k < 8 →
        (TryExpandVRArray pick s).mem.read8 (pick + i * VRArrayExpansion.EntrySize + k)
          = some 0) ∧
      (∀ o, o ∈ VRArrayExpansion.PoolOffsets →
        (TryExpandVRArray pick s).mem.read64 (pick + i * VRArrayExpansion.EntrySize + o)
          = some 0 ∧
        (TryExpandVRArray pick s).mem.read64 (pick + i * VRArrayExpansion.EntrySize + o + 8)
          = some (pick + i * VRArrayExpansion.EntrySize + o)) ∧
      (∀ k, 8 ≤ k → k < VRArrayExpansion.EntrySize →
        (∀ o, o ∈ VRArrayExpansion.PoolOffsets → k < o ∨ o + 16 ≤ k) →
        (TryExpandVRArray pick s).mem.read8 (pick + i * VRArrayExpansion.EntrySize + k)
          = (TryExpandVRArray pick s).mem.read8 (pick + k))) := by
  obtain ⟨_, hp0, hpfit, _, _⟩ :=
    TryExpandVRArray_realloc_inv pick s buf 2 2 h0 hbuf hcap hcnt (by omega) hok
  obtain ⟨r1, r2, _, _, r5, r6, r7, r8, r9⟩ :=
    TryExpandVRArray_realloc_spec pick s buf 2 2 h0 hbuf hcap hcnt (by omega) hok hold hP hC
  generalize (TryExpandVRArray pick s).mem = mf at *
  simp only [VRArrayExpansion.EntrySize] at *
  refine ⟨r1, r2, ?_, ?_⟩
  · intro k hk
    unfold Mem.read8
    rw [if_pos (r5 k (by omega)), r6 k hk, Nat.mod_mod]
  · intro i hi1 hi2
    refine ⟨?_, ?_, ?_⟩
    · intro k hk
      unfold Mem.read8
      rw [Nat.add_assoc, if_pos (r5 _ (by omega)), ← Nat.add_assoc, r7 i hi1 hi2 k hk]
    · intro o ho
      have ho4 := poolOffsets_mem ho
      apply pool_fields_read mf (pick + i * 384) o (by omega)
      · intro k hk
        have := r5 (i * 384 + o + k) (by omega)
        rwa [show pick + (i * 384 + o + k) = pick + i * 384 + o + k by omega] at this
      · exact r8 i hi1 hi2 o ho
    · intro k hk1 hk2 hnp
      unfold Mem.read8
      rw [Nat.add_assoc, if_pos (r5 _ (by omega)), ← Nat.add_assoc, if_pos (r5 k (by omega)),
        r9 (by omega) i hi1 hi2 k hk1 hk2 hnp, Nat.mod_mod]

/-- C22, counterexample: after the expansion of a two-entry buffer whose entry 0
starts with the byte 1, entry 2 starts with the byte 0 while entry 0 of the new
buffer still starts with 1. -/
theorem realloc_entry2_spinlock_differs :
    (initState (arrayMem 0x20000000 2 2 sampleFill) gameBase).mem.read32
      (addr64 gameBase (VRArrayExpansion.ArrayPtr + 8)) = some 2 ∧
    (initState (arrayMem 0x20000000 2 2 sampleFill) gameBase).mem.read32
      (addr64 gameBase VRArrayExpansion.ArrayCount) = some 2 ∧
    (TryExpandVRArray 0x30000000
      (initState (arrayMem 0x20000000 2 2 sampleFill) gameBase)).g_vrExpanded = true ∧
    (TryExpandVRArray 0x30000000
      (initState (arrayMem 0x20000000 2 2 sampleFill) gameBase)).mem.read64
        (addr64 gameBase VRArrayExpansion.ArrayPtr) = some 0x30000000 ∧
    (TryExpandVRArray 0x30000000
      (initState (arrayMem 0x20000000 2 2 sampleFill) gameBase)).mem.read8
        0x30000000 = some 1 ∧
    (TryExpandVRArray 0x30000000
      (initState (arrayMem 0x20000000 2 2 sampleFill) gameBase)).mem.read8
        (0x30000000 + 2 * 0x180) = some 0 :=
  ⟨by decide, by decide, realloc_run.1, realloc_run.2.1, realloc_run.2.2.2.2⟩

/-- C22, witness: the two-entry buffer at 0x20000000 moved to 0x30000000. -/
theorem TryExpandVRArray_expands_two_entries_witness :
    (TryExpandVRArray 0x30000000
      (initState (arrayMem 0x20000000 2 2 sampleFill) gameBase)).mem.read8
        (0x30000000 + 2 * VRArrayExpansion.EntrySize + 0x20)
      = (TryExpandVRArray 0x30000000
          (initState (arrayMem 0x20000000 2 2 sampleFill) gameBase)).mem.read8
            (0x30000000 + 0x20) :=
  ((TryExpandVRArray_expands_two_entries 0x30000000
    (initState (arrayMem 0x20000000 2 2 sampleFill) gameBase) 0x20000000
    (by decide) (by decide) (by decide) (by decide) realloc_run.1
    (by decide) (by decide) (by decide)).2.2.2 2 (by decide) (by decide)).2.2 0x20
    (by decide) (by decide) (by decide)

/-- C27: in every entry that a successful `TryExpandVRArray` fills from the
template (entries 2 and 3 of a buffer with room for four, entries `capacity`
to 3 of a new buffer otherwise), each pool has a zero head and a tail that
holds the address of the head field of that same entry, which on the
reallocation path lies outside the old buffer. -/
theorem template_filled_entry_pools (pick : Nat) (s : State) (buf capacity count i o : Nat)
    (h0 : s.g_vrExpanded = false)
    (hbuf : s.mem.read64 (addr64 s.base VRArrayExpansion.ArrayPtr) = some buf)
    (hcap : s.mem.read32 (addr64 s.base (VRArrayExpansion.ArrayPtr + 8)) = some capacity)
    (hcnt : s.mem.read32 (addr64 s.base VRArrayExpansion.ArrayCount) = some count)
    (hok : (TryExpandVRArray pick s).g_vrExpanded = true)
    (hi : (4 ≤ capacity ∧ 2 ≤ i ∧ i < 4) ∨ (capacity < 4 ∧ capacity ≤ i ∧ i < 4))
    (ho : o ∈ VRArrayExpansion.PoolOffsets)
    (hfit : 4 ≤ capacity → buf + 4 * VRArrayExpansion.EntrySize ≤ 18446744073709551616)
    (hold : capacity < 4 → buf + capacity * VRArrayExpansion.EntrySize ≤ pick ∨
      pick + 4 * VRArrayExpansion.EntrySize ≤ buf)
    (hP : capacity < 4 → addr64 s.base VRArrayExpansion.ArrayPtr + 8 ≤ pick ∨
      pick + 4 * VRArrayExpansion.EntrySize ≤ addr64 s.base VRArrayExpansion.ArrayPtr)
    (hC : addr64 s.base VRArrayExpansion.ArrayCount + 4
        ≤ (if 4 ≤ capacity then buf else pick) ∨
      (if 4 ≤ capacity then buf else pick) + 4 * VRArrayExpansion.EntrySize
        ≤ addr64 s.base VRArrayExpansion.ArrayCount) :
    (TryExpandVRArray pick s).mem.read64
        ((if 4 ≤ capacity then buf else pick) + i * VRArrayExpansion.EntrySize + o)
      = some 0 ∧
    (TryExpandVRArray pick s).mem.read64
        ((if 4 ≤ capacity then buf else pick) + i * VRArrayExpansion.EntrySize + o + 8)
      = some ((if 4 ≤ capacity then buf else pick) + i * VRArrayExpansion.EntrySize + o) ∧
    (capacity < 4 →
      pick + i * VRArrayExpansion.EntrySize + o + 8 ≤ buf ∨
      buf + capacity * VRArrayExpansion.EntrySize
        ≤ pick + i * VRArrayExpansion.EntrySize + o) := by
  have ho4 := poolOffsets_mem ho
  by_cases h4 : 4 ≤ capacity
  · rw [if_pos h4] at hC ⊢
    have hf := hfit h4
    rcases hi with ⟨_, hi1, hi2⟩ | ⟨hlt, _, _⟩
    · obtain ⟨q1, _, q3, _⟩ := TryExpandVRArray_inplace_spec pick s buf capacity count
        h0 hbuf hcap hcnt h4 hf hok (by
          intro _
          simp only [VRArrayExpansion.EntrySize] at hC ⊢
          omega)
      generalize (TryExpandVRArray pick s).mem = mf at *
      simp only [VRArrayExpansion.EntrySize] at *
      obtain ⟨a, b⟩ := pool_fields_read mf (buf + i * 384) o (by omega)
        (by
          intro k hk
          have := q1 i hi1 hi2 (o + k) (by omega)
          rwa [show buf + i * 384 + (o + k) = buf + i * 384 + o + k by omega] at this)
        (q3 i hi1 hi2 o ho)
      exact ⟨a, b, fun h => by omega⟩
    · omega
  · rw [if_neg h4] at hC ⊢
    have hlt : capacity < 4 := by omega
    rcases hi with ⟨h, _, _⟩ | ⟨_, hi1, hi2⟩
    · omega
    · obtain ⟨_, hp0, hpfit, _, _⟩ :=
        TryExpandVRArray_realloc_inv pick s buf capacity count h0 hbuf hcap hcnt hlt hok
      obtain ⟨_, _, _, _, r5, _, _, r8, _⟩ :=
        TryExpandVRArray_realloc_spec pick s buf capacity count h0 hbuf hcap hcnt hlt hok
          (hold hlt) (hP hlt) hC
      have hold2 := hold hlt
      generalize (TryExpandVRArray pick s).mem = mf at *
      simp only [VRArrayExpansion.EntrySize] at *
      obtain ⟨a, b⟩ := pool_fields_read mf (pick + i * 384) o (by omega)
        (by
          intro k hk
          have := r5 (i * 384 + o + k) (by omega)
          rwa [show pick + (i * 384 + o + k) = pick + i * 384 + o + k by omega] at this)
        (r8 i hi1 hi2 o ho)
      refine ⟨a, b, fun _ => ?_⟩
      omega

/-- C27, witness: pool 0x70 of entry 2 on both paths. -/
theorem template_filled_entry_pools_witness :
    ((TryExpandVRArray 0x30000000
        (initState (arrayMem 0x20000000 2 2 sampleFill) gameBase)).mem.read64
          (0x30000000 + 2 * VRArrayExpansion.EntrySize + 0x70) = some 0 ∧
      (TryExpandVRArray 0x30000000
        (initState (arrayMem 0x20000000 2 2 sampleFill) gameBase)).mem.read64
          (0x30000000 + 2 * VRArrayExpansion.EntrySize + 0x70 + 8)
        = some (0x30000000 + 2 * VRArrayExpansion.EntrySize + 0x70)) ∧
    ((TryExpandVRArray 0
        (initState (arrayMem 0x20000000 4 2 sampleFill) gameBase)).mem.read64
          (0x20000000 + 2 * VRArrayExpansion.EntrySize + 0x70) = some 0 ∧
      (TryExpandVRArray 0
        (initState (arrayMem 0x20000000 4 2 sampleFill) gameBase)).mem.read64
          (0x20000000 + 2 * VRArrayExpansion.EntrySize + 0x70 + 8)
        = some (0x20000000 + 2 * VRArrayExpansion.EntrySize + 0x70)) :=
  ⟨⟨(template_filled_entry_pools 0x30000000
        (initState (arrayMem 0x20000000 2 2 sampleFill) gameBase) 0x20000000 2 2 2 0x70
        (by decide) (by decide) (by decide) (by decide) realloc_run.1 (by decide) (by decide)
        (by decide) (by decide) (by decide) (by decide)).1,
      (template_filled_entry_pools 0x30000000
        (initState (arrayMem 0x20000000 2 2 sampleFill) gameBase) 0x20000000 2 2 2 0x70
        (by decide) (by decide) (by decide) (by decide) realloc_run.1 (by decide) (by decide)
        (by decide) (by decide) (by decide) (by decide)).2.1⟩,
    ⟨(template_filled_entry_pools 0
        (initState (arrayMem 0x20000000 4 2 sampleFill) gameBase) 0x20000000 4 2 2 0x70
        (by decide) (by decide) (by decide) (by decide) inplace_run.1 (by decide) (by decide)
        (by decide) (by decide) (by decide) (by decide)).1,
      (template_filled_entry_pools 0
        (initState (arrayMem 0x20000000 4 2 sampleFill) gameBase) 0x20000000 4 2 2 0x70
        (by decide) (by decide) (by decide) (by decide) inplace_run.1 (by decide) (by decide)
        (by decide) (by decide) (by decide) (by decide)).2.1⟩⟩

/-- C28, what the code does: a successful `TryExpandVRArray` that moves the
array stores the new buffer pointer and the count 4 but leaves the capacity
field at `ArrayPtr + 8` at its old value, which is below 4. -/
theorem TryExpandVRArray_realloc_capacity_stale (pick : Nat) (s : State)
    (buf capacity count : Nat)
    (h0 : s.g_vrExpanded = false)
    (hbuf : s.mem.read64 (addr64 s.base VRArrayExpansion.ArrayPtr) = some buf)
    (hcap : s.mem.read32 (addr64 s.base (VRArrayExpansion.ArrayPtr + 8)) = some capacity)
    (hcnt : s.mem.read32 (addr64 s.base VRArrayExpansion.ArrayCount) = some count)
    (hlt : capacity < 4)
    (hok : (TryExpandVRArray pick s).g_vrExpanded = true)
    (hold : buf + capacity * VRArrayExpansion.EntrySize ≤ pick ∨
      pick + 4 * VRArrayExpansion.EntrySize ≤ buf)
    (hP : addr64 s.base VRArrayExpansion.ArrayPtr + 8 ≤ pick ∨
      pick + 4 * VRArrayExpansion.EntrySize ≤ addr64 s.base VRArrayExpansion.ArrayPtr)
    (hK : addr64 s.base (VRArrayExpansion.ArrayPtr + 8) + 4 ≤ pick ∨
      pick + 4 * VRArrayExpansion.EntrySize ≤ addr64 s.base (VRArrayExpansion.ArrayPtr + 8))
    (hC : addr64 s.base VRArrayExpansion.ArrayCount + 4 ≤ pick ∨
      pick + 4 * VRArrayExpansion.EntrySize ≤ addr64 s.base VRArrayExpansion.ArrayCount) :
    (TryExpandVRArray pick s).mem.read32 (addr64 s.base VRArrayExpansion.ArrayCount)
      = some 4 ∧
    (TryExpandVRArray pick s).mem.read32 (addr64 s.base (VRArrayExpansion.ArrayPtr + 8))
      = some capacity := by
  obtain ⟨_, r2, r3, r4, _⟩ :=
    TryExpandVRArray_realloc_spec pick s buf capacity count h0 hbuf hcap hcnt hlt hok hold hP hC
  obtain ⟨bP, bK, bC⟩ := hdr_bounds s buf capacity count hbuf hcap hcnt
  obtain ⟨_, dPK, dKC⟩ := hdr_disjoint s.base bP bK bC
  refine ⟨r2, ?_⟩
  rw [← hcap, read32_eq_load, read32_eq_load]
  have hr : ∀ k, k < 4 →
      s.mem.readable (addr64 s.base (VRArrayExpansion.ArrayPtr + 8) + k) = true := by
    rw [read32_eq_load] at hcap
    exact load_readable hcap
  apply load_congr_readable _ _ _ _ hr (fun k hk => r3 _ (hr k hk))
  intro k hk
  apply r4 <;> omega

/-- C28, counterexample: after the expansion of a two-entry buffer the header
reports count 4 and capacity 2. -/
theorem realloc_header_inconsistent :
    (TryExpandVRArray 0x30000000
      (initState (arrayMem 0x20000000 2 2 sampleFill) gameBase)).g_vrExpanded = true ∧
    (TryExpandVRArray 0x30000000
      (initState (arrayMem 0x20000000 2 2 sampleFill) gameBase)).mem.read32
        (addr64 gameBase VRArrayExpansion.ArrayCount) = some 4 ∧
    (TryExpandVRArray 0x30000000
      (initState (arrayMem 0x20000000 2 2 sampleFill) gameBase)).mem.read32
        (addr64 gameBase (VRArrayExpansion.ArrayPtr + 8)) = some 2 :=
  ⟨realloc_run.1, realloc_run.2.2.1, realloc_run.2.2.2.1⟩

/-- C28, witness: the two-entry buffer at 0x20000000 moved to 0x30000000. -/
theorem TryExpandVRArray_realloc_capacity_stale_witness :
    (TryExpandVRArray 0x30000000
      (initState (arrayMem 0x20000000 2 2 sampleFill) gameBase)).mem.read32
        (addr64 gameBase (VRArrayExpansion.ArrayPtr + 8)) = some 2 :=
  (TryExpandVRArray_realloc_capacity_stale 0x30000000
    (initState (arrayMem 0x20000000 2 2 sampleFill) gameBase) 0x20000000 2 2
    (by decide) (by decide) (by decide) (by decide) (by decide) realloc_run.1
    (by decide) (by decide) (by decide) (by decide)).2

/-! ### Frames of the code-patching stages -/

theorem sameOutside_same (lo hi : Nat) (m : Mem) : Mem.SameOutside lo hi m m :=
  ⟨rfl, rfl, rfl, fun _ _ => rfl, fun _ _ => rfl⟩

theorem sameOutside_chain {lo hi : Nat} {m m1 m2 : Mem}
    (h1 : Mem.SameOutside lo hi m m1) (h2 : Mem.SameOutside lo hi m1 m2) :
    Mem.SameOutside lo hi m m2 := by
  obtain ⟨a1, a2, a3, a4, a5⟩ := h1
  obtain ⟨b1, b2, b3, b4, b5⟩ := h2
  exact ⟨b1.trans a1, b2.trans a2, b3.trans a3, fun x hx => (b4 x hx).trans (a4 x hx),
    fun p hp => (b5 p hp).trans (a5 p hp)⟩

theorem sameOutside_mono {lo hi lo2 hi2 : Nat} {m m1 : Mem}
    (h : Mem.SameOutside lo hi m m1) (hl : lo2 ≤ lo) (hh : hi ≤ hi2) :
    Mem.SameOutside lo2 hi2 m m1 := by
  obtain ⟨a1, a2, a3, a4, a5⟩ := h
  exact ⟨a1, a2, a3, fun x hx => a4 x (by omega), fun p hp => a5 p (by omega)⟩

theorem sameOutside_writeBytes (bs : List Nat) (m : Mem) (a : Nat) :
    Mem.SameOutside a (a + bs.length) m (m.writeBytes a bs).2 := by
  obtain ⟨f1, f2, f3, f4, _⟩ := writeBytes_frame bs m a
  exact ⟨f3, f2, f4, fun x hx => writeBytes_outside bs m a x hx, fun p _ => by rw [f1]⟩

theorem sameOutside_store {m m1 : Mem} {a n v : Nat} (h : m.store a n v = some m1) :
    Mem.SameOutside a (a + n) m m1 := by
  obtain ⟨p1, p2, p3, p4, p5, _⟩ := store_spec h
  exact ⟨p3, p2, p4, fun x hx => by rw [p5 x, if_neg (by omega)], fun p _ => by rw [p1]⟩

theorem sameOutside_write8 {m m1 : Mem} {a v : Nat} (h : m.write8 a v = some m1) :
    Mem.SameOutside a (a + 1) m m1 := by
  obtain ⟨e, _⟩ := write8_eq h
  subst e
  refine ⟨rfl, rfl, rfl, ?_, fun _ _ => rfl⟩
  intro x hx
  simp only [Mem.setByte]
  rw [if_neg (by omega)]

theorem sameOutside_VirtualProtect {m m1 : Mem} {a n np old : Nat}
    (h : VirtualProtect m a n np = some (old, m1)) (hn : 1 ≤ n) :
    Mem.SameOutside a (a + n) m m1 := by
  unfold VirtualProtect at h
  simp only at h
  split at h
  · simp only [Option.some.injEq, Prod.mk.injEq] at h
    obtain ⟨_, e⟩ := h
    subst e
    refine ⟨rfl, rfl, rfl, fun _ _ => rfl, ?_⟩
    intro p hp
    simp only
    rw [if_neg (by omega)]
  · simp at h

theorem sameOutside_restoreProtect (m : Mem) (a n old : Nat) (hn : 1 ≤ n) :
    Mem.SameOutside a (a + n) m (restoreProtect m a n old) := by
  unfold restoreProtect
  cases h : VirtualProtect m a n old with
  | none => exact sameOutside_same _ _ _
  | some r =>
    obtain ⟨o2, m1⟩ := r
    exact sameOutside_VirtualProtect h hn

theorem sameOutside_PatchByte (m : Mem) (a e n : Nat) :
    Mem.SameOutside a (a + 1) m (PatchByte m a e n).2 := by
  unfold PatchByte
  cases h8 : m.read8 a with
  | none => exact sameOutside_same _ _ _
  | some b =>
    simp only
    by_cases hb : b ≠ e % 256
    · rw [if_pos hb]
      exact sameOutside_same _ _ _
    · rw [if_neg hb]
      cases hv : VirtualProtect m a 1 PAGE_EXECUTE_READWRITE with
      | none => exact sameOutside_same _ _ _
      | some r =>
        obtain ⟨old, m1⟩ := r
        simp only
        have f1 := sameOutside_VirtualProtect hv (by omega)
        cases hw : m1.write8 a n with
        | none => exact f1
        | some m2 =>
          simp only
          exact sameOutside_chain (sameOutside_chain f1 (sameOutside_write8 hw))
            (sameOutside_restoreProtect m2 a 1 old (by omega))

theorem instrLenOf_bounds (b0 : Nat) : 1 ≤ instrLenOf b0 ∧ instrLenOf b0 ≤ 7 := by
  unfold instrLenOf opcodeIdxOf
  split <;> omega

theorem sameOutside_PatchMovRipToImm (base : Nat) (m : Mem) (i g v : Nat) :
    Mem.SameOutside (wrap64 ((base : Int) + i)) (wrap64 ((base : Int) + i) + 7) m
      (PatchMovRipToImm base m i g v).2 := by
  obtain ⟨ip, hip⟩ : ∃ x, x = wrap64 ((base : Int) + i) := ⟨_, rfl⟩
  unfold PatchMovRipToImm
  rw [← hip]
  simp only
  cases h0 : m.read8 ip with
  | none => exact sameOutside_same _ _ _
  | some b0 =>
    simp only
    have hidx : (if isRex b0 = true then 1 else 0) = opcodeIdxOf b0 := rfl
    have hext : (isRex b0 && ((if isRex b0 = true then b0 else 0) &&& 4 != 0))
        = extRegOf b0 := by
      unfold extRegOf
      cases hr : isRex b0 <;> simp
    have hreg : ∀ x : Nat, x >>> 3 &&& 7 = regOf x := fun _ => rfl
    have hlen : opcodeIdxOf b0 + 2 + 4 = instrLenOf b0 := rfl
    rw [hidx, hext, hlen]
    obtain ⟨hl1, hl7⟩ := instrLenOf_bounds b0
    cases h1 : m.read8 (ip + opcodeIdxOf b0) with
    | none => exact sameOutside_same _ _ _
    | some opc =>
      simp only
      by_cases hopc : opc ≠ 0x8B
      · rw [if_pos hopc]
        exact sameOutside_same _ _ _
      rw [if_neg hopc]
      cases h2 : m.read8 (ip + opcodeIdxOf b0 + 1) with
      | none => exact sameOutside_same _ _ _
      | some modrm =>
        simp only
        by_cases hmod : modrm &&& 0xC7 ≠ 0x05
        · rw [if_pos hmod]
          exact sameOutside_same _ _ _
        rw [if_neg hmod]
        cases h3 : m.read32 (ip + opcodeIdxOf b0 + 2) with
        | none => exact sameOutside_same _ _ _
        | some disp =>
          simp only
          by_cases hd : disp ≠ wrap64 ((g : Int) - wrap64 ((i : Int) + (instrLenOf b0 : Nat)))
              % 4294967296
          · rw [if_pos hd]
            exact sameOutside_same _ _ _
          rw [if_neg hd, hreg]
          cases h4 : VirtualProtect m ip (instrLenOf b0) PAGE_EXECUTE_READWRITE with
          | none => exact sameOutside_same _ _ _
          | some r =>
            obtain ⟨oldProtect, m1⟩ := r
            simp only
            have f1 := sameOutside_mono (sameOutside_VirtualProtect h4 hl1)
              (Nat.le_refl ip) (show ip + instrLenOf b0 ≤ ip + 7 by omega)
            have f2 := sameOutside_writeBytes
              (buildMovImm (extRegOf b0) (regOf modrm) v (instrLenOf b0)) m1 ip
            rw [buildMovImm_length] at f2
            have f2b := sameOutside_mono f2 (Nat.le_refl ip)
              (show ip + instrLenOf b0 ≤ ip + 7 by omega)
            cases h5 : m1.writeBytes ip
                (buildMovImm (extRegOf b0) (regOf modrm) v (instrLenOf b0)) with
            | mk ok m2 =>
              rw [h5] at f2b
              cases ok with
              | false => exact sameOutside_chain f1 f2b
              | true =>
                exact sameOutside_chain (sameOutside_chain f1 f2b)
                  (sameOutside_mono (sameOutside_restoreProtect m2 ip (instrLenOf b0)
                    oldProtect hl1) (Nat.le_refl ip)
                    (show ip + instrLenOf b0 ≤ ip + 7 by omega))

theorem sameOutside_patchCountReads (base lo hi : Nat) (sites : List Nat) : ∀ (m : Mem),
    (∀ i, i ∈ sites → lo ≤ wrap64 ((base : Int) + i) ∧ wrap64 ((base : Int) + i) + 7 ≤ hi) →
    Mem.SameOutside lo hi m (patchCountReads base sites m).2 := by
  induction sites with
  | nil => intro m _; exact sameOutside_same _ _ _
  | cons i rest ih =>
    intro m h
    unfold patchCountReads
    have hi1 := h i (List.mem_cons_self _ _)
    have f1 := sameOutside_mono
      (sameOutside_PatchMovRipToImm base m i CountGlobal CascadeCountPatch.DesiredValue)
      hi1.1 hi1.2
    cases hp : PatchMovRipToImm base m i CountGlobal CascadeCountPatch.DesiredValue with
    | mk ok m1 =>
      rw [hp] at f1
      simp only
      have f2 := ih m1 (fun j hj => h j (List.mem_cons_of_mem _ hj))
      cases hq : patchCountReads base rest m1 with
      | mk n m2 =>
        rw [hq] at f2
        exact sameOutside_chain f1 f2

theorem sameOutside_patchBytes (base lo hi : Nat) (ps : List (Nat × Nat × Nat)) : ∀ (m : Mem),
    (∀ p, p ∈ ps → lo ≤ addr64 base p.1 ∧ addr64 base p.1 + 1 ≤ hi) →
    Mem.SameOutside lo hi m (patchBytes base ps m).2 := by
  induction ps with
  | nil => intro m _; exact sameOutside_same _ _ _
  | cons p rest ih =>
    intro m h
    obtain ⟨off, old, new⟩ := p
    unfold patchBytes
    have hi1 := h (off, old, new) (List.mem_cons_self _ _)
    have f1 := sameOutside_mono (sameOutside_PatchByte m (addr64 base off) old new)
      hi1.1 hi1.2
    cases hp : PatchByte m (addr64 base off) old new with
    | mk ok m1 =>
      rw [hp] at f1
      simp only
      have f2 := ih m1 (fun j hj => h j (List.mem_cons_of_mem _ hj))
      cases hq : patchBytes base rest m1 with
      | mk n m2 =>
        rw [hq] at f2
        exact sameOutside_chain f1 f2

theorem sameOutside_far {lo hi : Nat} {m m1 : Mem} (h : Mem.SameOutside lo hi m m1)
    (a : Nat) (ha : a + 4096 ≤ lo ∨ hi + 4096 ≤ a) :
    m1.byte a = m.byte a ∧ m1.readable a = m.readable a ∧ m1.writable a = m.writable a := by
  obtain ⟨_, _, _, h4, h5⟩ := h
  have hp : m1.prot (a / 4096) = m.prot (a / 4096) := h5 _ (by omega)
  refine ⟨h4 a (by omega), ?_, ?_⟩
  · unfold Mem.readable
    rw [hp]
  · unfold Mem.writable
    rw [hp]

theorem readBytes_congr_pt (m m1 : Mem) (n : Nat) : ∀ (a : Nat),
    (∀ k, k < n → m1.read8 (a + k) = m.read8 (a + k)) →
    m1.readBytes a n = m.readBytes a n := by
  induction n with
  | zero => intro a _; rfl
  | succ n ih =>
    intro a h
    unfold Mem.readBytes
    have h0 := h 0 (by omega)
    simp only [Nat.add_zero] at h0
    rw [h0, ih (a + 1) (fun k hk => by
      have := h (k + 1) (by omega)
      rwa [show a + (k + 1) = a + 1 + k by omega] at this)]

theorem load_far {lo hi : Nat} {m m1 : Mem} (h : Mem.SameOutside lo hi m m1)
    (a n : Nat) (ha : a + n + 4096 ≤ lo ∨ hi + 4096 ≤ a) :
    m1.load a n = m.load a n ∧ m1.readBytes a n = m.readBytes a n := by
  have e : m1.readBytes a n = m.readBytes a n := by
    apply readBytes_congr_pt
    intro k hk
    obtain ⟨b, r, _⟩ := sameOutside_far h (a + k) (by omega)
    unfold Mem.read8
    rw [b, r]
  refine ⟨?_, e⟩
  unfold Mem.load
  rw [e]

theorem read32_far {lo hi : Nat} {m m1 : Mem} (h : Mem.SameOutside lo hi m m1)
    (a : Nat) (ha : a + 4 + 4096 ≤ lo ∨ hi + 4096 ≤ a) :
    m1.read32 a = m.read32 a := by
  rw [read32_eq_load, read32_eq_load]
  exact (load_far h a 4 ha).1

/-! ### The stages as record updates -/

theorem ForceCascadeCount4_form (s : State) :
    ∃ m1 b, ForceCascadeCount4 s = { s with mem := m1, g_countForced := b } ∧
      Mem.SameOutside (addr64 s.base CountGlobal) (addr64 s.base CountGlobal + 4) s.mem m1 := by
  obtain ⟨a, ha⟩ : ∃ x, x = addr64 s.base CountGlobal := ⟨_, rfl⟩
  unfold ForceCascadeCount4
  rw [← ha]
  by_cases h : s.g_countForced = true
  · rw [if_pos h]
    exact ⟨s.mem, s.g_countForced, rfl, sameOutside_same _ _ _⟩
  · rw [if_neg h]
    cases hr : s.mem.read32 a with
    | none => exact ⟨s.mem, s.g_countForced, rfl, sameOutside_same _ _ _⟩
    | some v =>
      simp only
      by_cases hv : v ≠ CascadeCountPatch.DesiredValue
      · rw [if_pos hv]
        cases hw : s.mem.write32 a CascadeCountPatch.DesiredValue with
        | none => exact ⟨s.mem, s.g_countForced, rfl, sameOutside_same _ _ _⟩
        | some m1 => exact ⟨m1, true, rfl, sameOutside_store hw⟩
      · rw [if_neg hv]
        exact ⟨s.mem, true, rfl, sameOutside_same _ _ _⟩

theorem CheckTextDecrypted_form (s : State) (h0 : s.g_textDecrypted = false)
    (hs : s.mem.read8 (addr64 s.base TextSentinel) = some 0x48) :
    (CheckTextDecrypted s).2 = { s with g_textDecrypted := true } := by
  obtain ⟨a, ha⟩ : ∃ x, x = addr64 s.base TextSentinel := ⟨_, rfl⟩
  unfold CheckTextDecrypted
  rw [← ha] at hs ⊢
  rw [if_neg (by rw [h0]; simp), hs]
  simp only
  rw [if_neg (by simp [TextSentinelExpected])]

theorem PatchCountReadSites_form (s : State) (h0 : s.g_countReadsPatched = false)
    (h1 : s.g_textDecrypted = true) (lo hi : Nat)
    (hs : ∀ i, i ∈ CountReadPatch.AllSites →
      lo ≤ wrap64 ((s.base : Int) + i) ∧ wrap64 ((s.base : Int) + i) + 7 ≤ hi)
    (hc : lo ≤ addr64 s.base CountReadPatch.SetupCmpImm ∧
      addr64 s.base CountReadPatch.SetupCmpImm + 1 ≤ hi) :
    ∃ m1, PatchCountReadSites s = { s with mem := m1, g_countReadsPatched := true } ∧
      Mem.SameOutside lo hi s.mem m1 := by
  obtain ⟨a, ha⟩ : ∃ x, x = addr64 s.base CountReadPatch.SetupCmpImm := ⟨_, rfl⟩
  obtain ⟨P, hP⟩ : ∃ f : Nat → List Nat → Mem → Nat × Mem, f = patchCountReads := ⟨_, rfl⟩
  have f1 := sameOutside_patchCountReads s.base lo hi CountReadPatch.AllSites s.mem hs
  unfold PatchCountReadSites
  rw [← ha] at hc ⊢
  rw [← hP] at f1 ⊢
  rw [if_neg (by rw [h0]; simp), if_neg (by rw [h1]; simp)]
  cases hp : P s.base CountReadPatch.AllSites s.mem with
  | mk n m1 =>
    rw [hp] at f1
    simp only
    have f2 := sameOutside_mono
      (sameOutside_PatchByte m1 a CountReadPatch.SetupCmpOld CountReadPatch.SetupCmpNew)
      hc.1 hc.2
    cases hq : PatchByte m1 a CountReadPatch.SetupCmpOld CountReadPatch.SetupCmpNew with
    | mk ok m2 =>
      rw [hq] at f2
      exact ⟨m2, rfl, sameOutside_chain f1 f2⟩

theorem ApplyMaskSafeMode_form (s : State) (h0 : s.g_maskSafe = false)
    (h1 : s.g_textDecrypted = true) (lo hi : Nat)
    (hs : ∀ p, p ∈ maskSafePatches → lo ≤ addr64 s.base p.1 ∧ addr64 s.base p.1 + 1 ≤ hi) :
    ∃ m1, ApplyMaskSafeMode s = { s with mem := m1, g_maskSafe := true } ∧
      Mem.SameOutside lo hi s.mem m1 := by
  obtain ⟨P, hP⟩ : ∃ f : Nat → List (Nat × Nat × Nat) → Mem → Nat × Mem, f = patchBytes :=
    ⟨_, rfl⟩
  have f1 := sameOutside_patchBytes s.base lo hi maskSafePatches s.mem hs
  unfold ApplyMaskSafeMode
  rw [← hP] at f1 ⊢
  rw [if_neg (by rw [h0]; simp), if_neg (by rw [h1]; simp)]
  cases hp : P s.base maskSafePatches s.mem with
  | mk n m1 =>
    rw [hp] at f1
    exact ⟨m1, rfl, f1⟩

theorem PatchShaderCtor_form (s : State) (h0 : s.g_shaderPatched = false)
    (h1 : s.g_textDecrypted = true) (lo hi : Nat)
    (hs : ∀ p, p ∈ shaderCtorPatches → lo ≤ addr64 s.base p.1 ∧ addr64 s.base p.1 + 1 ≤ hi) :
    ∃ m1, PatchShaderCtor s = { s with mem := m1, g_shaderPatched := true } ∧
      Mem.SameOutside lo hi s.mem m1 := by
  obtain ⟨P, hP⟩ : ∃ f : Nat → List (Nat × Nat × Nat) → Mem → Nat × Mem, f = patchBytes :=
    ⟨_, rfl⟩
  have f1 := sameOutside_patchBytes s.base lo hi shaderCtorPatches s.mem hs
  unfold PatchShaderCtor
  rw [← hP] at f1 ⊢
  rw [if_neg (by rw [h0]; simp), if_neg (by rw [h1]; simp)]
  cases hp : P s.base shaderCtorPatches s.mem with
  | mk n m1 =>
    rw [hp] at f1
    exact ⟨m1, rfl, f1⟩

theorem PatchStereoDispatch_form (s : State) :
    ∃ m1 b, PatchStereoDispatch s = { s with mem := m1, g_stereoFixPatched := b } ∧
      Mem.SameOutside (addr64 s.base StereoDispatchFix.JzInstrRVA)
        (addr64 s.base StereoDispatchFix.JzInstrRVA + 1) s.mem m1 := by
  obtain ⟨a, ha⟩ : ∃ x, x = addr64 s.base StereoDispatchFix.JzInstrRVA := ⟨_, rfl⟩
  unfold PatchStereoDispatch
  rw [← ha]
  by_cases h : s.g_stereoFixPatched = true
  · rw [if_pos h]
    exact ⟨s.mem, s.g_stereoFixPatched, rfl, sameOutside_same _ _ _⟩
  rw [if_neg h]
  by_cases h1 : (!s.g_textDecrypted) = true
  · rw [if_pos h1]
    exact ⟨s.mem, s.g_stereoFixPatched, rfl, sameOutside_same _ _ _⟩
  rw [if_neg h1]
  have f := sameOutside_PatchByte s.mem a StereoDispatchFix.JzOpcode StereoDispatchFix.JmpOpcode
  cases hp : PatchByte s.mem a StereoDispatchFix.JzOpcode StereoDispatchFix.JmpOpcode with
  | mk ok m1 =>
    rw [hp] at f
    cases ok with
    | true => exact ⟨m1, true, rfl, f⟩
    | false => exact ⟨m1, s.g_stereoFixPatched, rfl, f⟩

theorem writeShadowDistance_form (scaled : Nat) (s : State) :
    ∃ m1 b, writeShadowDistance scaled s = { s with mem := m1, g_shadowDistPatched := b } ∧
      Mem.SameOutside (addr64 s.base ShadowDist2Cascade) (addr64 s.base ShadowDist2Cascade + 4)
        s.mem m1 := by
  obtain ⟨a, ha⟩ : ∃ x, x = addr64 s.base ShadowDist2Cascade := ⟨_, rfl⟩
  unfold writeShadowDistance
  rw [← ha]
  by_cases h : (!s.g_shadowDistPatched && s.g_textDecrypted) = true
  · rw [if_pos h]
    cases hr : s.mem.read32 a with
    | none => exact ⟨s.mem, s.g_shadowDistPatched, rfl, sameOutside_same _ _ _⟩
    | some d =>
      simp only
      by_cases hd : 0 < d ∧ d < 0x501502F9
      · rw [if_pos hd]
        cases hw : s.mem.write32 a scaled with
        | none => exact ⟨s.mem, s.g_shadowDistPatched, rfl, sameOutside_same _ _ _⟩
        | some m1 => exact ⟨m1, true, rfl, sameOutside_store hw⟩
      · rw [if_neg hd]
        exact ⟨s.mem, s.g_shadowDistPatched, rfl, sameOutside_same _ _ _⟩
  · rw [if_neg h]
    exact ⟨s.mem, s.g_shadowDistPatched, rfl, sameOutside_same _ _ _⟩

theorem ClampMask_safe (s : State) (h : s.g_maskSafe = true) : ClampMask s = s := by
  unfold ClampMask
  rw [if_pos h]

theorem StartExpansionTimer_form (timerOk : Bool) (s : State) :
    ∃ a b, StartExpansionTimer timerOk s = { s with g_timerStarted := a, g_timerHandle := b } := by
  unfold StartExpansionTimer
  by_cases h1 : s.g_timerStarted = true
  · rw [if_pos h1]
    exact ⟨_, _, rfl⟩
  rw [if_neg h1]
  by_cases h2 : (!s.g_maskSafe) = true
  · rw [if_pos h2]
    exact ⟨_, _, rfl⟩
  rw [if_neg h2]
  by_cases h3 : s.g_maskRestored = true
  · rw [if_pos h3]
    exact ⟨_, _, rfl⟩
  rw [if_neg h3]
  cases timerOk with
  | true => exact ⟨true, true, rfl⟩
  | false => exact ⟨false, false, rfl⟩

theorem TryExpandVRArray_form (pick : Nat) (s : State) :
    ∃ m1 d b, TryExpandVRArray pick s
      = { s with mem := m1, s_dumpOnce := d, g_vrExpanded := b } := by
  unfold TryExpandVRArray
  repeat' first | split | simp only
  all_goals exact ⟨_, _, _, rfl⟩

theorem TryRestoreMaskRotation_null (s : State)
    (h : s.mem.read64 (addr64 s.base ShadowSceneNodePtr) = none ∨
      s.mem.read64 (addr64 s.base ShadowSceneNodePtr) = some 0) :
    TryRestoreMaskRotation s = s := by
  have hp : restoreProbe s = (false, s) := by
    obtain ⟨a, ha⟩ : ∃ x, x = addr64 s.base ShadowSceneNodePtr := ⟨_, rfl⟩
    unfold restoreProbe
    rw [← ha] at h ⊢
    rcases h with h | h
    · rw [h]
    · rw [h]
      rfl
  unfold TryRestoreMaskRotation
  rw [hp]
  simp only
  repeat' split
  all_goals rfl

/-! ### When the expansion goes through -/

theorem writeBytes_ok (bs : List Nat) : ∀ (m : Mem) (a : Nat),
    (∀ k, k < bs.length → m.writable (a + k) = true) →
    ∃ m1, m.writeBytes a bs = (true, m1) := by
  induction bs with
  | nil => intro m a _; exact ⟨m, rfl⟩
  | cons b bs ih =>
    intro m a h
    unfold Mem.writeBytes
    have h0 := h 0 (by simp)
    rw [Nat.add_zero] at h0
    simp only [Mem.write8, h0, if_true]
    apply ih
    intro k hk
    have := h (k + 1) (by simp only [List.length_cons]; omega)
    rw [show a + 1 + k = a + (k + 1) by omega]
    rw [@writable_of_prot m (Mem.setByte m a b) rfl]
    exact this

theorem store_ok (m : Mem) (a n v : Nat) (h : ∀ k, k < n → m.writable (a + k) = true) :
    ∃ m1, m.store a n v = some m1 := by
  unfold Mem.store
  obtain ⟨m1, e⟩ := writeBytes_ok (leBytes n v) m a (by rw [leBytes_length]; exact h)
  rw [e]
  exact ⟨m1, rfl⟩

theorem memcpy_ok (n : Nat) : ∀ (m : Mem) (dst src : Nat),
    (∀ k, k < n → m.readable (src + k) = true) →
    (∀ k, k < n → m.writable (dst + k) = true) →
    ∃ m1, m.memcpy dst src n = (true, m1) := by
  induction n with
  | zero => intro m dst src _ _; exact ⟨m, rfl⟩
  | succ n ih =>
    intro m dst src hr hw
    unfold Mem.memcpy
    have r0 := hr 0 (by omega)
    have w0 := hw 0 (by omega)
    rw [Nat.add_zero] at r0 w0
    simp only [Mem.read8, Mem.write8, r0, w0, if_true]
    apply ih
    · intro k hk
      have := hr (k + 1) (by omega)
      rw [show src + 1 + k = src + (k + 1) by omega]
      rw [@readable_of_prot m (Mem.setByte m dst (m.byte src % 256)) rfl]
      exact this
    · intro k hk
      have := hw (k + 1) (by omega)
      rw [show dst + 1 + k = dst + (k + 1) by omega]
      rw [@writable_of_prot m (Mem.setByte m dst (m.byte src % 256)) rfl]
      exact this

theorem memcpy_prot (n : Nat) : ∀ (m : Mem) (dst src : Nat),
    (m.memcpy dst src n).2.prot = m.prot := by
  induction n with
  | zero => intro m dst src; rfl
  | succ n ih =>
    intro m dst src
    unfold Mem.memcpy
    cases h8 : m.read8 src with
    | none => rfl
    | some b =>
      simp only
      cases hw8 : m.write8 dst b with
      | none => rfl
      | some m0 =>
        simp only
        obtain ⟨e0, _⟩ := write8_eq hw8
        rw [ih m0 (dst + 1) (src + 1), e0]
        rfl

theorem resetPools_ok (dst : Nat) (os : List Nat) : ∀ (m : Mem),
    (∀ o, o ∈ os → dst + o + 16 ≤ 18446744073709551616) →
    (∀ o, o ∈ os → ∀ k, k < 16 → m.writable (dst + o + k) = true) →
    ∃ m1, resetPools dst os m = (true, m1) := by
  induction os with
  | nil => intro m _ _; exact ⟨m, rfl⟩
  | cons o rest ih =>
    intro m hb hw
    have hbo := hb o (List.mem_cons_self _ _)
    have hwo := hw o (List.mem_cons_self _ _)
    unfold resetPools
    rw [addr64_of_lt dst o (by omega), addr64_of_lt dst (o + 8) (by omega)]
    obtain ⟨ma, ea⟩ := store_ok m (dst + o) 8 0 (fun k hk => hwo k (by omega))
    have ea2 : m.write64 (dst + o) 0 = some ma := ea
    rw [ea2]
    simp only
    have pa := (store_spec ea).1
    obtain ⟨mb, eb⟩ := store_ok ma (dst + (o + 8)) 8 (dst + o) (fun k hk => by
      rw [writable_of_prot pa, show dst + (o + 8) + k = dst + o + (8 + k) by omega]
      exact hwo (8 + k) (by omega))
    have eb2 : ma.write64 (dst + (o + 8)) (dst + o) = some mb := eb
    rw [eb2]
    simp only
    have pb := (store_spec eb).1
    apply ih mb (fun o2 h2 => hb o2 (List.mem_cons_of_mem _ h2))
    intro o2 h2 k hk
    rw [writable_of_prot (show mb.prot = m.prot by rw [pb, pa])]
    exact hw o2 (List.mem_cons_of_mem _ h2) k hk

theorem templateCopy_ok (m : Mem) (dst src : Nat)
    (hb : dst + VRArrayExpansion.EntrySize ≤ 18446744073709551616)
    (hr : ∀ k, k < VRArrayExpansion.EntrySize → m.readable (src + k) = true)
    (hw : ∀ k, k < VRArrayExpansion.EntrySize → m.writable (dst + k) = true) :
    ∃ m1, templateCopy m dst src = (true, m1) := by
  unfold templateCopy
  simp only [VRArrayExpansion.EntrySize] at hb hr hw
  rw [addr64_of_lt dst 4 (by omega)]
  obtain ⟨ma, ea⟩ := memcpy_ok VRArrayExpansion.EntrySize m dst src hr hw
  have pa : ma.prot = m.prot := by
    have := memcpy_prot VRArrayExpansion.EntrySize m dst src
    rwa [ea] at this
  rw [ea]
  simp only
  obtain ⟨mb, eb⟩ := resetPools_ok dst VRArrayExpansion.PoolOffsets ma
    (fun o ho => by rcases poolOffsets_mem ho with e | e | e | e <;> omega)
    (fun o ho k hk => by
      rw [writable_of_prot pa, Nat.add_assoc]
      apply hw
      rcases poolOffsets_mem ho with e | e | e | e <;> omega)
  rw [eb]
  simp only
  have pb := (resetPools_spec dst _ ma mb eb
    (fun o ho => by rcases poolOffsets_mem ho with e | e | e | e <;> omega)
    poolOffsets_pairwise).1
  obtain ⟨mc, ec⟩ := store_ok mb dst 4 0 (fun k hk => by
    rw [writable_of_prot (show mb.prot = m.prot by rw [pb, pa])]
    exact hw k (by omega))
  have ec2 : mb.write32 dst 0 = some mc := ec
  rw [ec2]
  simp only
  have pc := (store_spec ec).1
  obtain ⟨md, ed⟩ := store_ok mc (dst + 4) 4 0 (fun k hk => by
    rw [writable_of_prot (show mc.prot = m.prot by rw [pc, pb, pa]), Nat.add_assoc]
    exact hw (4 + k) (by omega))
  have ed2 : mc.write32 (dst + 4) 0 = some md := ed
  rw [ed2]
  exact ⟨md, rfl⟩

theorem templateLoop_ok (buf : Nat) (is : List Nat) : ∀ (m : Mem),
    (∀ i, i ∈ is → buf + (i + 1) * VRArrayExpansion.EntrySize ≤ 18446744073709551616) →
    (∀ k, k < VRArrayExpansion.EntrySize → m.readable (buf + k) = true) →
    (∀ i, i ∈ is → ∀ k, k < VRArrayExpansion.EntrySize →
      m.writable (buf + i * VRArrayExpansion.EntrySize + k) = true) →
    ∃ m1, templateLoop buf buf is m = (true, m1) := by
  induction is with
  | nil => intro m _ _ _; exact ⟨m, rfl⟩
  | cons i rest ih =>
    intro m hb hr hw
    have hbi := hb i (List.mem_cons_self _ _)
    unfold templateLoop
    simp only [VRArrayExpansion.EntrySize] at hbi
    rw [addr64_of_lt buf (i * VRArrayExpansion.EntrySize)
      (by simp only [VRArrayExpansion.EntrySize]; omega)]
    obtain ⟨ma, ea⟩ := templateCopy_ok m (buf + i * VRArrayExpansion.EntrySize) buf
      (by simp only [VRArrayExpansion.EntrySize]; omega) hr
      (hw i (List.mem_cons_self _ _))
    rw [ea]
    simp only
    have pa := (templateCopy_spec m ma _ buf ea
      (by simp only [VRArrayExpansion.EntrySize]; omega)
      (by simp only [VRArrayExpansion.EntrySize]; omega)).1
    apply ih ma (fun j hj => hb j (List.mem_cons_of_mem _ hj))
    · intro k hk
      rw [readable_of_prot pa]
      exact hr k hk
    · intro j hj k hk
      rw [writable_of_prot pa]
      exact hw j (List.mem_cons_of_mem _ hj) k hk

theorem VirtualAllocAny_access (m : Mem) (pick size : Nat)
    (hv : pick ≠ 0 ∧ pick + size ≤ 18446744073709551616 ∧ m.free pick = true) :
    (∀ a, m.readable a = true → (VirtualAllocAny m pick size).2.readable a = true) ∧
    (∀ a, m.writable a = true → (VirtualAllocAny m pick size).2.writable a = true) ∧
    (∀ k, k < size → (VirtualAllocAny m pick size).2.readable (pick + k) = true) ∧
    (∀ k, k < size → (VirtualAllocAny m pick size).2.writable (pick + k) = true) := by
  obtain ⟨_, v2, _⟩ := VirtualAllocAny_ok m pick size hv
  unfold Mem.readable Mem.writable
  rw [v2]
  simp only [Bool.and_eq_true, decide_eq_true_eq]
  refine ⟨?_, ?_, ?_, ?_⟩
  · intro a ha
    refine ⟨?_, ha.2⟩
    by_cases hin : pick / 4096 ≤ a / 4096 ∧ a / 4096 ≤ (pick + size - 1) / 4096
    · rw [if_pos hin]; rfl
    · rw [if_neg hin]; exact ha.1
  · intro a ha
    refine ⟨?_, ha.2⟩
    by_cases hin : pick / 4096 ≤ a / 4096 ∧ a / 4096 ≤ (pick + size - 1) / 4096
    · rw [if_pos hin]; rfl
    · rw [if_neg hin]; exact ha.1
  · intro k hk
    refine ⟨?_, by omega⟩
    rw [if_pos (by omega)]; rfl
  · intro k hk
    refine ⟨?_, by omega⟩
    rw [if_pos (by omega)]; rfl

/-- The reallocation path of `TryExpandVRArray` goes through when the OS grants
the new buffer, the old entries can be read and the two header fields can be
written. -/
theorem TryExpandVRArray_realloc_ok (pick : Nat) (s : State) (buf capacity count : Nat)
    (h0 : s.g_vrExpanded = false)
    (hbuf : s.mem.read64 (addr64 s.base VRArrayExpansion.ArrayPtr) = some buf)
    (hcap : s.mem.read32 (addr64 s.base (VRArrayExpansion.ArrayPtr + 8)) = some capacity)
    (hcnt : s.mem.read32 (addr64 s.base VRArrayExpansion.ArrayCount) = some count)
    (hnz : buf ≠ 0) (hlt : capacity < 4)
    (hv : pick ≠ 0 ∧ pick + 4 * VRArrayExpansion.EntrySize ≤ 18446744073709551616 ∧
      s.mem.free pick = true)
    (hrd : ∀ k, k < capacity * VRArrayExpansion.EntrySize → s.mem.readable (buf + k) = true)
    (hwP : ∀ k, k < 8 →
      s.mem.writable (addr64 s.base VRArrayExpansion.ArrayPtr + k) = true)
    (hwC : ∀ k, k < 4 →
      s.mem.writable (addr64 s.base VRArrayExpansion.ArrayCount + k) = true) :
    (TryExpandVRArray pick s).g_vrExpanded = true := by
  have hcap4 : ¬ capacity ≥ VRArrayExpansion.TargetCount := Nat.not_le_of_lt hlt
  obtain ⟨a1, a2, a3, a4⟩ := VirtualAllocAny_access s.mem pick _ hv
  have hblk := (VirtualAllocAny_ok s.mem pick _ hv).1
  unfold TryExpandVRArray
  simp only [h0, hbuf, hcap, hcnt, Bool.false_eq_true, if_false]
  rw [if_neg hnz, if_neg hcap4]
  generalize addr64 s.base VRArrayExpansion.ArrayPtr = P at *
  generalize addr64 s.base VRArrayExpansion.ArrayCount = C at *
  simp only [VRArrayExpansion.TargetCount]
  cases hA : VirtualAllocAny s.mem pick (4 * VRArrayExpansion.EntrySize) with
  | mk blk m1 =>
    rw [hA] at hblk a1 a2 a3 a4
    simp only at hblk a1 a2 a3 a4
    cases blk with
    | zero => exact absurd hblk.symm hv.1
    | succ nb =>
      simp only
      rw [hblk]
      simp only [VRArrayExpansion.EntrySize] at *
      obtain ⟨m2, e2⟩ := memcpy_ok (capacity * 384) m1 pick buf
        (fun k hk => a1 _ (hrd k hk)) (fun k hk => a4 k (by omega))
      rw [e2]
      simp only
      have p2 : m2.prot = m1.prot := by
        have := memcpy_prot (capacity * 384) m1 pick buf
        rwa [e2] at this
      have hfits : ∀ i, i ∈ List.range' capacity (4 - capacity) →
          pick + (i + 1) * VRArrayExpansion.EntrySize ≤ 18446744073709551616 := by
        intro i hi
        rw [List.mem_range'_1] at hi
        simp only [VRArrayExpansion.EntrySize]
        omega
      obtain ⟨m3, e3⟩ := templateLoop_ok pick (List.range' capacity (4 - capacity)) m2 hfits
        (by
          intro k hk
          simp only [VRArrayExpansion.EntrySize] at hk
          rw [readable_of_prot p2]
          exact a3 k (by omega))
        (by
          intro i hi k hk
          rw [List.mem_range'_1] at hi
          simp only [VRArrayExpansion.EntrySize] at hk ⊢
          rw [writable_of_prot p2, Nat.add_assoc]
          exact a4 _ (by omega))
      rw [e3]
      simp only
      have p3 := (templateLoop_spec pick _ m2 m3 e3 hfits (List.nodup_range' _ _)).1
      obtain ⟨m4, e4⟩ := store_ok m3 P 8 pick (fun k hk => by
        rw [writable_of_prot (show m3.prot = m1.prot by rw [p3, p2])]
        exact a2 _ (hwP k hk))
      have e4b : m3.write64 P pick = some m4 := e4
      rw [e4b]
      simp only
      have p4 := (store_spec e4).1
      obtain ⟨m5, e5⟩ := store_ok m4 C 4 4 (fun k hk => by
        rw [writable_of_prot (show m4.prot = m1.prot by rw [p4, p3, p2])]
        exact a2 _ (hwC k hk))
      have e5b : m4.write32 C 4 = some m5 := e5
      rw [e5b]

/-! ### The first pass of `EnsureInitialized` -/

theorem addr64_image (base off : Nat) (h : base + 0x7000000 ≤ 18446744073709551616)
    (ho : off < 0x7000000) : addr64 base off = base + off :=
  addr64_of_lt base off (by omega)

theorem wrap64_image (base off : Nat) (h : base + 0x7000000 ≤ 18446744073709551616)
    (ho : off < 0x7000000) : wrap64 ((base : Int) + off) = base + off :=
  wrap64_add base off (by omega)

/-- The stages of `EnsureInitialized` that come before the array expansion, run
from a state with no stage flag set over an image whose sentinel byte is 0x48:
they set TextDecrypted, CountPatched, SafeModePatched and ShaderCtorPatched and
store only between `base + 0x2000000` and `base + 0x4000000`. -/
theorem first_stages_form (scaled : Nat) (s : State)
    (himg : s.base + 0x7000000 ≤ 18446744073709551616)
    (htd : s.g_textDecrypted = false) (hcr : s.g_countReadsPatched = false)
    (hms : s.g_maskSafe = false) (hsp : s.g_shaderPatched = false)
    (hsent : s.mem.read8 (addr64 s.base TextSentinel) = some 0x48) :
    ∃ m7 b1 b6 b7,
      writeShadowDistance scaled (PatchStereoDispatch (PatchShaderCtor (ApplyMaskSafeMode
        (PatchCountReadSites (CheckTextDecrypted
          (ForceCascadeCount4 { s with g_logInitialized := true })).2))))
        = { s with g_logInitialized := true, mem := m7, g_countForced := b1,
                   g_textDecrypted := true, g_countReadsPatched := true, g_maskSafe := true,
                   g_shaderPatched := true, g_stereoFixPatched := b6,
                   g_shadowDistPatched := b7 } ∧
      Mem.SameOutside (s.base + 0x2000000) (s.base + 0x4000000) s.mem m7 := by
  obtain ⟨m1, b1, e1, f1⟩ := ForceCascadeCount4_form { s with g_logInitialized := true }
  rw [e1]
  simp only at f1
  rw [addr64_image s.base CountGlobal himg (by decide)] at f1
  have hs1 : m1.read8 (addr64 s.base TextSentinel) = some 0x48 := by
    rw [← hsent]
    rw [addr64_image s.base TextSentinel himg (by decide)]
    obtain ⟨b, r, _⟩ := sameOutside_far f1 (s.base + TextSentinel)
      (by simp only [TextSentinel, CountGlobal]; omega)
    unfold Mem.read8
    rw [b, r]
  have e2 := CheckTextDecrypted_form
    { s with g_logInitialized := true, mem := m1, g_countForced := b1 } htd hs1
  rw [e2]
  have g1 := sameOutside_mono f1
    (show s.base + 0x2000000 ≤ s.base + CountGlobal by simp only [CountGlobal]; omega)
    (show s.base + CountGlobal + 4 ≤ s.base + 0x4000000 by simp only [CountGlobal]; omega)
  obtain ⟨m3, e3, f3⟩ := PatchCountReadSites_form
    { s with g_logInitialized := true, mem := m1, g_countForced := b1,
             g_textDecrypted := true } hcr rfl (s.base + 0x2000000) (s.base + 0x4000000)
    (by
      intro i hi
      simp only [CountReadPatch.AllSites, List.mem_cons, List.mem_singleton,
        List.not_mem_nil, or_false] at hi
      rcases hi with e | e | e | e <;> subst e
      · rw [wrap64_image s.base CtorRead himg (by decide)]
        simp only [CtorRead]; omega
      · rw [wrap64_image s.base CountReadPatch.SetupRead himg (by decide)]
        simp only [CountReadPatch.SetupRead]; omega
      · rw [wrap64_image s.base CountReadPatch.RenderRead1 himg (by decide)]
        simp only [CountReadPatch.RenderRead1]; omega
      · rw [wrap64_image s.base CountReadPatch.RenderRead2 himg (by decide)]
        simp only [CountReadPatch.RenderRead2]; omega)
    (by
      show _ ≤ addr64 s.base CountReadPatch.SetupCmpImm ∧ _
      rw [addr64_image s.base CountReadPatch.SetupCmpImm himg (by decide)]
      simp only [CountReadPatch.SetupCmpImm]; omega)
  rw [e3]
  obtain ⟨m4, e4, f4⟩ := ApplyMaskSafeMode_form
    { s with g_logInitialized := true, mem := m3, g_countForced := b1,
             g_textDecrypted := true, g_countReadsPatched := true } hms rfl
    (s.base + 0x2000000) (s.base + 0x4000000)
    (by
      intro p hp
      show _ ≤ addr64 s.base p.1 ∧ addr64 s.base p.1 + 1 ≤ _
      simp only [maskSafePatches, List.mem_cons, List.mem_singleton, List.not_mem_nil,
        or_false] at hp
      rcases hp with e | e | e | e <;> subst e
      · rw [addr64_image s.base MaskWriterPatch.InitMask_Byte himg (by decide)]
        simp only [MaskWriterPatch.InitMask_Byte]; omega
      · rw [addr64_image s.base MaskWriterPatch.FallbackMask_Byte himg (by decide)]
        simp only [MaskWriterPatch.FallbackMask_Byte]; omega
      · rw [addr64_image s.base MaskWriterPatch.ArrayEntry1_Byte himg (by decide)]
        simp only [MaskWriterPatch.ArrayEntry1_Byte]; omega
      · rw [addr64_image s.base MaskWriterPatch.ArrayEntry3_Byte himg (by decide)]
        simp only [MaskWriterPatch.ArrayEntry3_Byte]; omega)
  rw [e4]
  obtain ⟨m5, e5, f5⟩ := PatchShaderCtor_form
    { s with g_logInitialized := true, mem := m4, g_countForced := b1,
             g_textDecrypted := true, g_countReadsPatched := true, g_maskSafe := true }
    hsp rfl (s.base + 0x2000000) (s.base + 0x4000000)
    (by
      intro p hp
      show _ ≤ addr64 s.base p.1 ∧ addr64 s.base p.1 + 1 ≤ _
      simp only [shaderCtorPatches, List.mem_cons, List.mem_singleton, List.not_mem_nil,
        or_false] at hp
      rcases hp with e | e <;> subst e
      · rw [addr64_image s.base ShaderCtorPatch.ArrayCap_Byte himg (by decide)]
        simp only [ShaderCtorPatch.ArrayCap_Byte]; omega
      · rw [addr64_image s.base ShaderCtorPatch.StoredCount_Byte himg (by decide)]
        simp only [ShaderCtorPatch.StoredCount_Byte]; omega)
  rw [e5]
  obtain ⟨m6, b6, e6, f6⟩ := PatchStereoDispatch_form
    { s with g_logInitialized := true, mem := m5, g_countForced := b1,
             g_textDecrypted := true, g_countReadsPatched := true, g_maskSafe := true,
             g_shaderPatched := true }
  rw [e6]
  simp only at f6
  rw [addr64_image s.base StereoDispatchFix.JzInstrRVA himg (by decide)] at f6
  have g6 := sameOutside_mono f6
    (show s.base + 0x2000000 ≤ s.base + StereoDispatchFix.JzInstrRVA by
      simp only [StereoDispatchFix.JzInstrRVA]; omega)
    (show s.base + StereoDispatchFix.JzInstrRVA + 1 ≤ s.base + 0x4000000 by
      simp only [StereoDispatchFix.JzInstrRVA]; omega)
  obtain ⟨m7, b7, e7, f7⟩ := writeShadowDistance_form scaled
    { s with g_logInitialized := true, mem := m6, g_countForced := b1,
             g_textDecrypted := true, g_countReadsPatched := true, g_maskSafe := true,
             g_shaderPatched := true, g_stereoFixPatched := b6 }
  rw [e7]
  simp only at f7
  rw [addr64_image s.base ShadowDist2Cascade himg (by decide)] at f7
  have g7 := sameOutside_mono f7
    (show s.base + 0x2000000 ≤ s.base + ShadowDist2Cascade by
      simp only [ShadowDist2Cascade]; omega)
    (show s.base + ShadowDist2Cascade + 4 ≤ s.base + 0x4000000 by
      simp only [ShadowDist2Cascade]; omega)
  exact ⟨m7, b1, b6, b7, rfl,
    sameOutside_chain (sameOutside_chain (sameOutside_chain (sameOutside_chain
      (sameOutside_chain g1 f3) f4) f5) g6) g7⟩

/-- C23: from a state with no stage flag set, over an image whose sentinel byte
is 0x48 and whose array header reports a non-null buffer with capacity 2 and
count 2, with a null scene-node pointer, one call of `EnsureInitialized` ends
with CountPatched, SafeModePatched, ShaderCtorPatched and ArrayExpanded set,
the header count equal to 4 and MaskRestored unset.  The environment: the image
lies in the address space, the header can be written, the old entries can be
read and lie outside the image, and the OS grants a new buffer outside the
image and the old entries. -/
theorem EnsureInitialized_first_pass (o : Oracle) (s : State) (buf : Nat)
    (himg : s.base + 0x7000000 ≤ 18446744073709551616)
    (hts : s.g_timerStarted = false)
    (htd : s.g_textDecrypted = false) (hcr : s.g_countReadsPatched = false)
    (hms : s.g_maskSafe = false) (hsp : s.g_shaderPatched = false)
    (hve : s.g_vrExpanded = false) (hmr : s.g_maskRestored = false)
    (hsent : s.mem.read8 (addr64 s.base TextSentinel) = some 0x48)
    (hbuf : s.mem.read64 (addr64 s.base VRArrayExpansion.ArrayPtr) = some buf)
    (hnz : buf ≠ 0)
    (hcap : s.mem.read32 (addr64 s.base (VRArrayExpansion.ArrayPtr + 8)) = some 2)
    (hcnt : s.mem.read32 (addr64 s.base VRArrayExpansion.ArrayCount) = some 2)
    (hscene : s.mem.read64 (addr64 s.base ShadowSceneNodePtr) = some 0)
    (hwP : ∀ k, k < 8 →
      s.mem.writable (addr64 s.base VRArrayExpansion.ArrayPtr + k) = true)
    (hwC : ∀ k, k < 4 →
      s.mem.writable (addr64 s.base VRArrayExpansion.ArrayCount + k) = true)
    (hrd : ∀ k, k < 2 * VRArrayExpansion.EntrySize → s.mem.readable (buf + k) = true)
    (hheap : buf + 2 * VRArrayExpansion.EntrySize + 4096 ≤ s.base ∨
      s.base + 0x7000000 ≤ buf)
    (hv : o.pick ≠ 0 ∧ o.pick + 4 * VRArrayExpansion.EntrySize ≤ 18446744073709551616 ∧
      s.mem.free o.pick = true)
    (hnew : o.pick + 4 * VRArrayExpansion.EntrySize ≤ s.base ∨ s.base + 0x7000000 ≤ o.pick)
    (hold : buf + 2 * VRArrayExpansion.EntrySize ≤ o.pick ∨
      o.pick + 4 * VRArrayExpansion.EntrySize ≤ buf) :
    (EnsureInitialized o s).g_countReadsPatched = true ∧
    (EnsureInitialized o s).g_maskSafe = true ∧
    (EnsureInitialized o s).g_shaderPatched = true ∧
    (EnsureInitialized o s).g_vrExpanded = true ∧
    (EnsureInitialized o s).mem.read32 (addr64 s.base VRArrayExpansion.ArrayCount) = some 4 ∧
    (EnsureInitialized o s).g_maskRestored = false := by
  obtain ⟨m7, b1, b6, b7, e7, f7⟩ := first_stages_form o.scaled s himg htd hcr hms hsp hsent
  unfold EnsureInitialized
  rw [if_neg (by rw [hts]; simp), e7]
  have aP := addr64_image s.base VRArrayExpansion.ArrayPtr himg (by decide)
  have aK := addr64_image s.base (VRArrayExpansion.ArrayPtr + 8) himg (by decide)
  have aC := addr64_image s.base VRArrayExpansion.ArrayCount himg (by decide)
  have aS := addr64_image s.base ShadowSceneNodePtr himg (by decide)
  obtain ⟨S7, hS7⟩ : ∃ x : State, x =
      { s with g_logInitialized := true, mem := m7, g_countForced := b1,
               g_textDecrypted := true, g_countReadsPatched := true, g_maskSafe := true,
               g_shaderPatched := true, g_stereoFixPatched := b6,
               g_shadowDistPatched := b7 } := ⟨_, rfl⟩
  rw [← hS7]
  have s7base : S7.base = s.base := by rw [hS7]
  have s7mem : S7.mem = m7 := by rw [hS7]
  have hbuf7 : S7.mem.read64 (addr64 S7.base VRArrayExpansion.ArrayPtr) = some buf := by
    rw [s7base, s7mem, ← hbuf, aP]
    exact (load_far f7 _ 8 (by simp only [VRArrayExpansion.ArrayPtr]; omega)).1
  have hcap7 : S7.mem.read32 (addr64 S7.base (VRArrayExpansion.ArrayPtr + 8)) = some 2 := by
    rw [s7base, s7mem, ← hcap, aK]
    exact read32_far f7 _ (by simp only [VRArrayExpansion.ArrayPtr]; omega)
  have hcnt7 : S7.mem.read32 (addr64 S7.base VRArrayExpansion.ArrayCount) = some 2 := by
    rw [s7base, s7mem, ← hcnt, aC]
    exact read32_far f7 _ (by simp only [VRArrayExpansion.ArrayCount]; omega)
  have hve7 : S7.g_vrExpanded = false := by rw [hS7]; exact hve
  have hfree7 : S7.mem.free o.pick = true := by rw [s7mem, f7.1]; exact hv.2.2
  simp only [VRArrayExpansion.EntrySize] at hrd hheap hv hnew hold
  have hok : (TryExpandVRArray o.pick S7).g_vrExpanded = true := by
    apply TryExpandVRArray_realloc_ok o.pick S7 buf 2 2 hve7 hbuf7 hcap7 hcnt7 hnz (by omega)
      ⟨hv.1, by simp only [VRArrayExpansion.EntrySize]; exact hv.2.1, hfree7⟩
    · intro k hk
      simp only [VRArrayExpansion.EntrySize] at hk
      rw [s7mem, (sameOutside_far f7 (buf + k) (by omega)).2.1]
      exact hrd k hk
    · intro k hk
      rw [s7base, s7mem, aP,
        (sameOutside_far f7 _ (by simp only [VRArrayExpansion.ArrayPtr]; omega)).2.2, ← aP]
      exact hwP k hk
    · intro k hk
      rw [s7base, s7mem, aC,
        (sameOutside_far f7 _ (by simp only [VRArrayExpansion.ArrayCount]; omega)).2.2, ← aC]
      exact hwC k hk
  obtain ⟨_, r2, r3, r4, _⟩ := TryExpandVRArray_realloc_spec o.pick S7 buf 2 2
    hve7 hbuf7 hcap7 hcnt7 (by omega) hok
    (by simp only [VRArrayExpansion.EntrySize]; omega)
    (by rw [s7base, aP]; simp only [VRArrayExpansion.EntrySize, VRArrayExpansion.ArrayPtr]; omega)
    (by
      rw [s7base, aC]
      simp only [VRArrayExpansion.EntrySize, VRArrayExpansion.ArrayCount]
      omega)
  obtain ⟨m8, d, b, e8⟩ := TryExpandVRArray_form o.pick S7
  rw [e8] at hok r2 r3 r4
  simp only at hok r2 r3 r4
  subst hok
  rw [e8]
  have hnull : m8.read64 (addr64 s.base ShadowSceneNodePtr) = some 0 := by
    have hr0 : ∀ k, k < 8 → s.mem.readable (addr64 s.base ShadowSceneNodePtr + k) = true :=
      load_readable hscene
    rw [aS] at hr0 ⊢
    rw [aS] at hscene
    have e1 : m7.load (s.base + ShadowSceneNodePtr) 8 = s.mem.load (s.base + ShadowSceneNodePtr) 8 :=
      (load_far f7 _ 8 (by simp only [ShadowSceneNodePtr]; omega)).1
    have hr7 : ∀ k, k < 8 → m7.readable (s.base + ShadowSceneNodePtr + k) = true := by
      intro k hk
      rw [(sameOutside_far f7 _ (by simp only [ShadowSceneNodePtr]; omega)).2.1]
      exact hr0 k hk
    have e2 : m8.load (s.base + ShadowSceneNodePtr) 8 = m7.load (s.base + ShadowSceneNodePtr) 8 := by
      apply load_congr_readable m7 m8 _ 8 hr7
      · intro k hk
        apply r3
        rw [s7mem]
        exact hr7 k hk
      · intro k hk
        rw [r4, s7mem]
        · simp only [VRArrayExpansion.EntrySize, ShadowSceneNodePtr]; omega
        · rw [s7base, aP]
          simp only [VRArrayExpansion.ArrayPtr, ShadowSceneNodePtr]; omega
        · rw [s7base, aC]
          simp only [VRArrayExpansion.ArrayCount, ShadowSceneNodePtr]; omega
    show m8.load (s.base + ShadowSceneNodePtr) 8 = some 0
    rw [e2, e1]
    exact hscene
  have e9 := TryRestoreMaskRotation_null
    { S7 with mem := m8, s_dumpOnce := d, g_vrExpanded := true }
    (Or.inr (by rw [s7base]; exact hnull))
  rw [e9]
  rw [ClampMask_safe _ (by rw [hS7])]
  obtain ⟨ta, tb, e11⟩ := StartExpansionTimer_form o.timerOk
    { S7 with mem := m8, s_dumpOnce := d, g_vrExpanded := true }
  rw [e11]
  rw [s7base] at r2
  subst hS7
  exact ⟨rfl, rfl, rfl, rfl, r2, hmr⟩

theorem dataMem_access (f : Nat → Nat) (a : Nat) (h : a < 18446744073709551616) :
    (dataMem f).readable a = true ∧ (dataMem f).writable a = true := by
  unfold Mem.readable Mem.writable dataMem
  simp only [decide_eq_true h, Bool.and_true]
  exact ⟨rfl, rfl⟩

/-- C23, witness: the process `firstPassMem` with the new buffer granted at
0x30000000. -/
theorem EnsureInitialized_first_pass_witness :
    (EnsureInitialized { pick := 0x30000000, timerOk := true, scaled := 0 }
      (initState firstPassMem gameBase)).g_vrExpanded = true ∧
    (EnsureInitialized { pick := 0x30000000, timerOk := true, scaled := 0 }
      (initState firstPassMem gameBase)).mem.read32
        (addr64 gameBase VRArrayExpansion.ArrayCount) = some 4 ∧
    (EnsureInitialized { pick := 0x30000000, timerOk := true, scaled := 0 }
      (initState firstPassMem gameBase)).g_maskRestored = false :=
  have h := EnsureInitialized_first_pass { pick := 0x30000000, timerOk := true, scaled := 0 }
    (initState firstPassMem gameBase) 0x20000000
    (by decide) (by decide) (by decide) (by decide) (by decide) (by decide) (by decide)
    (by decide) (by decide) (by decide) (by decide) (by decide) (by decide) (by decide)
    (fun k hk => (dataMem_access _ _ (by
      have : addr64 gameBase VRArrayExpansion.ArrayPtr = 0x146878b18 := by decide
      show addr64 gameBase VRArrayExpansion.ArrayPtr + k < _
      omega)).2)
    (fun k hk => (dataMem_access _ _ (by
      have : addr64 gameBase VRArrayExpansion.ArrayCount = 0x146878b28 := by decide
      show addr64 gameBase VRArrayExpansion.ArrayCount + k < _
      omega)).2)
    (fun k hk => (dataMem_access _ _ (by
      simp only [VRArrayExpansion.EntrySize] at hk
      omega)).1)
    (by decide) (by decide) (by decide) (by decide)
  ⟨h.2.2.2.1, h.2.2.2.2.1, h.2.2.2.2.2⟩

/-! ### The flags over every run -/

theorem restoreProbe_form (s : State) :
    ∃ m1 b, (restoreProbe s).2 = { s with mem := m1, g_flatDiagLogged := b } := by
  obtain ⟨A, hA⟩ : ∃ f : Nat → Nat → Nat, f = addr64 := ⟨_, rfl⟩
  unfold restoreProbe
  rw [← hA]
  cases s.mem.read64 (A s.base ShadowSceneNodePtr) with
  | none => exact ⟨s.mem, s.g_flatDiagLogged, rfl⟩
  | some sceneNode =>
    simp only
    by_cases h1 : sceneNode = 0
    · rw [if_pos h1]; exact ⟨s.mem, s.g_flatDiagLogged, rfl⟩
    rw [if_neg h1]
    cases s.mem.read64 (A sceneNode CascadeGroupOffset) with
    | none => exact ⟨s.mem, s.g_flatDiagLogged, rfl⟩
    | some cg =>
      simp only
      by_cases h2 : cg = 0
      · rw [if_pos h2]; exact ⟨s.mem, s.g_flatDiagLogged, rfl⟩
      rw [if_neg h2]
      cases s.mem.read32 (A cg FlatCountOffset) with
      | none => exact ⟨s.mem, s.g_flatDiagLogged, rfl⟩
      | some flatCount =>
        simp only
        cases s.mem.read64 (A cg FlatBufferOffset) with
        | none => exact ⟨s.mem, s.g_flatDiagLogged, rfl⟩
        | some flatBuf =>
          simp only
          split
          · exact ⟨s.mem, true, rfl⟩
          split
          · exact ⟨s.mem, true, rfl⟩
          cases allShadowMaps s.mem flatBuf [0, 1, 2, 3] with
          | none => exact ⟨s.mem, true, rfl⟩
          | some ok =>
            cases ok with
            | false => exact ⟨s.mem, true, rfl⟩
            | true =>
              simp only
              split
              · exact ⟨s.mem, true, rfl⟩
              cases s.mem.read8 (A cg CascadeGroupVRFlag) with
              | none => exact ⟨s.mem, true, rfl⟩
              | some vrFlag =>
                simp only
                cases s.mem.read64 (A cg ShaderObjectOffset) with
                | none => exact ⟨s.mem, true, rfl⟩
                | some shaderObj =>
                  simp only
                  split
                  · exact ⟨s.mem, true, rfl⟩
                  cases (if vrFlag = 0 then s.mem.write8 (A cg CascadeGroupVRFlag) 1
                      else some s.mem) with
                  | none => exact ⟨s.mem, true, rfl⟩
                  | some m1 =>
                    simp only
                    split
                    · exact ⟨m1, true, rfl⟩
                    cases m1.read8 (A flatBuf (3 * FlatEntrySize + 0x102)) with
                    | none => exact ⟨m1, true, rfl⟩
                    | some oldVal =>
                      simp only
                      split
                      · cases m1.write8 (A flatBuf (3 * FlatEntrySize + 0x102)) 0 with
                        | none => exact ⟨m1, true, rfl⟩
                        | some m2 => exact ⟨m2, true, rfl⟩
                      · exact ⟨m1, true, rfl⟩

theorem restoreProbe_stage (s : State) : SameStage s (restoreProbe s).2 := by
  obtain ⟨m1, b, e⟩ := restoreProbe_form s
  rw [e]
  exact ⟨rfl, rfl, rfl, rfl, rfl, rfl, rfl, rfl, rfl, rfl⟩

theorem CheckTextDecrypted_advance (s : State) : Advance s (CheckTextDecrypted s).2 := by
  obtain ⟨A, hA⟩ : ∃ f : Nat → Nat → Nat, f = addr64 := ⟨_, rfl⟩
  unfold CheckTextDecrypted
  rw [← hA]
  repeat' first | split | simp only
  all_goals
    refine Advance.of_flags ?_ ?_ ?_ ?_ ?_ ?_ ?_ ?_ ?_ ?_ <;>
      first
        | exact Or.inl rfl
        | exact Or.inr rfl

theorem PatchCountReadSites_advance (s : State) : Advance s (PatchCountReadSites s) := by
  obtain ⟨a, ha⟩ : ∃ x, x = addr64 s.base CountReadPatch.SetupCmpImm := ⟨_, rfl⟩
  obtain ⟨P, hP⟩ : ∃ f : Nat → List Nat → Mem → Nat × Mem, f = patchCountReads := ⟨_, rfl⟩
  unfold PatchCountReadSites
  rw [← ha, ← hP]
  by_cases h0 : s.g_countReadsPatched = true
  · rw [if_pos h0]
    exact Advance.refl s
  rw [if_neg h0]
  by_cases h1 : s.g_textDecrypted = true
  · rw [if_neg (by rw [h1]; simp)]
    refine Advance.of_flags ?_ ?_ ?_ ?_ ?_ ?_ ?_ ?_ ?_ ?_ <;>
      first
        | exact Or.inl rfl
        | exact Or.inr ⟨rfl, h1⟩
  · rw [if_pos (by simpa using h1)]
    exact Advance.refl s

theorem ApplyMaskSafeMode_advance (s : State) : Advance s (ApplyMaskSafeMode s) := by
  obtain ⟨P, hP⟩ : ∃ f : Nat → List (Nat × Nat × Nat) → Mem → Nat × Mem, f = patchBytes :=
    ⟨_, rfl⟩
  unfold ApplyMaskSafeMode
  rw [← hP]
  by_cases h0 : s.g_maskSafe = true
  · rw [if_pos h0]
    exact Advance.refl s
  rw [if_neg h0]
  by_cases h1 : s.g_textDecrypted = true
  · rw [if_neg (by rw [h1]; simp)]
    refine Advance.of_flags ?_ ?_ ?_ ?_ ?_ ?_ ?_ ?_ ?_ ?_ <;>
      first
        | exact Or.inl rfl
        | exact Or.inr ⟨rfl, h1⟩
  · rw [if_pos (by simpa using h1)]
    exact Advance.refl s

theorem PatchShaderCtor_advance (s : State) : Advance s (PatchShaderCtor s) := by
  obtain ⟨P, hP⟩ : ∃ f : Nat → List (Nat × Nat × Nat) → Mem → Nat × Mem, f = patchBytes :=
    ⟨_, rfl⟩
  unfold PatchShaderCtor
  rw [← hP]
  by_cases h0 : s.g_shaderPatched = true
  · rw [if_pos h0]
    exact Advance.refl s
  rw [if_neg h0]
  by_cases h1 : s.g_textDecrypted = true
  · rw [if_neg (by rw [h1]; simp)]
    refine Advance.of_flags ?_ ?_ ?_ ?_ ?_ ?_ ?_ ?_ ?_ ?_ <;>
      first
        | exact Or.inl rfl
        | exact Or.inr ⟨rfl, h1⟩
  · rw [if_pos (by simpa using h1)]
    exact Advance.refl s

theorem PatchNullSafetyCheck_advance (s : State) : Advance s (PatchNullSafetyCheck s) := by
  rcases PatchNullSafetyCheck_cases s with e | ⟨h0, h1, _, e⟩
  · rw [e]; exact Advance.refl s
  · rw [e]
    generalize (installTrampoline _ _ _ _ _).2.2 = b
    cases b with
    | false =>
      refine Advance.of_flags ?_ ?_ ?_ ?_ ?_ ?_ ?_ ?_ ?_ ?_ <;>
        first
          | exact Or.inl rfl
          | exact Or.inl h0.symm
    | true =>
      refine Advance.of_flags ?_ ?_ ?_ ?_ ?_ ?_ ?_ ?_ ?_ ?_ <;>
        first
          | exact Or.inl rfl
          | exact Or.inr ⟨rfl, h1⟩

theorem PatchNodeAllocator_advance (s : State) : Advance s (PatchNodeAllocator s) := by
  rcases PatchNodeAllocator_cases s with e | ⟨h0, h1, _, e⟩
  · rw [e]; exact Advance.refl s
  · rw [e]
    generalize (installTrampoline _ _ _ _ _).2.2 = b
    cases b with
    | false =>
      refine Advance.of_flags ?_ ?_ ?_ ?_ ?_ ?_ ?_ ?_ ?_ ?_ <;>
        first
          | exact Or.inl rfl
          | exact Or.inl h0.symm
    | true =>
      refine Advance.of_flags ?_ ?_ ?_ ?_ ?_ ?_ ?_ ?_ ?_ ?_ <;>
        first
          | exact Or.inl rfl
          | exact Or.inr ⟨rfl, h1⟩

theorem PatchCascadeEntryZeroInit_advance (s : State) :
    Advance s (PatchCascadeEntryZeroInit s) := by
  rcases PatchCascadeEntryZeroInit_cases s with e | ⟨h0, h1, _, e⟩
  · rw [e]; exact Advance.refl s
  · rw [e]
    generalize (installTrampoline _ _ _ _ _).2.2 = b
    cases b with
    | false =>
      refine Advance.of_flags ?_ ?_ ?_ ?_ ?_ ?_ ?_ ?_ ?_ ?_ <;>
        first
          | exact Or.inl rfl
          | exact Or.inl h0.symm
    | true =>
      refine Advance.of_flags ?_ ?_ ?_ ?_ ?_ ?_ ?_ ?_ ?_ ?_ <;>
        first
          | exact Or.inl rfl
          | exact Or.inr ⟨rfl, h1⟩

theorem PatchCascadePtrValidation_advance (s : State) :
    Advance s (PatchCascadePtrValidation s) := by
  rcases PatchCascadePtrValidation_cases s with e | ⟨h0, h1, _, e⟩
  · rw [e]; exact Advance.refl s
  · rw [e]
    generalize (installTrampoline _ _ _ _ _).2.2 = b
    cases b with
    | false =>
      refine Advance.of_flags ?_ ?_ ?_ ?_ ?_ ?_ ?_ ?_ ?_ ?_ <;>
        first
          | exact Or.inl rfl
          | exact Or.inl h0.symm
    | true =>
      refine Advance.of_flags ?_ ?_ ?_ ?_ ?_ ?_ ?_ ?_ ?_ ?_ <;>
        first
          | exact Or.inl rfl
          | exact Or.inr ⟨rfl, h1⟩

theorem applySafetyPatches_advance (s : State) : Advance s (applySafetyPatches s) := by
  unfold applySafetyPatches
  exact Advance.trans (Advance.trans (Advance.trans (PatchCascadeEntryZeroInit_advance s)
    (PatchNodeAllocator_advance _)) (PatchNullSafetyCheck_advance _))
    (PatchCascadePtrValidation_advance _)

/-- Setting MaskRestored keeps the gates when the state it is set in has
SafeModePatched, ArrayExpanded and the four trampoline flags. -/
theorem Advance.restored {s u : State} (h : Advance s u) (m1 : Mem)
    (h3 : u.g_maskSafe = true) (h5 : u.g_vrExpanded = true)
    (h6 : u.g_entryZeroInitPatched = true) (h7 : u.g_nodeAllocPatched = true)
    (h8 : u.g_nullSafePatched = true) (h9 : u.g_ptrValidationPatched = true) :
    Advance s { u with mem := m1, g_maskRestored := true } := by
  obtain ⟨⟨a1, a2, a3, a4, a5, a6, a7, a8, a9, a10⟩, ga⟩ := h
  refine ⟨⟨a1, a2, a3, a4, a5, a6, a7, a8, a9, fun _ => rfl⟩, ?_⟩
  intro g
  obtain ⟨k2, k3, k4, k6, k7, k8, k9, k10⟩ := ga g
  exact ⟨k2, k3, k4, k6, k7, k8, k9, fun _ => ⟨k3 h3, h3, h5, h6, h7, h8, h9⟩⟩

theorem TryRestoreMaskRotation_advance (s : State) : Advance s (TryRestoreMaskRotation s) := by
  obtain ⟨P, hP⟩ : ∃ f : Nat → List (Nat × Nat × Nat) → Mem → Nat × Mem, f = patchBytes :=
    ⟨_, rfl⟩
  unfold TryRestoreMaskRotation
  rw [← hP]
  by_cases h0 : s.g_maskRestored = true
  · rw [if_pos h0]; exact Advance.refl s
  rw [if_neg h0]
  by_cases h5 : s.g_vrExpanded = true
  swap
  · rw [if_pos (by simpa using h5)]; exact Advance.refl s
  rw [if_neg (by rw [h5]; simp)]
  by_cases h3 : s.g_maskSafe = true
  swap
  · rw [if_pos (by simpa using h3)]; exact Advance.refl s
  rw [if_neg (by rw [h3]; simp)]
  have hp := restoreProbe_stage s
  cases hr : restoreProbe s with
  | mk ok s1 =>
    rw [hr] at hp
    simp only at hp
    cases ok with
    | false => exact SameStage.advance hp
    | true =>
      simp only
      have ha : Advance s (applySafetyPatches s1) :=
        Advance.trans (SameStage.advance hp) (applySafetyPatches_advance s1)
      by_cases hf : (!(applySafetyPatches s1).g_entryZeroInitPatched
          || !(applySafetyPatches s1).g_nodeAllocPatched
          || !(applySafetyPatches s1).g_nullSafePatched
          || !(applySafetyPatches s1).g_ptrValidationPatched) = true
      · rw [if_pos hf]
        exact ha
      · rw [if_neg hf]
        simp only [Bool.or_eq_true, Bool.not_eq_true', not_or, Bool.not_eq_false] at hf
        obtain ⟨⟨⟨f6, f7⟩, f8⟩, f9⟩ := hf
        exact Advance.restored ha _ (ha.1.2.2.1 h3) (ha.1.2.2.2.2.1 h5) f6 f7 f8 f9

theorem forceShaderLoop_stage (ns : List Nat) : ∀ (s : State),
    SameStage s (forceShaderLoop ns s).2 := by
  obtain ⟨A, hA⟩ : ∃ f : Nat → Nat → Nat, f = addr64 := ⟨_, rfl⟩
  induction ns with
  | nil => intro s; exact SameStage.same s
  | cons node rest ih =>
    intro s
    unfold forceShaderLoop
    rw [← hA]
    cases s.mem.read64 (A s.base node) with
    | none => exact SameStage.same s
    | some sceneNode =>
      simp only
      by_cases h1 : sceneNode = 0
      · rw [if_pos h1]; exact ih s
      rw [if_neg h1]
      cases s.mem.read64 (A sceneNode CascadeGroupOffset) with
      | none => exact SameStage.same s
      | some cg =>
        simp only
        by_cases h2 : cg = 0
        · rw [if_pos h2]; exact ih s
        rw [if_neg h2]
        cases s.mem.read64 (A cg ShaderObjectOffset) with
        | none => exact SameStage.same s
        | some shader =>
          simp only
          by_cases h3 : shader = 0
          · rw [if_pos h3]; exact ih s
          rw [if_neg h3]
          cases forceField s.mem (A shader 0x1D8) 4 with
          | none => exact SameStage.same s
          | some r1 =>
            obtain ⟨stored, m1⟩ := r1
            simp only
            cases forceField m1 (A shader 0x168) 2 with
            | none => exact ⟨rfl, rfl, rfl, rfl, rfl, rfl, rfl, rfl, rfl, rfl⟩
            | some r2 =>
              obtain ⟨x2, m2⟩ := r2
              simp only
              cases forceField m2 (A shader 0x16A) 2 with
              | none => exact ⟨rfl, rfl, rfl, rfl, rfl, rfl, rfl, rfl, rfl, rfl⟩
              | some r3 =>
                obtain ⟨x3, m3⟩ := r3
                simp only
                exact SameStage.chain (t := { s with mem := m3
                                                     g_shaderFieldsForced :=
                                                       s.g_shaderFieldsForced || stored })
                  ⟨rfl, rfl, rfl, rfl, rfl, rfl, rfl, rfl, rfl, rfl⟩ (ih _)

theorem ForceShaderFields_stage (s : State) : SameStage s (ForceShaderFields s) := by
  unfold ForceShaderFields
  split
  · exact SameStage.same s
  · exact forceShaderLoop_stage _ s

theorem EnsureInitialized_advance (o : Oracle) (s : State) :
    Advance s (EnsureInitialized o s) := by
  unfold EnsureInitialized
  split
  · exact Advance.refl s
  · have h0 : Advance s { s with g_logInitialized := true } :=
      SameStage.advance ⟨rfl, rfl, rfl, rfl, rfl, rfl, rfl, rfl, rfl, rfl⟩
    have h1 := Advance.trans h0
      (SameStage.advance (ForceCascadeCount4_stage { s with g_logInitialized := true }))
    have h2 := Advance.trans h1 (CheckTextDecrypted_advance _)
    have h3 := Advance.trans h2 (PatchCountReadSites_advance _)
    have h4 := Advance.trans h3 (ApplyMaskSafeMode_advance _)
    have h5 := Advance.trans h4 (PatchShaderCtor_advance _)
    have h6 := Advance.trans h5 (SameStage.advance (PatchStereoDispatch_stage _))
    have h7 := Advance.trans h6 (SameStage.advance (writeShadowDistance_stage o.scaled _))
    have h8 := Advance.trans h7 (TryExpandVRArray_advance o.pick _)
    have h9 := Advance.trans h8 (TryRestoreMaskRotation_advance _)
    have h10 := Advance.trans h9 (SameStage.advance (ClampMask_stage _))
    exact Advance.trans h10 (SameStage.advance (StartExpansionTimer_stage o.timerOk _))

theorem ExpansionTimerCallback_advance (o : Oracle) (s : State) :
    Advance s (ExpansionTimerCallback o s) := by
  unfold ExpansionTimerCallback
  simp only
  have h0 : Advance s { s with s_tickCount := incLong s.s_tickCount } :=
    SameStage.advance ⟨rfl, rfl, rfl, rfl, rfl, rfl, rfl, rfl, rfl, rfl⟩
  have h1 := Advance.trans h0 (SameStage.advance (ForceCascadeCount4_stage _))
  have h2 := Advance.trans h1 (SameStage.advance (ForceBothCascadeGroups_stage _))
  have h3 := Advance.trans h2 (SameStage.advance (FixSetupSceneNode_stage _))
  have h4 := Advance.trans h3 (SameStage.advance (ForceShaderFields_stage _))
  split
  · exact Advance.trans (Advance.trans h4 (TryExpandVRArray_advance o.pick _))
      (TryRestoreMaskRotation_advance _)
  · split
    · have h5 := Advance.trans h4 (SameStage.advance (LogExtendedDiagnostics_stage _))
      split
      · exact Advance.trans h5
          (SameStage.advance ⟨rfl, rfl, rfl, rfl, rfl, rfl, rfl, rfl, rfl, rfl⟩)
      · exact h5
    · exact h4

theorem step_advance (s : State) (e : Event) : Advance s (step s e) := by
  cases e with
  | ensure o => exact EnsureInitialized_advance o s
  | tick o => exact ExpansionTimerCallback_advance o s
  | host m => exact SameStage.advance ⟨rfl, rfl, rfl, rfl, rfl, rfl, rfl, rfl, rfl, rfl⟩

theorem run_advance (es : List Event) : ∀ (s : State), Advance s (run s es) := by
  induction es with
  | nil => intro s; exact Advance.refl s
  | cons e rest ih =>
    intro s
    exact Advance.trans (step_advance s e) (ih _)

theorem run_append (es1 es2 : List Event) : ∀ (s : State),
    run s (es1 ++ es2) = run (run s es1) es2 := by
  induction es1 with
  | nil => intro s; rfl
  | cons e rest ih =>
    intro s
    exact ih (step s e)

/-- C14: over every sequence of `EnsureInitialized` calls, timer ticks and
host stores, a stage completion flag that is set at some point of the run is
set at every later point: each flag goes from unset to set at most once and is
never cleared. -/
theorem stage_flags_monotone (s : State) (es1 es2 : List Event) :
    FlagsGrow (run s es1) (run s (es1 ++ es2)) := by
  rw [run_append]
  exact (run_advance es2 _).1

/-- The gates hold in every state reached from the start of the process. -/
theorem run_gated (m : Mem) (base : Nat) (es : List Event) :
    Gated (run (initState m base) es) := by
  apply (run_advance es _).2
  unfold Gated initState decryptedState
  simp

theorem undecrypted_stage_noop (s : State) (h : s.g_textDecrypted = false) :
    PatchCountReadSites s = s ∧ ApplyMaskSafeMode s = s ∧ PatchShaderCtor s = s ∧
    PatchStereoDispatch s = s ∧ PatchCascadeEntryZeroInit s = s ∧ PatchNodeAllocator s = s ∧
    PatchNullSafetyCheck s = s ∧ PatchCascadePtrValidation s = s := by
  have hn : (!s.g_textDecrypted) = true := by rw [h]; rfl
  refine ⟨?_, ?_, ?_, ?_, ?_, ?_, ?_, ?_⟩
  · unfold PatchCountReadSites
    split <;> rfl
  · unfold ApplyMaskSafeMode
    split <;> rfl
  · unfold PatchShaderCtor
    split <;> rfl
  · unfold PatchStereoDispatch
    split <;> rfl
  · unfold PatchCascadeEntryZeroInit
    split <;> rfl
  · unfold PatchNodeAllocator
    split <;> rfl
  · unfold PatchNullSafetyCheck
    split <;> rfl
  · unfold PatchCascadePtrValidation
    split <;> rfl

/-- C16 (as the code has it): in every state reached from the start of the
process, CountPatched, SafeModePatched, ShaderCtorPatched and the four
trampoline flags are set only with TextDecrypted set, and MaskRestored only
with TextDecrypted, SafeModePatched, ArrayExpanded and the four trampoline
flags set; and each stage that patches code leaves the state as it was while
TextDecrypted is unset.  ArrayExpanded has no such gate. -/
theorem text_decrypted_gates (m : Mem) (base : Nat) (es : List Event) :
    Gated (run (initState m base) es) ∧
    ∀ s : State, s.g_textDecrypted = false →
      PatchCountReadSites s = s ∧ ApplyMaskSafeMode s = s ∧ PatchShaderCtor s = s ∧
      PatchStereoDispatch s = s ∧ PatchCascadeEntryZeroInit s = s ∧
      PatchNodeAllocator s = s ∧ PatchNullSafetyCheck s = s ∧
      PatchCascadePtrValidation s = s :=
  ⟨run_gated m base es, undecrypted_stage_noop⟩

/-- C16, witness: the start state of a process whose memory is all zero. -/
theorem text_decrypted_gates_witness :
    PatchCountReadSites (initState (dataMem (fun _ => 0)) gameBase)
      = initState (dataMem (fun _ => 0)) gameBase :=
  ((text_decrypted_gates (dataMem (fun _ => 0)) gameBase []).2
    (initState (dataMem (fun _ => 0)) gameBase) rfl).1

/-- C16, counterexample: in a process whose sentinel byte is 0 (the text is
still encrypted) and whose array header reports a two-entry buffer, one call
of `EnsureInitialized` leaves TextDecrypted unset, sets ArrayExpanded and has
stored the count 4 into the header. -/
theorem array_expanded_without_text_decrypted :
    (initState (arrayMem 0x20000000 2 2 sampleFill) gameBase).mem.read8
      (addr64 gameBase TextSentinel) = some 0 ∧
    (initState (arrayMem 0x20000000 2 2 sampleFill) gameBase).mem.read32
      (addr64 gameBase VRArrayExpansion.ArrayCount) = some 2 ∧
    (run (initState (arrayMem 0x20000000 2 2 sampleFill) gameBase)
      [Event.ensure { pick := 0x30000000, timerOk := true, scaled := 0 }]).g_textDecrypted
      = false ∧
    (run (initState (arrayMem 0x20000000 2 2 sampleFill) gameBase)
      [Event.ensure { pick := 0x30000000, timerOk := true, scaled := 0 }]).g_vrExpanded
      = true ∧
    (run (initState (arrayMem 0x20000000 2 2 sampleFill) gameBase)
      [Event.ensure { pick := 0x30000000, timerOk := true, scaled := 0 }]).mem.read32
      (addr64 gameBase VRArrayExpansion.ArrayCount) = some 4 := by
  decide!

/-! ### The readiness test of `TryRestoreMaskRotation` -/

theorem VirtualAlloc_outcome (m : Mem) (addr size : Nat) :
    ((VirtualAlloc m addr size).1 = 0 ∧ Mem.SameData m (VirtualAlloc m addr size).2) ∨
    ((VirtualAlloc m addr size).1 ≠ 0 ∧
      Mem.Allocated (VirtualAlloc m addr size).1 size m (VirtualAlloc m addr size).2) := by
  unfold VirtualAlloc
  simp only
  split
  · rename_i h
    right
    exact ⟨h.1, h.2.2, h.1, h.2.1, fun _ => rfl, fun _ => rfl, fun _ => rfl, rfl, rfl⟩
  · left
    exact ⟨rfl, rfl, rfl, rfl, rfl, rfl⟩

theorem sameData_allocated {c size : Nat} {m m1 m2 : Mem} (h1 : Mem.SameData m m1)
    (h2 : Mem.Allocated c size m1 m2) : Mem.Allocated c size m m2 := by
  obtain ⟨a1, a2, a3, a4, a5⟩ := h1
  obtain ⟨b1, b2, b3, b4, b5, b6, b7, b8⟩ := h2
  rw [a1] at b4
  rw [a2] at b5
  rw [a3] at b1 b6
  exact ⟨b1, b2, b3, b4, b5, b6, b7.trans a4, b8.trans a5⟩

theorem sameData_chain {m m1 m2 : Mem} (h1 : Mem.SameData m m1) (h2 : Mem.SameData m1 m2) :
    Mem.SameData m m2 := by
  obtain ⟨a1, a2, a3, a4, a5⟩ := h1
  obtain ⟨b1, b2, b3, b4, b5⟩ := h2
  exact ⟨b1.trans a1, b2.trans a2, b3.trans a3, b4.trans a4, b5.trans a5⟩

theorem allocScan_outcome (target size g : Nat) : ∀ (fuel offset : Nat) (m : Mem),
    ((allocScan target size g fuel offset m).1 = 0 ∧
      Mem.SameData m (allocScan target size g fuel offset m).2) ∨
    ((allocScan target size g fuel offset m).1 ≠ 0 ∧
      Mem.Allocated (allocScan target size g fuel offset m).1 size m
        (allocScan target size g fuel offset m).2) := by
  intro fuel
  induction fuel with
  | zero =>
    intro offset m
    left
    exact ⟨rfl, rfl, rfl, rfl, rfl, rfl⟩
  | succ fuel ih =>
    intro offset m
    rw [allocScan_succ]
    by_cases ho : offset < 0x7F000000
    swap
    · rw [if_neg ho]
      left
      exact ⟨rfl, rfl, rfl, rfl, rfl, rfl⟩
    rw [if_pos ho]
    have o1 := VirtualAlloc_outcome m (wrap64 ((target : Int) + offset)) size
    cases h1 : VirtualAlloc m (wrap64 ((target : Int) + offset)) size with
    | mk p1 m1 =>
      rw [h1] at o1
      simp only at o1
      cases p1 with
      | succ q => exact o1
      | zero =>
        simp only
        have d1 : Mem.SameData m m1 := by
          rcases o1 with ⟨_, d⟩ | ⟨n, _⟩
          · exact d
          · exact absurd rfl n
        by_cases ht : target > offset
        · rw [if_pos ht]
          have o2 := VirtualAlloc_outcome m1 (wrap64 ((target : Int) - offset)) size
          cases h2 : VirtualAlloc m1 (wrap64 ((target : Int) - offset)) size with
          | mk p2 m2 =>
            rw [h2] at o2
            simp only at o2
            cases p2 with
            | succ q =>
              simp only
              rcases o2 with ⟨z, _⟩ | ⟨n, a⟩
              · exact absurd z (by simp)
              · exact Or.inr ⟨n, sameData_allocated d1 a⟩
            | zero =>
              simp only
              have d2 : Mem.SameData m1 m2 := by
                rcases o2 with ⟨_, d⟩ | ⟨n, _⟩
                · exact d
                · exact absurd rfl n
              rcases ih (wrap64 ((offset : Int) + g)) m2 with ⟨z, d⟩ | ⟨n, a⟩
              · exact Or.inl ⟨z, sameData_chain (sameData_chain d1 d2) d⟩
              · exact Or.inr ⟨n, sameData_allocated (sameData_chain d1 d2) a⟩
        · rw [if_neg ht]
          rcases ih (wrap64 ((offset : Int) + g)) m1 with ⟨z, d⟩ | ⟨n, a⟩
          · exact Or.inl ⟨z, sameData_chain d1 d⟩
          · exact Or.inr ⟨n, sameData_allocated d1 a⟩

theorem AllocateNearby_outcome (m : Mem) (target size : Nat) :
    ((AllocateNearby m target size).1 = 0 ∧ Mem.SameData m (AllocateNearby m target size).2) ∨
    ((AllocateNearby m target size).1 ≠ 0 ∧
      Mem.Allocated (AllocateNearby m target size).1 size m (AllocateNearby m target size).2) :=
  allocScan_outcome target size m.granularity 0x7F000000 m.granularity m

theorem jmpPatch_length (cave site n : Nat) (hn : 5 ≤ n) : (jmpPatch cave site n).length = n := by
  unfold jmpPatch le32
  simp only [List.length_append, List.length_cons, List.length_nil, List.length_replicate]
  omega

theorem VirtualFree_byte (m : Mem) (block size : Nat) :
    (VirtualFree m block size).byte = m.byte := rfl

/-- Whatever way `installTrampoline` ends, it has stored only to the site and
to a block that was free, and it has made no granule free that was not. -/
theorem installTrampoline_frame (m : Mem) (site n size : Nat) (code : Nat → List Nat)
    (hlen : ∀ c, (code c).length ≤ size) (hn : 5 ≤ n) :
    (∀ x, (x < site ∨ site + n ≤ x) → (∀ a, m.free a = true → x < a ∨ a + size ≤ x) →
      (installTrampoline m site n size code).2.1.byte x = m.byte x) ∧
    (∀ a, (installTrampoline m site n size code).2.1.free a = true → m.free a = true) := by
  unfold installTrampoline
  have o := AllocateNearby_outcome m site size
  cases hA : AllocateNearby m site size with
  | mk c m1 =>
    rw [hA] at o
    simp only at o
    cases c with
    | zero =>
      simp only
      rcases o with ⟨_, d⟩ | ⟨nz, _⟩
      · obtain ⟨d1, _, d3, _, _⟩ := d
        exact ⟨fun x _ _ => by rw [d1], fun a h => by rw [d3] at h; exact h⟩
      · exact absurd rfl nz
    | succ c0 =>
      simp only
      rcases o with ⟨z, _⟩ | ⟨_, al⟩
      · exact absurd z (by simp)
      obtain ⟨a1, a2, a3, a4, a5, a6, a7, a8⟩ := al
      have b1 : ∀ x, (∀ a, m.free a = true → x < a ∨ a + size ≤ x) → m1.byte x = m.byte x := by
        intro x hx
        have := hx _ a1
        rw [a4, if_neg (by omega)]
      have fr1 : ∀ a, m1.free a = true → m.free a = true := by
        intro a h
        rw [a6] at h
        by_cases e : a = c0 + 1
        · rw [if_pos e] at h; exact absurd h (by simp)
        · rw [if_neg e] at h; exact h
      have w2 := writeBytes_outside (code (c0 + 1)) m1 (c0 + 1)
      have f2 := writeBytes_frame (code (c0 + 1)) m1 (c0 + 1)
      have b2 : ∀ x, (∀ a, m.free a = true → x < a ∨ a + size ≤ x) →
          (m1.writeBytes (c0 + 1) (code (c0 + 1))).2.byte x = m.byte x := by
        intro x hx
        have := hx _ a1
        have hl := hlen (c0 + 1)
        rw [w2 x (by omega)]
        exact b1 x hx
      cases hW : m1.writeBytes (c0 + 1) (code (c0 + 1)) with
      | mk ok m2 =>
        rw [hW] at b2 f2
        simp only at b2 f2
        have fr2 : ∀ a, m2.free a = true → m.free a = true := by
          intro a h
          rw [f2.2.2.1] at h
          exact fr1 a h
        cases ok with
        | false => exact ⟨fun x _ hx => b2 x hx, fr2⟩
        | true =>
          simp only
          cases hV : VirtualProtect m2 site n PAGE_EXECUTE_READWRITE with
          | none =>
            simp only
            refine ⟨fun x _ hx => b2 x hx, ?_⟩
            intro a h
            unfold VirtualFree at h
            simp only at h
            by_cases e : a = c0 + 1
            · rw [e]; exact a1
            · rw [if_neg e] at h
              exact fr2 a h
          | some r =>
            obtain ⟨old, m3⟩ := r
            simp only
            have b3 := VirtualProtect_byte hV
            have f3 := (sameOutside_VirtualProtect hV (by omega)).1
            have w4 := writeBytes_outside (jmpPatch (c0 + 1) site n) m3 site
            have f4 := writeBytes_frame (jmpPatch (c0 + 1) site n) m3 site
            rw [jmpPatch_length _ _ _ hn] at w4
            cases hJ : m3.writeBytes site (jmpPatch (c0 + 1) site n) with
            | mk ok2 m4 =>
              rw [hJ] at w4 f4
              simp only at w4 f4
              have b4 : ∀ x, (x < site ∨ site + n ≤ x) →
                  (∀ a, m.free a = true → x < a ∨ a + size ≤ x) → m4.byte x = m.byte x := by
                intro x h1 h2
                rw [w4 x h1, b3]
                exact b2 x h2
              have fr4 : ∀ a, m4.free a = true → m.free a = true := by
                intro a h
                rw [f4.2.2.1, f3] at h
                exact fr2 a h
              cases ok2 with
              | false => exact ⟨b4, fr4⟩
              | true =>
                simp only
                refine ⟨?_, ?_⟩
                · intro x h1 h2
                  rw [restoreProtect_byte]
                  exact b4 x h1 h2
                · intro a h
                  rw [(sameOutside_restoreProtect m4 site n old (by omega)).1] at h
                  exact fr4 a h

/-- What a successful `installTrampoline` leaves: the block it returns was a
free granule, the site holds the jump to the block, every byte outside the
site and the block is as it was, and, when the site lies outside the block,
the block holds the emitted code. -/
theorem installTrampoline_ok (m : Mem) (site n size : Nat) (code : Nat → List Nat)
    (hlen : ∀ c, (code c).length ≤ size) (hn : 5 ≤ n)
    (hok : (installTrampoline m site n size code).2.2 = true) :
    (installTrampoline m site n size code).1 ≠ 0 ∧
    m.free (installTrampoline m site n size code).1 = true ∧
    (∀ k, k < n → (installTrampoline m site n size code).2.1.byte (site + k)
      = (jmpPatch (installTrampoline m site n size code).1 site n).getD k 0 % 256) ∧
    (∀ x, (x < site ∨ site + n ≤ x) →
      (x < (installTrampoline m site n size code).1 ∨
        (installTrampoline m site n size code).1 + size ≤ x) →
      (installTrampoline m site n size code).2.1.byte x = m.byte x) ∧
    ((site + n ≤ (installTrampoline m site n size code).1 ∨
        (installTrampoline m site n size code).1 + size ≤ site) →
      ∀ k, k < (code (installTrampoline m site n size code).1).length →
        (installTrampoline m site n size code).2.1.byte
            ((installTrampoline m site n size code).1 + k)
          = (code (installTrampoline m site n size code).1).getD k 0 % 256) ∧
    (installTrampoline m site n size code).1 = (AllocateNearby m site size).1 := by
  unfold installTrampoline at hok ⊢
  have o := AllocateNearby_outcome m site size
  cases hA : AllocateNearby m site size with
  | mk c m1 =>
    rw [hA] at o hok
    simp only at o
    cases c with
    | zero => simp at hok
    | succ c0 =>
      simp only at hok ⊢
      rcases o with ⟨z, _⟩ | ⟨_, al⟩
      · exact absurd z (by simp)
      obtain ⟨a1, a2, a3, a4, a5, a6, a7, a8⟩ := al
      have w2 := writeBytes_outside (code (c0 + 1)) m1 (c0 + 1)
      have i2 := writeBytes_inside (code (c0 + 1)) m1 (c0 + 1)
      cases hW : m1.writeBytes (c0 + 1) (code (c0 + 1)) with
      | mk ok m2 =>
        rw [hW] at hok w2 i2
        simp only at w2 i2
        cases ok with
        | false => simp at hok
        | true =>
          simp only at hok ⊢
          cases hV : VirtualProtect m2 site n PAGE_EXECUTE_READWRITE with
          | none => rw [hV] at hok; simp at hok
          | some r =>
            obtain ⟨old, m3⟩ := r
            rw [hV] at hok
            simp only at hok ⊢
            have b3 := VirtualProtect_byte hV
            have w4 := writeBytes_outside (jmpPatch (c0 + 1) site n) m3 site
            have i4 := writeBytes_inside (jmpPatch (c0 + 1) site n) m3 site
            rw [jmpPatch_length _ _ _ hn] at w4 i4
            cases hJ : m3.writeBytes site (jmpPatch (c0 + 1) site n) with
            | mk ok2 m4 =>
              rw [hJ] at hok w4 i4
              simp only at w4 i4
              cases ok2 with
              | false => simp at hok
              | true =>
                simp only
                have hl := hlen (c0 + 1)
                refine ⟨by omega, a1, ?_, ?_, ?_, by first | rfl | trivial⟩
                · intro k hk
                  rw [restoreProtect_byte]
                  exact i4 k rfl hk
                · intro x h1 h2
                  rw [restoreProtect_byte, w4 x h1, b3, w2 x (by omega), a4, if_neg (by omega)]
                · intro hd k hk
                  rw [restoreProtect_byte, w4 _ (by omega), b3]
                  exact i2 k rfl hk

theorem installTrampoline_reach (m : Mem) (site n size : Nat) (code : Nat → List Nat)
    (hlen : ∀ c, (code c).length ≤ size) (hn : 5 ≤ n)
    (hg : 0 < m.granularity) (hdvd : m.granularity ∣ 0x7F000000)
    (hno : site + 0x7F000000 ≤ 18446744073709551616)
    (hok : (installTrampoline m site n size code).2.2 = true) :
    -0x7F000000 < ((installTrampoline m site n size code).1 : Int) - site ∧
    ((installTrampoline m site n size code).1 : Int) - site < 0x7F000000 := by
  obtain ⟨h1, _, _, _, _, h6⟩ := installTrampoline_ok m site n size code hlen hn hok
  rw [h6] at h1 ⊢
  have := AllocateNearby_near m site size hg hdvd hno h1
  omega

theorem readBytes_byte {m : Mem} {a n : Nat} {l : List Nat} (h : m.readBytes a n = some l)
    (k : Nat) (hk : k < n) : m.byte (a + k) % 256 = l.getD k 0 := by
  have hr := readBytes_of_readable m n a (readBytes_readable m n a l h)
  rw [h] at hr
  simp only [Option.some.injEq] at hr
  rw [hr, List.getD_eq_getElem _ 0 (by simp; exact hk)]
  simp

theorem nullSafetyCave_relocated (cave ret k : Nat) (hk : k < 7) :
    (nullSafetyCave cave ret).getD (5 + k) 0 = nullSafetyExpected.getD k 0 := by
  unfold nullSafetyCave nullSafetyExpected
  interval_cases k <;> rfl

theorem nodeAllocCave_relocated (cave ret k : Nat) (hk : k < 7) :
    (nodeAllocCave cave ret).getD (13 + k) 0 = expectedPrologue.getD k 0 := by
  unfold nodeAllocCave expectedPrologue
  interval_cases k <;> rfl

theorem zeroInitCave_relocated (cave ret k : Nat) (hk : k < 8) :
    (zeroInitCave cave ret).getD (73 + k) 0 = zeroInitExpected.getD k 0 := by
  unfold zeroInitCave zeroInitExpected
  interval_cases k <;> rfl

theorem cave_jump_opcodes (cave ret : Nat) :
    (nullSafetyCave cave ret).getD 19 0 = 0xE9 ∧ (nullSafetyCave cave ret).getD 26 0 = 0xE9 ∧
    (nodeAllocCave cave ret).getD 20 0 = 0xE9 ∧ (zeroInitCave cave ret).getD 81 0 = 0xE9 := by
  obtain ⟨a, b, c, d, h1⟩ := le32_bytes (rel32 ret (cave + 20 + 4))
  unfold nullSafetyCave nodeAllocCave zeroInitCave nullSafetyExpected zeroInitExpected
  rw [h1]
  exact ⟨rfl, rfl, rfl, rfl⟩

theorem getD_take_of_lt (l : List Nat) (n k : Nat) (hk : k < n) :
    (l.take n).getD k 0 = l.getD k 0 := by
  simp [List.getD_eq_getElem?_getD, List.getElem?_take, hk]

/-- C12: in the null-guard, pool-clear and zero-init stages that go from unset
to set, the block holds the emitted code, the bytes that stood at the site
stand verbatim at offsets 5, 13 and 73 of it, and every E9 jump that ends a
path through the block decodes to the first instruction after the
overwritten span.  The environment: a positive allocation granularity that
divides 0x7F000000, an image that lies in the address space with 4 GiB to
spare, and no free granule whose block overlaps the image. -/
theorem trampoline_block_relocates (s : State)
    (hg : 0 < s.mem.granularity) (hdvd : s.mem.granularity ∣ 0x7F000000)
    (hbase : s.base + 0x100000000 ≤ 18446744073709551616)
    (hfree : ∀ a, s.mem.free a = true → a + 128 ≤ s.base ∨ s.base + 0x7000000 ≤ a) :
    (s.g_nullSafePatched = false → (PatchNullSafetyCheck s).g_nullSafePatched = true →
      Relocated s.mem (PatchNullSafetyCheck s).mem
        (s.base + NullSafetyPatch.CrashInstrRVA) 7 (PatchNullSafetyCheck s).g_codeCave
        (nullSafetyCave (PatchNullSafetyCheck s).g_codeCave
          (s.base + NullSafetyPatch.CrashInstrRVA + 7)) 5 [20, 27]) ∧
    (s.g_nodeAllocPatched = false → (PatchNodeAllocator s).g_nodeAllocPatched = true →
      Relocated s.mem (PatchNodeAllocator s).mem
        (s.base + NodeAllocPatch.FuncRVA) 7 (PatchNodeAllocator s).g_nodeAllocCave
        (nodeAllocCave (PatchNodeAllocator s).g_nodeAllocCave
          (s.base + NodeAllocPatch.FuncRVA + 7)) 13 [21]) ∧
    (s.g_entryZeroInitPatched = false →
      (PatchCascadeEntryZeroInit s).g_entryZeroInitPatched = true →
      Relocated s.mem (PatchCascadeEntryZeroInit s).mem
        (s.base + CascadeEntryZeroInit.TagWriteRVA) 8
        (PatchCascadeEntryZeroInit s).g_entryZeroInitCave
        (zeroInitCave (PatchCascadeEntryZeroInit s).g_entryZeroInitCave
          (s.base + CascadeEntryZeroInit.TagWriteRVA + 8)) 73 [82]) := by
  have w1 : wrap64 ((s.base : Int) + NullSafetyPatch.CrashInstrRVA)
      = s.base + NullSafetyPatch.CrashInstrRVA :=
    wrap64_add _ _ (by simp only [NullSafetyPatch.CrashInstrRVA]; omega)
  have w1r : wrap64 (((s.base + NullSafetyPatch.CrashInstrRVA : Nat) : Int)
      + NullSafetyPatch.InstrSize) = s.base + NullSafetyPatch.CrashInstrRVA + 7 :=
    wrap64_add _ _ (by simp only [NullSafetyPatch.CrashInstrRVA, NullSafetyPatch.InstrSize]; omega)
  have w2 : wrap64 ((s.base : Int) + NodeAllocPatch.FuncRVA) = s.base + NodeAllocPatch.FuncRVA :=
    wrap64_add _ _ (by simp only [NodeAllocPatch.FuncRVA]; omega)
  have w3 : wrap64 ((s.base : Int) + CascadeEntryZeroInit.TagWriteRVA)
      = s.base + CascadeEntryZeroInit.TagWriteRVA :=
    wrap64_add _ _ (by simp only [CascadeEntryZeroInit.TagWriteRVA]; omega)
  have w3r : wrap64 ((s.base : Int) + CascadeEntryZeroInit.ReturnRVA)
      = s.base + CascadeEntryZeroInit.TagWriteRVA + 8 := by
    rw [wrap64_add _ _ (by simp only [CascadeEntryZeroInit.ReturnRVA]; omega)]
    simp only [CascadeEntryZeroInit.ReturnRVA, CascadeEntryZeroInit.TagWriteRVA]
  refine ⟨?_, ?_, ?_⟩
  · intro h0 h1
    rcases PatchNullSafetyCheck_cases s with e | ⟨_, _, hread, e⟩
    · rw [e, h0] at h1; exact absurd h1 (by simp)
    rw [e] at h1 ⊢
    rw [w1] at hread h1 ⊢
    rw [w1r] at h1 ⊢
    simp only [NullSafetyPatch.InstrSize] at hread h1 ⊢
    have hl : ∀ c, (nullSafetyCave c (s.base + NullSafetyPatch.CrashInstrRVA + 7)).length ≤ 64 :=
      fun c => by rw [(nullSafetyCave_layout c _).2.2]; omega
    obtain ⟨_, k2, _, _, k5, _⟩ := installTrampoline_ok _ _ _ _ _ hl (by decide) h1
    obtain ⟨r1, r2⟩ := installTrampoline_reach _ _ _ _ _ hl (by decide) hg hdvd
      (by simp only [NullSafetyPatch.CrashInstrRVA]; omega) h1
    have hf := hfree _ k2
    generalize (installTrampoline s.mem (s.base + NullSafetyPatch.CrashInstrRVA) 7 64
      (fun c => nullSafetyCave c (s.base + NullSafetyPatch.CrashInstrRVA + 7))) = I at *
    simp only [NullSafetyPatch.CrashInstrRVA] at *
    refine ⟨k5 (by omega), ?_, ?_⟩
    · intro k hk
      rw [readBytes_byte hread k hk, nullSafetyCave_relocated _ _ k hk]
    · intro j hj
      obtain ⟨x1, x2⟩ := nullSafetyCave_exact I.1 (s.base + 42022783 + 7)
        (by push_cast; omega) (by push_cast; omega)
      simp only [List.mem_cons, List.mem_singleton, List.not_mem_nil, or_false] at hj
      rcases hj with e | e <;> subst e
      · exact ⟨(cave_jump_opcodes _ _).1, x1⟩
      · exact ⟨(cave_jump_opcodes _ _).2.1, x2⟩
  · intro h0 h1
    rcases PatchNodeAllocator_cases s with e | ⟨_, _, ⟨logged, hread, htake⟩, e⟩
    · rw [e, h0] at h1; exact absurd h1 (by simp)
    rw [e] at h1 ⊢
    rw [w2] at hread h1 ⊢
    simp only [prologueSize] at htake h1 ⊢
    have hl : ∀ c, (nodeAllocCave c (s.base + NodeAllocPatch.FuncRVA + 7)).length ≤ 64 :=
      fun c => by rw [(nodeAllocCave_layout c _).2.2]; omega
    obtain ⟨_, k2, _, _, k5, _⟩ := installTrampoline_ok _ _ _ _ _ hl (by decide) h1
    obtain ⟨r1, r2⟩ := installTrampoline_reach _ _ _ _ _ hl (by decide) hg hdvd
      (by simp only [NodeAllocPatch.FuncRVA]; omega) h1
    have hf := hfree _ k2
    generalize (installTrampoline s.mem (s.base + NodeAllocPatch.FuncRVA) 7 64
      (fun c => nodeAllocCave c (s.base + NodeAllocPatch.FuncRVA + 7))) = I at *
    simp only [NodeAllocPatch.FuncRVA] at *
    refine ⟨k5 (by omega), ?_, ?_⟩
    · intro k hk
      rw [readBytes_byte hread k (by omega), nodeAllocCave_relocated _ _ k hk, ← htake,
        getD_take_of_lt _ _ _ hk]
    · intro j hj
      have x1 := nodeAllocCave_exact I.1 (s.base + 41477648 + 7)
        (by push_cast; omega) (by push_cast; omega)
      simp only [List.mem_singleton] at hj
      subst hj
      exact ⟨(cave_jump_opcodes _ _).2.2.1, x1⟩
  · intro h0 h1
    rcases PatchCascadeEntryZeroInit_cases s with e | ⟨_, _, hread, e⟩
    · rw [e, h0] at h1; exact absurd h1 (by simp)
    rw [e] at h1 ⊢
    rw [w3] at hread h1 ⊢
    rw [w3r] at h1 ⊢
    simp only [CascadeEntryZeroInit.InstrSize] at hread h1 ⊢
    have hl : ∀ c, (zeroInitCave c (s.base + CascadeEntryZeroInit.TagWriteRVA + 8)).length
        ≤ 128 :=
      fun c => by rw [(zeroInitCave_layout c _).2.2]; omega
    obtain ⟨_, k2, _, _, k5, _⟩ := installTrampoline_ok _ _ _ _ _ hl (by decide) h1
    obtain ⟨r1, r2⟩ := installTrampoline_reach _ _ _ _ _ hl (by decide) hg hdvd
      (by simp only [CascadeEntryZeroInit.TagWriteRVA]; omega) h1
    have hf := hfree _ k2
    generalize (installTrampoline s.mem (s.base + CascadeEntryZeroInit.TagWriteRVA) 8 128
      (fun c => zeroInitCave c (s.base + CascadeEntryZeroInit.TagWriteRVA + 8))) = I at *
    simp only [CascadeEntryZeroInit.TagWriteRVA] at *
    refine ⟨k5 (by omega), ?_, ?_⟩
    · intro k hk
      rw [readBytes_byte hread k hk, zeroInitCave_relocated _ _ k hk]
    · intro j hj
      have x1 := zeroInitCave_exact I.1 (s.base + 41570976 + 8)
        (by push_cast; omega) (by push_cast; omega)
      simp only [List.mem_singleton] at hj
      subst hj
      exact ⟨(cave_jump_opcodes _ _).2.2.2, x1⟩

/-- C12, witness: a decrypted image that holds `mov rbp, [r10+0x180]` at the
null-guard site, with free memory above the image. -/
theorem trampoline_block_relocates_witness :
    Relocated (decryptedState (hostedMem 0x14281377F nullSafetyExpected) gameBase).mem
      (PatchNullSafetyCheck
        (decryptedState (hostedMem 0x14281377F nullSafetyExpected) gameBase)).mem
      ((decryptedState (hostedMem 0x14281377F nullSafetyExpected) gameBase).base
        + NullSafetyPatch.CrashInstrRVA) 7
      (PatchNullSafetyCheck
        (decryptedState (hostedMem 0x14281377F nullSafetyExpected) gameBase)).g_codeCave
      (nullSafetyCave
        (PatchNullSafetyCheck
          (decryptedState (hostedMem 0x14281377F nullSafetyExpected) gameBase)).g_codeCave
        ((decryptedState (hostedMem 0x14281377F nullSafetyExpected) gameBase).base
          + NullSafetyPatch.CrashInstrRVA + 7)) 5 [20, 27] :=
  (trampoline_block_relocates
    (decryptedState (hostedMem 0x14281377F nullSafetyExpected) gameBase)
    (by decide) (by decide) (by decide)
    (fun a h => Or.inr (of_decide_eq_true h))).1 (by decide) (by decide!)

/-! ### The mask literals while a trampoline is missing -/

theorem installTrampoline_keeps (m m1 : Mem) (site n size : Nat) (code : Nat → List Nat)
    (hm : m1 = m ∨ m1 = (installTrampoline m site n size code).2.1)
    (hlen : ∀ c, (code c).length ≤ size) (hn : 5 ≤ n) (hs : size ≤ 128) (x : Nat)
    (hx : x < site ∨ site + n ≤ x)
    (hf : ∀ a, m.free a = true → x < a ∨ a + 128 ≤ x) :
    m1.byte x = m.byte x ∧ (∀ a, m1.free a = true → x < a ∨ a + 128 ≤ x) := by
  rcases hm with e | e
  · rw [e]
    exact ⟨rfl, hf⟩
  · obtain ⟨f1, f2⟩ := installTrampoline_frame m site n size code hlen hn
    rw [e]
    refine ⟨f1 x hx (fun a ha => ?_), fun a ha => hf a (f2 a ha)⟩
    have := hf a ha
    omega

theorem PatchCascadeEntryZeroInit_keeps (s : State) (x : Nat)
    (hx : x < wrap64 ((s.base : Int) + CascadeEntryZeroInit.TagWriteRVA) ∨
      wrap64 ((s.base : Int) + CascadeEntryZeroInit.TagWriteRVA) + 8 ≤ x)
    (hf : ∀ a, s.mem.free a = true → x < a ∨ a + 128 ≤ x) :
    (PatchCascadeEntryZeroInit s).base = s.base ∧
    (PatchCascadeEntryZeroInit s).mem.byte x = s.mem.byte x ∧
    (∀ a, (PatchCascadeEntryZeroInit s).mem.free a = true → x < a ∨ a + 128 ≤ x) := by
  rcases PatchCascadeEntryZeroInit_cases s with e | ⟨_, _, _, e⟩
  · rw [e]; exact ⟨rfl, rfl, hf⟩
  · rw [e]
    exact ⟨rfl, installTrampoline_keeps s.mem _ _ _ _ _ (Or.inr rfl)
      (fun c => by rw [(zeroInitCave_layout c _).2.2]; omega) (by decide) (by omega) x hx hf⟩

theorem PatchNodeAllocator_keeps (s : State) (x : Nat)
    (hx : x < wrap64 ((s.base : Int) + NodeAllocPatch.FuncRVA) ∨
      wrap64 ((s.base : Int) + NodeAllocPatch.FuncRVA) + 7 ≤ x)
    (hf : ∀ a, s.mem.free a = true → x < a ∨ a + 128 ≤ x) :
    (PatchNodeAllocator s).base = s.base ∧
    (PatchNodeAllocator s).mem.byte x = s.mem.byte x ∧
    (∀ a, (PatchNodeAllocator s).mem.free a = true → x < a ∨ a + 128 ≤ x) := by
  rcases PatchNodeAllocator_cases s with e | ⟨_, _, _, e⟩
  · rw [e]; exact ⟨rfl, rfl, hf⟩
  · rw [e]
    exact ⟨rfl, installTrampoline_keeps s.mem _ _ _ _ _ (Or.inr rfl)
      (fun c => by rw [(nodeAllocCave_layout c _).2.2]; omega) (by decide) (by omega) x hx hf⟩

theorem PatchNullSafetyCheck_keeps (s : State) (x : Nat)
    (hx : x < wrap64 ((s.base : Int) + NullSafetyPatch.CrashInstrRVA) ∨
      wrap64 ((s.base : Int) + NullSafetyPatch.CrashInstrRVA) + 7 ≤ x)
    (hf : ∀ a, s.mem.free a = true → x < a ∨ a + 128 ≤ x) :
    (PatchNullSafetyCheck s).base = s.base ∧
    (PatchNullSafetyCheck s).mem.byte x = s.mem.byte x ∧
    (∀ a, (PatchNullSafetyCheck s).mem.free a = true → x < a ∨ a + 128 ≤ x) := by
  rcases PatchNullSafetyCheck_cases s with e | ⟨_, _, _, e⟩
  · rw [e]; exact ⟨rfl, rfl, hf⟩
  · rw [e]
    exact ⟨rfl, installTrampoline_keeps s.mem _ _ _ _ _ (Or.inr rfl)
      (fun c => by rw [(nullSafetyCave_layout c _).2.2]; omega) (by decide) (by omega) x hx hf⟩

theorem PatchCascadePtrValidation_keeps (s : State) (x : Nat)
    (hx : x < wrap64 ((s.base : Int) + CascadePtrValidation.TestInstrRVA) ∨
      wrap64 ((s.base : Int) + CascadePtrValidation.TestInstrRVA) + 9 ≤ x)
    (hf : ∀ a, s.mem.free a = true → x < a ∨ a + 128 ≤ x) :
    (PatchCascadePtrValidation s).base = s.base ∧
    (PatchCascadePtrValidation s).mem.byte x = s.mem.byte x ∧
    (∀ a, (PatchCascadePtrValidation s).mem.free a = true → x < a ∨ a + 128 ≤ x) := by
  rcases PatchCascadePtrValidation_cases s with e | ⟨_, _, _, e⟩
  · rw [e]; exact ⟨rfl, rfl, hf⟩
  · rw [e]
    exact ⟨rfl, installTrampoline_keeps s.mem _ _ _ _ _ (Or.inr rfl)
      (fun c => by rw [(ptrValidationCave_layout c _ _).2.2]; omega) (by decide) (by omega)
      x hx hf⟩

/-- The four safety patches store only to their sites and to blocks that were
free. -/
theorem applySafetyPatches_keeps (s : State) (x : Nat)
    (himg : s.base + 0x7000000 ≤ 18446744073709551616)
    (hx : s.base + 0x2840000 ≤ x ∧ x < s.base + 0x2850000)
    (hf : ∀ a, s.mem.free a = true → x < a ∨ a + 128 ≤ x) :
    (applySafetyPatches s).mem.byte x = s.mem.byte x := by
  unfold applySafetyPatches
  obtain ⟨b1, e1, f1⟩ := PatchCascadeEntryZeroInit_keeps s x
    (by
      rw [wrap64_add _ _ (by simp only [CascadeEntryZeroInit.TagWriteRVA]; omega)]
      simp only [CascadeEntryZeroInit.TagWriteRVA]; omega) hf
  obtain ⟨b2, e2, f2⟩ := PatchNodeAllocator_keeps (PatchCascadeEntryZeroInit s) x
    (by
      rw [b1, wrap64_add _ _ (by simp only [NodeAllocPatch.FuncRVA]; omega)]
      simp only [NodeAllocPatch.FuncRVA]; omega) f1
  obtain ⟨b3, e3, f3⟩ := PatchNullSafetyCheck_keeps
    (PatchNodeAllocator (PatchCascadeEntryZeroInit s)) x
    (by
      rw [b2, b1, wrap64_add _ _ (by simp only [NullSafetyPatch.CrashInstrRVA]; omega)]
      simp only [NullSafetyPatch.CrashInstrRVA]; omega) f2
  obtain ⟨_, e4, _⟩ := PatchCascadePtrValidation_keeps
    (PatchNullSafetyCheck (PatchNodeAllocator (PatchCascadeEntryZeroInit s))) x
    (by
      rw [b3, b2, b1, wrap64_add _ _ (by simp only [CascadePtrValidation.TestInstrRVA]; omega)]
      simp only [CascadePtrValidation.TestInstrRVA]; omega) f3
  rw [e4, e3, e2, e1]

theorem applySafetyPatches_restored (s : State) :
    (applySafetyPatches s).g_maskRestored = s.g_maskRestored := by
  unfold applySafetyPatches
  have k1 : (PatchCascadeEntryZeroInit s).g_maskRestored = s.g_maskRestored := by
    rcases PatchCascadeEntryZeroInit_cases s with e | ⟨_, _, _, e⟩ <;> rw [e]
  have k2 : ∀ t : State, (PatchNodeAllocator t).g_maskRestored = t.g_maskRestored := by
    intro t
    rcases PatchNodeAllocator_cases t with e | ⟨_, _, _, e⟩ <;> rw [e]
  have k3 : ∀ t : State, (PatchNullSafetyCheck t).g_maskRestored = t.g_maskRestored := by
    intro t
    rcases PatchNullSafetyCheck_cases t with e | ⟨_, _, _, e⟩ <;> rw [e]
  have k4 : ∀ t : State, (PatchCascadePtrValidation t).g_maskRestored = t.g_maskRestored := by
    intro t
    rcases PatchCascadePtrValidation_cases t with e | ⟨_, _, _, e⟩ <;> rw [e]
  rw [k4, k3, k2, k1]

theorem write8_keeps {m m1 : Mem} {a v : Nat} (h : m.write8 a v = some m1) (x : Nat)
    (hnw : m.writable x = false) :
    m1.byte x = m.byte x ∧ m1.free = m.free ∧ m1.writable x = false := by
  obtain ⟨e, w⟩ := write8_eq h
  subst e
  have hne : x ≠ a := by
    intro e
    rw [e, w] at hnw
    exact absurd hnw (by simp)
  refine ⟨?_, rfl, hnw⟩
  simp only [Mem.setByte]
  rw [if_neg hne]

/-- The probe of `TryRestoreMaskRotation` stores only to bytes that can be
written. -/
theorem restoreProbe_keeps (s : State) (x : Nat) (hnw : s.mem.writable x = false) :
    (restoreProbe s).2.base = s.base ∧ (restoreProbe s).2.mem.byte x = s.mem.byte x ∧
    (restoreProbe s).2.mem.free = s.mem.free := by
  obtain ⟨A, hA⟩ : ∃ f : Nat → Nat → Nat, f = addr64 := ⟨_, rfl⟩
  unfold restoreProbe
  rw [← hA]
  cases s.mem.read64 (A s.base ShadowSceneNodePtr) with
  | none => exact ⟨rfl, rfl, rfl⟩
  | some sceneNode =>
    simp only
    by_cases h1 : sceneNode = 0
    · rw [if_pos h1]; exact ⟨rfl, rfl, rfl⟩
    rw [if_neg h1]
    cases s.mem.read64 (A sceneNode CascadeGroupOffset) with
    | none => exact ⟨rfl, rfl, rfl⟩
    | some cg =>
      simp only
      by_cases h2 : cg = 0
      · rw [if_pos h2]; exact ⟨rfl, rfl, rfl⟩
      rw [if_neg h2]
      cases s.mem.read32 (A cg FlatCountOffset) with
      | none => exact ⟨rfl, rfl, rfl⟩
      | some flatCount =>
        simp only
        cases s.mem.read64 (A cg FlatBufferOffset) with
        | none => exact ⟨rfl, rfl, rfl⟩
        | some flatBuf =>
          simp only
          split
          · exact ⟨rfl, rfl, rfl⟩
          split
          · exact ⟨rfl, rfl, rfl⟩
          cases allShadowMaps s.mem flatBuf [0, 1, 2, 3] with
          | none => exact ⟨rfl, rfl, rfl⟩
          | some ok =>
            cases ok with
            | false => exact ⟨rfl, rfl, rfl⟩
            | true =>
              simp only
              split
              · exact ⟨rfl, rfl, rfl⟩
              cases s.mem.read8 (A cg CascadeGroupVRFlag) with
              | none => exact ⟨rfl, rfl, rfl⟩
              | some vrFlag =>
                simp only
                cases s.mem.read64 (A cg ShaderObjectOffset) with
                | none => exact ⟨rfl, rfl, rfl⟩
                | some shaderObj =>
                  simp only
                  split
                  · exact ⟨rfl, rfl, rfl⟩
                  cases hw1 : (if vrFlag = 0 then s.mem.write8 (A cg CascadeGroupVRFlag) 1
                      else some s.mem) with
                  | none => exact ⟨rfl, rfl, rfl⟩
                  | some m1 =>
                    simp only
                    have k1 : m1.byte x = s.mem.byte x ∧ m1.free = s.mem.free ∧
                        m1.writable x = false := by
                      by_cases hv : vrFlag = 0
                      · rw [if_pos hv] at hw1
                        exact write8_keeps hw1 x hnw
                      · rw [if_neg hv] at hw1
                        simp only [Option.some.injEq] at hw1
                        rw [← hw1]
                        exact ⟨rfl, rfl, hnw⟩
                    split
                    · exact ⟨rfl, k1.1, k1.2.1⟩
                    cases m1.read8 (A flatBuf (3 * FlatEntrySize + 0x102)) with
                    | none => exact ⟨rfl, k1.1, k1.2.1⟩
                    | some oldVal =>
                      simp only
                      split
                      · cases hw2 : m1.write8 (A flatBuf (3 * FlatEntrySize + 0x102)) 0 with
                        | none => exact ⟨rfl, k1.1, k1.2.1⟩
                        | some m2 =>
                          obtain ⟨q1, q2, _⟩ := write8_keeps hw2 x k1.2.2
                          exact ⟨rfl, q1.trans k1.1, q2.trans k1.2.1⟩
                      · exact ⟨rfl, k1.1, k1.2.1⟩

/-- C19: in every state reached from the start of the process MaskRestored is
set only with the four trampoline flags set; and when the probe of
`TryRestoreMaskRotation` succeeds but one of the four flags is still unset
after the safety patches, the function returns the state the patches left,
with MaskRestored unset and every mask literal byte as it was.  The
environment: the image lies in the address space, the literal cannot be
written through a plain store, and no free granule has a block over it. -/
theorem mask_restored_needs_trampolines (m : Mem) (base : Nat) (es : List Event)
    (s : State) (x : Nat)
    (h0 : s.g_maskRestored = false) (hve : s.g_vrExpanded = true) (hms : s.g_maskSafe = true)
    (hp : (restoreProbe s).1 = true)
    (hflag : ¬ ((applySafetyPatches (restoreProbe s).2).g_entryZeroInitPatched = true ∧
      (applySafetyPatches (restoreProbe s).2).g_nodeAllocPatched = true ∧
      (applySafetyPatches (restoreProbe s).2).g_nullSafePatched = true ∧
      (applySafetyPatches (restoreProbe s).2).g_ptrValidationPatched = true))
    (himg : s.base + 0x7000000 ≤ 18446744073709551616)
    (hx : ∃ p, p ∈ maskRestorePatches ∧ x = addr64 s.base p.1)
    (hnw : s.mem.writable x = false)
    (hf : ∀ a, s.mem.free a = true → x < a ∨ a + 128 ≤ x) :
    ((run (initState m base) es).g_maskRestored = true →
      (run (initState m base) es).g_entryZeroInitPatched = true ∧
      (run (initState m base) es).g_nodeAllocPatched = true ∧
      (run (initState m base) es).g_nullSafePatched = true ∧
      (run (initState m base) es).g_ptrValidationPatched = true) ∧
    TryRestoreMaskRotation s = applySafetyPatches (restoreProbe s).2 ∧
    (TryRestoreMaskRotation s).g_maskRestored = false ∧
    (TryRestoreMaskRotation s).mem.byte x = s.mem.byte x := by
  have hx2 : s.base + 0x2840000 ≤ x ∧ x < s.base + 0x2850000 := by
    obtain ⟨p, hp1, hp2⟩ := hx
    simp only [maskRestorePatches, List.mem_cons, List.mem_singleton, List.not_mem_nil,
      or_false] at hp1
    rcases hp1 with e | e | e | e <;> subst e
    · rw [hp2, addr64_image s.base MaskWriterPatch.InitMask_Byte himg (by decide)]
      simp only [MaskWriterPatch.InitMask_Byte]; omega
    · rw [hp2, addr64_image s.base MaskWriterPatch.FallbackMask_Byte himg (by decide)]
      simp only [MaskWriterPatch.FallbackMask_Byte]; omega
    · rw [hp2, addr64_image s.base MaskWriterPatch.ArrayEntry1_Byte himg (by decide)]
      simp only [MaskWriterPatch.ArrayEntry1_Byte]; omega
    · rw [hp2, addr64_image s.base MaskWriterPatch.ArrayEntry3_Byte himg (by decide)]
      simp only [MaskWriterPatch.ArrayEntry3_Byte]; omega
  obtain ⟨pb, pbyte, pfree⟩ := restoreProbe_keeps s x hnw
  have hst := restoreProbe_stage s
  have e : TryRestoreMaskRotation s = applySafetyPatches (restoreProbe s).2 := by
    obtain ⟨P, hP⟩ : ∃ f : Nat → List (Nat × Nat × Nat) → Mem → Nat × Mem, f = patchBytes :=
      ⟨_, rfl⟩
    unfold TryRestoreMaskRotation
    rw [← hP, if_neg (by rw [h0]; simp), if_neg (by rw [hve]; simp),
      if_neg (by rw [hms]; simp)]
    cases hr : restoreProbe s with
    | mk ok s1 =>
      rw [hr] at hp hflag
      simp only at hp hflag
      subst hp
      simp only
      rw [if_pos]
      simp only [Bool.or_eq_true, Bool.not_eq_true']
      by_contra hc
      apply hflag
      simp only [not_or, Bool.not_eq_false] at hc
      exact ⟨hc.1.1.1, hc.1.1.2, hc.1.2, hc.2⟩
  refine ⟨?_, e, ?_, ?_⟩
  · intro h
    have g := (run_gated m base es).2.2.2.2.2.2.2 h
    exact ⟨g.2.2.2.1, g.2.2.2.2.1, g.2.2.2.2.2.1, g.2.2.2.2.2.2⟩
  · rw [e, applySafetyPatches_restored, hst.2.2.2.2.2.2.2.2.2]
    exact h0
  · rw [e, applySafetyPatches_keeps (restoreProbe s).2 x (by rw [pb]; exact himg)
      (by rw [pb]; exact hx2) (by rw [pfree]; exact hf)]
    exact pbyte

/-- C19, witness: the flat array is ready, the null-guard trampoline is missing
and its site does not hold the expected instruction. -/
theorem mask_restored_needs_trampolines_witness :
    (TryRestoreMaskRotation
      { completedState flatHostMem gameBase with
          g_maskRestored := false, g_nullSafePatched := false }).g_maskRestored = false ∧
    (TryRestoreMaskRotation
      { completedState flatHostMem gameBase with
          g_maskRestored := false, g_nullSafePatched := false }).mem.byte
        (addr64 gameBase MaskWriterPatch.InitMask_Byte)
      = flatHostMem.byte (addr64 gameBase MaskWriterPatch.InitMask_Byte) :=
  (mask_restored_needs_trampolines (dataMem (fun _ => 0)) gameBase []
    { completedState flatHostMem gameBase with
        g_maskRestored := false, g_nullSafePatched := false }
    (addr64 gameBase MaskWriterPatch.InitMask_Byte)
    rfl rfl rfl (by decide!)
    (fun h => absurd h.2.2.1 (by decide!))
    (by decide)
    ⟨(MaskWriterPatch.InitMask_Byte, 0x03, 0x0F), by decide, rfl⟩
    (by decide)
    (fun a h => Or.inl (by
      have h1 : gameBase + 0x7000000 ≤ a := of_decide_eq_true h
      have h2 : addr64 gameBase MaskWriterPatch.InitMask_Byte = 0x14284e9fb := by decide
      rw [h2]
      simp only [gameBase] at h1
      omega))).2.2

/-! ### The validation block, executed -/

theorem X86.load64_store64 (mem : Nat → Nat) (a v : Nat) (hv : v < 18446744073709551616) :
    X86.load64 (X86.store64 mem a v) a = v := by
  unfold X86.load64 X86.store64
  have e : (List.range 8).map
      (fun k => (if a ≤ a + k ∧ a + k < a + 8 then v / 256 ^ (a + k - a) % 256
        else mem (a + k)) % 256)
      = (List.range 8).map (fun k => v / 256 ^ k % 256) := by
    apply List.map_congr_left
    intro k hk
    rw [List.mem_range] at hk
    rw [if_pos ⟨by omega, by omega⟩, Nat.add_sub_cancel_left, Nat.mod_mod]
  rw [e, leValue_digits]
  exact Nat.mod_eq_of_lt (by norm_num; exact hv)

theorem X86.store64_other (mem : Nat → Nat) (a v x : Nat) (h : ¬(a ≤ x ∧ x < a + 8)) :
    X86.store64 mem a v x = mem x := by
  unfold X86.store64
  rw [if_neg h]

theorem ptrValidationCave_bytes (cave cont skip : Nat) :
    ∃ a b c d e f g h, ptrValidationCave cave cont skip =
      [0x4D, 0x85, 0xF6, 0x74, 0x25, 0x50, 0x4C, 0x89, 0xF0, 0x48, 0xC1, 0xE8, 0x2F,
       0x85, 0xC0, 0x75, 0x0D, 0x44, 0x89, 0xF0, 0x85, 0xC0, 0x74, 0x06, 0x58,
       0xE9, a, b, c, d, 0x58, 0x49, 0xC7, 0x04, 0x24, 0x00, 0x00, 0x00, 0x00,
       0x45, 0x31, 0xF6, 0xE9, e, f, g, h] := by
  obtain ⟨a, b, c, d, h1⟩ := le32_bytes (rel32 cont (cave + 26 + 4))
  obtain ⟨e, f, g, h, h2⟩ := le32_bytes (rel32 skip (cave + 43 + 4))
  refine ⟨a, b, c, d, e, f, g, h, ?_⟩
  unfold ptrValidationCave
  rw [h1, h2]
  rfl

theorem ptrValidationCave_steps (cave cont skip : Nat)
    (hlo1 : -2147483648 + 128 ≤ (cont : Int) - cave) (hhi1 : (cont : Int) - cave < 2147483648)
    (hlo2 : -2147483648 + 128 ≤ (skip : Int) - cave) (hhi2 : (skip : Int) - cave < 2147483648)
    (hcont : cont < 18446744073709551616) (hskip : skip < 18446744073709551616)
    (c : X86.Cpu) :
    X86.exec (ptrValidationCave cave cont skip) cave 0 c
      = some ({ c with zf := decide (c.r14 = 0) }, X86.Next.inside 3) ∧
    X86.exec (ptrValidationCave cave cont skip) cave 3 c
      = some (c, X86.Next.inside (if c.zf then 42 else 5)) ∧
    (8 ≤ c.rsp → c.rsp < 18446744073709551616 →
      X86.exec (ptrValidationCave cave cont skip) cave 5 c
        = some ({ c with rsp := c.rsp - 8, mem := X86.store64 c.mem (c.rsp - 8) c.rax,
                         stores := (c.rsp - 8) :: c.stores }, X86.Next.inside 6)) ∧
    X86.exec (ptrValidationCave cave cont skip) cave 6 c
      = some ({ c with rax := c.r14 }, X86.Next.inside 9) ∧
    X86.exec (ptrValidationCave cave cont skip) cave 9 c
      = some ({ c with rax := c.rax / 2 ^ 47, zf := decide (c.rax / 2 ^ 47 = 0) },
          X86.Next.inside 13) ∧
    X86.exec (ptrValidationCave cave cont skip) cave 13 c
      = some ({ c with zf := decide (c.rax % 4294967296 = 0) }, X86.Next.inside 15) ∧
    X86.exec (ptrValidationCave cave cont skip) cave 15 c
      = some (c, X86.Next.inside (if c.zf then 17 else 30)) ∧
    X86.exec (ptrValidationCave cave cont skip) cave 17 c
      = some ({ c with rax := c.r14 % 4294967296 }, X86.Next.inside 20) ∧
    X86.exec (ptrValidationCave cave cont skip) cave 20 c
      = some ({ c with zf := decide (c.rax % 4294967296 = 0) }, X86.Next.inside 22) ∧
    X86.exec (ptrValidationCave cave cont skip) cave 22 c
      = some (c, X86.Next.inside (if c.zf then 30 else 24)) ∧
    (c.rsp + 8 < 18446744073709551616 →
      X86.exec (ptrValidationCave cave cont skip) cave 24 c
        = some ({ c with rax := X86.load64 c.mem c.rsp, rsp := c.rsp + 8,
                         loads := c.rsp :: c.loads }, X86.Next.inside 25)) ∧
    X86.exec (ptrValidationCave cave cont skip) cave 25 c = some (c, X86.Next.leave cont) ∧
    (c.rsp + 8 < 18446744073709551616 →
      X86.exec (ptrValidationCave cave cont skip) cave 30 c
        = some ({ c with rax := X86.load64 c.mem c.rsp, rsp := c.rsp + 8,
                         loads := c.rsp :: c.loads }, X86.Next.inside 31)) ∧
    (c.r12 + 8 ≤ 18446744073709551616 →
      X86.exec (ptrValidationCave cave cont skip) cave 31 c
        = some ({ c with mem := X86.store64 c.mem c.r12 0, stores := c.r12 :: c.stores },
            X86.Next.inside 39)) ∧
    X86.exec (ptrValidationCave cave cont skip) cave 39 c
      = some ({ c with r14 := 0, zf := true }, X86.Next.inside 42) ∧
    X86.exec (ptrValidationCave cave cont skip) cave 42 c = some (c, X86.Next.leave skip) := by
  obtain ⟨⟨h26, -⟩, ⟨h43, -⟩⟩ := ptrValidationCave_exact cave cont skip hlo1 hhi1 hlo2 hhi2
  have t1 : wrap64 ((cave : Int) + (25 : Nat) + 5 + ((cont : Int) - ((cave + 26 + 4 : Nat) : Int)))
      = cont := by
    have : (cave : Int) + (25 : Nat) + 5 + ((cont : Int) - ((cave + 26 + 4 : Nat) : Int))
        = ((cont : Nat) : Int) + ((0 : Nat) : Int) := by push_cast; ring
    rw [this]
    exact wrap64_add cont 0 (by omega)
  have t2 : wrap64 ((cave : Int) + (42 : Nat) + 5 + ((skip : Int) - ((cave + 43 + 4 : Nat) : Int)))
      = skip := by
    have : (cave : Int) + (42 : Nat) + 5 + ((skip : Int) - ((cave + 43 + 4 : Nat) : Int))
        = ((skip : Nat) : Int) + ((0 : Nat) : Int) := by push_cast; ring
    rw [this]
    exact wrap64_add skip 0 (by omega)
  obtain ⟨a, b, c1, d, e, f, g, h, hL⟩ := ptrValidationCave_bytes cave cont skip
  have himm : rel32At (ptrValidationCave cave cont skip) 35 = 0 := by
    rw [hL]; simp [rel32At, readLE32, sext32]
  refine ⟨?_, ?_, ?_, ?_, ?_, ?_, ?_, ?_, ?_, ?_, ?_, ?_, ?_, ?_, ?_, ?_⟩
  · unfold X86.exec; rw [hL]; simp [X86.bytesAt]
  · unfold X86.exec; rw [hL]; cases hz : c.zf <;> simp [X86.bytesAt, X86.byteAt, X86.branch, X86.sext8]
  · intro h8 hsp
    have w : wrap64 ((c.rsp : Int) - 8) = c.rsp - 8 := by
      have : (c.rsp : Int) - 8 = ((c.rsp - 8 : Nat) : Int) + ((0 : Nat) : Int) := by
        push_cast [Nat.cast_sub h8]; ring
      rw [this]; exact wrap64_add _ 0 (by omega)
    unfold X86.exec; rw [w, hL]
    have : ¬ (18446744073709551616 < c.rsp - 8 + 8) := by omega
    simp [X86.bytesAt, this]
  · unfold X86.exec; rw [hL]; simp [X86.bytesAt]
  · unfold X86.exec; rw [hL]; simp [X86.bytesAt, X86.byteAt]
  · unfold X86.exec; rw [hL]; simp [X86.bytesAt]
  · unfold X86.exec; rw [hL]; cases hz : c.zf <;> simp [X86.bytesAt, X86.byteAt, X86.branch, X86.sext8]
  · unfold X86.exec; rw [hL]; simp [X86.bytesAt]
  · unfold X86.exec; rw [hL]; simp [X86.bytesAt]
  · unfold X86.exec; rw [hL]; cases hz : c.zf <;> simp [X86.bytesAt, X86.byteAt, X86.branch, X86.sext8]
  · intro hsp
    have w : wrap64 ((c.rsp : Int) + 8) = c.rsp + 8 := wrap64_add c.rsp 8 hsp
    unfold X86.exec; rw [w, hL]
    have : ¬ (18446744073709551616 < c.rsp + 8) := by omega
    simp [X86.bytesAt, this]
  · unfold X86.exec; rw [h26, t1, hL]; simp [X86.bytesAt]
  · intro hsp
    have w : wrap64 ((c.rsp : Int) + 8) = c.rsp + 8 := wrap64_add c.rsp 8 hsp
    unfold X86.exec; rw [w, hL]
    have : ¬ (18446744073709551616 < c.rsp + 8) := by omega
    simp [X86.bytesAt, this]
  · intro h12
    have w0 : wrap64 0 = 0 := by decide
    unfold X86.exec; rw [himm, w0, hL]
    have : ¬ (18446744073709551616 < c.r12 + 8) := by omega
    simp [X86.bytesAt, this]
  · unfold X86.exec; rw [hL]; simp [X86.bytesAt]
  · unfold X86.exec; rw [h43, t2, hL]; simp [X86.bytesAt]

theorem X86.run_inside {code : List Nat} {cave fuel pc pc1 : Nat} {c c1 : X86.Cpu}
    (h : X86.exec code cave pc c = some (c1, X86.Next.inside pc1)) :
    X86.run code cave (fuel + 1) pc c = X86.run code cave fuel pc1 c1 := by
  rw [X86.run, h]

theorem X86.run_leave {code : List Nat} {cave fuel pc t : Nat} {c c1 : X86.Cpu}
    (h : X86.exec code cave pc c = some (c1, X86.Next.leave t)) :
    X86.run code cave (fuel + 1) pc c = some (c1, t) := by
  rw [X86.run, h]

/-- The three paths of the block `PatchCascadePtrValidation` emits, run from its
first byte with the candidate pointer in R14, the slot address in R12 and
enough fuel; it leaves the block with RAX, RSP and R12 as they were. A null
pointer goes to the skip target with no load and no store at all. A pointer
that is not null and has one of the bits 47 to 63 set or its low 32 bits zero
goes to the skip target with R14 zero and the quadword of the slot zero; its
only stores are the push below the stack pointer and the slot, its only load
the pop. A pointer with the bits 47 to 63 zero and the low 32 bits not zero
goes to the continue address with R14 unchanged; its only store is the push
and its only load the pop. -/
theorem ptrValidationCave_run (cave cont skip fuel : Nat) (c : X86.Cpu)
    (hlo1 : -2147483648 + 128 ≤ (cont : Int) - cave) (hhi1 : (cont : Int) - cave < 2147483648)
    (hlo2 : -2147483648 + 128 ≤ (skip : Int) - cave) (hhi2 : (skip : Int) - cave < 2147483648)
    (hcont : cont < 18446744073709551616) (hskip : skip < 18446744073709551616)
    (hfuel : 14 ≤ fuel)
    (hrax : c.rax < 18446744073709551616) (hr14 : c.r14 < 18446744073709551616)
    (h8 : 8 ≤ c.rsp) (hrsp : c.rsp < 18446744073709551616)
    (hr12 : c.r12 + 8 ≤ 18446744073709551616) :
    ∃ c1 out, X86.run (ptrValidationCave cave cont skip) cave fuel 0 c = some (c1, out) ∧
      c1.rax = c.rax ∧ c1.rsp = c.rsp ∧ c1.r12 = c.r12 ∧
      (c.r14 = 0 →
        out = skip ∧ c1.r14 = 0 ∧ c1.mem = c.mem ∧ c1.stores = c.stores ∧
        c1.loads = c.loads) ∧
      (c.r14 ≠ 0 → (c.r14 / 2 ^ 47 ≠ 0 ∨ c.r14 % 2 ^ 32 = 0) →
        out = skip ∧ c1.r14 = 0 ∧ X86.load64 c1.mem c.r12 = 0 ∧
        c1.stores = [c.r12, c.rsp - 8] ++ c.stores ∧ c1.loads = [c.rsp - 8] ++ c.loads ∧
        ∀ x, ¬(c.r12 ≤ x ∧ x < c.r12 + 8) → ¬(c.rsp - 8 ≤ x ∧ x < c.rsp - 8 + 8) →
          c1.mem x = c.mem x) ∧
      (c.r14 / 2 ^ 47 = 0 → c.r14 % 2 ^ 32 ≠ 0 →
        out = cont ∧ c1.r14 = c.r14 ∧
        c1.stores = [c.rsp - 8] ++ c.stores ∧ c1.loads = [c.rsp - 8] ++ c.loads ∧
        ∀ x, ¬(c.rsp - 8 ≤ x ∧ x < c.rsp - 8 + 8) → c1.mem x = c.mem x) := by
  obtain ⟨k, rfl⟩ : ∃ k, fuel = k + 14 := ⟨fuel - 14, by omega⟩
  have S := ptrValidationCave_steps cave cont skip hlo1 hhi1 hlo2 hhi2 hcont hskip
  have s0 := fun c => (S c).1
  have s3 := fun c => (S c).2.1
  have s5 := fun c => (S c).2.2.1
  have s6 := fun c => (S c).2.2.2.1
  have s9 := fun c => (S c).2.2.2.2.1
  have s13 := fun c => (S c).2.2.2.2.2.1
  have s15 := fun c => (S c).2.2.2.2.2.2.1
  have s17 := fun c => (S c).2.2.2.2.2.2.2.1
  have s20 := fun c => (S c).2.2.2.2.2.2.2.2.1
  have s22 := fun c => (S c).2.2.2.2.2.2.2.2.2.1
  have s24 := fun c => (S c).2.2.2.2.2.2.2.2.2.2.1
  have s25 := fun c => (S c).2.2.2.2.2.2.2.2.2.2.2.1
  have s30 := fun c => (S c).2.2.2.2.2.2.2.2.2.2.2.2.1
  have s31 := fun c => (S c).2.2.2.2.2.2.2.2.2.2.2.2.2.1
  have s39 := fun c => (S c).2.2.2.2.2.2.2.2.2.2.2.2.2.2.1
  have s42 := fun c => (S c).2.2.2.2.2.2.2.2.2.2.2.2.2.2.2
  clear S
  have hback : c.rsp - 8 + 8 = c.rsp := by omega
  have hq : c.r14 / 2 ^ 47 % 4294967296 = c.r14 / 2 ^ 47 := by
    norm_num
    omega
  have hpop : X86.load64 (X86.store64 c.mem (c.rsp - 8) c.rax) (c.rsp - 8) = c.rax :=
    X86.load64_store64 _ _ _ hrax
  by_cases hp : c.r14 = 0
  · have hrun : X86.run (ptrValidationCave cave cont skip) cave (k + 14) 0 c
        = some ({ c with zf := true }, skip) := by
      rw [X86.run_inside (s0 _), X86.run_inside (s3 _)]
      simp only [hp, decide_True, if_true]
      rw [X86.run_leave (s42 _)]
    refine ⟨_, _, hrun, rfl, rfl, rfl, fun _ => ⟨rfl, hp, rfl, rfl, rfl⟩,
      fun h => absurd hp h, fun _ h => absurd (by simp [hp]) h⟩
  · by_cases hh : c.r14 / 2 ^ 47 = 0
    · by_cases hl : c.r14 % 4294967296 = 0
      · have hrun : X86.run (ptrValidationCave cave cont skip) cave (k + 14) 0 c
            = some ({ c with r14 := 0, zf := true,
                             mem := X86.store64 (X86.store64 c.mem (c.rsp - 8) c.rax) c.r12 0,
                             loads := (c.rsp - 8) :: c.loads,
                             stores := c.r12 :: (c.rsp - 8) :: c.stores }, skip) := by
          rw [X86.run_inside (s0 _), X86.run_inside (s3 _)]
          simp only [hp, decide_False, Bool.false_eq_true, if_false]
          rw [X86.run_inside (s5 _ _ _), X86.run_inside (s6 _), X86.run_inside (s9 _),
            X86.run_inside (s13 _), X86.run_inside (s15 _)]
          simp only [hq, hh, decide_True, if_true]
          rw [X86.run_inside (s17 _), X86.run_inside (s20 _), X86.run_inside (s22 _)]
          simp only [Nat.mod_mod, hl, decide_True, if_true]
          rw [X86.run_inside (s30 _ _), X86.run_inside (s31 _ _), X86.run_inside (s39 _),
            X86.run_leave (s42 _)]
          simp only [hback, hpop]
          all_goals first | exact h8 | exact hrsp | exact hr12 | (simp only []; omega)
        refine ⟨_, _, hrun, rfl, rfl, rfl, fun h => absurd h hp, fun _ _ => ⟨rfl, rfl,
          X86.load64_store64 _ _ _ (by decide), rfl, rfl, fun x h1 h2 => ?_⟩,
          fun _ h => absurd (by norm_num; exact hl) h⟩
        show X86.store64 (X86.store64 c.mem (c.rsp - 8) c.rax) c.r12 0 x = c.mem x
        rw [X86.store64_other _ _ _ _ h1, X86.store64_other _ _ _ _ h2]
      · have hrun : X86.run (ptrValidationCave cave cont skip) cave (k + 14) 0 c
            = some ({ c with zf := false,
                             mem := X86.store64 c.mem (c.rsp - 8) c.rax,
                             loads := (c.rsp - 8) :: c.loads,
                             stores := (c.rsp - 8) :: c.stores }, cont) := by
          rw [X86.run_inside (s0 _), X86.run_inside (s3 _)]
          simp only [hp, decide_False, Bool.false_eq_true, if_false]
          rw [X86.run_inside (s5 _ _ _), X86.run_inside (s6 _), X86.run_inside (s9 _),
            X86.run_inside (s13 _), X86.run_inside (s15 _)]
          simp only [hq, hh, decide_True, if_true]
          rw [X86.run_inside (s17 _), X86.run_inside (s20 _), X86.run_inside (s22 _)]
          simp only [Nat.mod_mod, hl, decide_False, Bool.false_eq_true, if_false]
          rw [X86.run_inside (s24 _ _), X86.run_leave (s25 _)]
          simp only [hback, hpop]
          all_goals first | exact h8 | exact hrsp | exact hr12 | (simp only []; omega)
        refine ⟨_, _, hrun, rfl, rfl, rfl, fun h => absurd h hp, fun _ h => ?_,
          fun _ _ => ⟨rfl, rfl, rfl, rfl, fun x h2 => ?_⟩⟩
        · rcases h with h | h
          · exact absurd hh h
          · exact absurd (by norm_num at h; exact h) hl
        · show X86.store64 c.mem (c.rsp - 8) c.rax x = c.mem x
          rw [X86.store64_other _ _ _ _ h2]
    · have hrun : X86.run (ptrValidationCave cave cont skip) cave (k + 14) 0 c
          = some ({ c with r14 := 0, zf := true,
                           mem := X86.store64 (X86.store64 c.mem (c.rsp - 8) c.rax) c.r12 0,
                           loads := (c.rsp - 8) :: c.loads,
                           stores := c.r12 :: (c.rsp - 8) :: c.stores }, skip) := by
        rw [X86.run_inside (s0 _), X86.run_inside (s3 _)]
        simp only [hp, decide_False, Bool.false_eq_true, if_false]
        rw [X86.run_inside (s5 _ _ _), X86.run_inside (s6 _), X86.run_inside (s9 _),
          X86.run_inside (s13 _), X86.run_inside (s15 _)]
        simp only [hq, hh, decide_False, Bool.false_eq_true, if_false]
        rw [X86.run_inside (s30 _ _), X86.run_inside (s31 _ _), X86.run_inside (s39 _),
          X86.run_leave (s42 _)]
        simp only [hback, hpop]
        all_goals first | exact h8 | exact hrsp | exact hr12 | (simp only []; omega)
      refine ⟨_, _, hrun, rfl, rfl, rfl, fun h => absurd h hp, fun _ _ => ⟨rfl, rfl,
        X86.load64_store64 _ _ _ (by decide), rfl, rfl, fun x h1 h2 => ?_⟩,
        fun h => absurd h hh⟩
      show X86.store64 (X86.store64 c.mem (c.rsp - 8) c.rax) c.r12 0 x = c.mem x
      rw [X86.store64_other _ _ _ _ h1, X86.store64_other _ _ _ _ h2]

/-- A successful run of the tail-fixing loop over the pools of one entry leaves
in every tail field the address of its own head when the tail was null, and
the tail it held otherwise. -/
theorem fixTails_tails (eb : Nat) (os : List Nat) : ∀ (m m1 : Mem),
    fixTails eb os m = (true, m1) →
    (∀ o, o ∈ os → eb + o + 16 ≤ 18446744073709551616) →
    os.Pairwise (fun a b => a + 16 ≤ b ∨ b + 16 ≤ a) →
    ∀ o, o ∈ os → ∀ tail, m.read64 (eb + o + 8) = some tail →
      m1.read64 (eb + o + 8) = some (if tail = 0 then eb + o else tail) := by
  induction os with
  | nil =>
    intro m m1 _ _ _ o ho
    simp at ho
  | cons o rest ih =>
    intro m m1 h hb hp o2 ho2 tail2 hr2
    have hbo := hb o (List.mem_cons_self _ _)
    have hrel : ∀ o3, o3 ∈ rest → o + 16 ≤ o3 ∨ o3 + 16 ≤ o :=
      fun o3 h3 => List.rel_of_pairwise_cons hp h3
    have hp2 : rest.Pairwise (fun a b => a + 16 ≤ b ∨ b + 16 ≤ a) := (List.pairwise_cons.mp hp).2
    have hb2 : ∀ o3, o3 ∈ rest → eb + o3 + 16 ≤ 18446744073709551616 :=
      fun o3 h3 => hb o3 (List.mem_cons_of_mem _ h3)
    unfold fixTails at h
    rw [addr64_of_lt eb (o + 8) (by omega), addr64_of_lt eb o (by omega)] at h
    cases hr : m.read64 (eb + (o + 8)) with
    | none => rw [hr] at h; simp at h
    | some tail =>
      rw [hr] at h
      simp only at h
      by_cases ht : tail = 0
      · rw [if_pos ht] at h
        cases hw : m.write64 (eb + (o + 8)) (eb + o) with
        | none => rw [hw] at h; simp at h
        | some ma =>
          rw [hw] at h
          simp only at h
          obtain ⟨a1, _, _, _, a5, _⟩ := store_spec hw
          obtain ⟨c1, c2⟩ := fixTails_spec eb rest ma m1 h hb2
          rcases List.mem_cons.mp ho2 with e | hin
          · subst e
            rw [← Nat.add_assoc] at hr
            rw [hr] at hr2
            have e2 : tail2 = tail := (Option.some.inj hr2).symm
            subst e2
            rw [if_pos ht]
            have hl : ma.read64 (eb + o2 + 8) = some (eb + o2) := by
              have := load_store hw (by norm_num; omega)
              rwa [← Nat.add_assoc] at this
            rw [← hl]
            exact load_congr ma m1 (eb + o2 + 8) 8 c1 (fun k hk => c2 _ (fun o3 h3 => by
              have := hrel o3 h3
              omega))
          · have hd := hrel o2 hin
            have hl : ma.read64 (eb + o2 + 8) = some tail2 := by
              rw [← hr2]
              exact load_congr m ma (eb + o2 + 8) 8 a1 (fun k hk => by
                rw [a5, if_neg (by omega)])
            exact ih ma m1 h hb2 hp2 o2 hin tail2 hl
      · rw [if_neg ht] at h
        rcases List.mem_cons.mp ho2 with e | hin
        · subst e
          rw [← Nat.add_assoc] at hr
          rw [hr] at hr2
          have e2 : tail2 = tail := (Option.some.inj hr2).symm
          subst e2
          rw [if_neg ht]
          obtain ⟨c1, c2⟩ := fixTails_spec eb rest m m1 h hb2
          rw [← hr]
          exact load_congr m m1 (eb + o2 + 8) 8 c1 (fun k hk => c2 _ (fun o3 h3 => by
            have := hrel o3 h3
            omega))
        · exact ih m m1 h hb2 hp2 o2 hin tail2 hr2

/-- A successful run of the loop over the entries `is` that fixes null tails
leaves in every tail field of those entries the address of its own head when
the tail was null, and the tail it held otherwise. -/
theorem fixTailsLoop_tails (buf : Nat) (is : List Nat) : ∀ (m m1 : Mem),
    fixTailsLoop buf is m = (true, m1) →
    (∀ i, i ∈ is → buf + (i + 1) * VRArrayExpansion.EntrySize ≤ 18446744073709551616) →
    is.Nodup →
    ∀ i, i ∈ is → ∀ o, o ∈ VRArrayExpansion.PoolOffsets → ∀ tail,
      m.read64 (buf + i * VRArrayExpansion.EntrySize + o + 8) = some tail →
      m1.read64 (buf + i * VRArrayExpansion.EntrySize + o + 8)
        = some (if tail = 0 then buf + i * VRArrayExpansion.EntrySize + o else tail) := by
  induction is with
  | nil =>
    intro m m1 _ _ _ i hi
    simp at hi
  | cons i rest ih =>
    intro m m1 h hb hn i2 hi2 o ho tail hr
    have hbi := hb i (List.mem_cons_self _ _)
    have hb2 : ∀ j, j ∈ rest → buf + (j + 1) * VRArrayExpansion.EntrySize
        ≤ 18446744073709551616 := fun j hj => hb j (List.mem_cons_of_mem _ hj)
    have hni : i ∉ rest := (List.nodup_cons.mp hn).1
    have hn2 : rest.Nodup := (List.nodup_cons.mp hn).2
    have ho4 := poolOffsets_mem ho
    unfold fixTailsLoop at h
    simp only [VRArrayExpansion.EntrySize] at hbi hb2 h hr ih ⊢
    rw [addr64_of_lt buf (i * 384) (by omega)] at h
    cases hc : fixTails (buf + i * 384) VRArrayExpansion.PoolOffsets m with
    | mk ok ma =>
      rw [hc] at h
      cases ok with
      | false => simp at h
      | true =>
        simp only at h
        have hbo : ∀ o3, o3 ∈ VRArrayExpansion.PoolOffsets →
            buf + i * 384 + o3 + 16 ≤ 18446744073709551616 := fun o3 h3 => by
          rcases poolOffsets_mem h3 with e | e | e | e <;> omega
        obtain ⟨a1, a2⟩ := fixTails_spec (buf + i * 384) _ m ma hc hbo
        obtain ⟨c1, c2⟩ := fixTailsLoop_spec buf rest ma m1 h
          (fun j hj => by
            have := hb2 j hj
            simp only [VRArrayExpansion.EntrySize]
            exact this)
        simp only [VRArrayExpansion.EntrySize] at c2
        rcases List.mem_cons.mp hi2 with e | hin
        · subst e
          have hl := fixTails_tails (buf + i2 * 384) _ m ma hc hbo poolOffsets_pairwise
            o ho tail hr
          rw [← hl]
          exact load_congr ma m1 (buf + i2 * 384 + o + 8) 8 c1 (fun k hk => c2 _
            (fun j hj o3 h3 => by
              have hne : j ≠ i2 := fun e => hni (e ▸ hj)
              have := poolOffsets_mem h3
              omega))
        · have hne : i2 ≠ i := fun e => hni (e ▸ hin)
          have hl : ma.read64 (buf + i2 * 384 + o + 8) = some tail := by
            rw [← hr]
            exact load_congr m ma (buf + i2 * 384 + o + 8) 8 a1 (fun k hk => a2 _
              (fun o3 h3 => by
                have := poolOffsets_mem h3
                omega))
          exact ih ma m1 h hb2 hn2 i2 hin o ho tail hl

/-- What a successful `TryExpandVRArray` leaves in the pool tails of entries 0
and 1 of a buffer that already has room for four entries. -/
theorem TryExpandVRArray_inplace_tails (pick : Nat) (s : State) (buf capacity count : Nat)
    (h0 : s.g_vrExpanded = false)
    (hbuf : s.mem.read64 (addr64 s.base VRArrayExpansion.ArrayPtr) = some buf)
    (hcap : s.mem.read32 (addr64 s.base (VRArrayExpansion.ArrayPtr + 8)) = some capacity)
    (hcnt : s.mem.read32 (addr64 s.base VRArrayExpansion.ArrayCount) = some count)
    (h4 : 4 ≤ capacity)
    (hfit : buf + 4 * VRArrayExpansion.EntrySize ≤ 18446744073709551616)
    (hok : (TryExpandVRArray pick s).g_vrExpanded = true)
    (hC : count < 4 →
      addr64 s.base VRArrayExpansion.ArrayCount + 4 ≤ buf ∨
      buf + 2 * VRArrayExpansion.EntrySize ≤ addr64 s.base VRArrayExpansion.ArrayCount) :
    ∀ i, i < 2 → ∀ o, o ∈ VRArrayExpansion.PoolOffsets → ∀ tail,
      s.mem.read64 (buf + i * VRArrayExpansion.EntrySize + o + 8) = some tail →
      (TryExpandVRArray pick s).mem.read64 (buf + i * VRArrayExpansion.EntrySize + o + 8)
        = some (if tail = 0 then buf + i * VRArrayExpansion.EntrySize + o else tail) := by
  obtain ⟨_, m1, m2, hT, hF, hfin⟩ :=
    TryExpandVRArray_inplace_inv pick s buf capacity count h0 hbuf hcap hcnt h4 hok
  generalize (TryExpandVRArray pick s).mem = mf at hfin ⊢
  generalize addr64 s.base VRArrayExpansion.ArrayCount = C at *
  simp only [VRArrayExpansion.EntrySize] at hfit hT hC ⊢
  rw [addr64_of_lt buf (0 * 384) (by omega), Nat.zero_mul, Nat.add_zero] at hT
  obtain ⟨t1, t2, _⟩ := templateLoop_spec buf [2, 3] s.mem m1 hT
    (by
      intro i hi
      simp only [List.mem_cons, List.mem_singleton, List.not_mem_nil, or_false] at hi
      simp only [VRArrayExpansion.EntrySize]
      omega)
    (by decide)
  have hF2 := fixTailsLoop_tails buf [0, 1] m1 m2 hF
    (by
      intro i hi
      simp only [List.mem_cons, List.mem_singleton, List.not_mem_nil, or_false] at hi
      simp only [VRArrayExpansion.EntrySize]
      omega)
    (by decide)
  simp only [VRArrayExpansion.EntrySize, List.mem_cons, List.mem_singleton,
    List.not_mem_nil, or_false] at t2 hF2
  intro i hi o ho tail hr
  have ho4 := poolOffsets_mem ho
  have h1 : m1.read64 (buf + i * 384 + o + 8) = some tail := by
    rw [← hr]
    exact load_congr s.mem m1 (buf + i * 384 + o + 8) 8 t1 (fun k hk => t2 _ (fun j hj => by
      omega))
  have h2 := hF2 i (by omega) o ho tail h1
  rcases hfin with ⟨hc, hw⟩ | ⟨_, he⟩
  · obtain ⟨w1, _, _, _, w5, _⟩ := store_spec hw
    have := hC hc
    rw [← h2]
    exact load_congr m2 mf (buf + i * 384 + o + 8) 8 w1 (fun k hk => by
      rw [w5, if_neg (by omega)])
  · rw [he]
    exact h2

/-- The run of `TryExpandVRArray` on a four-entry buffer that holds two entries,
one pool of which has a tail. -/
theorem inplace_run_tails :
    (TryExpandVRArray 0 (initState (arrayMem 0x20000000 4 2 tailFill) gameBase)).g_vrExpanded
      = true := by
  decide!

/-- C21 (as the code has it): on a non-null buffer whose header reports a
capacity of at least 4, a successful `TryExpandVRArray` does more than raise
the count. It leaves the protections and every byte outside entries 2 and 3,
the pool tail fields of entries 0 and 1 and (when the count was below 4) the
count field as they were; the count field reads 4 when it was lower; the
buffer pointer and the capacity field read as before when they lie outside the
buffer. When the count field lies outside the buffer, entries 2 and 3 are
template copies of entry 0: their first 8 bytes (the spinlock) are zero, each
of their four pools has a null head and a tail that is the address of its own
head, and every other byte is the byte of entry 0 at the same offset; and each
pool tail of entries 0 and 1 reads the address of its own head when it was
null and the tail it held otherwise. -/
theorem TryExpandVRArray_capacity4_effect (pick : Nat) (s : State) (buf capacity count : Nat)
    (h0 : s.g_vrExpanded = false)
    (hbuf : s.mem.read64 (addr64 s.base VRArrayExpansion.ArrayPtr) = some buf)
    (hcap : s.mem.read32 (addr64 s.base (VRArrayExpansion.ArrayPtr + 8)) = some capacity)
    (hcnt : s.mem.read32 (addr64 s.base VRArrayExpansion.ArrayCount) = some count)
    (h4 : 4 ≤ capacity)
    (hfit : buf + 4 * VRArrayExpansion.EntrySize ≤ 18446744073709551616)
    (hok : (TryExpandVRArray pick s).g_vrExpanded = true) :
    (TryExpandVRArray pick s).mem.prot = s.mem.prot ∧
    (∀ x, (x < buf + 2 * VRArrayExpansion.EntrySize ∨
            buf + 4 * VRArrayExpansion.EntrySize ≤ x) →
        (∀ i, i < 2 → ∀ o, o ∈ VRArrayExpansion.PoolOffsets →
          x < buf + i * VRArrayExpansion.EntrySize + o + 8 ∨
          buf + i * VRArrayExpansion.EntrySize + o + 16 ≤ x) →
        (count < 4 → x < addr64 s.base VRArrayExpansion.ArrayCount ∨
          addr64 s.base VRArrayExpansion.ArrayCount + 4 ≤ x) →
        (TryExpandVRArray pick s).mem.byte x = s.mem.byte x) ∧
    (count < 4 →
      (TryExpandVRArray pick s).mem.read32 (addr64 s.base VRArrayExpansion.ArrayCount)
        = some 4) ∧
    ((addr64 s.base VRArrayExpansion.ArrayPtr + 8 ≤ buf ∨
        buf + 4 * VRArrayExpansion.EntrySize ≤ addr64 s.base VRArrayExpansion.ArrayPtr) →
      (TryExpandVRArray pick s).mem.read64 (addr64 s.base VRArrayExpansion.ArrayPtr)
        = some buf) ∧
    ((addr64 s.base (VRArrayExpansion.ArrayPtr + 8) + 4 ≤ buf ∨
        buf + 4 * VRArrayExpansion.EntrySize
          ≤ addr64 s.base (VRArrayExpansion.ArrayPtr + 8)) →
      (TryExpandVRArray pick s).mem.read32 (addr64 s.base (VRArrayExpansion.ArrayPtr + 8))
        = some capacity) ∧
    ((count < 4 →
        addr64 s.base VRArrayExpansion.ArrayCount + 4 ≤ buf ∨
        buf + 4 * VRArrayExpansion.EntrySize ≤ addr64 s.base VRArrayExpansion.ArrayCount) →
      (∀ i, 2 ≤ i → i < 4 → ∀ k, k < 8 →
        (TryExpandVRArray pick s).mem.byte (buf + i * VRArrayExpansion.EntrySize + k) = 0) ∧
      (∀ i, 2 ≤ i → i < 4 → ∀ o, o ∈ VRArrayExpansion.PoolOffsets →
        (TryExpandVRArray pick s).mem.read64 (buf + i * VRArrayExpansion.EntrySize + o)
          = some 0 ∧
        (TryExpandVRArray pick s).mem.read64 (buf + i * VRArrayExpansion.EntrySize + o + 8)
          = some (buf + i * VRArrayExpansion.EntrySize + o)) ∧
      (∀ i, 2 ≤ i → i < 4 → ∀ k, 8 ≤ k → k < VRArrayExpansion.EntrySize →
        (∀ o, o ∈ VRArrayExpansion.PoolOffsets → k < o ∨ o + 16 ≤ k) →
        (TryExpandVRArray pick s).mem.byte (buf + i * VRArrayExpansion.EntrySize + k)
          = s.mem.byte (buf + k) % 256) ∧
      (∀ i, i < 2 → ∀ o, o ∈ VRArrayExpansion.PoolOffsets → ∀ tail,
        s.mem.read64 (buf + i * VRArrayExpansion.EntrySize + o + 8) = some tail →
        (TryExpandVRArray pick s).mem.read64 (buf + i * VRArrayExpansion.EntrySize + o + 8)
          = some (if tail = 0 then buf + i * VRArrayExpansion.EntrySize + o else tail))) := by
  obtain ⟨f1, f2, f3⟩ :=
    TryExpandVRArray_inplace_frame pick s buf capacity count h0 hbuf hcap hcnt h4 hfit hok
  obtain ⟨bP, bK, bC⟩ := hdr_bounds s buf capacity count hbuf hcap hcnt
  obtain ⟨d1, d2, d3⟩ := hdr_disjoint s.base bP bK bC
  refine ⟨f1, f2, f3, ?_, ?_, ?_⟩
  · intro hP
    rw [← hbuf]
    apply load_congr s.mem _ _ 8 f1
    intro k hk
    simp only [VRArrayExpansion.EntrySize] at hP hfit ⊢
    apply f2
    · simp only [VRArrayExpansion.EntrySize]; omega
    · intro i hi o ho
      have := poolOffsets_mem ho
      simp only [VRArrayExpansion.EntrySize]
      omega
    · intro _
      omega
  · intro hK
    rw [← hcap, read32_eq_load, read32_eq_load]
    apply load_congr s.mem _ _ 4 f1
    intro k hk
    simp only [VRArrayExpansion.EntrySize] at hK hfit ⊢
    apply f2
    · simp only [VRArrayExpansion.EntrySize]; omega
    · intro i hi o ho
      have := poolOffsets_mem ho
      simp only [VRArrayExpansion.EntrySize]
      omega
    · intro _
      omega
  · intro hC
    obtain ⟨e1, e2, e3, e4⟩ :=
      TryExpandVRArray_inplace_spec pick s buf capacity count h0 hbuf hcap hcnt h4 hfit hok
        (fun hc => by
          have := hC hc
          simp only [VRArrayExpansion.EntrySize] at this ⊢
          omega)
    have e5 := TryExpandVRArray_inplace_tails pick s buf capacity count h0 hbuf hcap hcnt h4
      hfit hok
        (fun hc => by
          have := hC hc
          simp only [VRArrayExpansion.EntrySize] at this ⊢
          omega)
    refine ⟨e2, ?_, e4, e5⟩
    intro i hi1 hi2 o ho
    have ho4 := poolOffsets_mem ho
    simp only [VRArrayExpansion.EntrySize] at hfit e1 e3 ⊢
    apply pool_fields_read
    · omega
    · intro k hk
      have := e1 i hi1 hi2 (o + k) (by omega)
      rwa [← Nat.add_assoc] at this
    · intro k hk
      exact e3 i hi1 hi2 o ho k hk

/-- C21, witness: the four-entry buffer at 0x20000000 holding two entries, with
the tail 0x5A in the second pool of entry 0 and null tails elsewhere. After
the call the header reads count 4 with the pointer and the capacity as before;
entry 2 starts with a zero byte, its second pool is empty with a tail of its
own, and its byte at +0x20 is the 5 of entry 0; in entry 0 the null tail of
the first pool has become the address of its head and the tail 0x5A of the
second pool stands. -/
theorem TryExpandVRArray_capacity4_effect_witness :
    (TryExpandVRArray 0 (initState (arrayMem 0x20000000 4 2 tailFill) gameBase)).mem.read32
      (addr64 gameBase VRArrayExpansion.ArrayCount) = some 4 ∧
    (TryExpandVRArray 0 (initState (arrayMem 0x20000000 4 2 tailFill) gameBase)).mem.read64
      (addr64 gameBase VRArrayExpansion.ArrayPtr) = some 0x20000000 ∧
    (TryExpandVRArray 0 (initState (arrayMem 0x20000000 4 2 tailFill) gameBase)).mem.read32
      (addr64 gameBase (VRArrayExpansion.ArrayPtr + 8)) = some 4 ∧
    (TryExpandVRArray 0 (initState (arrayMem 0x20000000 4 2 tailFill) gameBase)).mem.byte
      (0x20000000 + 2 * VRArrayExpansion.EntrySize + 0) = 0 ∧
    (TryExpandVRArray 0 (initState (arrayMem 0x20000000 4 2 tailFill) gameBase)).mem.read64
      (0x20000000 + 2 * VRArrayExpansion.EntrySize + 0xA8) = some 0 ∧
    (TryExpandVRArray 0 (initState (arrayMem 0x20000000 4 2 tailFill) gameBase)).mem.read64
      (0x20000000 + 2 * VRArrayExpansion.EntrySize + 0xA8 + 8)
      = some (0x20000000 + 2 * VRArrayExpansion.EntrySize + 0xA8) ∧
    (TryExpandVRArray 0 (initState (arrayMem 0x20000000 4 2 tailFill) gameBase)).mem.byte
      (0x20000000 + 2 * VRArrayExpansion.EntrySize + 0x20) = 5 ∧
    (TryExpandVRArray 0 (initState (arrayMem 0x20000000 4 2 tailFill) gameBase)).mem.read64
      (0x20000000 + 0 * VRArrayExpansion.EntrySize + 0x70 + 8)
      = some (0x20000000 + 0 * VRArrayExpansion.EntrySize + 0x70) ∧
    (TryExpandVRArray 0 (initState (arrayMem 0x20000000 4 2 tailFill) gameBase)).mem.read64
      (0x20000000 + 0 * VRArrayExpansion.EntrySize + 0xA8 + 8) = some 0x5A := by
  obtain ⟨_, _, c3, c4, c5, c6⟩ :=
    TryExpandVRArray_capacity4_effect 0
      (initState (arrayMem 0x20000000 4 2 tailFill) gameBase) 0x20000000 4 2
      (by decide) (by decide) (by decide) (by decide) (by decide) (by decide)
      inplace_run_tails
  obtain ⟨p1, p2, p3, p4⟩ := c6 (fun _ => Or.inr (by decide))
  exact ⟨c3 (by decide), c4 (Or.inr (by decide)), c5 (Or.inr (by decide)),
    p1 2 (by decide) (by decide) 0 (by decide),
    (p2 2 (by decide) (by decide) 0xA8 (by decide)).1,
    (p2 2 (by decide) (by decide) 0xA8 (by decide)).2,
    (p3 2 (by decide) (by decide) 0x20 (by decide) (by decide) (by decide)).trans (by decide),
    p4 0 (by decide) 0x70 (by decide) 0 (by decide),
    p4 0 (by decide) 0xA8 (by decide) 0x5A (by decide)⟩

/-- C13: the block `PatchCascadePtrValidation` emits, run from its first byte
with the candidate pointer p in R14 and in R12 the address of the slot p was
loaded from, leaves the block within 14 instructions with RAX and the stack
pointer as they were. When one of the bits 47 to 63 of p is set or the low 32
bits of p are zero, it leaves through the skip target with R14 zero and the
slot holding zero, and its only load, if any, is the pop of the quadword it
pushed below the stack pointer: nothing is read through p. When the bits 47 to
63 are zero and the low 32 bits are not, it leaves through the continue address
with R14 unchanged, every byte of the slot is as it was and its only store is
the push of RAX below the stack pointer. -/
theorem ptrValidationCave_self_heal (cave cont skip fuel : Nat) (c : X86.Cpu)
    (hlo1 : -2147483648 + 128 ≤ (cont : Int) - cave) (hhi1 : (cont : Int) - cave < 2147483648)
    (hlo2 : -2147483648 + 128 ≤ (skip : Int) - cave) (hhi2 : (skip : Int) - cave < 2147483648)
    (hcont : cont < 18446744073709551616) (hskip : skip < 18446744073709551616)
    (hfuel : 14 ≤ fuel)
    (hrax : c.rax < 18446744073709551616) (hr14 : c.r14 < 18446744073709551616)
    (h8 : 8 ≤ c.rsp) (hrsp : c.rsp < 18446744073709551616)
    (hr12 : c.r12 + 8 ≤ 18446744073709551616)
    (hslot : X86.load64 c.mem c.r12 = c.r14)
    (hdis : c.r12 + 8 ≤ c.rsp - 8 ∨ c.rsp ≤ c.r12) :
    ∃ c1 out, X86.run (ptrValidationCave cave cont skip) cave fuel 0 c = some (c1, out) ∧
      c1.rax = c.rax ∧ c1.rsp = c.rsp ∧
      ((c.r14 / 2 ^ 47 ≠ 0 ∨ c.r14 % 2 ^ 32 = 0) →
        out = skip ∧ c1.r14 = 0 ∧ X86.load64 c1.mem c.r12 = 0 ∧
        (c1.loads = c.loads ∨ c1.loads = (c.rsp - 8) :: c.loads)) ∧
      (c.r14 / 2 ^ 47 = 0 → c.r14 % 2 ^ 32 ≠ 0 →
        out = cont ∧ c1.r14 = c.r14 ∧
        (∀ k, k < 8 → c1.mem (c.r12 + k) = c.mem (c.r12 + k)) ∧
        c1.stores = (c.rsp - 8) :: c.stores ∧ c1.loads = (c.rsp - 8) :: c.loads) := by
  obtain ⟨c1, out, hrun, a1, a2, _, hn, hb, hg⟩ :=
    ptrValidationCave_run cave cont skip fuel c hlo1 hhi1 hlo2 hhi2 hcont hskip hfuel hrax hr14
      h8 hrsp hr12
  refine ⟨c1, out, hrun, a1, a2, ?_, ?_⟩
  · intro hbad
    by_cases hp : c.r14 = 0
    · obtain ⟨e1, e2, e3, _, e5⟩ := hn hp
      refine ⟨e1, e2, ?_, Or.inl e5⟩
      rw [e3, hslot, hp]
    · obtain ⟨e1, e2, e3, _, e5, _⟩ := hb hp hbad
      exact ⟨e1, e2, e3, Or.inr e5⟩
  · intro h1 h2
    obtain ⟨e1, e2, e3, e4, e5⟩ := hg h1 h2
    refine ⟨e1, e2, ?_, e3, e4⟩
    intro k hk
    apply e5
    omega

/-- C13, witness: the block at 0x13FFF0000 with the exits of the image at
`gameBase`, run with the slot at 0x1000 holding the pointer in R14, for three
pointers: 0xFFFF800000001234, whose bits from 47 on are set, the null pointer,
and 0x7FF612345678. The first two leave through the skip target with R14 and
the slot zero, the third through the continue address with R14 and the slot
as they were. -/
theorem ptrValidationCave_self_heal_witness :
    (∃ c1, X86.run (ptrValidationCave 0x13FFF0000
          (gameBase + CascadePtrValidation.ContinueRVA)
          (gameBase + CascadePtrValidation.SkipTargetRVA)) 0x13FFF0000 14 0
          (sampleCpu 0xFFFF800000001234 0xFFFF800000001234)
        = some (c1, gameBase + CascadePtrValidation.SkipTargetRVA) ∧
      c1.rax = 0x1122334455667788 ∧ c1.rsp = 0x8000 ∧ c1.r14 = 0 ∧
      X86.load64 c1.mem 0x1000 = 0) ∧
    (∃ c1, X86.run (ptrValidationCave 0x13FFF0000
          (gameBase + CascadePtrValidation.ContinueRVA)
          (gameBase + CascadePtrValidation.SkipTargetRVA)) 0x13FFF0000 14 0
          (sampleCpu 0 0)
        = some (c1, gameBase + CascadePtrValidation.SkipTargetRVA) ∧
      c1.rax = 0x1122334455667788 ∧ c1.rsp = 0x8000 ∧ c1.r14 = 0 ∧
      X86.load64 c1.mem 0x1000 = 0) ∧
    (∃ c1, X86.run (ptrValidationCave 0x13FFF0000
          (gameBase + CascadePtrValidation.ContinueRVA)
          (gameBase + CascadePtrValidation.SkipTargetRVA)) 0x13FFF0000 14 0
          (sampleCpu 0x7FF612345678 0x7FF612345678)
        = some (c1, gameBase + CascadePtrValidation.ContinueRVA) ∧
      c1.rax = 0x1122334455667788 ∧ c1.rsp = 0x8000 ∧ c1.r14 = 0x7FF612345678 ∧
      (∀ k, k < 8 →
        c1.mem (0x1000 + k) = (sampleCpu 0x7FF612345678 0x7FF612345678).mem (0x1000 + k)) ∧
      c1.stores = [0x7FF8]) := by
  refine ⟨?_, ?_, ?_⟩
  · obtain ⟨c1, out, h, h1, h2, hb, _⟩ :=
      ptrValidationCave_self_heal 0x13FFF0000 (gameBase + CascadePtrValidation.ContinueRVA)
        (gameBase + CascadePtrValidation.SkipTargetRVA) 14
        (sampleCpu 0xFFFF800000001234 0xFFFF800000001234)
        (by decide) (by decide) (by decide) (by decide) (by decide) (by decide) (by decide)
        (by decide) (by decide) (by decide) (by decide) (by decide) (by decide) (by decide)
    obtain ⟨e1, e2, e3, _⟩ := hb (Or.inl (by decide))
    rw [e1] at h
    exact ⟨c1, h, h1, h2, e2, e3⟩
  · obtain ⟨c1, out, h, h1, h2, hb, _⟩ :=
      ptrValidationCave_self_heal 0x13FFF0000 (gameBase + CascadePtrValidation.ContinueRVA)
        (gameBase + CascadePtrValidation.SkipTargetRVA) 14
        (sampleCpu 0 0)
        (by decide) (by decide) (by decide) (by decide) (by decide) (by decide) (by decide)
        (by decide) (by decide) (by decide) (by decide) (by decide) (by decide) (by decide)
    obtain ⟨e1, e2, e3, _⟩ := hb (Or.inr (by decide))
    rw [e1] at h
    exact ⟨c1, h, h1, h2, e2, e3⟩
  · obtain ⟨c1, out, h, h1, h2, _, hg⟩ :=
      ptrValidationCave_self_heal 0x13FFF0000 (gameBase + CascadePtrValidation.ContinueRVA)
        (gameBase + CascadePtrValidation.SkipTargetRVA) 14
        (sampleCpu 0x7FF612345678 0x7FF612345678)
        (by decide) (by decide) (by decide) (by decide) (by decide) (by decide) (by decide)
        (by decide) (by decide) (by decide) (by decide) (by decide) (by decide) (by decide)
    obtain ⟨e1, e2, e3, e4, _⟩ := hg (by decide) (by decide)
    rw [e1] at h
    exact ⟨c1, h, h1, h2, e2, e3, e4⟩

end CascadePatch
